import Mathlib

/-!
xf_vfs: mount table, path resolver and descriptor table

A shallow embedding of `src/src/xf_vfs.c` (with the constants of
`xf_vfs_config_internal.h`, `xf_vfs_types.h`, `xf_vfs_sys_fcntl.h` and the
entry type of `xf_vfs_private.h`), followed by theorems about it.

Conventions of the embedding:

* a C string is the `List Char` of its bytes before the terminating NUL;
  reading `s[i]` is `List.getD s i NUL`, which is the terminator at
  `i = strlen s`;
* `size_t` values are `Nat`, `int` values are `Int`; the two narrow integer
  columns of a descriptor row (`int8_t vfs_index`, an `Int`, and
  `uint8_t local_fd`, a `Nat`) are stored through explicit wrap-around
  conversions;
* the arrays `s_vfs` and `s_fd_table` are functions of the index; the code
  only ever reads or writes indices below `XF_VFS_MAX_COUNT` and
  `XF_VFS_FDS_MAX` respectively;
* backends are external: the value a backend function returns is supplied by
  a `Backend` oracle, and every invocation is appended to `State.calls`.
-/

namespace XfVfs

/-! ## Configuration constants -/

/-- `XF_VFS_MAX_COUNT` of `xf_vfs_config_internal.h`. -/
def XF_VFS_MAX_COUNT : Nat := 8

/-- `XF_VFS_FDS_MAX` (= `XF_VFS_CUSTOM_FD_SETSIZE`) of `xf_vfs_config_internal.h`. -/
def XF_VFS_FDS_MAX : Nat := 64

/-- `XF_VFS_PATH_MAX` of `xf_vfs_config_internal.h`. -/
def XF_VFS_PATH_MAX : Nat := 15

/-- Largest `size_t` value (a 32-bit target; no theorem depends on the width
beyond `XF_VFS_PATH_MAX < SIZE_MAX`). -/
def SIZE_MAX : Nat := 2 ^ 32 - 1

/-- `XF_VFS_PATH_PREFIX_LEN_IGNORED`, i.e. `~(size_t)0`. -/
def XF_VFS_PATH_PREFIX_LEN_IGNORED : Nat := SIZE_MAX

def XF_VFS_FLAG_DEFAULT : Int := 1
def XF_VFS_FLAG_CONTEXT_PTR : Int := 2
def XF_VFS_FLAG_READONLY_FS : Int := 4
def XF_VFS_FLAG_STATIC : Int := 8

def XF_VFS_O_RDONLY : Int := 0
def XF_VFS_O_WRONLY : Int := 1
def XF_VFS_O_RDWR : Int := 2
def XF_VFS_O_ACCMODE : Int := 3

/-- The NUL byte that terminates a C string. -/
def NUL : Char := Char.ofNat 0

/-- Status codes of `xf_err_t` used by the module. Their numeric values live in
`xf_utils.h`, which is outside the module; only their distinctness is used. -/
inductive xf_err_t where
  | XF_OK
  | XF_FAIL
  | XF_ERR_INVALID_ARG
  | XF_ERR_NO_MEM
  | XF_ERR_INVALID_STATE
  | XF_ERR_NOT_SUPPORTED
  deriving DecidableEq, Repr

/-- Values of `errno` written by the module; `other` stands for any value a
backend may have left there. -/
inductive Errno where
  | ENOENT
  | EROFS
  | ENOSYS
  | EBADF
  | ENOMEM
  | EXDEV
  | EINVAL
  | EINTR
  | other (code : Int)
  deriving DecidableEq, Repr

/-! ## Data model -/

/-- Conversion to `vfs_index_t` (`int8_t`). -/
def to_vfs_index_t (x : Int) : Int := (x + 128) % 256 - 128

/-- Conversion to `local_fd_t` (`uint8_t`, since `1 << 8 >= XF_VFS_FDS_MAX`). -/
def to_local_fd_t (x : Int) : Nat := (x % 256).toNat

/-- One row of `s_fd_table`. -/
structure fd_table_t where
  permanent : Bool
  has_pending_close : Bool
  has_pending_select : Bool
  vfs_index : Int
  local_fd : Nat
  deriving DecidableEq, Repr

/-- `FD_TABLE_ENTRY_UNUSED`. -/
def FD_TABLE_ENTRY_UNUSED : fd_table_t :=
  { permanent := false, has_pending_close := false, has_pending_select := false,
    vfs_index := to_vfs_index_t (-1), local_fd := to_local_fd_t (-1) }

/-- `xf_vfs_dir_ops_t`: which slots of the directory sub-record are non-NULL. -/
structure xf_vfs_dir_ops_t where
  stat : Bool := false
  link : Bool := false
  unlink : Bool := false
  rename : Bool := false
  opendir : Bool := false
  readdir : Bool := false
  readdir_r : Bool := false
  telldir : Bool := false
  seekdir : Bool := false
  closedir : Bool := false
  mkdir : Bool := false
  rmdir : Bool := false
  access : Bool := false
  truncate : Bool := false
  ftruncate : Bool := false
  utime : Bool := false
  deriving DecidableEq, Repr

/-- `xf_vfs_select_ops_t`: which slots of the select sub-record are non-NULL. -/
structure xf_vfs_select_ops_t where
  start_select : Bool := false
  socket_select : Bool := false
  stop_socket_select : Bool := false
  stop_socket_select_isr : Bool := false
  get_socket_select_semaphore : Bool := false
  end_select : Bool := false
  deriving DecidableEq, Repr

/-- `xf_vfs_fs_ops_t`: which function slots are non-NULL, and the two optional
sub-records (`none` is a NULL pointer). -/
structure xf_vfs_fs_ops_t where
  write : Bool := false
  lseek : Bool := false
  read : Bool := false
  pread : Bool := false
  pwrite : Bool := false
  open_ : Bool := false
  close : Bool := false
  fstat : Bool := false
  fcntl : Bool := false
  ioctl : Bool := false
  fsync : Bool := false
  dir : Option xf_vfs_dir_ops_t := none
  select : Option xf_vfs_select_ops_t := none
  deriving DecidableEq, Repr

/-- `xf_vfs_entry_t` of `xf_vfs_private.h`. `path_prefix` holds the bytes of the
buffer before its NUL padding. -/
structure xf_vfs_entry_t where
  flags : Int
  vfs : xf_vfs_fs_ops_t
  path_prefix : List Char
  path_prefix_len : Nat
  ctx : Nat
  offset : Int
  deriving DecidableEq, Repr

/-- `XF_FD_SETSIZE` of `xf_vfs_sys_select.h` (= `XF_VFS_CUSTOM_FD_SETSIZE`): the
number of bits of an `xf_fd_set`. -/
def XF_FD_SETSIZE : Nat := 64

/-- `xf_fd_set`: the bit array `__fds_bits`, as the number whose bit `n` is the
bit of descriptor `n`. -/
abbrev xf_fd_set := Nat

/-- `XF_FD_SET(n, p)`. -/
def XF_FD_SET (n : Nat) (p : xf_fd_set) : xf_fd_set := p ||| (1 <<< n)

/-- `XF_FD_CLR(n, p)`, i.e. `bits &= ~mask(n)`: bit `n` is removed if present. -/
def XF_FD_CLR (n : Nat) (p : xf_fd_set) : xf_fd_set := p ^^^ (p &&& (1 <<< n))

/-- `XF_FD_ISSET(n, p)`. -/
def XF_FD_ISSET (n : Nat) (p : xf_fd_set) : Bool := p.testBit n

/-- `XF_FD_ZERO(p)`. -/
def XF_FD_ZERO : xf_fd_set := 0

/-- `fds_triple_t`: the per-mount sets of one `xf_vfs_select` call. -/
structure fds_triple_t where
  isset : Bool
  readfds : xf_fd_set
  writefds : xf_fd_set
  errorfds : xf_fd_set
  deriving DecidableEq, Repr

/-- A `const char *` argument handed to a backend: `none` is NULL. -/
abbrev CPath := Option (List Char)

/-- `xf_vfs_dir_t`: the directory handle a backend's `opendir` returns. The
module only knows its leading field `dd_vfs_idx` (`uint16_t`); `addr` stands for
the pointer value, which identifies the backend's object. -/
structure xf_vfs_dir_t where
  dd_vfs_idx : Nat
  addr : Int
  deriving DecidableEq, Repr

/-- One invocation of a backend function: the mount slot whose operation set
was used, whether the context-pointer variant was called, and the arguments
(buffers and out-parameters are opaque addresses). -/
inductive BackendCall where
  | open_ (slot : Nat) (with_ctx : Bool) (path : CPath) (flags mode : Int)
  | close (slot : Nat) (with_ctx : Bool) (fd : Int)
  | link (slot : Nat) (with_ctx : Bool) (n1 n2 : CPath)
  | unlink (slot : Nat) (with_ctx : Bool) (path : CPath)
  | rename (slot : Nat) (with_ctx : Bool) (src dst : CPath)
  | mkdir (slot : Nat) (with_ctx : Bool) (name : CPath) (mode : Int)
  | rmdir (slot : Nat) (with_ctx : Bool) (name : CPath)
  | truncate (slot : Nat) (with_ctx : Bool) (path : CPath) (length : Int)
  | ftruncate (slot : Nat) (with_ctx : Bool) (fd : Int) (length : Int)
  | write (slot : Nat) (with_ctx : Bool) (fd : Int) (data : Nat) (size : Nat)
  | lseek (slot : Nat) (with_ctx : Bool) (fd : Int) (size : Int) (mode : Int)
  | read (slot : Nat) (with_ctx : Bool) (fd : Int) (dst : Nat) (size : Nat)
  | pread (slot : Nat) (with_ctx : Bool) (fd : Int) (dst : Nat) (size : Nat) (offset : Int)
  | pwrite (slot : Nat) (with_ctx : Bool) (fd : Int) (src : Nat) (size : Nat) (offset : Int)
  | fstat (slot : Nat) (with_ctx : Bool) (fd : Int) (st : Nat)
  | fcntl (slot : Nat) (with_ctx : Bool) (fd : Int) (cmd arg : Int)
  | ioctl (slot : Nat) (with_ctx : Bool) (fd : Int) (cmd : Int) (args : Nat)
  | fsync (slot : Nat) (with_ctx : Bool) (fd : Int)
  | stat (slot : Nat) (with_ctx : Bool) (path : CPath) (st : Nat)
  | utime (slot : Nat) (with_ctx : Bool) (path : CPath) (times : Nat)
  | opendir (slot : Nat) (with_ctx : Bool) (name : CPath)
  | readdir (slot : Nat) (with_ctx : Bool) (pdir : xf_vfs_dir_t)
  | readdir_r (slot : Nat) (with_ctx : Bool) (pdir : xf_vfs_dir_t) (entry out_dirent : Nat)
  | telldir (slot : Nat) (with_ctx : Bool) (pdir : xf_vfs_dir_t)
  | seekdir (slot : Nat) (with_ctx : Bool) (pdir : xf_vfs_dir_t) (loc : Int)
  | closedir (slot : Nat) (with_ctx : Bool) (pdir : xf_vfs_dir_t)
  | access (slot : Nat) (with_ctx : Bool) (path : CPath) (amode : Int)
  | get_socket_select_semaphore (slot : Nat)
  | start_select (slot : Nat) (nfds : Int) (readfds writefds errorfds : xf_fd_set)
      (sem_is_local : Bool) (sem : Int)
  | socket_select (slot : Nat) (nfds : Int) (readfds writefds errorfds : Option xf_fd_set)
      (timeout : Option (Int × Int))
  | end_select (slot : Nat) (end_select_args : Int)
  | stop_socket_select (slot : Nat) (sem : Int)
  | stop_socket_select_isr (slot : Nat) (sem : Int) (woken : Nat)
  deriving DecidableEq, Repr

/-- What a backend function hands back: its return value and, when it wrote
`errno`, the value written. For the select operations also: the `xf_err_t` it
returns (`start_select`, `end_select`), the contents it leaves in the three sets
it was given pointers to (`start_select`, `socket_select`), and the value it
stores through `end_select_args` (`start_select`). -/
structure BackendRet where
  ret : Int
  errno : Option Errno := none
  err : xf_err_t := xf_err_t.XF_OK
  readfds : xf_fd_set := 0
  writefds : xf_fd_set := 0
  errorfds : xf_fd_set := 0
  end_select_args : Int := 0
  deriving DecidableEq, Repr

/-- The external backends, as an oracle for the result of each invocation. -/
abbrev Backend := BackendCall → BackendRet

/-- The module's static variables (`s_vfs`, `s_vfs_count`, `s_fd_table`),
the thread's `errno`, and the log of backend invocations (oldest first). -/
structure State where
  s_vfs : Nat → Option xf_vfs_entry_t
  s_vfs_count : Nat
  s_fd_table : Nat → fd_table_t
  errno : Errno
  calls : List BackendCall

/-- The state at program start: `s_vfs = { 0 }`, `s_vfs_count = 0`, every row
of `s_fd_table` is `FD_TABLE_ENTRY_UNUSED`. -/
def State.init : State :=
  { s_vfs := fun _ => none, s_vfs_count := 0,
    s_fd_table := fun _ => FD_TABLE_ENTRY_UNUSED,
    errno := Errno.other 0, calls := [] }

/-! ## Path resolver -/

/-- `xf_memcmp(a, b, n)` on buffers whose first bytes are `a` and `b`; the code
only tests the result against 0, so the model returns 0 or 1. -/
def xf_memcmp (a b : List Char) (n : Nat) : Int :=
  if a.take n = b.take n then 0 else 1

/-- `xf_strncmp(a, b, n)` on C strings, as far as its being 0 is concerned. -/
def xf_strncmp (a b : List Char) (n : Nat) : Int :=
  if a.take n = b.take n then 0 else 1

/-- One iteration of the loop of `xf_vfs_get_vfs_for_path`. The accumulator is
`(best_match, best_match_prefix_len)`, with `best_match` the slot index of the
entry pointed to (`none` for NULL). -/
def get_vfs_for_path_step (s_vfs : Nat → Option xf_vfs_entry_t) (path : List Char)
    (acc : Option Nat × Int) (i : Nat) : Option Nat × Int :=
  match s_vfs i with
  | none => acc
  | some vfs =>
    if vfs.path_prefix_len = XF_VFS_PATH_PREFIX_LEN_IGNORED then acc
    else if path.length < vfs.path_prefix_len ∨
        xf_memcmp path vfs.path_prefix vfs.path_prefix_len ≠ 0 then acc
    else if vfs.path_prefix_len = 0 ∧ acc.1 = none then (some i, acc.2)
    else if path.length > vfs.path_prefix_len ∧
        path.getD vfs.path_prefix_len NUL ≠ '/' then acc
    else if acc.2 < (vfs.path_prefix_len : Int) then (some i, (vfs.path_prefix_len : Int))
    else acc

/-- The loop of `xf_vfs_get_vfs_for_path` over slots `0 .. n-1`. -/
def get_vfs_for_path_loop (s_vfs : Nat → Option xf_vfs_entry_t) (path : List Char)
    (n : Nat) : Option Nat × Int :=
  (List.range n).foldl (get_vfs_for_path_step s_vfs path) (none, -1)

/-- `xf_vfs_get_vfs_for_path`, returning the slot index of the entry it points
to (`none` for NULL). -/
def xf_vfs_get_vfs_for_path_idx (s : State) (path : List Char) : Option Nat :=
  (get_vfs_for_path_loop s.s_vfs path s.s_vfs_count).1

/-- `xf_vfs_get_vfs_for_path`: the entry pointed to. -/
def xf_vfs_get_vfs_for_path (s : State) (path : List Char) : Option xf_vfs_entry_t :=
  match xf_vfs_get_vfs_for_path_idx s path with
  | none => none
  | some i => s.s_vfs i

/-- `xf_vfs_get_vfs_for_path` as a pointer: the slot it points into together
with the entry stored there. -/
def xf_vfs_get_vfs_for_path_ptr (s : State) (path : List Char) :
    Option (Nat × xf_vfs_entry_t) :=
  (xf_vfs_get_vfs_for_path_idx s path).bind fun k => (s.s_vfs k).map fun e => (k, e)

/-- `translate_path`; `none` is NULL. `XF_CHECK(cond, ret, ...)` comes from
`xf_utils.h`, outside the module; it is read as "when `cond` holds, log and
return `ret`", as its use on `vfs == NULL` in `xf_minify_vfs` shows. -/
def translate_path (vfs : xf_vfs_entry_t) (src_path : List Char) : CPath :=
  let cmp_res := xf_strncmp src_path vfs.path_prefix vfs.path_prefix_len
  if cmp_res ≠ 0 then none
  else if src_path.length = vfs.path_prefix_len then some ['/']
  else some (src_path.drop vfs.path_prefix_len)

/-! ## Registration -/

/-- `xf_vfs_t`: the flags and which function pointers are non-NULL. The
directory and select members of the flat C struct are grouped as in
`xf_vfs_dir_ops_t` and `xf_vfs_select_ops_t`. -/
structure xf_vfs_t where
  flags : Int
  write : Bool := false
  lseek : Bool := false
  read : Bool := false
  pread : Bool := false
  pwrite : Bool := false
  open_ : Bool := false
  close : Bool := false
  fstat : Bool := false
  fcntl : Bool := false
  ioctl : Bool := false
  fsync : Bool := false
  dir : xf_vfs_dir_ops_t := {}
  select : xf_vfs_select_ops_t := {}
  deriving DecidableEq, Repr

/-- `xf_malloc` against a script of outcomes: the head of `heap` says whether
the next allocation succeeds; an exhausted script means success. -/
def xf_malloc (heap : List Bool) : Bool × List Bool :=
  (heap.headD true, heap.tail)

/-- `xf_get_free_index`; `none` is the `-1` of a full table. -/
def xf_get_free_index (s : State) : Option Nat :=
  (List.range XF_VFS_MAX_COUNT).find? fun i => (s.s_vfs i).isNone

/-- `xf_minify_vfs`, given the sub-records already allocated in `proxy`. -/
def xf_minify_vfs (vfs : xf_vfs_t) (proxy_dir : Bool) (proxy_select : Bool)
    (heap : List Bool) : Option xf_vfs_fs_ops_t × List Bool :=
  let tmp : xf_vfs_fs_ops_t :=
    { write := vfs.write, lseek := vfs.lseek, read := vfs.read, pread := vfs.pread,
      pwrite := vfs.pwrite, open_ := vfs.open_, close := vfs.close, fstat := vfs.fstat,
      fcntl := vfs.fcntl, ioctl := vfs.ioctl, fsync := vfs.fsync,
      dir := if proxy_dir then some vfs.dir else none,
      select := if proxy_select then some vfs.select else none }
  let (ok, heap) := xf_malloc heap
  if ok then (some tmp, heap) else (none, heap)

/-- `xf_vfs_make_fs_ops` for a non-NULL `vfs` and non-NULL `min`. -/
def xf_vfs_make_fs_ops (vfs : xf_vfs_t) (heap : List Bool) :
    xf_err_t × Option xf_vfs_fs_ops_t × List Bool :=
  let skip_dir : Bool := decide (vfs.dir = {})
  let (dir_ok, heap) := if skip_dir then (true, heap) else xf_malloc heap
  if !dir_ok then (xf_err_t.XF_ERR_NO_MEM, none, heap)
  else
    let skip_select : Bool := decide (vfs.select = {})
    let (select_ok, heap) := if skip_select then (true, heap) else xf_malloc heap
    if !select_ok then (xf_err_t.XF_ERR_NO_MEM, none, heap)
    else
      match xf_minify_vfs vfs (!skip_dir) (!skip_select) heap with
      | (none, heap) => (xf_err_t.XF_ERR_NO_MEM, none, heap)
      | (some main, heap) => (xf_err_t.XF_OK, some main, heap)

/-- Result of a registration call: status, the index written through
`vfs_index` (when the call got that far), and the new state. -/
structure RegisterResult where
  ret : xf_err_t
  vfs_index : Option Nat
  state : State
  heap : List Bool

/-- `xf_vfs_register_fs_common`. -/
def xf_vfs_register_fs_common (s : State) (base_path : List Char) (len : Nat)
    (vfs : Option xf_vfs_fs_ops_t) (flags : Int) (ctx : Nat) (heap : List Bool) :
    RegisterResult :=
  match vfs with
  | none => ⟨xf_err_t.XF_ERR_INVALID_ARG, none, s, heap⟩
  | some ops =>
    if len ≠ XF_VFS_PATH_PREFIX_LEN_IGNORED ∧ (len = 1 ∨ len > XF_VFS_PATH_MAX) then
      ⟨xf_err_t.XF_ERR_INVALID_ARG, none, s, heap⟩
    else if len ≠ XF_VFS_PATH_PREFIX_LEN_IGNORED ∧ len ≥ 2 ∧
        (base_path.getD 0 NUL ≠ '/' ∨ base_path.getD (len - 1) NUL = '/') then
      ⟨xf_err_t.XF_ERR_INVALID_ARG, none, s, heap⟩
    else
      match xf_get_free_index s with
      | none => ⟨xf_err_t.XF_ERR_NO_MEM, none, s, heap⟩
      | some index =>
        if (s.s_vfs index).isSome then ⟨xf_err_t.XF_ERR_INVALID_STATE, none, s, heap⟩
        else
          let s1 : State :=
            if index = s.s_vfs_count then { s with s_vfs_count := s.s_vfs_count + 1 } else s
          let (ok, heap) := xf_malloc heap
          if !ok then ⟨xf_err_t.XF_ERR_NO_MEM, none, s1, heap⟩
          else
            let entry : xf_vfs_entry_t :=
              { flags := flags, vfs := ops,
                path_prefix :=
                  if len ≠ XF_VFS_PATH_PREFIX_LEN_IGNORED then base_path.take XF_VFS_PATH_MAX
                  else [],
                path_prefix_len := len, ctx := ctx, offset := (index : Int) }
            ⟨xf_err_t.XF_OK, some index,
              { s1 with s_vfs := Function.update s1.s_vfs index (some entry) }, heap⟩

/-- `xf_vfs_register_common`. -/
def xf_vfs_register_common (s : State) (base_path : List Char) (len : Nat)
    (vfs : Option xf_vfs_t) (ctx : Nat) (heap : List Bool) : RegisterResult :=
  match vfs with
  | none => ⟨xf_err_t.XF_ERR_INVALID_ARG, none, s, heap⟩
  | some v =>
    if Int.land v.flags XF_VFS_FLAG_STATIC ≠ 0 then
      ⟨xf_err_t.XF_ERR_INVALID_ARG, none, s, heap⟩
    else
      match xf_vfs_make_fs_ops v heap with
      | (xf_err_t.XF_OK, some ops, heap) =>
        xf_vfs_register_fs_common s base_path len (some ops) v.flags ctx heap
      | (ret, _, heap) => ⟨ret, none, s, heap⟩

/-- `xf_vfs_register`. -/
def xf_vfs_register (s : State) (base_path : List Char) (vfs : Option xf_vfs_t)
    (ctx : Nat) (heap : List Bool) : xf_err_t × State :=
  let r := xf_vfs_register_common s base_path base_path.length vfs ctx heap
  (r.ret, r.state)

/-! ## Unregistration -/

/-- The sweep of `xf_vfs_unregister_with_id` over the descriptor table: its
loop runs `j` from 0 while `j < XF_VFS_MAX_COUNT`. -/
def unregister_sweep (tbl : Nat → fd_table_t) (vfs_id : Int) : Nat → fd_table_t :=
  (List.range XF_VFS_MAX_COUNT).foldl
    (fun t j => if (t j).vfs_index = vfs_id then Function.update t j FD_TABLE_ENTRY_UNUSED else t)
    tbl

/-- `xf_vfs_unregister_with_id`. -/
def xf_vfs_unregister_with_id (s : State) (vfs_id : Int) : xf_err_t × State :=
  if vfs_id < 0 ∨ vfs_id ≥ (XF_VFS_MAX_COUNT : Int) ∨ (s.s_vfs vfs_id.toNat).isNone then
    (xf_err_t.XF_ERR_INVALID_ARG, s)
  else
    (xf_err_t.XF_OK,
      { s with
        s_vfs := Function.update s.s_vfs vfs_id.toNat none,
        s_fd_table := unregister_sweep s.s_fd_table vfs_id })

/-- `xf_vfs_unregister`. -/
def xf_vfs_unregister (s : State) (base_path : List Char) : xf_err_t × State :=
  let base_path_len := base_path.length
  let hit := (List.range s.s_vfs_count).find? fun i =>
    match s.s_vfs i with
    | none => false
    | some vfs =>
      decide (base_path_len = vfs.path_prefix_len ∧
        xf_memcmp base_path vfs.path_prefix vfs.path_prefix_len = 0)
  match hit with
  | some i => xf_vfs_unregister_with_id s (i : Int)
  | none => (xf_err_t.XF_ERR_INVALID_STATE, s)

/-! ## Descriptor table and file operations -/

/-- Invoke a backend function: take its result from the oracle, let it write
`errno`, and log the invocation. -/
def backend_call (be : Backend) (s : State) (c : BackendCall) : Int × State :=
  let r := be c
  (r.ret, { s with errno := r.errno.getD s.errno, calls := s.calls ++ [c] })

/-- Whether the calls go to the `_p` variants: `flags & XF_VFS_FLAG_CONTEXT_PTR`. -/
def uses_ctx (vfs : xf_vfs_entry_t) : Bool :=
  decide (Int.land vfs.flags XF_VFS_FLAG_CONTEXT_PTR ≠ 0)

/-- The scan `for (i = 0; i < XF_VFS_FDS_MAX; ++i) if (s_fd_table[i].vfs_index == -1)`:
the first unused row, if any. -/
def first_unused_row (tbl : Nat → fd_table_t) : Option Nat :=
  (List.range XF_VFS_FDS_MAX).find? fun i => decide ((tbl i).vfs_index = -1)

/-- `xf_vfs_get_vfs_for_index`, as a pointer into `s_vfs` (slot and entry). -/
def xf_vfs_get_vfs_for_index (s : State) (index : Int) : Option (Nat × xf_vfs_entry_t) :=
  if index < 0 ∨ index ≥ (s.s_vfs_count : Int) then none
  else (s.s_vfs index.toNat).map fun e => (index.toNat, e)

/-- `fd_valid`. -/
def fd_valid (fd : Int) : Bool :=
  decide (fd < (XF_VFS_FDS_MAX : Int)) && decide (fd ≥ 0)

/-- `get_vfs_for_fd`. -/
def get_vfs_for_fd (s : State) (fd : Int) : Option (Nat × xf_vfs_entry_t) :=
  if fd_valid fd then
    let index := (s.s_fd_table fd.toNat).vfs_index
    xf_vfs_get_vfs_for_index s index
  else none

/-- `get_local_fd`. -/
def get_local_fd (s : State) (vfs : Option (Nat × xf_vfs_entry_t)) (fd : Int) : Int :=
  if vfs.isSome ∧ fd_valid fd = true then ((s.s_fd_table fd.toNat).local_fd : Int) else -1

/-- `xf_vfs_open`. -/
def xf_vfs_open (be : Backend) (s : State) (path : List Char) (flags mode : Int) :
    Int × State :=
  match xf_vfs_get_vfs_for_path_ptr s path with
  | none => (-1, { s with errno := Errno.ENOENT })
  | some (k, vfs) =>
    let acc_mode := Int.land flags XF_VFS_O_ACCMODE
    let ro_filesystem := Int.land vfs.flags XF_VFS_FLAG_READONLY_FS
    if acc_mode ≠ XF_VFS_O_RDONLY ∧ ro_filesystem ≠ 0 then
      (-1, { s with errno := Errno.EROFS })
    else
      let path_within_vfs := translate_path vfs path
      if vfs.vfs.open_ = false then (-1, { s with errno := Errno.ENOSYS })
      else
        let (fd_within_vfs, s1) :=
          backend_call be s (BackendCall.open_ k (uses_ctx vfs) path_within_vfs flags mode)
        if fd_within_vfs ≥ 0 then
          match first_unused_row s1.s_fd_table with
          | some i =>
            ((i : Int),
              { s1 with
                s_fd_table := Function.update s1.s_fd_table i
                  { s1.s_fd_table i with
                    permanent := false,
                    vfs_index := to_vfs_index_t vfs.offset,
                    local_fd := to_local_fd_t fd_within_vfs } })
          | none =>
            if vfs.vfs.close = false then (-1, { s1 with errno := Errno.ENOSYS })
            else
              let (_, s2) := backend_call be s1 (BackendCall.close k (uses_ctx vfs) fd_within_vfs)
              (-1, { s2 with errno := Errno.ENOMEM })
        else (-1, s1)

/-- `xf_vfs_close`. -/
def xf_vfs_close (be : Backend) (s : State) (fd : Int) : Int × State :=
  let vfs := get_vfs_for_fd s fd
  let local_fd := get_local_fd s vfs fd
  match vfs with
  | none => (-1, { s with errno := Errno.EBADF })
  | some (k, e) =>
    if local_fd < 0 then (-1, { s with errno := Errno.EBADF })
    else if e.vfs.close = false then (-1, { s with errno := Errno.ENOSYS })
    else
      let (ret, s1) := backend_call be s (BackendCall.close k (uses_ctx e) local_fd)
      let row := s1.s_fd_table fd.toNat
      let tbl :=
        if !row.permanent then
          if row.has_pending_select then
            Function.update s1.s_fd_table fd.toNat { row with has_pending_close := true }
          else Function.update s1.s_fd_table fd.toNat FD_TABLE_ENTRY_UNUSED
        else s1.s_fd_table
      (ret, { s1 with s_fd_table := tbl })

/-! ## Directory operations that mutate -/

/-- `xf_vfs_link`. -/
def xf_vfs_link (be : Backend) (s : State) (n1 n2 : List Char) : Int × State :=
  match xf_vfs_get_vfs_for_path_ptr s n1 with
  | none => (-1, { s with errno := Errno.ENOENT })
  | some (k, vfs) =>
    match xf_vfs_get_vfs_for_path_ptr s n2 with
    | none => (-1, { s with errno := Errno.EXDEV })
    | some (k2, vfs2) =>
      if k ≠ k2 then (-1, { s with errno := Errno.EXDEV })
      else if Int.land vfs2.flags XF_VFS_FLAG_READONLY_FS ≠ 0 then
        (-1, { s with errno := Errno.EROFS })
      else
        let path1_within_vfs := translate_path vfs n1
        let path2_within_vfs := translate_path vfs n2
        match vfs.vfs.dir with
        | none => (-1, { s with errno := Errno.ENOSYS })
        | some dir =>
          if dir.link = false then (-1, { s with errno := Errno.ENOSYS })
          else backend_call be s
            (BackendCall.link k (uses_ctx vfs) path1_within_vfs path2_within_vfs)

/-- `xf_vfs_unlink`. -/
def xf_vfs_unlink (be : Backend) (s : State) (path : List Char) : Int × State :=
  match xf_vfs_get_vfs_for_path_ptr s path with
  | none => (-1, { s with errno := Errno.ENOENT })
  | some (k, vfs) =>
    if Int.land vfs.flags XF_VFS_FLAG_READONLY_FS ≠ 0 then
      (-1, { s with errno := Errno.EROFS })
    else
      let path_within_vfs := translate_path vfs path
      match vfs.vfs.dir with
      | none => (-1, { s with errno := Errno.ENOSYS })
      | some dir =>
        if dir.unlink = false then (-1, { s with errno := Errno.ENOSYS })
        else backend_call be s (BackendCall.unlink k (uses_ctx vfs) path_within_vfs)

/-- `xf_vfs_rename`. -/
def xf_vfs_rename (be : Backend) (s : State) (src dst : List Char) : Int × State :=
  match xf_vfs_get_vfs_for_path_ptr s src with
  | none => (-1, { s with errno := Errno.ENOENT })
  | some (k, vfs) =>
    if Int.land vfs.flags XF_VFS_FLAG_READONLY_FS ≠ 0 then
      (-1, { s with errno := Errno.EROFS })
    else
      match xf_vfs_get_vfs_for_path_ptr s dst with
      | none => (-1, { s with errno := Errno.EXDEV })
      | some (k2, vfs_dst) =>
        if k ≠ k2 then (-1, { s with errno := Errno.EXDEV })
        else if Int.land vfs_dst.flags XF_VFS_FLAG_READONLY_FS ≠ 0 then
          (-1, { s with errno := Errno.EROFS })
        else
          let src_within_vfs := translate_path vfs src
          let dst_within_vfs := translate_path vfs dst
          match vfs.vfs.dir with
          | none => (-1, { s with errno := Errno.ENOSYS })
          | some dir =>
            if dir.rename = false then (-1, { s with errno := Errno.ENOSYS })
            else backend_call be s
              (BackendCall.rename k (uses_ctx vfs) src_within_vfs dst_within_vfs)

/-- `xf_vfs_mkdir`. -/
def xf_vfs_mkdir (be : Backend) (s : State) (name : List Char) (mode : Int) : Int × State :=
  match xf_vfs_get_vfs_for_path_ptr s name with
  | none => (-1, { s with errno := Errno.ENOENT })
  | some (k, vfs) =>
    if Int.land vfs.flags XF_VFS_FLAG_READONLY_FS ≠ 0 then
      (-1, { s with errno := Errno.EROFS })
    else
      let path_within_vfs := translate_path vfs name
      match vfs.vfs.dir with
      | none => (-1, { s with errno := Errno.ENOSYS })
      | some dir =>
        if dir.mkdir = false then (-1, { s with errno := Errno.ENOSYS })
        else backend_call be s (BackendCall.mkdir k (uses_ctx vfs) path_within_vfs mode)

/-- `xf_vfs_rmdir`. -/
def xf_vfs_rmdir (be : Backend) (s : State) (name : List Char) : Int × State :=
  match xf_vfs_get_vfs_for_path_ptr s name with
  | none => (-1, { s with errno := Errno.ENOENT })
  | some (k, vfs) =>
    if Int.land vfs.flags XF_VFS_FLAG_READONLY_FS ≠ 0 then
      (-1, { s with errno := Errno.EROFS })
    else
      let path_within_vfs := translate_path vfs name
      match vfs.vfs.dir with
      | none => (-1, { s with errno := Errno.ENOSYS })
      | some dir =>
        if dir.rmdir = false then (-1, { s with errno := Errno.ENOSYS })
        else backend_call be s (BackendCall.rmdir k (uses_ctx vfs) path_within_vfs)

/-- `xf_vfs_truncate`. -/
def xf_vfs_truncate (be : Backend) (s : State) (path : List Char) (length : Int) :
    Int × State :=
  match xf_vfs_get_vfs_for_path_ptr s path with
  | none => (-1, { s with errno := Errno.ENOENT })
  | some (k, vfs) =>
    if Int.land vfs.flags XF_VFS_FLAG_READONLY_FS ≠ 0 then
      (-1, { s with errno := Errno.EROFS })
    else
      let path_within_vfs := translate_path vfs path
      match vfs.vfs.dir with
      | none => (-1, { s with errno := Errno.ENOSYS })
      | some dir =>
        if dir.truncate = false then (-1, { s with errno := Errno.ENOSYS })
        else backend_call be s (BackendCall.truncate k (uses_ctx vfs) path_within_vfs length)

/-- `xf_vfs_ftruncate`. -/
def xf_vfs_ftruncate (be : Backend) (s : State) (fd : Int) (length : Int) : Int × State :=
  let vfs := get_vfs_for_fd s fd
  let local_fd := get_local_fd s vfs fd
  match vfs with
  | none => (-1, { s with errno := Errno.EBADF })
  | some (k, e) =>
    if local_fd < 0 then (-1, { s with errno := Errno.EBADF })
    else if Int.land e.flags XF_VFS_FLAG_READONLY_FS ≠ 0 then
      (-1, { s with errno := Errno.EROFS })
    else
      match e.vfs.dir with
      | none => (-1, { s with errno := Errno.ENOSYS })
      | some dir =>
        if dir.ftruncate = false then (-1, { s with errno := Errno.ENOSYS })
        else backend_call be s (BackendCall.ftruncate k (uses_ctx e) local_fd length)

/-! ## The remaining dispatchers -/

/-- The macro `CHECK_AND_CALL` where its result is what the function returns:
a NULL slot gives -1 with `errno = ENOSYS`, otherwise the backend is invoked. -/
def CHECK_AND_CALL (be : Backend) (s : State) (func : Bool) (call : BackendCall) :
    Int × State :=
  if func = false then (-1, { s with errno := Errno.ENOSYS })
  else backend_call be s call

/-- The macro `CHECK_AND_CALL_SUBCOMPONENT` for the `dir` sub-record, where its
result is what the function returns. -/
def CHECK_AND_CALL_SUBCOMPONENT (be : Backend) (s : State) (vfs : xf_vfs_entry_t)
    (func : xf_vfs_dir_ops_t → Bool) (call : BackendCall) : Int × State :=
  match vfs.vfs.dir with
  | none => (-1, { s with errno := Errno.ENOSYS })
  | some dir =>
    if func dir = false then (-1, { s with errno := Errno.ENOSYS })
    else backend_call be s call

/-- The macro `CHECK_AND_CALL_SUBCOMPONENTP` for the `dir` sub-record: the
pointer handed back is an address, 0 for NULL. -/
def CHECK_AND_CALL_SUBCOMPONENTP (be : Backend) (s : State) (vfs : xf_vfs_entry_t)
    (func : xf_vfs_dir_ops_t → Bool) (call : BackendCall) : Int × State :=
  match vfs.vfs.dir with
  | none => (0, { s with errno := Errno.ENOSYS })
  | some dir =>
    if func dir = false then (0, { s with errno := Errno.ENOSYS })
    else backend_call be s call

/-- `xf_vfs_write`. -/
def xf_vfs_write (be : Backend) (s : State) (fd : Int) (data : Nat) (size : Nat) :
    Int × State :=
  let vfs := get_vfs_for_fd s fd
  let local_fd := get_local_fd s vfs fd
  match vfs with
  | none => (-1, { s with errno := Errno.EBADF })
  | some (k, e) =>
    if local_fd < 0 then (-1, { s with errno := Errno.EBADF })
    else CHECK_AND_CALL be s e.vfs.write (BackendCall.write k (uses_ctx e) local_fd data size)

/-- `xf_vfs_lseek`. -/
def xf_vfs_lseek (be : Backend) (s : State) (fd : Int) (size : Int) (mode : Int) :
    Int × State :=
  let vfs := get_vfs_for_fd s fd
  let local_fd := get_local_fd s vfs fd
  match vfs with
  | none => (-1, { s with errno := Errno.EBADF })
  | some (k, e) =>
    if local_fd < 0 then (-1, { s with errno := Errno.EBADF })
    else CHECK_AND_CALL be s e.vfs.lseek (BackendCall.lseek k (uses_ctx e) local_fd size mode)

/-- `xf_vfs_read`. -/
def xf_vfs_read (be : Backend) (s : State) (fd : Int) (dst : Nat) (size : Nat) :
    Int × State :=
  let vfs := get_vfs_for_fd s fd
  let local_fd := get_local_fd s vfs fd
  match vfs with
  | none => (-1, { s with errno := Errno.EBADF })
  | some (k, e) =>
    if local_fd < 0 then (-1, { s with errno := Errno.EBADF })
    else CHECK_AND_CALL be s e.vfs.read (BackendCall.read k (uses_ctx e) local_fd dst size)

/-- `xf_vfs_pread`. -/
def xf_vfs_pread (be : Backend) (s : State) (fd : Int) (dst : Nat) (size : Nat)
    (offset : Int) : Int × State :=
  let vfs := get_vfs_for_fd s fd
  let local_fd := get_local_fd s vfs fd
  match vfs with
  | none => (-1, { s with errno := Errno.EBADF })
  | some (k, e) =>
    if local_fd < 0 then (-1, { s with errno := Errno.EBADF })
    else CHECK_AND_CALL be s e.vfs.pread
      (BackendCall.pread k (uses_ctx e) local_fd dst size offset)

/-- `xf_vfs_pwrite`. -/
def xf_vfs_pwrite (be : Backend) (s : State) (fd : Int) (src : Nat) (size : Nat)
    (offset : Int) : Int × State :=
  let vfs := get_vfs_for_fd s fd
  let local_fd := get_local_fd s vfs fd
  match vfs with
  | none => (-1, { s with errno := Errno.EBADF })
  | some (k, e) =>
    if local_fd < 0 then (-1, { s with errno := Errno.EBADF })
    else CHECK_AND_CALL be s e.vfs.pwrite
      (BackendCall.pwrite k (uses_ctx e) local_fd src size offset)

/-- `xf_vfs_fstat`. -/
def xf_vfs_fstat (be : Backend) (s : State) (fd : Int) (st : Nat) : Int × State :=
  let vfs := get_vfs_for_fd s fd
  let local_fd := get_local_fd s vfs fd
  match vfs with
  | none => (-1, { s with errno := Errno.EBADF })
  | some (k, e) =>
    if local_fd < 0 then (-1, { s with errno := Errno.EBADF })
    else CHECK_AND_CALL be s e.vfs.fstat (BackendCall.fstat k (uses_ctx e) local_fd st)

/-- `xf_vfs_fcntl_r`. -/
def xf_vfs_fcntl_r (be : Backend) (s : State) (fd : Int) (cmd : Int) (arg : Int) :
    Int × State :=
  let vfs := get_vfs_for_fd s fd
  let local_fd := get_local_fd s vfs fd
  match vfs with
  | none => (-1, { s with errno := Errno.EBADF })
  | some (k, e) =>
    if local_fd < 0 then (-1, { s with errno := Errno.EBADF })
    else CHECK_AND_CALL be s e.vfs.fcntl (BackendCall.fcntl k (uses_ctx e) local_fd cmd arg)

/-- `xf_vfs_ioctl`; `args` stands for the variadic argument list. -/
def xf_vfs_ioctl (be : Backend) (s : State) (fd : Int) (cmd : Int) (args : Nat) :
    Int × State :=
  let vfs := get_vfs_for_fd s fd
  let local_fd := get_local_fd s vfs fd
  match vfs with
  | none => (-1, { s with errno := Errno.EBADF })
  | some (k, e) =>
    if local_fd < 0 then (-1, { s with errno := Errno.EBADF })
    else CHECK_AND_CALL be s e.vfs.ioctl (BackendCall.ioctl k (uses_ctx e) local_fd cmd args)

/-- `xf_vfs_fsync`. -/
def xf_vfs_fsync (be : Backend) (s : State) (fd : Int) : Int × State :=
  let vfs := get_vfs_for_fd s fd
  let local_fd := get_local_fd s vfs fd
  match vfs with
  | none => (-1, { s with errno := Errno.EBADF })
  | some (k, e) =>
    if local_fd < 0 then (-1, { s with errno := Errno.EBADF })
    else CHECK_AND_CALL be s e.vfs.fsync (BackendCall.fsync k (uses_ctx e) local_fd)

/-- `xf_vfs_stat`. -/
def xf_vfs_stat (be : Backend) (s : State) (path : List Char) (st : Nat) : Int × State :=
  match xf_vfs_get_vfs_for_path_ptr s path with
  | none => (-1, { s with errno := Errno.ENOENT })
  | some (k, vfs) =>
    let path_within_vfs := translate_path vfs path
    CHECK_AND_CALL_SUBCOMPONENT be s vfs (fun d => d.stat)
      (BackendCall.stat k (uses_ctx vfs) path_within_vfs st)

/-- `xf_vfs_utime`. -/
def xf_vfs_utime (be : Backend) (s : State) (path : List Char) (times : Nat) :
    Int × State :=
  match xf_vfs_get_vfs_for_path_ptr s path with
  | none => (-1, { s with errno := Errno.ENOENT })
  | some (k, vfs) =>
    let path_within_vfs := translate_path vfs path
    CHECK_AND_CALL_SUBCOMPONENT be s vfs (fun d => d.utime)
      (BackendCall.utime k (uses_ctx vfs) path_within_vfs times)

/-- `xf_vfs_access`. -/
def xf_vfs_access (be : Backend) (s : State) (path : List Char) (amode : Int) :
    Int × State :=
  match xf_vfs_get_vfs_for_path_ptr s path with
  | none => (-1, { s with errno := Errno.ENOENT })
  | some (k, vfs) =>
    let path_within_vfs := translate_path vfs path
    CHECK_AND_CALL_SUBCOMPONENT be s vfs (fun d => d.access)
      (BackendCall.access k (uses_ctx vfs) path_within_vfs amode)

/-- Conversion to `uint16_t`, the type of `dd_vfs_idx`. -/
def to_uint16_t (x : Int) : Nat := (x % 65536).toNat

/-- `xf_vfs_opendir`; `none` is the NULL result. On success the handle the
backend returned gets its `dd_vfs_idx` set to the mount's `offset`. -/
def xf_vfs_opendir (be : Backend) (s : State) (name : List Char) :
    Option xf_vfs_dir_t × State :=
  match xf_vfs_get_vfs_for_path_ptr s name with
  | none => (none, { s with errno := Errno.ENOENT })
  | some (k, vfs) =>
    let path_within_vfs := translate_path vfs name
    match vfs.vfs.dir with
    | none => (none, { s with errno := Errno.ENOSYS })
    | some dir =>
      if dir.opendir = false then (none, { s with errno := Errno.ENOSYS })
      else
        let (ret, s1) := backend_call be s (BackendCall.opendir k (uses_ctx vfs) path_within_vfs)
        if ret ≠ 0 then (some { dd_vfs_idx := to_uint16_t vfs.offset, addr := ret }, s1)
        else (none, s1)

/-- `xf_vfs_readdir`; the result is the address of the entry, 0 for NULL. -/
def xf_vfs_readdir (be : Backend) (s : State) (pdir : xf_vfs_dir_t) : Int × State :=
  match xf_vfs_get_vfs_for_index s (pdir.dd_vfs_idx : Int) with
  | none => (0, { s with errno := Errno.EBADF })
  | some (k, vfs) =>
    CHECK_AND_CALL_SUBCOMPONENTP be s vfs (fun d => d.readdir)
      (BackendCall.readdir k (uses_ctx vfs) pdir)

/-- `xf_vfs_readdir_r`. -/
def xf_vfs_readdir_r (be : Backend) (s : State) (pdir : xf_vfs_dir_t)
    (entry out_dirent : Nat) : Int × State :=
  match xf_vfs_get_vfs_for_index s (pdir.dd_vfs_idx : Int) with
  | none => (-1, { s with errno := Errno.EBADF })
  | some (k, vfs) =>
    CHECK_AND_CALL_SUBCOMPONENT be s vfs (fun d => d.readdir_r)
      (BackendCall.readdir_r k (uses_ctx vfs) pdir entry out_dirent)

/-- `xf_vfs_telldir`. -/
def xf_vfs_telldir (be : Backend) (s : State) (pdir : xf_vfs_dir_t) : Int × State :=
  match xf_vfs_get_vfs_for_index s (pdir.dd_vfs_idx : Int) with
  | none => (-1, { s with errno := Errno.EBADF })
  | some (k, vfs) =>
    CHECK_AND_CALL_SUBCOMPONENT be s vfs (fun d => d.telldir)
      (BackendCall.telldir k (uses_ctx vfs) pdir)

/-- `xf_vfs_seekdir` (returns nothing). -/
def xf_vfs_seekdir (be : Backend) (s : State) (pdir : xf_vfs_dir_t) (loc : Int) : State :=
  match xf_vfs_get_vfs_for_index s (pdir.dd_vfs_idx : Int) with
  | none => { s with errno := Errno.EBADF }
  | some (k, vfs) =>
    (CHECK_AND_CALL_SUBCOMPONENT be s vfs (fun d => d.seekdir)
      (BackendCall.seekdir k (uses_ctx vfs) pdir loc)).2

/-- `xf_vfs_rewinddir`. -/
def xf_vfs_rewinddir (be : Backend) (s : State) (pdir : xf_vfs_dir_t) : State :=
  xf_vfs_seekdir be s pdir 0

/-- `xf_vfs_closedir`. -/
def xf_vfs_closedir (be : Backend) (s : State) (pdir : xf_vfs_dir_t) : Int × State :=
  match xf_vfs_get_vfs_for_index s (pdir.dd_vfs_idx : Int) with
  | none => (-1, { s with errno := Errno.EBADF })
  | some (k, vfs) =>
    CHECK_AND_CALL_SUBCOMPONENT be s vfs (fun d => d.closedir)
      (BackendCall.closedir k (uses_ctx vfs) pdir)

/-! ## Registration of descriptors -/

/-- The rollback loop of `xf_vfs_register_fd_range`:
`for (j = min_fd; j < i; ++j) if (s_fd_table[j].vfs_index == index) s_fd_table[j] = UNUSED`. -/
def register_fd_range_rollback (tbl : Nat → fd_table_t) (index : Int) (min_fd i : Nat) :
    Nat → fd_table_t :=
  (List.range' min_fd (i - min_fd)).foldl
    (fun t j => if (t j).vfs_index = index then Function.update t j FD_TABLE_ENTRY_UNUSED else t)
    tbl

/-- The claiming loop of `xf_vfs_register_fd_range`, from row `i` with `n`
iterations left. The result is `(true, table)` when the loop runs to its end and
`(false, table)` when it met a used row and rolled back. -/
def register_fd_range_loop (index : Int) (min_fd : Nat) :
    Nat → Nat → (Nat → fd_table_t) → Bool × (Nat → fd_table_t)
  | 0, _, tbl => (true, tbl)
  | n + 1, i, tbl =>
    if (tbl i).vfs_index ≠ -1 then (false, register_fd_range_rollback tbl index min_fd i)
    else
      register_fd_range_loop index min_fd n (i + 1)
        (Function.update tbl i
          { tbl i with
            permanent := true,
            vfs_index := to_vfs_index_t index,
            local_fd := to_local_fd_t (i : Int) })

/-- `xf_vfs_register_fd_range`. -/
def xf_vfs_register_fd_range (s : State) (vfs : Option xf_vfs_t) (ctx : Nat)
    (min_fd max_fd : Int) (heap : List Bool) : xf_err_t × State :=
  if min_fd < 0 ∨ max_fd < 0 ∨ min_fd > (XF_VFS_FDS_MAX : Int) ∨
      max_fd > (XF_VFS_FDS_MAX : Int) ∨ min_fd > max_fd then
    (xf_err_t.XF_ERR_INVALID_ARG, s)
  else
    let r := xf_vfs_register_common s [] XF_VFS_PATH_PREFIX_LEN_IGNORED vfs ctx heap
    if r.ret = xf_err_t.XF_OK then
      let index : Int := ((r.vfs_index.getD 0 : Nat) : Int)
      match register_fd_range_loop index min_fd.toNat (max_fd.toNat - min_fd.toNat)
          min_fd.toNat r.state.s_fd_table with
      | (true, tbl) => (r.ret, { r.state with s_fd_table := tbl })
      | (false, tbl) =>
        (xf_err_t.XF_ERR_INVALID_ARG,
          { r.state with
            s_vfs := Function.update r.state.s_vfs index.toNat none,
            s_fd_table := tbl })
    else (r.ret, r.state)

/-- Result of `xf_vfs_register_fd_with_local_fd`: status, the value written to
`*fd` (if any), and the new state. -/
structure RegisterFdResult where
  ret : xf_err_t
  fd : Option Int
  state : State

/-- `xf_vfs_register_fd_with_local_fd`; `fd_nonnull` says whether the out
pointer `fd` is non-NULL. -/
def xf_vfs_register_fd_with_local_fd (s : State) (vfs_id : Int) (local_fd : Int)
    (permanent : Bool) (fd_nonnull : Bool) : RegisterFdResult :=
  if vfs_id < 0 ∨ vfs_id ≥ (s.s_vfs_count : Int) ∨ fd_nonnull = false then
    ⟨xf_err_t.XF_ERR_INVALID_ARG, none, s⟩
  else
    match first_unused_row s.s_fd_table with
    | some i =>
      ⟨xf_err_t.XF_OK, some (i : Int),
        { s with
          s_fd_table := Function.update s.s_fd_table i
            { s.s_fd_table i with
              permanent := permanent,
              vfs_index := to_vfs_index_t vfs_id,
              local_fd := if local_fd ≥ 0 then to_local_fd_t local_fd
                          else to_local_fd_t (i : Int) } }⟩
    | none => ⟨xf_err_t.XF_ERR_NO_MEM, none, s⟩

/-- `xf_vfs_register_fd`. -/
def xf_vfs_register_fd (s : State) (vfs_id : Int) (fd_nonnull : Bool) : RegisterFdResult :=
  xf_vfs_register_fd_with_local_fd s vfs_id (-1) true fd_nonnull

/-- `xf_vfs_unregister_fd`. -/
def xf_vfs_unregister_fd (s : State) (vfs_id : Int) (fd : Int) : xf_err_t × State :=
  if vfs_id < 0 ∨ vfs_id ≥ (s.s_vfs_count : Int) ∨ fd < 0 ∨ fd ≥ (XF_VFS_FDS_MAX : Int) then
    (xf_err_t.XF_ERR_INVALID_ARG, s)
  else
    let item := s.s_fd_table fd.toNat
    if item.permanent = true ∧ item.vfs_index = vfs_id ∧ (item.local_fd : Int) = fd then
      (xf_err_t.XF_OK,
        { s with s_fd_table := Function.update s.s_fd_table fd.toNat FD_TABLE_ENTRY_UNUSED })
    else (xf_err_t.XF_ERR_INVALID_ARG, s)

/-! ## The other registration entry points -/

/-- `xf_vfs_duplicate_fs_ops`: a copy of `orig` (sub-records included), or
`none` when one of its up to three allocations fails. -/
def xf_vfs_duplicate_fs_ops (orig : xf_vfs_fs_ops_t) (heap : List Bool) :
    Option xf_vfs_fs_ops_t × List Bool :=
  let (dir_ok, heap) := if orig.dir.isSome then xf_malloc heap else (true, heap)
  if !dir_ok then (none, heap)
  else
    let (select_ok, heap) := if orig.select.isSome then xf_malloc heap else (true, heap)
    if !select_ok then (none, heap)
    else
      let (ok, heap) := xf_malloc heap
      if ok then (some orig, heap) else (none, heap)

/-- `xf_vfs_register_fs`. -/
def xf_vfs_register_fs (s : State) (base_path : List Char) (vfs : Option xf_vfs_fs_ops_t)
    (flags : Int) (ctx : Nat) (heap : List Bool) : RegisterResult :=
  match vfs with
  | none => ⟨xf_err_t.XF_ERR_INVALID_ARG, none, s, heap⟩
  | some ops =>
    if Int.land flags XF_VFS_FLAG_STATIC ≠ 0 then
      xf_vfs_register_fs_common s base_path base_path.length (some ops) flags ctx heap
    else
      match xf_vfs_duplicate_fs_ops ops heap with
      | (none, heap) => ⟨xf_err_t.XF_ERR_NO_MEM, none, s, heap⟩
      | (some copy, heap) =>
        xf_vfs_register_fs_common s base_path base_path.length (some copy) flags ctx heap

/-- Result of the `*_with_id` registrations: status, the value left in
`*vfs_id` (`none` when the pointer is NULL), and the new state. -/
structure RegisterIdResult where
  ret : xf_err_t
  vfs_id : Option Int
  state : State
  heap : List Bool

/-- The value of `*vfs_id` after `*vfs_id = -1` and a registration that wrote
the index it used, if it got that far. -/
def vfs_id_out (r : RegisterResult) : Int :=
  match r.vfs_index with
  | some index => (index : Int)
  | none => -1

/-- `xf_vfs_register_fs_with_id`; `vfs_id_nonnull` says whether the out pointer
is non-NULL. -/
def xf_vfs_register_fs_with_id (s : State) (vfs : Option xf_vfs_fs_ops_t) (flags : Int)
    (ctx : Nat) (vfs_id_nonnull : Bool) (heap : List Bool) : RegisterIdResult :=
  if vfs_id_nonnull = false then ⟨xf_err_t.XF_ERR_INVALID_ARG, none, s, heap⟩
  else
    let r := xf_vfs_register_fs_common s [] XF_VFS_PATH_PREFIX_LEN_IGNORED vfs flags ctx heap
    ⟨r.ret, some (vfs_id_out r), r.state, r.heap⟩

/-- `xf_vfs_register_with_id`. -/
def xf_vfs_register_with_id (s : State) (vfs : Option xf_vfs_t) (ctx : Nat)
    (vfs_id_nonnull : Bool) (heap : List Bool) : RegisterIdResult :=
  if vfs_id_nonnull = false then ⟨xf_err_t.XF_ERR_INVALID_ARG, none, s, heap⟩
  else
    let r := xf_vfs_register_common s [] XF_VFS_PATH_PREFIX_LEN_IGNORED vfs ctx heap
    ⟨r.ret, some (vfs_id_out r), r.state, r.heap⟩

/-- `xf_vfs_unregister_fs_with_id`. -/
def xf_vfs_unregister_fs_with_id (s : State) (vfs_id : Int) : xf_err_t × State :=
  xf_vfs_unregister_with_id s vfs_id

/-- `xf_vfs_unregister_fs`. -/
def xf_vfs_unregister_fs (s : State) (base_path : List Char) : xf_err_t × State :=
  xf_vfs_unregister s base_path

/-! ## Synchronous I/O multiplexing

`xf_vfs_select` is the one function of the module that blocks. It is embedded in
two halves around its wait: `xf_vfs_select_begin` runs from the entry to the
point where the call is about to wait, `xf_vfs_select_end` from the wait to the
return. What other threads do while the call waits is applied to the `State`
between the two halves; `xf_vfs_select` is the call that nothing interleaves
with.

An access outside an object (a NULL function or sub-record pointer that is
dereferenced, an index outside `s_vfs`, outside `vfs_fds_triple`, or a bit index
outside an `xf_fd_set`) has no defined result in C: the embedding stops there
with `none` (`SelectBegin.fault`). Logging is not modelled. -/

/-- Invoke a backend function whose result is more than an `int`: take the
result from the oracle, let it write `errno`, and log the invocation. -/
def backend_call_ret (be : Backend) (s : State) (c : BackendCall) : BackendRet × State :=
  let r := be c
  (r, { s with errno := r.errno.getD s.errno, calls := s.calls ++ [c] })

/-- `xf_vfs_safe_fd_isset`: `fds && XF_FD_ISSET(fd, fds)`. -/
def xf_vfs_safe_fd_isset (fd : Nat) (fds : Option xf_fd_set) : Bool :=
  match fds with
  | none => false
  | some p => XF_FD_ISSET fd p

/-- The local variables of `xf_vfs_select` that live across its loops.
`socket_select` is the function pointer taken from a socket mount, kept as the
slot it was taken from (`none` is NULL); `sel_sem` is the pointer value of
`sel_sem.sem` (0 is NULL); `readfds`, `writefds`, `errorfds` are the contents of
the caller's sets (`none` for a NULL pointer). -/
structure select_locals where
  vfs_count : Nat
  vfs_fds_triple : Nat → fds_triple_t
  socket_select : Option Nat
  sel_sem_is_local : Bool
  sel_sem : Int
  readfds : Option xf_fd_set
  writefds : Option xf_fd_set
  errorfds : Option xf_fd_set
  driver_args : Nat → Int

/-- What `xf_vfs_select` hands back: the return value, the contents of the
caller's three sets, the new state, and the rest of the allocation script. -/
structure SelectResult where
  ret : Int
  readfds : Option xf_fd_set
  writefds : Option xf_fd_set
  errorfds : Option xf_fd_set
  state : State
  heap : List Bool

/-- One of the three blocks
`if (xf_vfs_safe_fd_isset(fd, set)) { item->isset = true; XF_FD_SET(local_fd, &item->set); XF_FD_CLR(fd, set); }`
of the first loop of `xf_vfs_select`: the caller's set, `item->isset` and the
per-mount set afterwards. -/
def select_move_fd (fd local_fd : Nat) (global : Option xf_fd_set) (isset : Bool)
    (item_set : xf_fd_set) : Option (Option xf_fd_set × Bool × xf_fd_set) :=
  if xf_vfs_safe_fd_isset fd global then
    if local_fd ≥ XF_FD_SETSIZE then none
    else some (global.map (XF_FD_CLR fd), true, XF_FD_SET local_fd item_set)
  else some (global, isset, item_set)

/-- One iteration of the first loop of `xf_vfs_select`
(`for (int fd = 0; fd < nfds; ++fd)`). -/
def select_mark_fd (be : Backend) (st : State × select_locals) (fd : Nat) :
    Option (State × select_locals) :=
  let s := st.1
  let l := st.2
  let row := s.s_fd_table fd
  let is_socket_fd := row.permanent
  let vfs_index := row.vfs_index
  let local_fd := row.local_fd
  let s1 : State :=
    if xf_vfs_safe_fd_isset fd l.errorfds then
      { s with
        s_fd_table := Function.update s.s_fd_table fd { row with has_pending_select := true } }
    else s
  if vfs_index < 0 then some (s1, l)
  else if is_socket_fd then
    if l.socket_select.isSome then some (s1, l)
    else if xf_vfs_safe_fd_isset fd l.readfds || xf_vfs_safe_fd_isset fd l.writefds ||
        xf_vfs_safe_fd_isset fd l.errorfds then
      if vfs_index ≥ (XF_VFS_MAX_COUNT : Int) then none
      else
        match s1.s_vfs vfs_index.toNat with
        | none => none
        | some vfs =>
          match vfs.vfs.select with
          | none => none
          | some sel =>
            if sel.get_socket_select_semaphore = false then none
            else
              let r := backend_call_ret be s1
                (BackendCall.get_socket_select_semaphore vfs_index.toNat)
              some (r.2,
                { l with
                  socket_select := if sel.socket_select then some vfs_index.toNat else none,
                  sel_sem := r.1.ret })
    else some (s1, l)
  else if (xf_vfs_safe_fd_isset fd l.readfds || xf_vfs_safe_fd_isset fd l.writefds ||
      xf_vfs_safe_fd_isset fd l.errorfds) && decide (vfs_index.toNat ≥ l.vfs_count) then none
  else
    let item := l.vfs_fds_triple vfs_index.toNat
    match select_move_fd fd local_fd l.readfds item.isset item.readfds with
    | none => none
    | some (readfds, isset_r, item_readfds) =>
      match select_move_fd fd local_fd l.writefds isset_r item.writefds with
      | none => none
      | some (writefds, isset_w, item_writefds) =>
        match select_move_fd fd local_fd l.errorfds isset_w item.errorfds with
        | none => none
        | some (errorfds, isset_e, item_errorfds) =>
          some (s1,
            { l with
              vfs_fds_triple := Function.update l.vfs_fds_triple vfs_index.toNat
                { isset := isset_e, readfds := item_readfds, writefds := item_writefds,
                  errorfds := item_errorfds },
              readfds := readfds, writefds := writefds, errorfds := errorfds })

/-- The first loop of `xf_vfs_select` over `fd = 0 .. nfds-1`. -/
def select_mark_loop (be : Backend) (nfds : Nat) (st : State × select_locals) :
    Option (State × select_locals) :=
  (List.range nfds).foldl (fun acc fd => acc.bind fun st => select_mark_fd be st fd) (some st)

/-- `call_end_selects`. -/
def call_end_selects (be : Backend) (end_index : Nat) (l : select_locals) (s : State) : State :=
  (List.range end_index).foldl
    (fun (s : State) (i : Nat) =>
      match xf_vfs_get_vfs_for_index s (i : Int) with
      | none => s
      | some (_, vfs) =>
        match vfs.vfs.select with
        | none => s
        | some sel =>
          if sel.end_select = true ∧ (l.vfs_fds_triple i).isset = true then
            (backend_call_ret be s (BackendCall.end_select i (l.driver_args i))).2
          else s)
    s

/-- The running values of `set_global_fd_sets`: its `ret` and the contents of
the caller's three sets. -/
structure merge_acc where
  ret : Int
  readfds : Option xf_fd_set
  writefds : Option xf_fd_set
  errorfds : Option xf_fd_set

/-- One of the three blocks
`if (set && xf_vfs_safe_fd_isset(local_fd, &item->set)) { XF_FD_SET(fd, set); ++ret; }`
of `set_global_fd_sets`. -/
def set_global_fd (fd local_fd : Nat) (item_set : xf_fd_set) (global : Option xf_fd_set)
    (ret : Int) : Option (Option xf_fd_set × Int) :=
  match global with
  | none => some (none, ret)
  | some g =>
    if local_fd ≥ XF_FD_SETSIZE then none
    else if XF_FD_ISSET local_fd item_set then some (some (XF_FD_SET fd g), ret + 1)
    else some (some g, ret)

/-- The body of the inner loop of `set_global_fd_sets` for descriptor `fd` and
mount `i`. -/
def set_global_fd_row (tbl : Nat → fd_table_t) (item : fds_triple_t) (i : Nat)
    (acc : Option merge_acc) (fd : Nat) : Option merge_acc :=
  acc.bind fun a =>
    if (tbl fd).vfs_index = (i : Int) then
      let local_fd := (tbl fd).local_fd
      match set_global_fd fd local_fd item.readfds a.readfds a.ret with
      | none => none
      | some (readfds, ret_r) =>
        match set_global_fd fd local_fd item.writefds a.writefds ret_r with
        | none => none
        | some (writefds, ret_w) =>
          match set_global_fd fd local_fd item.errorfds a.errorfds ret_w with
          | none => none
          | some (errorfds, ret_e) =>
            some { ret := ret_e, readfds := readfds, writefds := writefds, errorfds := errorfds }
    else some a

/-- `set_global_fd_sets`. -/
def set_global_fd_sets (tbl : Nat → fd_table_t) (vfs_fds_triple : Nat → fds_triple_t)
    (size : Nat) (readfds writefds errorfds : Option xf_fd_set) : Option merge_acc :=
  (List.range size).foldl
    (fun acc i =>
      let item := vfs_fds_triple i
      if item.isset then
        (List.range XF_VFS_FDS_MAX).foldl (set_global_fd_row tbl item i) acc
      else acc)
    (some { ret := 0, readfds := readfds, writefds := writefds, errorfds := errorfds })

/-- Where the loop over the mounts that calls `start_select` stands: still
running, or stopped at mount `i` whose `start_select` returned `err`. -/
inductive StartLoop where
  | running (s : State) (l : select_locals)
  | failed (i : Nat) (err : xf_err_t) (s : State) (l : select_locals)

/-- One iteration of the loop `for (size_t i = 0; i < vfs_count; ++i)` that
calls `start_select`. -/
def select_start_fd (be : Backend) (nfds : Int) (acc : StartLoop) (i : Nat) : StartLoop :=
  match acc with
  | StartLoop.failed _ _ _ _ => acc
  | StartLoop.running s l =>
    match xf_vfs_get_vfs_for_index s (i : Int) with
    | none => acc
    | some (_, vfs) =>
      match vfs.vfs.select with
      | none => acc
      | some sel =>
        if sel.start_select = false then acc
        else
          let item := l.vfs_fds_triple i
          if item.isset = false then acc
          else
            let r := backend_call_ret be s
              (BackendCall.start_select i nfds item.readfds item.writefds item.errorfds
                l.sel_sem_is_local l.sel_sem)
            let l1 : select_locals :=
              { l with
                vfs_fds_triple := Function.update l.vfs_fds_triple i
                  { item with
                    readfds := r.1.readfds, writefds := r.1.writefds, errorfds := r.1.errorfds },
                driver_args := Function.update l.driver_args i r.1.end_select_args }
            if r.1.err ≠ xf_err_t.XF_OK then StartLoop.failed i r.1.err r.2 l1
            else StartLoop.running r.2 l1

/-- The loop that calls `start_select` on the mounts `0 .. vfs_count-1`. -/
def select_start_loop (be : Backend) (nfds : Int) (vfs_count : Nat) (s : State)
    (l : select_locals) : StartLoop :=
  (List.range vfs_count).foldl (select_start_fd be nfds) (StartLoop.running s l)

/-- How the first half of `xf_vfs_select` ends: with an access outside an
object, with a return before the wait, or about to wait. -/
inductive SelectBegin where
  | fault
  | returned (r : SelectResult)
  | waiting (l : select_locals) (s : State) (heap : List Bool)

/-- `xf_vfs_select` from its entry up to the wait. The allocation script
`heap` decides, in this order, `xf_malloc(vfs_fds_triple)`,
`xf_osal_semaphore_create` (when no socket mount takes part) and
`xf_malloc(driver_args)`. -/
def xf_vfs_select_begin (be : Backend) (s : State) (nfds : Int)
    (readfds writefds errorfds : Option xf_fd_set) (heap : List Bool) : SelectBegin :=
  if nfds > (XF_VFS_FDS_MAX : Int) ∨ nfds < 0 then
    SelectBegin.returned
      ⟨-1, readfds, writefds, errorfds, { s with errno := Errno.EINVAL }, heap⟩
  else
    let vfs_count := s.s_vfs_count
    let a1 := xf_malloc heap
    if a1.1 = false then
      SelectBegin.returned
        ⟨-1, readfds, writefds, errorfds, { s with errno := Errno.ENOMEM }, a1.2⟩
    else
      let l0 : select_locals :=
        { vfs_count := vfs_count,
          vfs_fds_triple := fun _ => ⟨false, XF_FD_ZERO, XF_FD_ZERO, XF_FD_ZERO⟩,
          socket_select := none, sel_sem_is_local := false, sel_sem := 0,
          readfds := readfds, writefds := writefds, errorfds := errorfds,
          driver_args := fun _ => 0 }
      match select_mark_loop be nfds.toNat (s, l0) with
      | none => SelectBegin.fault
      | some (s1, l1) =>
        let a2 := if l1.socket_select.isNone then xf_malloc a1.2 else (true, a1.2)
        if a2.1 = false then
          SelectBegin.returned
            ⟨-1, l1.readfds, l1.writefds, l1.errorfds, { s1 with errno := Errno.ENOMEM }, a2.2⟩
        else
          let l2 : select_locals :=
            if l1.socket_select.isNone then { l1 with sel_sem_is_local := true, sel_sem := 1 }
            else l1
          let a3 := xf_malloc a2.2
          if a3.1 = false then
            SelectBegin.returned
              ⟨-1, l2.readfds, l2.writefds, l2.errorfds, { s1 with errno := Errno.ENOMEM },
                a3.2⟩
          else
            match select_start_loop be nfds vfs_count s1 l2 with
            | StartLoop.running s2 l3 => SelectBegin.waiting l3 s2 a3.2
            | StartLoop.failed i err s2 l3 =>
              let s3 :=
                if err ≠ xf_err_t.XF_ERR_NOT_SUPPORTED then call_end_selects be i l3 s2 else s2
              match set_global_fd_sets s3.s_fd_table l3.vfs_fds_triple vfs_count
                  l3.readfds l3.writefds l3.errorfds with
              | none => SelectBegin.fault
              | some m =>
                SelectBegin.returned
                  ⟨-1, m.readfds, m.writefds, m.errorfds, { s3 with errno := Errno.EINTR },
                    a3.2⟩

/-- The final sweep of `xf_vfs_select`:
`for (fd = 0; fd < nfds; ++fd) if (s_fd_table[fd].has_pending_close) s_fd_table[fd] = UNUSED`. -/
def select_sweep (tbl : Nat → fd_table_t) (nfds : Nat) : Nat → fd_table_t :=
  (List.range nfds).foldl
    (fun t fd => if (t fd).has_pending_close then Function.update t fd FD_TABLE_ENTRY_UNUSED else t)
    tbl

/-- `xf_vfs_select` from the wait to its return, in the state `s` the wait ends
in. `signalled i` is what mount `i`, through the pointers it got in
`start_select`, has made of its per-mount sets by then. With a socket mount the
wait is its `socket_select`; otherwise the caller's sets are cleared and the
call waits on its semaphore (the tick count computed from `timeout` has no
effect on the state). -/
def xf_vfs_select_end (be : Backend) (signalled : Nat → fds_triple_t → fds_triple_t)
    (s : State) (l : select_locals) (nfds : Int) (timeout : Option (Int × Int))
    (heap : List Bool) : Option SelectResult :=
  let w : Int × State × Option xf_fd_set × Option xf_fd_set × Option xf_fd_set :=
    match l.socket_select with
    | some k =>
      let r := backend_call_ret be s
        (BackendCall.socket_select k nfds l.readfds l.writefds l.errorfds timeout)
      (r.1.ret, r.2, l.readfds.map (fun _ => r.1.readfds),
        l.writefds.map (fun _ => r.1.writefds), l.errorfds.map (fun _ => r.1.errorfds))
    | none =>
      (0, s, l.readfds.map (fun _ => XF_FD_ZERO), l.writefds.map (fun _ => XF_FD_ZERO),
        l.errorfds.map (fun _ => XF_FD_ZERO))
  let triples : Nat → fds_triple_t := fun i =>
    if (l.vfs_fds_triple i).isset then
      { signalled i (l.vfs_fds_triple i) with isset := true }
    else l.vfs_fds_triple i
  let l1 : select_locals := { l with vfs_fds_triple := triples }
  let s1 := call_end_selects be l.vfs_count l1 w.2.1
  let merged : Option merge_acc :=
    if w.1 ≥ 0 then
      (set_global_fd_sets s1.s_fd_table triples l.vfs_count w.2.2.1 w.2.2.2.1 w.2.2.2.2).map
        fun m => { m with ret := w.1 + m.ret }
    else some ⟨w.1, w.2.2.1, w.2.2.2.1, w.2.2.2.2⟩
  match merged with
  | none => none
  | some m =>
    some ⟨m.ret, m.readfds, m.writefds, m.errorfds,
      { s1 with s_fd_table := select_sweep s1.s_fd_table nfds.toNat }, heap⟩

/-- `xf_vfs_select`, run without interference from other threads. -/
def xf_vfs_select (be : Backend) (signalled : Nat → fds_triple_t → fds_triple_t) (s : State)
    (nfds : Int) (readfds writefds errorfds : Option xf_fd_set)
    (timeout : Option (Int × Int)) (heap : List Bool) : Option SelectResult :=
  match xf_vfs_select_begin be s nfds readfds writefds errorfds heap with
  | SelectBegin.fault => none
  | SelectBegin.returned r => some r
  | SelectBegin.waiting l s1 heap1 => xf_vfs_select_end be signalled s1 l nfds timeout heap1

/-! ## Read-only flag and wake-ups -/

/-- `xf_vfs_set_readonly_flag`. -/
def xf_vfs_set_readonly_flag (s : State) (base_path : List Char) : xf_err_t × State :=
  let base_path_len := base_path.length
  let hit := (List.range s.s_vfs_count).find? fun i =>
    match s.s_vfs i with
    | none => false
    | some vfs =>
      decide (base_path_len = vfs.path_prefix_len ∧
        xf_memcmp base_path vfs.path_prefix vfs.path_prefix_len = 0)
  match hit with
  | some i =>
    (xf_err_t.XF_OK,
      { s with
        s_vfs := Function.update s.s_vfs i
          ((s.s_vfs i).map fun vfs =>
            { vfs with flags := Int.lor vfs.flags XF_VFS_FLAG_READONLY_FS }) })
  | none => (xf_err_t.XF_ERR_INVALID_STATE, s)

/-- The scan of `xf_vfs_select_triggered` and `xf_vfs_select_triggered_isr`
over `s_vfs[0 .. s_vfs_count-1]` for the first mount whose select sub-record
has the slot `pick` filled. -/
def first_stop_socket_select (s : State) (pick : xf_vfs_select_ops_t → Bool) : Option Nat :=
  (List.range s.s_vfs_count).find? fun i =>
    match s.s_vfs i with
    | none => false
    | some vfs =>
      match vfs.vfs.select with
      | none => false
      | some sel => pick sel

/-- `xf_vfs_select_triggered`; `sem_is_local` and `sem` are the two fields of
its `xf_vfs_select_sem_t` argument. Releasing a local semaphore writes none of
the module's variables. -/
def xf_vfs_select_triggered (be : Backend) (s : State) (sem_is_local : Bool) (sem : Int) :
    State :=
  if sem_is_local then s
  else
    match first_stop_socket_select s (fun sel => sel.stop_socket_select) with
    | some i => (backend_call_ret be s (BackendCall.stop_socket_select i sem)).2
    | none => s

/-- `xf_vfs_select_triggered_isr`; `woken` is the address handed on to the
backend. -/
def xf_vfs_select_triggered_isr (be : Backend) (s : State) (sem_is_local : Bool) (sem : Int)
    (woken : Nat) : State :=
  if sem_is_local then s
  else
    match first_stop_socket_select s (fun sel => sel.stop_socket_select_isr) with
    | some i => (backend_call_ret be s (BackendCall.stop_socket_select_isr i sem woken)).2
    | none => s

/-! ## Specification vocabulary, invariants and test tables -/

/-- The entry takes part in path matching and its first `path_prefix_len` bytes
are the first bytes of `path` (rules 1 and 2 of the resolver). -/
def Matches (e : xf_vfs_entry_t) (path : List Char) : Prop :=
  e.path_prefix_len ≠ XF_VFS_PATH_PREFIX_LEN_IGNORED ∧
  e.path_prefix_len ≤ path.length ∧
  path.take e.path_prefix_len = e.path_prefix.take e.path_prefix_len

/-- A non-fallback entry that matches `path` up to a path separator (rule 3). -/
def Qualifies (e : xf_vfs_entry_t) (path : List Char) : Prop :=
  Matches e path ∧ 0 < e.path_prefix_len ∧
  (path.length = e.path_prefix_len ∨ path.getD e.path_prefix_len NUL = '/')

/-- A fallback mount: registered with the empty prefix. -/
def IsFallback (e : xf_vfs_entry_t) : Prop := e.path_prefix_len = 0

/-- Every entry that takes part in path matching records the length of the
prefix it stores (what `xf_vfs_register` establishes). -/
def PrefixLenOk (s : State) : Prop :=
  ∀ i e, s.s_vfs i = some e → e.path_prefix_len ≠ XF_VFS_PATH_PREFIX_LEN_IGNORED →
    e.path_prefix_len = e.path_prefix.length

/-- Loop invariant of `xf_vfs_get_vfs_for_path` after scanning slots `0 .. n-1`. -/
structure ResolveInv (s_vfs : Nat → Option xf_vfs_entry_t) (path : List Char) (n : Nat)
    (acc : Option Nat × Int) : Prop where
  lower : -1 ≤ acc.2
  none_case : acc.1 = none → acc.2 = -1 ∧
    ∀ i, i < n → ∀ e, s_vfs i = some e → ¬ IsFallback e ∧ ¬ Qualifies e path
  some_case : ∀ k, acc.1 = some k → k < n ∧ ∃ e, s_vfs k = some e ∧
    ((IsFallback e ∧ acc.2 ≤ 0) ∨ (Qualifies e path ∧ acc.2 = (e.path_prefix_len : Int)))
  upper : ∀ i, i < n → ∀ e, s_vfs i = some e → Qualifies e path →
    (e.path_prefix_len : Int) ≤ acc.2

/-- The claim's condition on a prefix string `P` for a path: `P` is non-empty,
`path` starts with `P`, and `path` ends there or continues with `/`. -/
def PrefixQualifies (P path : List Char) : Prop :=
  P ≠ [] ∧ P <+: path ∧ (path.length = P.length ∨ path.getD P.length NUL = '/')

/-- Entry `e` is registered below `s_vfs_count`, takes part in path matching,
and its prefix qualifies for `path`. -/
def RegisteredQualifying (s : State) (path : List Char) (e : xf_vfs_entry_t) : Prop :=
  ∃ i, i < s.s_vfs_count ∧ s.s_vfs i = some e ∧
    e.path_prefix_len ≠ XF_VFS_PATH_PREFIX_LEN_IGNORED ∧ PrefixQualifies e.path_prefix path

/-- Entry `e` is a registered fallback mount. -/
def RegisteredFallback (s : State) (e : xf_vfs_entry_t) : Prop :=
  ∃ i, i < s.s_vfs_count ∧ s.s_vfs i = some e ∧ e.path_prefix_len = 0

/-- A mount table given by the list of its first slots (the others are NULL). -/
def slots (l : List (Option xf_vfs_entry_t)) : Nat → Option xf_vfs_entry_t :=
  fun i => l.getD i none

/-- An entry as `xf_vfs_register` stores it for prefix `p` in slot `i`, with the
operation set of the test suite's `DUMMY_VFS()`. -/
def dummyMount (p : String) (i : Nat) : xf_vfs_entry_t :=
  { flags := XF_VFS_FLAG_CONTEXT_PTR,
    vfs := { open_ := true, close := true, dir := some { opendir := true, closedir := true } },
    path_prefix := p.toList, path_prefix_len := p.length, ctx := i, offset := i }

/-- The mount table of `TEST_CASE_vfs_parses_paths_correctly` after its four
registrations: `/foo`, `/foo1`, `/foo/bar` and the fallback. -/
def testMounts : State :=
  { State.init with
    s_vfs := slots [some (dummyMount "/foo" 0), some (dummyMount "/foo1" 1),
      some (dummyMount "/foo/bar" 2), some (dummyMount "" 3)],
    s_vfs_count := 4 }

/-- Decidable form of `PrefixLenOk` for a table given by a list. -/
def prefixLenOkList (l : List (Option xf_vfs_entry_t)) : Bool :=
  l.all fun o =>
    match o with
    | none => true
    | some e => decide (e.path_prefix_len ≠ XF_VFS_PATH_PREFIX_LEN_IGNORED →
        e.path_prefix_len = e.path_prefix.length)

/-- Every scripted allocation succeeds. -/
def AllocOk (heap : List Bool) : Prop := ∀ b, b ∈ heap → b = true

/-- The prefix rule of `xf_vfs_register` as the claim words it: empty, or 2 to
`XF_VFS_PATH_MAX` bytes, starting with `/` and not ending with `/`. -/
def ValidPrefix (p : List Char) : Prop :=
  p.length = 0 ∨
  (2 ≤ p.length ∧ p.length ≤ XF_VFS_PATH_MAX ∧ p.getD 0 NUL = '/' ∧
    p.getD (p.length - 1) NUL ≠ '/')

instance (p : List Char) : Decidable (ValidPrefix p) := by
  unfold ValidPrefix
  exact inferInstance

/-- The operation set of the test suite's `DUMMY_VFS()`. -/
def DUMMY_VFS : xf_vfs_t :=
  { flags := XF_VFS_FLAG_CONTEXT_PTR, open_ := true, close := true,
    dir := { opendir := true, closedir := true } }

/-- The prefixes that take part in path matching, in slot order: those of the
occupied, non-IGNORED slots below `s_vfs_count`. -/
def registered_prefixes (s : State) : List (List Char) :=
  (List.range s.s_vfs_count).filterMap fun i =>
    match s.s_vfs i with
    | none => none
    | some e =>
      if e.path_prefix_len = XF_VFS_PATH_PREFIX_LEN_IGNORED then none else some e.path_prefix

/-- The prefix of the mount the resolver picks (`none` when it returns NULL). -/
def resolved_prefix (s : State) (path : List Char) : Option (List Char) :=
  (xf_vfs_get_vfs_for_path s path).map fun m => m.path_prefix

/-- `/foo/bar` registered first, then `/foo` (the first half of
`TEST_CASE_vfs_unregisters_correct_nested_mount_point`). -/
def nestedMountsA : State :=
  { State.init with
    s_vfs := slots [some (dummyMount "/foo/bar" 0), some (dummyMount "/foo" 1)],
    s_vfs_count := 2 }

/-- `/foo` registered first, then `/foo/bar` (the second half of that test). -/
def nestedMountsB : State :=
  { State.init with
    s_vfs := slots [some (dummyMount "/foo" 0), some (dummyMount "/foo/bar" 1)],
    s_vfs_count := 2 }

/-! ## Scenarios used by the theorems -/

/-- A backend every call of which succeeds with result 1, like `dummy_open` on
its `match_path`. -/
def okBackend : Backend := fun _ => { ret := 1 }

/-- `n` successive calls `xf_vfs_open(path, XF_VFS_O_RDONLY, 0)`. -/
def open_n (be : Backend) (path : List Char) : Nat → State → State
  | 0, s => s
  | n + 1, s => open_n be path n (xf_vfs_open be s path XF_VFS_O_RDONLY 0).2

/-- The state after `xf_vfs_register("/foo", DUMMY_VFS)` at program start. -/
def fooRegistered : State :=
  (xf_vfs_register State.init "/foo".toList (some DUMMY_VFS) 0 []).2

/-- The state after nine further successful `xf_vfs_open("/foo/file")` calls:
descriptors 0 to 8 belong to mount 0. -/
def fooNineOpen : State :=
  open_n okBackend "/foo/file".toList 9 fooRegistered

/-- A backend whose `open` hands out the descriptor 256. -/
def bigFdBackend : Backend := fun _ => { ret := 256 }

/-- Every registered entry's `offset` is the index of the slot that holds it,
and occupied slots lie below `XF_VFS_MAX_COUNT` (what registration
establishes). -/
def OffsetOk (s : State) : Prop :=
  ∀ i e, s.s_vfs i = some e → e.offset = (i : Int) ∧ i < XF_VFS_MAX_COUNT

/-- A mount at `/foo` that provides every mutating operation and has
`XF_VFS_FLAG_READONLY_FS` set, as `xf_vfs_set_readonly_flag("/foo")` leaves it. -/
def readonlyFoo : xf_vfs_entry_t :=
  { dummyMount "/foo" 0 with
    flags := Int.lor XF_VFS_FLAG_CONTEXT_PTR XF_VFS_FLAG_READONLY_FS,
    vfs := { open_ := true, close := true,
             dir := some { link := true, unlink := true, rename := true, mkdir := true,
                           rmdir := true, truncate := true, ftruncate := true } } }

/-- A table with the read-only mount at `/foo` and a writable one at `/foo1`,
and descriptor 0 open on the read-only mount. -/
def readonlyMounts : State :=
  { State.init with
    s_vfs := slots [some readonlyFoo, some (dummyMount "/foo1" 1)],
    s_vfs_count := 2,
    s_fd_table := Function.update (fun _ => FD_TABLE_ENTRY_UNUSED) 0
      { FD_TABLE_ENTRY_UNUSED with vfs_index := 0, local_fd := 1 } }

/-- The state `fooRegistered` with descriptor 0 open and armed in a pending
`select` (its `has_pending_select` is set). -/
def fooSelecting : State :=
  { fooRegistered with
    s_fd_table := Function.update (fun _ => FD_TABLE_ENTRY_UNUSED) 0
      { FD_TABLE_ENTRY_UNUSED with vfs_index := 0, local_fd := 1, has_pending_select := true } }

/-- Occupied slots lie below `s_vfs_count`, which does not exceed
`XF_VFS_MAX_COUNT` (what registration establishes). -/
def CountOk (s : State) : Prop :=
  s.s_vfs_count ≤ XF_VFS_MAX_COUNT ∧ ∀ i e, s.s_vfs i = some e → i < s.s_vfs_count

/-- The entry is registered under exactly the prefix `p`: same length, same
bytes. -/
def HoldsPrefix (e : xf_vfs_entry_t) (p : List Char) : Prop :=
  e.path_prefix_len = p.length ∧ e.path_prefix = p

/-- The test `xf_vfs_unregister` and `xf_vfs_set_readonly_flag` apply to an
entry. -/
def UnregMatch (e : xf_vfs_entry_t) (base_path : List Char) : Prop :=
  base_path.length = e.path_prefix_len ∧
    xf_memcmp base_path e.path_prefix e.path_prefix_len = 0

/-- Three fallback mounts, registered one after the other at program start. -/
def tripleFallback : State :=
  (xf_vfs_register
    (xf_vfs_register
      (xf_vfs_register State.init [] (some DUMMY_VFS) 0 []).2
      [] (some DUMMY_VFS) 1 []).2
    [] (some DUMMY_VFS) 2 []).2

/-- The state after `xf_vfs_register("/foo")` twice at program start (the
second call with context 1): slots 0 and 1 both hold the prefix `/foo`. -/
def fooTwice : State :=
  (xf_vfs_register fooRegistered "/foo".toList (some DUMMY_VFS) 1 []).2

/-- The entry `xf_vfs_register_fs_common` stores in slot `index`. -/
def registered_entry (base_path : List Char) (len : Nat) (ops : xf_vfs_fs_ops_t)
    (flags : Int) (ctx : Nat) (index : Nat) : xf_vfs_entry_t :=
  { flags := flags, vfs := ops,
    path_prefix :=
      if len ≠ XF_VFS_PATH_PREFIX_LEN_IGNORED then base_path.take XF_VFS_PATH_MAX else [],
    path_prefix_len := len, ctx := ctx, offset := (index : Int) }

/-- The state `xf_vfs_register_fs_common` leaves when it stores `e` in slot
`index`: `s_vfs_count` grows when `index` is the old count. -/
def state_with_mount (s : State) (index : Nat) (e : xf_vfs_entry_t) : State :=
  { s with
    s_vfs_count := if index = s.s_vfs_count then s.s_vfs_count + 1 else s.s_vfs_count,
    s_vfs := Function.update s.s_vfs index (some e) }

/-- The row `xf_vfs_register_fd_range` writes when it claims descriptor `j` for
the mount with index `index`. -/
def claimed_row (old : fd_table_t) (index : Int) (j : Nat) : fd_table_t :=
  { old with
    permanent := true,
    vfs_index := to_vfs_index_t index,
    local_fd := to_local_fd_t (j : Int) }

/-- The state `fooRegistered` in which descriptor 1 is open on mount 0 and
descriptor 0 is unused but still carries `has_pending_select`: what
`xf_vfs_open` twice, `xf_vfs_close(0)` and then an `xf_vfs_select` call with
fd 0 in `errorfds` leave behind (`xf_vfs_select` sets the flag on every fd of
`errorfds` below `nfds`, used or not, and its final sweep only resets rows that
have `has_pending_close`). -/
def staleSelectFlag : State :=
  { fooRegistered with
    s_fd_table :=
      Function.update
        (Function.update (fun _ => FD_TABLE_ENTRY_UNUSED) 0
          { FD_TABLE_ENTRY_UNUSED with has_pending_select := true })
        1 { FD_TABLE_ENTRY_UNUSED with vfs_index := 0, local_fd := 1 } }

/-- The state `fooRegistered` with descriptor 2 open on mount 0, the lower
descriptors having been closed again. -/
def fooThirdOpen : State :=
  { fooRegistered with
    s_fd_table := Function.update (fun _ => FD_TABLE_ENTRY_UNUSED) 2
      { FD_TABLE_ENTRY_UNUSED with vfs_index := 0, local_fd := 1 } }

/-- An operation set that provides `open` and nothing else. -/
def OPEN_ONLY_VFS : xf_vfs_t :=
  { flags := XF_VFS_FLAG_DEFAULT, open_ := true }

/-- The state after `xf_vfs_register("/foo", OPEN_ONLY_VFS)` at program start
and `XF_VFS_FDS_MAX` successful `xf_vfs_open("/foo/file")` calls: every
descriptor row is in use. -/
def openOnlyFull : State :=
  open_n okBackend "/foo/file".toList XF_VFS_FDS_MAX
    (xf_vfs_register State.init "/foo".toList (some OPEN_ONLY_VFS) 0 []).2

/-- The state after `xf_vfs_register("/foo", DUMMY_VFS)` at program start and
`XF_VFS_FDS_MAX` successful `xf_vfs_open("/foo/file")` calls. -/
def fooFull : State :=
  open_n okBackend "/foo/file".toList XF_VFS_FDS_MAX fooRegistered

/-- The ways a descriptor fails to name an open file: `fd` out of range, its
row unused, or the mount slot its row names empty. -/
def BadFd (s : State) (fd : Int) : Prop :=
  fd < 0 ∨ fd ≥ (XF_VFS_FDS_MAX : Int) ∨ (s.s_fd_table fd.toNat).vfs_index = -1 ∨
    s.s_vfs (s.s_fd_table fd.toNat).vfs_index.toNat = none

/-- The slot `func` of the directory sub-record is absent for the mount: the
sub-record pointer is NULL or the slot in it is NULL. -/
def DirSlotNull (e : xf_vfs_entry_t) (func : xf_vfs_dir_ops_t → Bool) : Prop :=
  ∀ d, e.vfs.dir = some d → func d = false

/-- The state after `xf_vfs_register("/foo", vfs)` at program start, where
`vfs` is the test suite's operation set with `XF_VFS_FLAG_READONLY_FS` added to
its flags: a read-only mount that has a directory sub-record without `unlink`. -/
def readonlyDummy : State :=
  (xf_vfs_register State.init "/foo".toList
    (some { DUMMY_VFS with
      flags := Int.lor XF_VFS_FLAG_CONTEXT_PTR XF_VFS_FLAG_READONLY_FS }) 0 []).2

/-- The state after `xf_vfs_register_fd_range(vfs, ctx, 0, 4)` at program start
(slot 0 holds a mount with the IGNORED prefix length) followed by
`xf_vfs_register("", vfs, ctx)` (slot 1 holds a fallback mount). -/
def rangeThenFallback : State :=
  (xf_vfs_register (xf_vfs_register_fd_range State.init (some DUMMY_VFS) 0 0 4 []).2
    [] (some DUMMY_VFS) 1 []).2

/-- Every qualifying entry scanned before the current best match has a
shorter prefix than the recorded best length. -/
def EarliestBest (s_vfs : Nat → Option xf_vfs_entry_t) (path : List Char)
    (acc : Option Nat × Int) : Prop :=
  ∀ k, acc.1 = some k → ∀ i, i < k → ∀ e, s_vfs i = some e → Qualifies e path →
    (e.path_prefix_len : Int) < acc.2

/-- Every slot of the mount table is occupied. -/
def TableFull (s : State) : Prop :=
  ∀ i, i < XF_VFS_MAX_COUNT → s.s_vfs i ≠ none

/-- Eight mounts `/m0` .. `/m7` registered at program start. -/
def eightMounts : State :=
  ["/m0", "/m1", "/m2", "/m3", "/m4", "/m5", "/m6", "/m7"].foldl
    (fun s p => (xf_vfs_register s p.toList (some DUMMY_VFS) 0 []).2) State.init

/-- The directory handle `xf_vfs_opendir("/foo/dir")` returns in
`fooRegistered` when the backend hands out the address 1. -/
def fooDirHandle : xf_vfs_dir_t := { dd_vfs_idx := 0, addr := 1 }

/-- The state after `xf_vfs_opendir("/foo/dir")` in `fooRegistered`, then
`xf_vfs_unregister("/foo")`: slot 0 is empty and the handle is still held. -/
def fooDirUnregistered : State :=
  (xf_vfs_unregister (xf_vfs_opendir okBackend fooRegistered "/foo/dir".toList).2
    "/foo".toList).2

/-- The state `fooDirUnregistered` after a further `xf_vfs_register("/bar")`,
which takes slot 0 again. -/
def fooDirSlotReused : State :=
  (xf_vfs_register fooDirUnregistered "/bar".toList (some DUMMY_VFS) 5 []).2

/-- The two tables and `s_vfs_count` of `t` are those of `s`. -/
def SameTables (s t : State) : Prop :=
  t.s_vfs = s.s_vfs ∧ t.s_vfs_count = s.s_vfs_count ∧ t.s_fd_table = s.s_fd_table

/-- What the first loop of `xf_vfs_select` does to the descriptor table: the
rows below `nfds` whose descriptor is in `errorfds` get `has_pending_select`. -/
def marked_table (tbl : Nat → fd_table_t) (nfds : Nat) (errorfds : Option xf_fd_set) :
    Nat → fd_table_t :=
  fun j =>
    if j < nfds ∧ xf_vfs_safe_fd_isset j errorfds = true then
      { tbl j with has_pending_select := true }
    else tbl j

/-- The state the loop that calls `start_select` has reached. -/
def StartLoop.state : StartLoop → State
  | StartLoop.running s _ => s
  | StartLoop.failed _ _ s _ => s

/-- The locals with which the first half of `xf_vfs_select` left off to wait. -/
def SelectBegin.locals : SelectBegin → Option select_locals
  | SelectBegin.waiting l _ _ => some l
  | _ => none

/-- Slots `f1 < f2` hold the first two fallback mounts the resolver scans. -/
def FirstTwoFallbacks (s : State) (f1 f2 : Nat) : Prop :=
  f1 < f2 ∧ f2 < s.s_vfs_count ∧
  (∃ e, s.s_vfs f1 = some e ∧ IsFallback e) ∧ (∃ e, s.s_vfs f2 = some e ∧ IsFallback e) ∧
  ∀ i e, i < f2 → i ≠ f1 → s.s_vfs i = some e → ¬ IsFallback e

/-- No mount below `s_vfs_count` qualifies for `path` with a non-empty prefix. -/
def NoneQualifies (s : State) (path : List Char) : Prop :=
  ∀ i e, i < s.s_vfs_count → s.s_vfs i = some e → ¬ Qualifies e path

/-- The path is empty or begins with the path separator. -/
def EmptyOrRooted (path : List Char) : Prop := path = [] ∨ path.head? = some '/'

instance (path : List Char) : Decidable (EmptyOrRooted path) := by
  unfold EmptyOrRooted
  infer_instance

/-- Two fallback mounts, registered one after the other at program start. -/
def twoFallbacks : State :=
  (xf_vfs_register (xf_vfs_register State.init [] (some DUMMY_VFS) 0 []).2
    [] (some DUMMY_VFS) 1 []).2

/-- The state `fooRegistered` with descriptor 0 open. -/
def fooOneOpen : State := open_n okBackend "/foo/file".toList 1 fooRegistered

/-- The state after `xf_vfs_select(1, NULL, NULL, &errorfds, NULL)` with
descriptor 0 in `errorfds` has returned in `fooOneOpen`, and the `xf_vfs_close(0)`
that follows. -/
def closedAfterSelect : Option State :=
  (xf_vfs_select okBackend (fun _ t => t) fooOneOpen 1 none none
    (some (XF_FD_SET 0 XF_FD_ZERO)) none []).map fun r => (xf_vfs_close okBackend r.state 0).2

/-- The state after `xf_vfs_select(1, NULL, NULL, &errorfds, NULL)` with
descriptor 0 in `errorfds` has returned in `fooRegistered`, where no descriptor
is open. -/
def selectedUnused : Option State :=
  (xf_vfs_select okBackend (fun _ t => t) fooRegistered 1 none none
    (some (XF_FD_SET 0 XF_FD_ZERO)) none []).map fun r => r.state

/-- The mount slot of a `start_select` invocation. -/
def BackendCall.start_select_slot : BackendCall → Option Nat
  | BackendCall.start_select k _ _ _ _ _ _ => some k
  | _ => none

/-- The mount slot of an `end_select` invocation. -/
def BackendCall.end_select_slot : BackendCall → Option Nat
  | BackendCall.end_select k _ => some k
  | _ => none

/-- Whether the invocation is a `socket_select`. -/
def BackendCall.is_socket_select : BackendCall → Bool
  | BackendCall.socket_select _ _ _ _ _ _ => true
  | _ => false

/-- The invocation is none of `start_select`, `end_select`, `socket_select`. -/
def BackendCall.Quiet (c : BackendCall) : Prop :=
  c.start_select_slot = none ∧ c.end_select_slot = none ∧ c.is_socket_select = false

/-- Mount `i` is one the loop of `xf_vfs_select` calls `start_select` on: the
slot is occupied and below `s_vfs_count`, the mount provides `start_select`, and
descriptors of it are armed (`isset`). -/
def Starts (s : State) (isset : Nat → Bool) (i : Nat) : Prop :=
  ∃ vfs sel, i < s.s_vfs_count ∧ s.s_vfs i = some vfs ∧ vfs.vfs.select = some sel ∧
    sel.start_select = true ∧ isset i = true

/-- Mount `i` is one `call_end_selects` calls `end_select` on: the slot is
occupied and below `s_vfs_count`, the mount provides `end_select`, and
descriptors of it are armed (`isset`). -/
def Ends (s : State) (isset : Nat → Bool) (i : Nat) : Prop :=
  ∃ vfs sel, i < s.s_vfs_count ∧ s.s_vfs i = some vfs ∧ vfs.vfs.select = some sel ∧
    sel.end_select = true ∧ isset i = true

/-- The invocations in `cs` are `start_select` calls that returned `XF_OK`, on
mounts below `n` that `Starts`, and every mount below `n` that `Starts` has
one. -/
def StartedOk (be : Backend) (s : State) (isset : Nat → Bool) (n : Nat)
    (cs : List BackendCall) : Prop :=
  (∀ c, c ∈ cs → ∃ k, c.start_select_slot = some k ∧ k < n ∧
    (be c).err = xf_err_t.XF_OK ∧ Starts s isset k) ∧
  ∀ k, k < n → Starts s isset k → ∃ c, c ∈ cs ∧ c.start_select_slot = some k

/-- What the loop that calls `start_select` has done after the mounts below
`n`, having started in state `s` with the flags `isset`. -/
def StartLog (be : Backend) (s : State) (isset : Nat → Bool) (n : Nat) : StartLoop → Prop
  | StartLoop.running s' l' =>
    SameTables s s' ∧ (∀ i, (l'.vfs_fds_triple i).isset = isset i) ∧
    ∃ cs, s'.calls = s.calls ++ cs ∧ StartedOk be s isset n cs
  | StartLoop.failed i err s' l' =>
    i < n ∧ err ≠ xf_err_t.XF_OK ∧ SameTables s s' ∧
    (∀ i, (l'.vfs_fds_triple i).isset = isset i) ∧
    ∃ cs c, s'.calls = s.calls ++ (cs ++ [c]) ∧ StartedOk be s isset i cs ∧
      c.start_select_slot = some i ∧ (be c).err = err

/-- The invocations in `es` are `end_select` calls on mounts below `n` that
`Ends`. -/
def EndedOnly (s : State) (isset : Nat → Bool) (n : Nat) (es : List BackendCall) : Prop :=
  ∀ d, d ∈ es → ∃ k, d.end_select_slot = some k ∧ k < n ∧ Ends s isset k

/-- An operation set with `open`, `close`, `start_select` and `end_select`. -/
def SELECT_VFS : xf_vfs_t :=
  { flags := XF_VFS_FLAG_DEFAULT, open_ := true, close := true,
    select := { start_select := true, end_select := true } }

/-- The state after `xf_vfs_register("/sel", SELECT_VFS)` at program start and
one `xf_vfs_open("/sel/f")`: descriptor 0 belongs to mount 0, with local
descriptor 1. -/
def selOneOpen : State :=
  open_n okBackend "/sel/f".toList 1
    (xf_vfs_register State.init "/sel".toList (some SELECT_VFS) 0 []).2

/-- A backend whose `start_select` returns `XF_ERR_NOT_SUPPORTED`. -/
def notSupportedBackend : Backend := fun c =>
  match c with
  | BackendCall.start_select _ _ _ _ _ _ _ =>
    { ret := 0, err := xf_err_t.XF_ERR_NOT_SUPPORTED }
  | _ => { ret := 1 }

/-- The call `xf_vfs_select(1, &readfds, NULL, NULL, NULL)` with descriptor 0 in
`readfds`, in `selOneOpen`, against `notSupportedBackend`. -/
def notSupportedSelect : Option SelectResult :=
  xf_vfs_select notSupportedBackend (fun _ t => t) selOneOpen 1
    (some (XF_FD_SET 0 XF_FD_ZERO)) none none none []

/-- What `notSupportedSelect` returns. -/
def notSupportedResult : SelectResult :=
  notSupportedSelect.getD ⟨0, none, none, none, State.init, []⟩

/-- An operation set with `open`, `close` and `end_select`, without
`start_select`. -/
def END_ONLY_VFS : xf_vfs_t :=
  { flags := XF_VFS_FLAG_DEFAULT, open_ := true, close := true,
    select := { end_select := true } }

/-- The state after `xf_vfs_register("/end", END_ONLY_VFS)` at program start and
one `xf_vfs_open("/end/f")`. -/
def endOnlyOpen : State :=
  open_n okBackend "/end/f".toList 1
    (xf_vfs_register State.init "/end".toList (some END_ONLY_VFS) 0 []).2

/-- The call `xf_vfs_select(1, &readfds, NULL, NULL, NULL)` with descriptor 0 in
`readfds`, in `selOneOpen`, against `okBackend`. -/
def okSelect : Option SelectResult :=
  xf_vfs_select okBackend (fun _ t => t) selOneOpen 1
    (some (XF_FD_SET 0 XF_FD_ZERO)) none none none []

/-- What `okSelect` returns. -/
def okSelectResult : SelectResult := okSelect.getD ⟨0, none, none, none, State.init, []⟩
/-- The shape of the invocations `new` one `xf_vfs_select` call has added to the
log when it returns `res`, having started in state `s`. First come the
`get_socket_select_semaphore` calls of the marking loop (`ms`), then the
`start_select` calls that returned `XF_OK` (`cs`). After that the call either
went through the wait (at most a `socket_select`, then the `end_select` calls of
`call_end_selects(vfs_count)`); or it stopped at a `start_select` on mount `i`
that returned an error and returned -1 with `EINTR`, after `end_select` calls
on mounts below `i` unless the error was `XF_ERR_NOT_SUPPORTED`; or it returned
before the loop that calls `start_select`. -/
def SelectLogShape (be : Backend) (s : State) (res : SelectResult)
    (new : List BackendCall) : Prop :=
  ∃ (isset : Nat → Bool) (ms cs tail : List BackendCall),
    new = ms ++ cs ++ tail ∧ (∀ c, c ∈ ms → c.Quiet) ∧
    ((∃ mid es, tail = mid ++ es ∧ StartedOk be s isset s.s_vfs_count cs ∧
        (∀ c, c ∈ mid → c.is_socket_select = true) ∧
        EndedOnly s isset s.s_vfs_count es) ∨
      (∃ i c es, tail = c :: es ∧ StartedOk be s isset i cs ∧ i < s.s_vfs_count ∧
        c.start_select_slot = some i ∧ (be c).err ≠ xf_err_t.XF_OK ∧
        res.ret = -1 ∧ res.state.errno = Errno.EINTR ∧
        ((be c).err = xf_err_t.XF_ERR_NOT_SUPPORTED → es = []) ∧
        ((be c).err ≠ xf_err_t.XF_ERR_NOT_SUPPORTED →
          EndedOnly s isset i es ∧
          ∀ k, k < i → Ends s isset k → ∃ d, d ∈ es ∧ d.end_select_slot = some k)) ∨
      (cs = [] ∧ tail = [] ∧ res.ret = -1))

/-- Every descriptor in `a` is in `b`. -/
def FdSubset (a b : xf_fd_set) : Prop :=
  ∀ n, XF_FD_ISSET n a = true → XF_FD_ISSET n b = true

/-- Whether the merge step of `xf_vfs_select` inserts descriptor `fd` into the
caller's set that corresponds to `pick`: the mount that row `fd` names is one of
the first `size`, had descriptors armed (`isset`), and its per-mount set contains
the row's `local_fd`. -/
def inserted (tbl : Nat → fd_table_t) (triples : Nat → fds_triple_t) (size : Nat)
    (pick : fds_triple_t → xf_fd_set) (fd : Nat) : Bool :=
  decide (0 ≤ (tbl fd).vfs_index) && decide ((tbl fd).vfs_index.toNat < size) &&
    (triples (tbl fd).vfs_index.toNat).isset &&
    XF_FD_ISSET (tbl fd).local_fd (pick (triples (tbl fd).vfs_index.toNat))

/-- The number of insertions the merge step makes into the caller's set
`global` (none when the pointer is NULL). -/
def insertions (tbl : Nat → fd_table_t) (triples : Nat → fds_triple_t) (size : Nat)
    (pick : fds_triple_t → xf_fd_set) (global : Option xf_fd_set) : Nat :=
  if global.isSome then (List.range XF_VFS_FDS_MAX).countP (inserted tbl triples size pick)
  else 0

/-- Whether row `fd` belongs to mount `i` and the per-mount set `item_set`
contains its `local_fd`. -/
def row_hit (tbl : Nat → fd_table_t) (i : Nat) (item_set : xf_fd_set) (fd : Nat) : Bool :=
  decide ((tbl fd).vfs_index = (i : Int)) && XF_FD_ISSET (tbl fd).local_fd item_set

/-- What one descriptor adds to the count for one of the caller's sets. -/
def hit_count (global : Option xf_fd_set) (hit : Bool) : Int :=
  if global.isSome = true ∧ hit = true then 1 else 0


/-- A count that only applies when the caller's set pointer is non-NULL. -/
def set_count (global : Option xf_fd_set) (n : Nat) : Int :=
  if global.isSome then (n : Int) else 0

/-- The per-mount sets the merge step of `xf_vfs_select` reads: those of the
locals `l`, as the mounts that had descriptors armed have left them
(`signalled`). -/
def signalled_triples (signalled : Nat → fds_triple_t → fds_triple_t) (l : select_locals) :
    Nat → fds_triple_t :=
  fun i =>
    if (l.vfs_fds_triple i).isset then
      { signalled i (l.vfs_fds_triple i) with isset := true }
    else l.vfs_fds_triple i

/-- The seed of the return value and the contents of the caller's three sets
when the wait of `xf_vfs_select` ends: the result of the socket mount's
`socket_select` and the sets as it left them, or 0 and cleared sets when no
socket mount takes part. -/
def waited (be : Backend) (l : select_locals) (nfds : Int) (timeout : Option (Int × Int)) :
    Int × Option xf_fd_set × Option xf_fd_set × Option xf_fd_set :=
  match l.socket_select with
  | some k =>
    let r := be (BackendCall.socket_select k nfds l.readfds l.writefds l.errorfds timeout)
    (r.ret, l.readfds.map (fun _ => r.readfds), l.writefds.map (fun _ => r.writefds),
      l.errorfds.map (fun _ => r.errorfds))
  | none =>
    (0, l.readfds.map (fun _ => XF_FD_ZERO), l.writefds.map (fun _ => XF_FD_ZERO),
      l.errorfds.map (fun _ => XF_FD_ZERO))

/-- Row `fd` is in use and not permanent: a descriptor the first loop of
`xf_vfs_select` moves from the caller's sets into the per-mount sets. -/
def movable (tbl : Nat → fd_table_t) (fd : Nat) : Bool :=
  decide (0 ≤ (tbl fd).vfs_index) && !(tbl fd).permanent

/-- Whether some movable descriptor below `n` that belongs to mount `i` and has
`local_fd == b` is in the caller's set `global`. -/
def moved_bit (tbl : Nat → fd_table_t) (global : Option xf_fd_set) (n i b : Nat) : Bool :=
  (List.range n).any fun fd =>
    movable tbl fd && decide ((tbl fd).vfs_index = (i : Int)) &&
      decide ((tbl fd).local_fd = b) && xf_vfs_safe_fd_isset fd global

/-- Whether some movable descriptor below `n` that belongs to mount `i` is in
one of the caller's three sets. -/
def armed_mount (tbl : Nat → fd_table_t) (readfds writefds errorfds : Option xf_fd_set)
    (n i : Nat) : Bool :=
  (List.range n).any fun fd =>
    movable tbl fd && decide ((tbl fd).vfs_index = (i : Int)) &&
      (xf_vfs_safe_fd_isset fd readfds || xf_vfs_safe_fd_isset fd writefds ||
        xf_vfs_safe_fd_isset fd errorfds)

/-- The sets of the locals `l` of `xf_vfs_select` after the first loop has
handled the descriptors below `n` of the table `tbl`, the caller having passed
`readfds`, `writefds`, `errorfds`: the movable descriptors below `n` have left
the caller's sets, and the per-mount sets hold their `local_fd`s. -/
structure MarkedSets (tbl : Nat → fd_table_t) (readfds writefds errorfds : Option xf_fd_set)
    (n : Nat) (l : select_locals) : Prop where
  global_r : ∀ x, xf_vfs_safe_fd_isset x l.readfds =
    (xf_vfs_safe_fd_isset x readfds && !(decide (x < n) && movable tbl x))
  global_w : ∀ x, xf_vfs_safe_fd_isset x l.writefds =
    (xf_vfs_safe_fd_isset x writefds && !(decide (x < n) && movable tbl x))
  global_e : ∀ x, xf_vfs_safe_fd_isset x l.errorfds =
    (xf_vfs_safe_fd_isset x errorfds && !(decide (x < n) && movable tbl x))
  some_r : l.readfds.isSome = readfds.isSome
  some_w : l.writefds.isSome = writefds.isSome
  some_e : l.errorfds.isSome = errorfds.isSome
  item_r : ∀ i b, XF_FD_ISSET b (l.vfs_fds_triple i).readfds = moved_bit tbl readfds n i b
  item_w : ∀ i b, XF_FD_ISSET b (l.vfs_fds_triple i).writefds = moved_bit tbl writefds n i b
  item_e : ∀ i b, XF_FD_ISSET b (l.vfs_fds_triple i).errorfds = moved_bit tbl errorfds n i b
  isset : ∀ i, (l.vfs_fds_triple i).isset = armed_mount tbl readfds writefds errorfds n i

/-- The locals the loop that calls `start_select` has reached. -/
def StartLoop.locals : StartLoop → select_locals
  | StartLoop.running _ l => l
  | StartLoop.failed _ _ _ l => l

/-- The locals `xf_vfs_select` starts its first loop with. -/
def initial_locals (s : State) (readfds writefds errorfds : Option xf_fd_set) :
    select_locals :=
  { vfs_count := s.s_vfs_count,
    vfs_fds_triple := fun _ => ⟨false, XF_FD_ZERO, XF_FD_ZERO, XF_FD_ZERO⟩,
    socket_select := none, sel_sem_is_local := false, sel_sem := 0,
    readfds := readfds, writefds := writefds, errorfds := errorfds,
    driver_args := fun _ => 0 }

/-- The backends only clear bits in the per-mount sets they are given: in
`start_select`, and while the call waits (`signalled`). -/
def OnlyClears (be : Backend) (signalled : Nat → fds_triple_t → fds_triple_t) : Prop :=
  (∀ i nfds r w e sl sem,
    FdSubset (be (BackendCall.start_select i nfds r w e sl sem)).readfds r ∧
    FdSubset (be (BackendCall.start_select i nfds r w e sl sem)).writefds w ∧
    FdSubset (be (BackendCall.start_select i nfds r w e sl sem)).errorfds e) ∧
  ∀ i t, FdSubset (signalled i t).readfds t.readfds ∧
    FdSubset (signalled i t).writefds t.writefds ∧
    FdSubset (signalled i t).errorfds t.errorfds

/-- No two used rows of one mount hold the same `local_fd`. -/
def DistinctLocalFds (tbl : Nat → fd_table_t) : Prop :=
  ∀ x y, x < XF_VFS_FDS_MAX → y < XF_VFS_FDS_MAX → 0 ≤ (tbl x).vfs_index →
    (tbl x).vfs_index = (tbl y).vfs_index → (tbl x).local_fd = (tbl y).local_fd → x = y

/-- Row 0 is the only row in use. -/
def OnlyRowZero (tbl : Nat → fd_table_t) : Prop :=
  ∀ x, x < XF_VFS_FDS_MAX → 0 ≤ (tbl x).vfs_index → x = 0

/-- No permanent (socket) descriptor below `nfds` is in one of the caller's
sets. -/
def NoSocketFd (tbl : Nat → fd_table_t) (nfds : Nat)
    (readfds writefds errorfds : Option xf_fd_set) : Prop :=
  ∀ fd, fd < nfds → 0 ≤ (tbl fd).vfs_index → (tbl fd).permanent = true →
    (xf_vfs_safe_fd_isset fd readfds || xf_vfs_safe_fd_isset fd writefds ||
      xf_vfs_safe_fd_isset fd errorfds) = false

/-- A backend whose `start_select` returns `XF_OK` and leaves the sets it is
given as they are. -/
def echoBackend : Backend := fun c =>
  match c with
  | BackendCall.start_select _ _ r w e _ _ =>
    { ret := 0, readfds := r, writefds := w, errorfds := e }
  | _ => { ret := 1 }

/-- The state `fooRegistered` with descriptors 0, 1 and 2 open; the backend
has handed out the same local descriptor 1 for each. -/
def fooThreeOpen : State := open_n okBackend "/foo/file".toList 3 fooRegistered

/-- The call `xf_vfs_select(1, &readfds, NULL, NULL, NULL)` with descriptor 0 in
`readfds`, in `selOneOpen`, against `echoBackend`. -/
def echoSelect : Option SelectResult :=
  xf_vfs_select echoBackend (fun _ t => t) selOneOpen 1
    (some (XF_FD_SET 0 XF_FD_ZERO)) none none none []

/-- What `echoSelect` returns. -/
def echoSelectResult : SelectResult := echoSelect.getD ⟨0, none, none, none, State.init, []⟩

/-- One call of a function of the module, with its arguments. Calls that reach
a backend carry the oracle `be` that answers them, so that backends may answer
differently from one call to the next. `xf_vfs_select` is split at its wait:
`select_begin` runs it up to the wait (or to its early return), `select_end`
runs it from the wait to its return with whatever locals `l` it holds, so that
other calls may come in between. `xf_vfs_dump_fds` and
`xf_vfs_dump_registered_paths` only print and have no call here. -/
inductive ApiCall where
  | register (base_path : List Char) (vfs : Option xf_vfs_t) (ctx : Nat) (heap : List Bool)
  | register_common (base_path : List Char) (len : Nat) (vfs : Option xf_vfs_t) (ctx : Nat)
      (heap : List Bool)
  | register_fs (base_path : List Char) (vfs : Option xf_vfs_fs_ops_t) (flags : Int) (ctx : Nat)
      (heap : List Bool)
  | register_fd_range (vfs : Option xf_vfs_t) (ctx : Nat) (min_fd max_fd : Int)
      (heap : List Bool)
  | register_fs_with_id (vfs : Option xf_vfs_fs_ops_t) (flags : Int) (ctx : Nat)
      (vfs_id_nonnull : Bool) (heap : List Bool)
  | register_with_id (vfs : Option xf_vfs_t) (ctx : Nat) (vfs_id_nonnull : Bool)
      (heap : List Bool)
  | unregister_with_id (vfs_id : Int)
  | unregister_fs_with_id (vfs_id : Int)
  | unregister (base_path : List Char)
  | unregister_fs (base_path : List Char)
  | register_fd (vfs_id : Int) (fd_nonnull : Bool)
  | register_fd_with_local_fd (vfs_id local_fd : Int) (permanent fd_nonnull : Bool)
  | unregister_fd (vfs_id fd : Int)
  | set_readonly_flag (base_path : List Char)
  | open_ (be : Backend) (path : List Char) (flags mode : Int)
  | close (be : Backend) (fd : Int)
  | write (be : Backend) (fd : Int) (data size : Nat)
  | lseek (be : Backend) (fd : Int) (size mode : Int)
  | read (be : Backend) (fd : Int) (dst size : Nat)
  | pread (be : Backend) (fd : Int) (dst size : Nat) (offset : Int)
  | pwrite (be : Backend) (fd : Int) (src size : Nat) (offset : Int)
  | fstat (be : Backend) (fd : Int) (st : Nat)
  | fcntl_r (be : Backend) (fd : Int) (cmd arg : Int)
  | ioctl (be : Backend) (fd : Int) (cmd : Int) (args : Nat)
  | fsync (be : Backend) (fd : Int)
  | stat (be : Backend) (path : List Char) (st : Nat)
  | utime (be : Backend) (path : List Char) (times : Nat)
  | link (be : Backend) (n1 n2 : List Char)
  | unlink (be : Backend) (path : List Char)
  | rename (be : Backend) (src dst : List Char)
  | opendir (be : Backend) (name : List Char)
  | readdir (be : Backend) (pdir : xf_vfs_dir_t)
  | readdir_r (be : Backend) (pdir : xf_vfs_dir_t) (entry out_dirent : Nat)
  | telldir (be : Backend) (pdir : xf_vfs_dir_t)
  | seekdir (be : Backend) (pdir : xf_vfs_dir_t) (loc : Int)
  | rewinddir (be : Backend) (pdir : xf_vfs_dir_t)
  | closedir (be : Backend) (pdir : xf_vfs_dir_t)
  | mkdir (be : Backend) (name : List Char) (mode : Int)
  | rmdir (be : Backend) (name : List Char)
  | access (be : Backend) (path : List Char) (amode : Int)
  | truncate (be : Backend) (path : List Char) (length : Int)
  | ftruncate (be : Backend) (fd : Int) (length : Int)
  | select_begin (be : Backend) (nfds : Int) (readfds writefds errorfds : Option xf_fd_set)
      (heap : List Bool)
  | select_end (be : Backend) (signalled : Nat → fds_triple_t → fds_triple_t)
      (l : select_locals) (nfds : Int) (timeout : Option (Int × Int)) (heap : List Bool)
  | select_triggered (be : Backend) (sem_is_local : Bool) (sem : Int)
  | select_triggered_isr (be : Backend) (sem_is_local : Bool) (sem : Int) (woken : Nat)

/-- The state a call leaves behind; `none` when the call accesses memory
outside an object (only `xf_vfs_select` can). -/
def ApiCall.step (c : ApiCall) (s : State) : Option State :=
  match c with
  | register base_path vfs ctx heap => some (xf_vfs_register s base_path vfs ctx heap).2
  | register_common base_path len vfs ctx heap =>
    some (xf_vfs_register_common s base_path len vfs ctx heap).state
  | register_fs base_path vfs flags ctx heap =>
    some (xf_vfs_register_fs s base_path vfs flags ctx heap).state
  | register_fd_range vfs ctx min_fd max_fd heap =>
    some (xf_vfs_register_fd_range s vfs ctx min_fd max_fd heap).2
  | register_fs_with_id vfs flags ctx vfs_id_nonnull heap =>
    some (xf_vfs_register_fs_with_id s vfs flags ctx vfs_id_nonnull heap).state
  | register_with_id vfs ctx vfs_id_nonnull heap =>
    some (xf_vfs_register_with_id s vfs ctx vfs_id_nonnull heap).state
  | unregister_with_id vfs_id => some (xf_vfs_unregister_with_id s vfs_id).2
  | unregister_fs_with_id vfs_id => some (xf_vfs_unregister_fs_with_id s vfs_id).2
  | unregister base_path => some (xf_vfs_unregister s base_path).2
  | unregister_fs base_path => some (xf_vfs_unregister_fs s base_path).2
  | register_fd vfs_id fd_nonnull => some (xf_vfs_register_fd s vfs_id fd_nonnull).state
  | register_fd_with_local_fd vfs_id local_fd permanent fd_nonnull =>
    some (xf_vfs_register_fd_with_local_fd s vfs_id local_fd permanent fd_nonnull).state
  | unregister_fd vfs_id fd => some (xf_vfs_unregister_fd s vfs_id fd).2
  | set_readonly_flag base_path => some (xf_vfs_set_readonly_flag s base_path).2
  | open_ be path flags mode => some (xf_vfs_open be s path flags mode).2
  | close be fd => some (xf_vfs_close be s fd).2
  | write be fd data size => some (xf_vfs_write be s fd data size).2
  | lseek be fd size mode => some (xf_vfs_lseek be s fd size mode).2
  | read be fd dst size => some (xf_vfs_read be s fd dst size).2
  | pread be fd dst size offset => some (xf_vfs_pread be s fd dst size offset).2
  | pwrite be fd src size offset => some (xf_vfs_pwrite be s fd src size offset).2
  | fstat be fd st => some (xf_vfs_fstat be s fd st).2
  | fcntl_r be fd cmd arg => some (xf_vfs_fcntl_r be s fd cmd arg).2
  | ioctl be fd cmd args => some (xf_vfs_ioctl be s fd cmd args).2
  | fsync be fd => some (xf_vfs_fsync be s fd).2
  | stat be path st => some (xf_vfs_stat be s path st).2
  | utime be path times => some (xf_vfs_utime be s path times).2
  | link be n1 n2 => some (xf_vfs_link be s n1 n2).2
  | unlink be path => some (xf_vfs_unlink be s path).2
  | rename be src dst => some (xf_vfs_rename be s src dst).2
  | opendir be name => some (xf_vfs_opendir be s name).2
  | readdir be pdir => some (xf_vfs_readdir be s pdir).2
  | readdir_r be pdir entry out_dirent => some (xf_vfs_readdir_r be s pdir entry out_dirent).2
  | telldir be pdir => some (xf_vfs_telldir be s pdir).2
  | seekdir be pdir loc => some (xf_vfs_seekdir be s pdir loc)
  | rewinddir be pdir => some (xf_vfs_rewinddir be s pdir)
  | closedir be pdir => some (xf_vfs_closedir be s pdir).2
  | mkdir be name mode => some (xf_vfs_mkdir be s name mode).2
  | rmdir be name => some (xf_vfs_rmdir be s name).2
  | access be path amode => some (xf_vfs_access be s path amode).2
  | truncate be path length => some (xf_vfs_truncate be s path length).2
  | ftruncate be fd length => some (xf_vfs_ftruncate be s fd length).2
  | select_begin be nfds readfds writefds errorfds heap =>
    match xf_vfs_select_begin be s nfds readfds writefds errorfds heap with
    | SelectBegin.fault => none
    | SelectBegin.returned r => some r.state
    | SelectBegin.waiting _ s1 _ => some s1
  | select_end be signalled l nfds timeout heap =>
    (xf_vfs_select_end be signalled s l nfds timeout heap).map fun r => r.state
  | select_triggered be sem_is_local sem => some (xf_vfs_select_triggered be s sem_is_local sem)
  | select_triggered_isr be sem_is_local sem woken =>
    some (xf_vfs_select_triggered_isr be s sem_is_local sem woken)

/-- The state a sequence of calls, made one after the other, leaves behind. -/
def steps : List ApiCall → State → Option State
  | [], s => some s
  | c :: cs, s => (c.step s).bind (steps cs)

/-- A state the module can be in: the one some sequence of calls leaves behind
when made from program start. -/
def Reachable (s : State) : Prop := ∃ cs, steps cs State.init = some s

/-- Every used row of the descriptor table names a slot below `s_vfs_count`. -/
def RowsOk (s : State) : Prop :=
  ∀ fd, (s.s_fd_table fd).vfs_index ≠ -1 →
    0 ≤ (s.s_fd_table fd).vfs_index ∧ (s.s_fd_table fd).vfs_index < (s.s_vfs_count : Int)

/-- A row that a call left as it was, up to the two pending flags. -/
def RowKept (a b : fd_table_t) : Prop :=
  b.vfs_index = a.vfs_index ∧ b.local_fd = a.local_fd ∧ b.permanent = a.permanent

/-- What a call writes into a row it claims: the `permanent` bit and the
`local_fd` (for `xf_vfs_register_fd_range` a value that fits `local_fd_t`). -/
def ApiCall.Claims (c : ApiCall) (row : fd_table_t) : Prop :=
  match c with
  | open_ be _ flags mode =>
    row.permanent = false ∧
      ∃ k w p, 0 ≤ (be (BackendCall.open_ k w p flags mode)).ret ∧
        row.local_fd = to_local_fd_t (be (BackendCall.open_ k w p flags mode)).ret
  | register_fd_with_local_fd _ local_fd permanent _ =>
    row.permanent = permanent ∧
      ((0 ≤ local_fd ∧ row.local_fd = to_local_fd_t local_fd) ∨ row.local_fd < XF_VFS_FDS_MAX)
  | register_fd _ _ => row.permanent = true ∧ row.local_fd < XF_VFS_FDS_MAX
  | register_fd_range _ _ _ _ _ => row.permanent = true ∧ row.local_fd < 256
  | _ => False

/-- What a call may do to one row of the descriptor table: reset it to
`FD_TABLE_ENTRY_UNUSED`, keep it, or claim it for a slot below the
`s_vfs_count` it leaves. -/
def RowStep (c : ApiCall) (count : Nat) (a b : fd_table_t) : Prop :=
  b = FD_TABLE_ENTRY_UNUSED ∨ RowKept a b ∨
    (0 ≤ b.vfs_index ∧ b.vfs_index < (count : Int) ∧ c.Claims b)

/-- The descriptors a call hands to the table are below `XF_VFS_FDS_MAX`:
every result of the backend's `open`, and the `local_fd` argument of
`xf_vfs_register_fd_with_local_fd` for a row that is not permanent. -/
def ApiCall.BoundedLocalFds (c : ApiCall) : Prop :=
  match c with
  | open_ be _ _ _ => ∀ k w p flags mode,
      (be (BackendCall.open_ k w p flags mode)).ret < (XF_VFS_FDS_MAX : Int)
  | register_fd_with_local_fd _ local_fd permanent _ =>
    permanent = false → local_fd < (XF_VFS_FDS_MAX : Int)
  | _ => True

/-- Every used row that is not permanent holds a `local_fd` below
`XF_VFS_FDS_MAX`. -/
def LocalFdsOk (s : State) : Prop :=
  ∀ fd, (s.s_fd_table fd).vfs_index ≠ -1 → (s.s_fd_table fd).permanent = false →
    (s.s_fd_table fd).local_fd < XF_VFS_FDS_MAX

/-- What one call leaves behind: the mount table in order (`CountOk`,
`OffsetOk`), an `s_vfs_count` that has not gone down, and rows that each went
through a `RowStep`. -/
def StepOk (c : ApiCall) (s t : State) : Prop :=
  CountOk t ∧ OffsetOk t ∧ s.s_vfs_count ≤ t.s_vfs_count ∧
    ∀ j, RowStep c t.s_vfs_count (s.s_fd_table j) (t.s_fd_table j)

/-- A backend whose `open` hands out the descriptor 100. -/
def wideFdBackend : Backend := fun _ => { ret := 100 }

/-- The calls `xf_vfs_register("/foo", DUMMY_VFS)` and
`xf_vfs_open("/foo/file", XF_VFS_O_RDONLY, 0)` against `wideFdBackend`, made
from program start. -/
def fooWideOpen : Option State :=
  steps [ApiCall.register "/foo".toList (some DUMMY_VFS) 0 [],
    ApiCall.open_ wideFdBackend "/foo/file".toList XF_VFS_O_RDONLY 0] State.init

/-- How the resolver's accumulator over a table `T` (first component) relates to
its accumulator over `T` with slot `k` emptied (second component) after both
scanned slots `0 .. n-1`: they agree; or the first one currently points at slot
`k`; or both point at the same fallback `f` above `k` and differ only in the
recorded length, `k` being a fallback; or they point at two fallbacks `f < g`
above `k`, `k` being a fallback. -/
def RemovalTrack (T : Nat → Option xf_vfs_entry_t) (k n : Nat)
    (acc acc' : Option Nat × Int) : Prop :=
  acc = acc' ∨
  (k < n ∧ acc.1 = some k ∧ acc'.2 ≤ acc.2) ∨
  (k < n ∧ ∃ f, f < n ∧ k < f ∧ acc = (some f, 0) ∧ acc' = (some f, -1) ∧
    (∃ ek, T k = some ek ∧ IsFallback ek) ∧ (∃ ef, T f = some ef ∧ IsFallback ef)) ∨
  (∃ f g, k < f ∧ f < g ∧ g < n ∧ acc = (some f, 0) ∧ acc' = (some g, 0) ∧
    (∃ ek, T k = some ek ∧ IsFallback ek) ∧ (∃ ef, T f = some ef ∧ IsFallback ef) ∧
    (∃ eg, T g = some eg ∧ IsFallback eg))

/-- Slot `j` holds a fallback mount, slot `k` below it holds another one, and a
third fallback sits in a slot above `j` that the resolver scans. -/
def FallbackShift (s : State) (k j : Nat) : Prop :=
  k < j ∧ (∃ ek, s.s_vfs k = some ek ∧ IsFallback ek) ∧
  (∃ ej, s.s_vfs j = some ej ∧ IsFallback ej) ∧
  ∃ g eg, j < g ∧ g < s.s_vfs_count ∧ s.s_vfs g = some eg ∧ IsFallback eg

/-- Three fallback mounts in slots 0 to 2, then `/foo/bar` in slot 3 and `/foo`
in slot 4. -/
def threeFallbacksNested : State :=
  { State.init with
    s_vfs := slots [some (dummyMount "" 0), some (dummyMount "" 1), some (dummyMount "" 2),
      some (dummyMount "/foo/bar" 3), some (dummyMount "/foo" 4)],
    s_vfs_count := 5 }

/-- The calls after which a descriptor that `xf_vfs_open` handed out may be
free again: `xf_vfs_close`, the unregistrations of a mount, and the second half
of `xf_vfs_select`, which ends in its sweep. -/
def ApiCall.FreesDescriptors (c : ApiCall) : Prop :=
  match c with
  | close _ _ => True
  | unregister_with_id _ => True
  | unregister_fs_with_id _ => True
  | unregister _ => True
  | unregister_fs _ => True
  | select_end _ _ _ _ _ _ => True
  | _ => False

/-- Three calls made between two opens: an `xf_vfs_write` on descriptor 0, an
`xf_vfs_register("/bar", DUMMY_VFS)` and a further `xf_vfs_open("/foo/file")`. -/
def callsBetweenOpens : List ApiCall :=
  [ApiCall.write okBackend 0 0 1, ApiCall.register "/bar".toList (some DUMMY_VFS) 0 [],
    ApiCall.open_ okBackend "/foo/file".toList XF_VFS_O_RDONLY 0]

/-- The state `fooOneOpen` after the calls `callsBetweenOpens`. -/
def fooBusy : State :=
  (xf_vfs_open okBackend
    (xf_vfs_register (xf_vfs_write okBackend fooOneOpen 0 0 1).2 "/bar".toList
      (some DUMMY_VFS) 0 []).2
    "/foo/file".toList XF_VFS_O_RDONLY 0).2

/-! ## Theorems: path resolver -/

theorem xf_memcmp_eq_zero_iff (a b : List Char) (n : Nat) :
    xf_memcmp a b n = 0 ↔ a.take n = b.take n := by
  unfold xf_memcmp
  split <;> simp_all

theorem get_vfs_for_path_loop_succ (s_vfs : Nat → Option xf_vfs_entry_t) (path : List Char)
    (n : Nat) :
    get_vfs_for_path_loop s_vfs path (n + 1) =
      get_vfs_for_path_step s_vfs path (get_vfs_for_path_loop s_vfs path n) n := by
  simp [get_vfs_for_path_loop, List.range_succ]

theorem resolveInv_zero (s_vfs : Nat → Option xf_vfs_entry_t) (path : List Char) :
    ResolveInv s_vfs path 0 (none, -1) := by
  refine ⟨le_refl _, ?_, ?_, ?_⟩
  · intro _
    exact ⟨rfl, fun i hi => absurd hi (Nat.not_lt_zero i)⟩
  · intro k hk
    cases hk
  · intro i hi
    exact absurd hi (Nat.not_lt_zero i)

theorem resolveInv_step (s_vfs : Nat → Option xf_vfs_entry_t) (path : List Char) (n : Nat)
    (acc : Option Nat × Int) (h : ResolveInv s_vfs path n acc) :
    ResolveInv s_vfs path (n + 1) (get_vfs_for_path_step s_vfs path acc n) := by
  obtain ⟨hlow, hnone, hsome, hupper⟩ := h
  -- facts about slots below `n + 1` reduce to facts about slots below `n` and slot `n`
  have split_lt : ∀ i, i < n + 1 → i < n ∨ i = n := fun i hi => by omega
  unfold get_vfs_for_path_step
  cases hn : s_vfs n with
  | none =>
    simp only
    refine ⟨hlow, ?_, ?_, ?_⟩
    · intro ha
      refine ⟨(hnone ha).1, fun i hi e he => ?_⟩
      rcases split_lt i hi with hi | rfl
      · exact (hnone ha).2 i hi e he
      · rw [hn] at he; cases he
    · intro k hk
      obtain ⟨hk1, hk2⟩ := hsome k hk
      exact ⟨by omega, hk2⟩
    · intro i hi e he hq
      rcases split_lt i hi with hi | rfl
      · exact hupper i hi e he hq
      · rw [hn] at he; cases he
  | some vfs =>
    simp only
    -- every branch that leaves the accumulator alone
    have keep : (¬ IsFallback vfs ∨ acc.1 ≠ none) →
        (Qualifies vfs path → (vfs.path_prefix_len : Int) ≤ acc.2) →
        ResolveInv s_vfs path (n + 1) acc := by
      intro hfb hq
      refine ⟨hlow, ?_, ?_, ?_⟩
      · intro ha
        refine ⟨(hnone ha).1, fun i hi e he => ?_⟩
        rcases split_lt i hi with hi | rfl
        · exact (hnone ha).2 i hi e he
        · rw [hn] at he
          cases he
          refine ⟨fun hf => ?_, fun hq' => ?_⟩
          · rcases hfb with hfb | hfb
            · exact hfb hf
            · exact hfb ha
          · have h1 := hq hq'
            have h2 := (hnone ha).1
            have h3 := hq'.2.1
            omega
      · intro k hk
        obtain ⟨hk1, hk2⟩ := hsome k hk
        exact ⟨by omega, hk2⟩
      · intro i hi e he hq'
        rcases split_lt i hi with hi | rfl
        · exact hupper i hi e he hq'
        · rw [hn] at he
          cases he
          exact hq hq'
    split_ifs with h1 h2 h3 h4 h5
    · -- IGNORED
      exact keep (Or.inl (fun hf => by
        unfold IsFallback at hf
        rw [hf] at h1
        revert h1
        decide)) (fun hq => absurd h1 hq.1.1)
    · -- too short, or the bytes differ
      refine keep (Or.inl (fun hf => ?_)) (fun hq => ?_)
      · unfold IsFallback at hf
        rcases h2 with h2 | h2
        · omega
        · exact h2 (by rw [hf, xf_memcmp_eq_zero_iff]; simp)
      · rcases h2 with h2 | h2
        · have := hq.1.2.1
          omega
        · exact absurd ((xf_memcmp_eq_zero_iff _ _ _).2 hq.1.2.2) h2
    · -- the default VFS, and no match yet
      obtain ⟨h3a, h3b⟩ := h3
      have hacc := (hnone h3b).1
      refine ⟨hlow, ?_, ?_, ?_⟩
      · intro ha
        cases ha
      · intro k hk
        simp only [Option.some.injEq] at hk
        subst hk
        exact ⟨by omega, vfs, hn, Or.inl ⟨h3a, by simp only; omega⟩⟩
      · intro i hi e he hq
        rcases split_lt i hi with hi | rfl
        · exact hupper i hi e he hq
        · rw [hn] at he
          cases he
          have := hq.2.1
          omega
    · -- no separator after the prefix
      refine keep ?_ (fun hq => ?_)
      · by_cases hf : vfs.path_prefix_len = 0
        · right
          intro ha
          exact h3 ⟨hf, ha⟩
        · exact Or.inl hf
      · rcases hq.2.2 with hq | hq
        · omega
        · exact absurd hq h4.2
    · -- a longer match
      have hm : Matches vfs path := by
        refine ⟨h1, ?_, ?_⟩
        · by_contra hc
          exact h2 (Or.inl (by omega))
        · by_contra hc
          exact h2 (Or.inr (fun h0 => hc ((xf_memcmp_eq_zero_iff _ _ _).1 h0)))
      refine ⟨by simp only; omega, ?_, ?_, ?_⟩
      · intro ha
        cases ha
      · intro k hk
        simp only [Option.some.injEq] at hk
        subst hk
        refine ⟨by omega, vfs, hn, ?_⟩
        by_cases hf : vfs.path_prefix_len = 0
        · exact Or.inl ⟨hf, by simp only [hf]; rfl⟩
        · refine Or.inr ⟨⟨hm, by omega, ?_⟩, rfl⟩
          by_contra hc
          push_neg at hc
          exact h4 ⟨by have := hm.2.1; omega, hc.2⟩
      · intro i hi e he hq
        simp only
        rcases split_lt i hi with hi | rfl
        · have := hupper i hi e he hq
          omega
        · rw [hn] at he
          cases he
          exact le_refl _
    · -- not longer than the best match so far
      refine keep ?_ (fun _ => by omega)
      by_cases hf : vfs.path_prefix_len = 0
      · right
        intro ha
        exact h3 ⟨hf, ha⟩
      · exact Or.inl hf

theorem resolveInv_loop (s_vfs : Nat → Option xf_vfs_entry_t) (path : List Char) (n : Nat) :
    ResolveInv s_vfs path n (get_vfs_for_path_loop s_vfs path n) := by
  induction n with
  | zero => exact resolveInv_zero s_vfs path
  | succ n ih =>
    rw [get_vfs_for_path_loop_succ]
    exact resolveInv_step s_vfs path n _ ih

/-- The three possible outcomes of the resolver's scan. -/
theorem resolve_cases (s : State) (path : List Char) :
    (xf_vfs_get_vfs_for_path_idx s path = none ∧
      ∀ i, i < s.s_vfs_count → ∀ e, s.s_vfs i = some e → ¬ IsFallback e ∧ ¬ Qualifies e path) ∨
    (∃ k e, xf_vfs_get_vfs_for_path_idx s path = some k ∧ k < s.s_vfs_count ∧
      s.s_vfs k = some e ∧ IsFallback e ∧
      ∀ i, i < s.s_vfs_count → ∀ e', s.s_vfs i = some e' → ¬ Qualifies e' path) ∨
    (∃ k e, xf_vfs_get_vfs_for_path_idx s path = some k ∧ k < s.s_vfs_count ∧
      s.s_vfs k = some e ∧ Qualifies e path ∧
      ∀ i, i < s.s_vfs_count → ∀ e', s.s_vfs i = some e' → Qualifies e' path →
        e'.path_prefix_len ≤ e.path_prefix_len) := by
  obtain ⟨_, hnone, hsome, hupper⟩ := resolveInv_loop s.s_vfs path s.s_vfs_count
  unfold xf_vfs_get_vfs_for_path_idx
  cases hb : (get_vfs_for_path_loop s.s_vfs path s.s_vfs_count).1 with
  | none => exact Or.inl ⟨rfl, (hnone hb).2⟩
  | some k =>
    obtain ⟨hk, e, he, hcase⟩ := hsome k hb
    rcases hcase with ⟨hf, hle⟩ | ⟨hq, heq⟩
    · refine Or.inr (Or.inl ⟨k, e, rfl, hk, he, hf, fun i hi e' he' hq' => ?_⟩)
      have h1 := hupper i hi e' he' hq'
      have h2 := hq'.2.1
      omega
    · refine Or.inr (Or.inr ⟨k, e, rfl, hk, he, hq, fun i hi e' he' hq' => ?_⟩)
      have h1 := hupper i hi e' he' hq'
      omega

theorem resolve_entry_of_idx (s : State) (path : List Char) (k : Nat)
    (h : xf_vfs_get_vfs_for_path_idx s path = some k) :
    xf_vfs_get_vfs_for_path s path = s.s_vfs k := by
  unfold xf_vfs_get_vfs_for_path
  rw [h]

theorem resolve_none_of_idx (s : State) (path : List Char)
    (h : xf_vfs_get_vfs_for_path_idx s path = none) :
    xf_vfs_get_vfs_for_path s path = none := by
  unfold xf_vfs_get_vfs_for_path
  rw [h]

/-- With the recorded length equal to the stored prefix's length, the code's
test and the claim's wording agree. -/
theorem qualifies_iff_prefixQualifies (e : xf_vfs_entry_t) (path : List Char)
    (hlen : e.path_prefix_len = e.path_prefix.length) :
    Qualifies e path ↔
      (e.path_prefix_len ≠ XF_VFS_PATH_PREFIX_LEN_IGNORED ∧ PrefixQualifies e.path_prefix path) := by
  unfold Qualifies Matches PrefixQualifies
  rw [hlen]
  constructor
  · rintro ⟨⟨h1, h2, h3⟩, h4, h5⟩
    refine ⟨h1, ?_, ?_, h5⟩
    · intro h0
      rw [h0] at h4
      exact absurd h4 (by simp)
    · rw [List.take_length] at h3
      rw [List.prefix_iff_eq_take]
      exact h3.symm
  · rintro ⟨h1, h2, h3, h4⟩
    refine ⟨⟨h1, h3.length_le, ?_⟩, ?_, h4⟩
    · rw [List.take_length]
      exact (List.prefix_iff_eq_take.1 h3).symm
    · exact List.length_pos.2 h2

theorem slots_eq_some (l : List (Option xf_vfs_entry_t)) (i : Nat) (e : xf_vfs_entry_t)
    (h : slots l i = some e) : some e ∈ l := by
  unfold slots at h
  rw [List.getD_eq_getElem?_getD] at h
  cases hi : l[i]? with
  | none => rw [hi] at h; cases h
  | some o =>
    rw [hi] at h
    simp only [Option.getD_some] at h
    subst h
    exact List.getElem?_mem hi

theorem prefixLenOk_of_list (s : State) (l : List (Option xf_vfs_entry_t))
    (hs : s.s_vfs = slots l) (h : prefixLenOkList l = true) : PrefixLenOk s := by
  intro i e he hne
  rw [hs] at he
  have hmem := slots_eq_some l i e he
  unfold prefixLenOkList at h
  rw [List.all_eq_true] at h
  have := h _ hmem
  simp only [decide_eq_true_eq] at this
  exact this hne

theorem testMounts_prefixLenOk : PrefixLenOk testMounts :=
  prefixLenOk_of_list testMounts _ rfl (by decide)

/-- The resolver's outcome in the three situations a table can be in for a path. -/
theorem resolve_longest_or_fallback (s : State) (p : List Char)
    (hwf : PrefixLenOk s) :
    (∀ e, RegisteredQualifying s p e →
      ∃ m, xf_vfs_get_vfs_for_path s p = some m ∧ RegisteredQualifying s p m ∧
        ∀ e', RegisteredQualifying s p e' → e'.path_prefix.length ≤ m.path_prefix.length) ∧
    ((∀ e, ¬ RegisteredQualifying s p e) → ∀ e, RegisteredFallback s e →
      ∃ m, xf_vfs_get_vfs_for_path s p = some m ∧ RegisteredFallback s m ∧
        m.path_prefix = []) ∧
    ((∀ e, ¬ RegisteredQualifying s p e) → (∀ e, ¬ RegisteredFallback s e) →
      xf_vfs_get_vfs_for_path s p = none) := by
  -- translate between the code's test and the claim's wording
  have toQ : ∀ e, RegisteredQualifying s p e →
      ∃ i, i < s.s_vfs_count ∧ s.s_vfs i = some e ∧ Qualifies e p := by
    rintro e ⟨i, hi, he, hne, hq⟩
    exact ⟨i, hi, he, (qualifies_iff_prefixQualifies e p (hwf i e he hne)).2 ⟨hne, hq⟩⟩
  have ofQ : ∀ i e, i < s.s_vfs_count → s.s_vfs i = some e → Qualifies e p →
      RegisteredQualifying s p e := by
    intro i e hi he hq
    have hne := hq.1.1
    exact ⟨i, hi, he, ((qualifies_iff_prefixQualifies e p (hwf i e he hne)).1 hq)⟩
  rcases resolve_cases s p with ⟨hidx, hall⟩ | ⟨k, m, hidx, hk, hm, hf, hall⟩ |
      ⟨k, m, hidx, hk, hm, hq, hmax⟩
  · refine ⟨fun e he => ?_, fun _ e hfb => ?_, fun _ _ => resolve_none_of_idx s p hidx⟩
    · obtain ⟨i, hi, hei, hqi⟩ := toQ e he
      exact absurd hqi (hall i hi e hei).2
    · obtain ⟨i, hi, hei, h0⟩ := hfb
      exact absurd h0 (hall i hi e hei).1
  · have hres : xf_vfs_get_vfs_for_path s p = some m := by
      rw [resolve_entry_of_idx s p k hidx, hm]
    refine ⟨fun e he => ?_, fun _ _ _ => ⟨m, hres, ⟨k, hk, hm, hf⟩, ?_⟩, fun _ hnf => ?_⟩
    · obtain ⟨i, hi, hei, hqi⟩ := toQ e he
      exact absurd hqi (hall i hi e hei)
    · have hlen := hwf k m hm (by
        unfold IsFallback at hf
        rw [hf]
        decide)
      unfold IsFallback at hf
      rw [hf] at hlen
      exact List.length_eq_zero.1 hlen.symm
    · exact absurd ⟨k, hk, hm, hf⟩ (hnf m)
  · have hres : xf_vfs_get_vfs_for_path s p = some m := by
      rw [resolve_entry_of_idx s p k hidx, hm]
    have hmq := ofQ k m hk hm hq
    refine ⟨fun _ _ => ⟨m, hres, hmq, fun e' he' => ?_⟩, fun hnq => absurd hmq (hnq m),
      fun hnq => absurd hmq (hnq m)⟩
    obtain ⟨i, hi, hei, hqi⟩ := toQ e' he'
    have h1 := hmax i hi e' hei hqi
    rw [hwf i e' hei hqi.1.1, hwf k m hm hq.1.1] at h1
    exact h1

/-- C1: for every mount table (whose entries record the length of the prefix
they store) and every path `p`: if some registered, non-IGNORED, non-empty
prefix `P` has `p` starting with `P` and `len p = len P` or `p[len P] = '/'`,
then `xf_vfs_get_vfs_for_path p` returns a mount with such a prefix of greatest
length; if none qualifies and a fallback (empty-prefix) mount is registered it
returns a fallback mount; if none qualifies and no fallback is registered it
returns NULL. -/
theorem C1_resolver_longest_prefix_or_fallback (s : State) (p : List Char)
    (hwf : PrefixLenOk s) :
    (∀ e, RegisteredQualifying s p e →
      ∃ m, xf_vfs_get_vfs_for_path s p = some m ∧ RegisteredQualifying s p m ∧
        ∀ e', RegisteredQualifying s p e' → e'.path_prefix.length ≤ m.path_prefix.length) ∧
    ((∀ e, ¬ RegisteredQualifying s p e) → ∀ e, RegisteredFallback s e →
      ∃ m, xf_vfs_get_vfs_for_path s p = some m ∧ RegisteredFallback s m ∧
        m.path_prefix = []) ∧
    ((∀ e, ¬ RegisteredQualifying s p e) → (∀ e, ¬ RegisteredFallback s e) →
      xf_vfs_get_vfs_for_path s p = none) :=
  resolve_longest_or_fallback s p hwf

/-- Witness for C1 on the test suite's table: `/foo/bar/file` qualifies for
`/foo` and `/foo/bar`, and the resolver returns the mount at `/foo/bar`. -/
theorem C1_resolver_longest_prefix_or_fallback_witness :
    PrefixLenOk testMounts ∧
    ∃ m, xf_vfs_get_vfs_for_path testMounts "/foo/bar/file".toList = some m ∧
      "/foo".length ≤ m.path_prefix.length := by
  refine ⟨testMounts_prefixLenOk, ?_⟩
  have hq : RegisteredQualifying testMounts "/foo/bar/file".toList (dummyMount "/foo" 0) :=
    ⟨0, by decide, rfl, by decide, by decide, by decide, by decide⟩
  obtain ⟨m, hm, _, hmax⟩ :=
    (C1_resolver_longest_prefix_or_fallback testMounts "/foo/bar/file".toList
      testMounts_prefixLenOk).1 _ hq
  exact ⟨m, hm, hmax _ hq⟩

/-- What is known of an entry the resolver returns. -/
theorem resolve_some (s : State) (path : List Char) (m : xf_vfs_entry_t)
    (h : xf_vfs_get_vfs_for_path s path = some m) :
    ∃ k, xf_vfs_get_vfs_for_path_idx s path = some k ∧ k < s.s_vfs_count ∧
      s.s_vfs k = some m ∧ (IsFallback m ∨ Qualifies m path) := by
  rcases resolve_cases s path with ⟨hidx, _⟩ | ⟨k, e, hidx, hk, he, hf, _⟩ |
      ⟨k, e, hidx, hk, he, hq, _⟩
  · rw [resolve_none_of_idx s path hidx] at h
    cases h
  · rw [resolve_entry_of_idx s path k hidx, he] at h
    cases h
    exact ⟨k, hidx, hk, he, Or.inl hf⟩
  · rw [resolve_entry_of_idx s path k hidx, he] at h
    cases h
    exact ⟨k, hidx, hk, he, Or.inr hq⟩

theorem prefix_then_separator (P path : List Char) (hP : P <+: path)
    (hsep : path.getD P.length NUL = '/') : (P ++ ['/']) <+: path := by
  obtain ⟨t, rfl⟩ := hP
  cases t with
  | nil =>
    simp [List.getD_eq_getElem?_getD] at hsep
    have hne : NUL ≠ '/' := by decide
    exact absurd hsep hne
  | cons c t =>
    have hc : c = '/' := by
      rw [List.getD_eq_getElem?_getD, List.getElem?_append_right (le_refl _)] at hsep
      simpa using hsep
    subst hc
    exact ⟨t, by simp⟩

/-- C2: for every mount table and path `p`, if `xf_vfs_get_vfs_for_path p`
returns a mount with a non-empty prefix `P`, then `p = P` or `p` starts with
`P` followed by `/`; hence `/foo1/file` and `/foo1` are never dispatched to a
mount registered at `/foo`. -/
theorem C2_match_is_whole_path_or_ends_at_separator (s : State) (hwf : PrefixLenOk s) :
    (∀ p m, xf_vfs_get_vfs_for_path s p = some m → m.path_prefix ≠ [] →
      p = m.path_prefix ∨ (m.path_prefix ++ ['/']) <+: p) ∧
    (∀ m, xf_vfs_get_vfs_for_path s "/foo1/file".toList = some m →
      m.path_prefix ≠ "/foo".toList) ∧
    (∀ m, xf_vfs_get_vfs_for_path s "/foo1".toList = some m →
      m.path_prefix ≠ "/foo".toList) := by
  have main : ∀ p m, xf_vfs_get_vfs_for_path s p = some m → m.path_prefix ≠ [] →
      p = m.path_prefix ∨ (m.path_prefix ++ ['/']) <+: p := by
    intro p m hres hne
    obtain ⟨k, _, _, hm, hcase⟩ := resolve_some s p m hres
    rcases hcase with hf | hq
    · unfold IsFallback at hf
      have hlen := hwf k m hm (by rw [hf]; decide)
      rw [hf] at hlen
      exact absurd (List.length_eq_zero.1 hlen.symm) hne
    · have hlen := hwf k m hm hq.1.1
      obtain ⟨_, _, hpre, hend⟩ := (qualifies_iff_prefixQualifies m p hlen).1 hq
      rcases hend with hend | hend
      · exact Or.inl (hpre.eq_of_length hend.symm).symm
      · exact Or.inr (prefix_then_separator _ _ hpre hend)
  refine ⟨main, fun m hres hm => ?_, fun m hres hm => ?_⟩
  · have := main _ m hres (by rw [hm]; decide)
    rw [hm] at this
    revert this
    decide
  · have := main _ m hres (by rw [hm]; decide)
    rw [hm] at this
    revert this
    decide

/-- Witness for C2 on the test suite's table: `/foo1` is not dispatched to the
mount at `/foo`. -/
theorem C2_match_is_whole_path_or_ends_at_separator_witness :
    PrefixLenOk testMounts ∧
    ∀ m, xf_vfs_get_vfs_for_path testMounts "/foo1".toList = some m →
      m.path_prefix ≠ "/foo".toList :=
  ⟨testMounts_prefixLenOk,
    (C2_match_is_whole_path_or_ends_at_separator testMounts testMounts_prefixLenOk).2.2⟩

theorem mem_registered_prefixes (s : State) (P : List Char) :
    P ∈ registered_prefixes s ↔
      ∃ i e, i < s.s_vfs_count ∧ s.s_vfs i = some e ∧
        e.path_prefix_len ≠ XF_VFS_PATH_PREFIX_LEN_IGNORED ∧ e.path_prefix = P := by
  unfold registered_prefixes
  rw [List.mem_filterMap]
  constructor
  · rintro ⟨i, hi, h⟩
    rw [List.mem_range] at hi
    cases he : s.s_vfs i with
    | none => rw [he] at h; cases h
    | some e =>
      rw [he] at h
      simp only at h
      split_ifs at h with hign
      cases h
      exact ⟨i, e, hi, he, hign, rfl⟩
  · rintro ⟨i, e, hi, he, hign, rfl⟩
    refine ⟨i, List.mem_range.2 hi, ?_⟩
    rw [he]
    simp only [hign, if_false]

/-- The resolved prefix as a function of the set of registered prefixes. -/
theorem resolved_prefix_spec (s : State) (p : List Char) (hwf : PrefixLenOk s) :
    ((∃ P, P ∈ registered_prefixes s ∧ PrefixQualifies P p) →
      ∃ P, resolved_prefix s p = some P ∧ P ∈ registered_prefixes s ∧ PrefixQualifies P p ∧
        ∀ P', P' ∈ registered_prefixes s → PrefixQualifies P' p → P'.length ≤ P.length) ∧
    ((¬ ∃ P, P ∈ registered_prefixes s ∧ PrefixQualifies P p) →
      [] ∈ registered_prefixes s → resolved_prefix s p = some []) ∧
    ((¬ ∃ P, P ∈ registered_prefixes s ∧ PrefixQualifies P p) →
      [] ∉ registered_prefixes s → resolved_prefix s p = none) := by
  obtain ⟨h1, h2, h3⟩ := resolve_longest_or_fallback s p hwf
  have toRQ : ∀ P, P ∈ registered_prefixes s → PrefixQualifies P p →
      ∃ e, RegisteredQualifying s p e ∧ e.path_prefix = P := by
    intro P hP hq
    obtain ⟨i, e, hi, he, hign, rfl⟩ := (mem_registered_prefixes s P).1 hP
    exact ⟨e, ⟨i, hi, he, hign, hq⟩, rfl⟩
  have ofRQ : ∀ e, RegisteredQualifying s p e →
      e.path_prefix ∈ registered_prefixes s ∧ PrefixQualifies e.path_prefix p := by
    rintro e ⟨i, hi, he, hign, hq⟩
    exact ⟨(mem_registered_prefixes s _).2 ⟨i, e, hi, he, hign, rfl⟩, hq⟩
  have noRQ : (¬ ∃ P, P ∈ registered_prefixes s ∧ PrefixQualifies P p) →
      ∀ e, ¬ RegisteredQualifying s p e := by
    intro hn e he
    exact hn ⟨_, ofRQ e he⟩
  refine ⟨?_, ?_, ?_⟩
  · rintro ⟨P, hP, hq⟩
    obtain ⟨e, he, rfl⟩ := toRQ P hP hq
    obtain ⟨m, hres, hm, hmax⟩ := h1 e he
    refine ⟨m.path_prefix, ?_, (ofRQ m hm).1, (ofRQ m hm).2, fun P' hP' hq' => ?_⟩
    · unfold resolved_prefix
      rw [hres]
      rfl
    · obtain ⟨e', he', rfl⟩ := toRQ P' hP' hq'
      exact hmax e' he'
  · intro hn hnil
    obtain ⟨i, e, hi, he, hign, hp⟩ := (mem_registered_prefixes s []).1 hnil
    have hlen := hwf i e he hign
    rw [hp] at hlen
    obtain ⟨m, hres, _, hm⟩ := h2 (noRQ hn) e ⟨i, hi, he, hlen⟩
    unfold resolved_prefix
    rw [hres]
    simp only [Option.map_some', hm]
  · intro hn hnil
    unfold resolved_prefix
    rw [h3 (noRQ hn) ?_]
    · rfl
    · rintro e ⟨i, hi, he, h0⟩
      have hign : e.path_prefix_len ≠ XF_VFS_PATH_PREFIX_LEN_IGNORED := by
        rw [h0]
        decide
      have hlen := hwf i e he hign
      rw [h0] at hlen
      apply hnil
      exact (mem_registered_prefixes s []).2
        ⟨i, e, hi, he, hign, List.length_eq_zero.1 hlen.symm⟩

/-- C5: the prefix of the mount chosen by `xf_vfs_get_vfs_for_path(p)` does not
depend on the order in which the mounts occupy the table slots: two tables whose
registered prefixes are permutations of each other resolve every path to the
same prefix (pairwise distinctness of the prefixes is not even needed for
this). -/
theorem C5_resolved_prefix_independent_of_slot_order (s1 s2 : State) (p : List Char)
    (hwf1 : PrefixLenOk s1) (hwf2 : PrefixLenOk s2)
    (hperm : (registered_prefixes s1).Perm (registered_prefixes s2)) :
    resolved_prefix s1 p = resolved_prefix s2 p := by
  have hmem : ∀ P, P ∈ registered_prefixes s1 ↔ P ∈ registered_prefixes s2 :=
    fun P => hperm.mem_iff
  obtain ⟨a1, a2, a3⟩ := resolved_prefix_spec s1 p hwf1
  obtain ⟨b1, b2, b3⟩ := resolved_prefix_spec s2 p hwf2
  by_cases hq : ∃ P, P ∈ registered_prefixes s1 ∧ PrefixQualifies P p
  · have hq2 : ∃ P, P ∈ registered_prefixes s2 ∧ PrefixQualifies P p := by
      obtain ⟨P, hP, hPq⟩ := hq
      exact ⟨P, (hmem P).1 hP, hPq⟩
    obtain ⟨P1, hr1, hP1, hq1, hmax1⟩ := a1 hq
    obtain ⟨P2, hr2, hP2, hq2', hmax2⟩ := b1 hq2
    rw [hr1, hr2]
    have hle12 := hmax2 P1 ((hmem P1).1 hP1) hq1
    have hle21 := hmax1 P2 ((hmem P2).2 hP2) hq2'
    have hpre : P1 <+: P2 := List.prefix_of_prefix_length_le hq1.2.1 hq2'.2.1 hle12
    rw [hpre.eq_of_length (le_antisymm hle12 hle21)]
  · have hq2 : ¬ ∃ P, P ∈ registered_prefixes s2 ∧ PrefixQualifies P p := by
      rintro ⟨P, hP, hPq⟩
      exact hq ⟨P, (hmem P).2 hP, hPq⟩
    by_cases hnil : [] ∈ registered_prefixes s1
    · rw [a2 hq hnil, b2 hq2 ((hmem []).1 hnil)]
    · rw [a3 hq hnil, b3 hq2 (fun h => hnil ((hmem []).2 h))]

/-- Witness for C5: with `/foo` and `/foo/bar` both mounted, `/foo/bar/file`
resolves to `/foo/bar` whichever was registered first. -/
theorem C5_resolved_prefix_independent_of_slot_order_witness :
    resolved_prefix nestedMountsA "/foo/bar/file".toList = some "/foo/bar".toList ∧
    resolved_prefix nestedMountsB "/foo/bar/file".toList = some "/foo/bar".toList := by
  have hA : resolved_prefix nestedMountsA "/foo/bar/file".toList = some "/foo/bar".toList := by
    decide
  refine ⟨hA, ?_⟩
  rw [← C5_resolved_prefix_independent_of_slot_order nestedMountsA nestedMountsB
    "/foo/bar/file".toList (prefixLenOk_of_list _ _ rfl (by decide))
    (prefixLenOk_of_list _ _ rfl (by decide)) (by decide)]
  exact hA

/-! ## Theorems: translate_path -/

/-- `translate_path` on an entry whose stored prefix starts the path. -/
theorem translate_path_when_prefixed (e : xf_vfs_entry_t) (p : List Char)
    (hlen : e.path_prefix_len = e.path_prefix.length) (hpre : e.path_prefix <+: p) :
    (p.length = e.path_prefix.length → translate_path e p = some ['/']) ∧
    (p.length ≠ e.path_prefix.length →
      ∃ t, translate_path e p = some t ∧ e.path_prefix ++ t = p) := by
  have htake : p.take e.path_prefix.length = e.path_prefix :=
    (List.prefix_iff_eq_take.1 hpre).symm
  have hcmp : xf_strncmp p e.path_prefix e.path_prefix.length = 0 := by
    unfold xf_strncmp
    rw [htake, List.take_length]
    simp
  unfold translate_path
  simp only [hlen, hcmp, ne_eq, not_true_eq_false, if_false]
  constructor
  · intro h
    rw [if_pos h]
  · intro h
    rw [if_neg h]
    refine ⟨_, rfl, ?_⟩
    have := List.take_append_drop e.path_prefix.length p
    rw [htake] at this
    exact this

/-- C4: for every path `p` and every mount `m` the resolver returns for `p`:
if `len p = len m.prefix` then `translate_path(m, p)` is `"/"`, and otherwise
`m.prefix ++ translate_path(m, p) = p`. Consequently, for a mount at `P` both
the path `P` and the path `P` followed by `/` are translated to `"/"`. -/
theorem C4_translate_path_inverts_prefix (s : State) (hwf : PrefixLenOk s) :
    (∀ p m, xf_vfs_get_vfs_for_path s p = some m →
      (p.length = m.path_prefix.length → translate_path m p = some ['/']) ∧
      (p.length ≠ m.path_prefix.length →
        ∃ t, translate_path m p = some t ∧ m.path_prefix ++ t = p)) ∧
    (∀ i m, s.s_vfs i = some m → m.path_prefix_len ≠ XF_VFS_PATH_PREFIX_LEN_IGNORED →
      translate_path m m.path_prefix = some ['/'] ∧
      translate_path m (m.path_prefix ++ ['/']) = some ['/']) := by
  constructor
  · intro p m hres
    obtain ⟨k, _, _, hm, hcase⟩ := resolve_some s p m hres
    rcases hcase with hf | hq
    · unfold IsFallback at hf
      have hlen := hwf k m hm (by rw [hf]; decide)
      have hnil : m.path_prefix = [] := by
        rw [hf] at hlen
        exact List.length_eq_zero.1 hlen.symm
      exact translate_path_when_prefixed m p hlen (by rw [hnil]; exact List.nil_prefix)
    · have hlen := hwf k m hm hq.1.1
      obtain ⟨_, _, hpre, _⟩ := (qualifies_iff_prefixQualifies m p hlen).1 hq
      exact translate_path_when_prefixed m p hlen hpre
  · intro i m hm hne
    have hlen := hwf i m hm hne
    refine ⟨(translate_path_when_prefixed m _ hlen (List.prefix_refl _)).1 rfl, ?_⟩
    obtain ⟨t, ht, happ⟩ :=
      (translate_path_when_prefixed m (m.path_prefix ++ ['/']) hlen (List.prefix_append _ _)).2
        (by simp)
    rw [ht, List.append_cancel_left happ]

/-- Witness for C4 on the test suite's table: `/foo/file` reaches the mount at
`/foo` as `/file`, and `/foo` and `/foo/` reach it as `/`. -/
theorem C4_translate_path_inverts_prefix_witness :
    PrefixLenOk testMounts ∧
    (∃ t, translate_path (dummyMount "/foo" 0) "/foo/file".toList = some t ∧
      "/foo".toList ++ t = "/foo/file".toList) ∧
    translate_path (dummyMount "/foo" 0) "/foo".toList = some ['/'] ∧
    translate_path (dummyMount "/foo" 0) "/foo/".toList = some ['/'] := by
  have h := C4_translate_path_inverts_prefix testMounts testMounts_prefixLenOk
  have hres : xf_vfs_get_vfs_for_path testMounts "/foo/file".toList
      = some (dummyMount "/foo" 0) := by decide
  exact ⟨testMounts_prefixLenOk, (h.1 _ _ hres).2 (by decide),
    (h.2 0 (dummyMount "/foo" 0) rfl (by decide)).1,
    (h.2 0 (dummyMount "/foo" 0) rfl (by decide)).2⟩

/-! ## Theorems: registration -/

theorem range_find?_some (q : Nat → Bool) (n i : Nat)
    (h : (List.range n).find? q = some i) :
    i < n ∧ q i = true ∧ ∀ j, j < i → q j = false := by
  induction n with
  | zero => simp at h
  | succ n ih =>
    rw [List.range_succ, List.find?_append] at h
    cases hf : (List.range n).find? q with
    | some i' =>
      rw [hf] at h
      simp only [Option.or_some, Option.some.injEq] at h
      subst h
      obtain ⟨h1, h2, h3⟩ := ih hf
      exact ⟨by omega, h2, h3⟩
    | none =>
      rw [hf] at h
      simp only [Option.none_or] at h
      have hnone := List.find?_eq_none.1 hf
      by_cases hq : q n = true
      · simp only [List.find?_cons, hq, Option.some.injEq] at h
        subst h
        refine ⟨by omega, hq, fun j hj => ?_⟩
        have := hnone j (List.mem_range.2 hj)
        simpa using this
      · simp [List.find?_cons, hq] at h

theorem range_find?_exists (q : Nat → Bool) (n : Nat) (h : ∃ i, i < n ∧ q i = true) :
    ∃ i, (List.range n).find? q = some i := by
  cases hf : (List.range n).find? q with
  | some i => exact ⟨i, rfl⟩
  | none =>
    obtain ⟨i, hi, hq⟩ := h
    have := List.find?_eq_none.1 hf i (List.mem_range.2 hi)
    exact absurd hq this


theorem allocOk_malloc (heap : List Bool) (h : AllocOk heap) :
    (xf_malloc heap).1 = true ∧ AllocOk (xf_malloc heap).2 := by
  unfold xf_malloc
  cases heap with
  | nil => exact ⟨rfl, h⟩
  | cons b t =>
    refine ⟨h b (List.mem_cons_self b t), fun c hc => h c (List.mem_cons_of_mem b hc)⟩

theorem make_fs_ops_ok (v : xf_vfs_t) (heap : List Bool) (h : AllocOk heap) :
    ∃ ops heap', xf_vfs_make_fs_ops v heap = (xf_err_t.XF_OK, some ops, heap') ∧
      AllocOk heap' := by
  unfold xf_vfs_make_fs_ops xf_minify_vfs
  obtain ⟨h1, h1'⟩ := allocOk_malloc heap h
  obtain ⟨h2, h2'⟩ := allocOk_malloc _ h1'
  obtain ⟨h3, h3'⟩ := allocOk_malloc _ h2'
  by_cases hd : v.dir = {} <;> by_cases hs : v.select = {}
  · simp [hd, hs, h1]
    exact ⟨_, _, ⟨rfl, rfl⟩, h1'⟩
  · simp [hd, hs, h1, h2]
    exact ⟨_, _, ⟨rfl, rfl⟩, h2'⟩
  · simp [hd, hs, h1, h2]
    exact ⟨_, _, ⟨rfl, rfl⟩, h2'⟩
  · simp [hd, hs, h1, h2, h3]
    exact ⟨_, _, ⟨rfl, rfl⟩, h3'⟩

theorem get_free_index_of_free (s : State)
    (hfree : ∃ i, i < XF_VFS_MAX_COUNT ∧ s.s_vfs i = none) :
    ∃ index, xf_get_free_index s = some index ∧ s.s_vfs index = none := by
  unfold xf_get_free_index
  cases hf : (List.range XF_VFS_MAX_COUNT).find? (fun i => (s.s_vfs i).isNone) with
  | none =>
    obtain ⟨i, hi, hn⟩ := hfree
    rw [List.find?_eq_none] at hf
    have := hf i (List.mem_range.2 hi)
    rw [hn] at this
    exact absurd rfl this
  | some index =>
    have := List.find?_some hf
    exact ⟨index, rfl, Option.isNone_iff_eq_none.1 this⟩

theorem register_fs_common_ret (s : State) (base_path : List Char) (ops : xf_vfs_fs_ops_t)
    (flags : Int) (ctx : Nat) (heap : List Bool)
    (hlen : base_path.length ≠ XF_VFS_PATH_PREFIX_LEN_IGNORED)
    (hfree : ∃ i, i < XF_VFS_MAX_COUNT ∧ s.s_vfs i = none) (halloc : AllocOk heap) :
    (ValidPrefix base_path →
      (xf_vfs_register_fs_common s base_path base_path.length (some ops) flags ctx heap).ret
        = xf_err_t.XF_OK) ∧
    (¬ ValidPrefix base_path →
      (xf_vfs_register_fs_common s base_path base_path.length (some ops) flags ctx heap).ret
        = xf_err_t.XF_ERR_INVALID_ARG) := by
  obtain ⟨index, hidx, hnone⟩ := get_free_index_of_free s hfree
  obtain ⟨hm, _⟩ := allocOk_malloc heap halloc
  unfold xf_vfs_register_fs_common
  simp only [hidx, hnone, Option.isSome_none, hm]
  unfold ValidPrefix
  constructor
  · intro hv
    rw [if_neg, if_neg]
    · simp
    · rintro ⟨_, h2, h3⟩
      rcases hv with hv | ⟨_, _, h4, h5⟩
      · omega
      · rcases h3 with h3 | h3
        · exact h3 h4
        · exact h5 h3
    · rintro ⟨_, h2⟩
      rcases hv with hv | ⟨h3, h4, _⟩
      · omega
      · unfold XF_VFS_PATH_MAX at h2 h4
        omega
  · intro hv
    by_cases h1 : base_path.length ≠ XF_VFS_PATH_PREFIX_LEN_IGNORED ∧
        (base_path.length = 1 ∨ base_path.length > XF_VFS_PATH_MAX)
    · rw [if_pos h1]
    · rw [if_neg h1, if_pos]
      refine ⟨hlen, ?_, ?_⟩
      · by_contra hc
        apply hv
        left
        have : ¬ (base_path.length = 1) := fun h => h1 ⟨hlen, Or.inl h⟩
        omega
      · by_contra hc
        push_neg at hc
        apply hv
        right
        refine ⟨?_, ?_, hc.1, hc.2⟩
        · by_contra h0
          have : ¬ (base_path.length = 1) := fun h => h1 ⟨hlen, Or.inl h⟩
          apply hv
          left
          omega
        · by_contra h0
          exact h1 ⟨hlen, Or.inr (by omega)⟩

theorem register_ret (st : State) (p : List Char) (v : xf_vfs_t) (ctx : Nat)
    (heap : List Bool)
    (hstr : p.length ≠ XF_VFS_PATH_PREFIX_LEN_IGNORED)
    (hstatic : Int.land v.flags XF_VFS_FLAG_STATIC = 0)
    (hfree : ∃ i, i < XF_VFS_MAX_COUNT ∧ st.s_vfs i = none)
    (halloc : AllocOk heap) :
    (ValidPrefix p → (xf_vfs_register st p (some v) ctx heap).1 = xf_err_t.XF_OK) ∧
    (¬ ValidPrefix p →
      (xf_vfs_register st p (some v) ctx heap).1 = xf_err_t.XF_ERR_INVALID_ARG) := by
  obtain ⟨ops, heap', hmk, halloc'⟩ := make_fs_ops_ok v heap halloc
  have hreg : (xf_vfs_register st p (some v) ctx heap).1 =
      (xf_vfs_register_fs_common st p p.length (some ops) v.flags ctx heap').ret := by
    unfold xf_vfs_register xf_vfs_register_common
    simp only [hstatic, ne_eq, not_true_eq_false, if_false, hmk]
  rw [hreg]
  exact register_fs_common_ret st p ops v.flags ctx heap' hstr hfree halloc'

/-- C3: for every prefix string `p` (a C string, so shorter than `SIZE_MAX`),
given a non-NULL operation set without `XF_VFS_FLAG_STATIC`, a free mount slot
and successful allocation, `xf_vfs_register(p, ...)` returns `XF_OK` if and only
if `p` is empty, or has 2 to `XF_VFS_PATH_MAX` (15) bytes, starts with `/` and
does not end with `/`; in every other case it returns `XF_ERR_INVALID_ARG`. The
15-byte prefix `/23456789012345` is accepted and the 16-byte prefix
`/234567890123456` is rejected. -/
theorem C3_register_accepts_exactly_valid_prefixes (st : State) (p : List Char)
    (v : xf_vfs_t) (ctx : Nat) (heap : List Bool)
    (hstr : p.length ≠ XF_VFS_PATH_PREFIX_LEN_IGNORED)
    (hstatic : Int.land v.flags XF_VFS_FLAG_STATIC = 0)
    (hfree : ∃ i, i < XF_VFS_MAX_COUNT ∧ st.s_vfs i = none)
    (halloc : AllocOk heap) :
    ((xf_vfs_register st p (some v) ctx heap).1 = xf_err_t.XF_OK ↔ ValidPrefix p) ∧
    (¬ ValidPrefix p →
      (xf_vfs_register st p (some v) ctx heap).1 = xf_err_t.XF_ERR_INVALID_ARG) ∧
    (xf_vfs_register st "/23456789012345".toList (some v) ctx heap).1 = xf_err_t.XF_OK ∧
    (xf_vfs_register st "/234567890123456".toList (some v) ctx heap).1
      = xf_err_t.XF_ERR_INVALID_ARG := by
  obtain ⟨hok, hbad⟩ := register_ret st p v ctx heap hstr hstatic hfree halloc
  refine ⟨⟨fun h => ?_, hok⟩, hbad, ?_, ?_⟩
  · by_contra hv
    rw [hbad hv] at h
    cases h
  · exact (register_ret st _ v ctx heap (by decide) hstatic hfree halloc).1 (by decide)
  · exact (register_ret st _ v ctx heap (by decide) hstatic hfree halloc).2 (by decide)

/-- Witness for C3: registering `/aaa/bbb` with the test suite's operation set
in the initial state. -/
theorem C3_register_accepts_exactly_valid_prefixes_witness :
    (xf_vfs_register State.init "/aaa/bbb".toList (some DUMMY_VFS) 0 []).1 = xf_err_t.XF_OK ∧
    (xf_vfs_register State.init "/aaa/".toList (some DUMMY_VFS) 0 []).1
      = xf_err_t.XF_ERR_INVALID_ARG := by
  have hfree : ∃ i, i < XF_VFS_MAX_COUNT ∧ State.init.s_vfs i = none := ⟨0, by decide, rfl⟩
  have halloc : AllocOk [] := fun b hb => by cases hb
  constructor
  · exact (C3_register_accepts_exactly_valid_prefixes State.init "/aaa/bbb".toList DUMMY_VFS 0 []
      (by decide) (by decide) hfree halloc).1.2 (by decide)
  · exact (C3_register_accepts_exactly_valid_prefixes State.init "/aaa/".toList DUMMY_VFS 0 []
      (by decide) (by decide) hfree halloc).2.1 (by decide)

theorem get_free_index_lt (s : State) (index : Nat) (h : xf_get_free_index s = some index) :
    index < XF_VFS_MAX_COUNT ∧ s.s_vfs index = none := by
  unfold xf_get_free_index at h
  obtain ⟨h1, h2, _⟩ := range_find?_some _ _ _ h
  exact ⟨h1, Option.isNone_iff_eq_none.1 h2⟩

/-- What `xf_vfs_register_fs_common` does to the mount table: either nothing, or
it stores in a free slot `index < XF_VFS_MAX_COUNT` an entry whose `offset` is
`index`, whose `path_prefix_len` is `len` and whose prefix is the first
`XF_VFS_PATH_MAX` bytes of `base_path` (empty for the IGNORED length). -/
theorem register_fs_common_table (s : State) (base_path : List Char) (len : Nat)
    (vfs : Option xf_vfs_fs_ops_t) (flags : Int) (ctx : Nat) (heap : List Bool) :
    (xf_vfs_register_fs_common s base_path len vfs flags ctx heap).state.s_vfs = s.s_vfs ∨
    ∃ index e, index < XF_VFS_MAX_COUNT ∧ s.s_vfs index = none ∧
      (xf_vfs_register_fs_common s base_path len vfs flags ctx heap).state.s_vfs
        = Function.update s.s_vfs index (some e) ∧
      e.offset = (index : Int) ∧ e.path_prefix_len = len ∧
      (len ≠ XF_VFS_PATH_PREFIX_LEN_IGNORED →
        len ≤ XF_VFS_PATH_MAX ∧ e.path_prefix = base_path.take XF_VFS_PATH_MAX) := by
  unfold xf_vfs_register_fs_common
  cases vfs with
  | none => exact Or.inl rfl
  | some ops =>
    simp only
    by_cases h1 : len ≠ XF_VFS_PATH_PREFIX_LEN_IGNORED ∧ (len = 1 ∨ len > XF_VFS_PATH_MAX)
    · rw [if_pos h1]
      exact Or.inl rfl
    · rw [if_neg h1]
      by_cases h2 : len ≠ XF_VFS_PATH_PREFIX_LEN_IGNORED ∧ len ≥ 2 ∧
          (base_path.getD 0 NUL ≠ '/' ∨ base_path.getD (len - 1) NUL = '/')
      · rw [if_pos h2]
        exact Or.inl rfl
      · rw [if_neg h2]
        cases hidx : xf_get_free_index s with
        | none => exact Or.inl rfl
        | some index =>
          obtain ⟨hlt, hnone⟩ := get_free_index_lt s index hidx
          simp only [hnone, Option.isSome_none, Bool.false_eq_true, if_false]
          have hs1 : (if index = s.s_vfs_count then
              ({ s with s_vfs_count := s.s_vfs_count + 1 } : State) else s).s_vfs = s.s_vfs := by
            by_cases hc : index = s.s_vfs_count
            · rw [if_pos hc]
            · rw [if_neg hc]
          by_cases hm : (xf_malloc heap).1 = true
          · right
            simp only [hm, Bool.not_true, Bool.false_eq_true, if_false]
            refine ⟨index, _, hlt, hnone, by rw [hs1], rfl, rfl, fun hne => ?_⟩
            refine ⟨?_, by simp only [hne, ne_eq, not_false_eq_true, if_true]⟩
            by_contra hc
            exact h1 ⟨hne, Or.inr (by omega)⟩
          · left
            have hm' : (xf_malloc heap).1 = false := by simpa using hm
            simp only [hm', Bool.not_false, if_true]
            exact hs1

/-- `xf_vfs_register` keeps the two invariants of the mount table that the
resolver and descriptor theorems assume. -/
theorem register_preserves_invariants (s : State) (base_path : List Char)
    (vfs : Option xf_vfs_t) (ctx : Nat) (heap : List Bool)
    (hp : PrefixLenOk s) (ho : OffsetOk s) :
    PrefixLenOk (xf_vfs_register s base_path vfs ctx heap).2 ∧
    OffsetOk (xf_vfs_register s base_path vfs ctx heap).2 := by
  have key : (xf_vfs_register s base_path vfs ctx heap).2.s_vfs = s.s_vfs ∨
      ∃ index e, index < XF_VFS_MAX_COUNT ∧
        (xf_vfs_register s base_path vfs ctx heap).2.s_vfs
          = Function.update s.s_vfs index (some e) ∧
        e.offset = (index : Int) ∧
        (e.path_prefix_len ≠ XF_VFS_PATH_PREFIX_LEN_IGNORED →
          e.path_prefix_len = e.path_prefix.length) := by
    unfold xf_vfs_register xf_vfs_register_common
    cases vfs with
    | none => exact Or.inl rfl
    | some v =>
      simp only
      split_ifs with hst
      · exact Or.inl rfl
      · rcases hmk : xf_vfs_make_fs_ops v heap with ⟨ret, ops, heap'⟩
        cases ret <;> cases ops <;> try exact Or.inl rfl
        rename_i ops
        simp only
        rcases register_fs_common_table s base_path base_path.length (some ops) v.flags ctx
            heap' with h | ⟨index, e, hlt, _, hupd, hoff, hlen, hpre⟩
        · exact Or.inl h
        · refine Or.inr ⟨index, e, hlt, hupd, hoff, fun hne => ?_⟩
          rw [hlen] at hne
          obtain ⟨hle, hpe⟩ := hpre hne
          rw [hlen, hpe, List.take_of_length_le hle]
  rcases key with h | ⟨index, e, hlt, hupd, hoff, hlen⟩
  · constructor
    · intro i e he
      rw [h] at he
      exact hp i e he
    · intro i e he
      rw [h] at he
      exact ho i e he
  · constructor
    · intro i e' he hne
      rw [hupd] at he
      by_cases hi : i = index
      · subst hi
        rw [Function.update_same] at he
        cases he
        exact hlen hne
      · rw [Function.update_noteq hi] at he
        exact hp i e' he hne
    · intro i e' he
      rw [hupd] at he
      by_cases hi : i = index
      · subst hi
        rw [Function.update_same] at he
        cases he
        exact ⟨hoff, hlt⟩
      · rw [Function.update_noteq hi] at he
        exact ho i e' he

theorem init_invariants : PrefixLenOk State.init ∧ OffsetOk State.init := by
  constructor
  · intro i e he
    cases he
  · intro i e he
    cases he

/-! ## Theorems: unregistration -/

theorem sweep_fold_apply (tbl : Nat → fd_table_t) (vfs_id : Int) (n j : Nat) :
    ((List.range n).foldl
      (fun t j => if (t j).vfs_index = vfs_id then Function.update t j FD_TABLE_ENTRY_UNUSED
        else t) tbl) j
      = if j < n ∧ (tbl j).vfs_index = vfs_id then FD_TABLE_ENTRY_UNUSED else tbl j := by
  induction n generalizing j with
  | zero => simp
  | succ n ih =>
    rw [List.range_succ, List.foldl_append]
    simp only [List.foldl_cons, List.foldl_nil]
    have hn := ih n
    simp only [lt_self_iff_false, false_and, if_false] at hn
    rw [hn]
    by_cases hid : (tbl n).vfs_index = vfs_id
    · rw [if_pos hid]
      by_cases hj : j = n
      · subst hj
        simp [hid]
      · rw [Function.update_noteq hj, ih j]
        have : (j < n + 1) ↔ (j < n) := by omega
        simp only [this]
    · rw [if_neg hid, ih j]
      by_cases hj : j = n
      · subst hj
        simp [hid]
      · have : (j < n + 1) ↔ (j < n) := by omega
        simp only [this]

/-- What the sweep of `xf_vfs_unregister_with_id` does to each row. -/
theorem unregister_sweep_apply (tbl : Nat → fd_table_t) (vfs_id : Int) (j : Nat) :
    unregister_sweep tbl vfs_id j
      = if j < XF_VFS_MAX_COUNT ∧ (tbl j).vfs_index = vfs_id then FD_TABLE_ENTRY_UNUSED
        else tbl j :=
  sweep_fold_apply tbl vfs_id XF_VFS_MAX_COUNT j

/-- A successful `xf_vfs_unregister_with_id` empties the slot, resets the rows
below `XF_VFS_MAX_COUNT` that referred to it, and leaves every row from
`XF_VFS_MAX_COUNT` on as it was. -/
theorem unregister_with_id_ok (s : State) (vfs_id : Int)
    (h : (xf_vfs_unregister_with_id s vfs_id).1 = xf_err_t.XF_OK) :
    (xf_vfs_unregister_with_id s vfs_id).2.s_vfs = Function.update s.s_vfs vfs_id.toNat none ∧
    (∀ j, j < XF_VFS_MAX_COUNT → (s.s_fd_table j).vfs_index = vfs_id →
      (xf_vfs_unregister_with_id s vfs_id).2.s_fd_table j = FD_TABLE_ENTRY_UNUSED) ∧
    (∀ j, XF_VFS_MAX_COUNT ≤ j →
      (xf_vfs_unregister_with_id s vfs_id).2.s_fd_table j = s.s_fd_table j) := by
  unfold xf_vfs_unregister_with_id at h ⊢
  split_ifs at h ⊢ with hc
  refine ⟨rfl, fun j hj hid => ?_, fun j hj => ?_⟩
  · simp only [unregister_sweep_apply]
    rw [if_pos ⟨hj, hid⟩]
  · simp only [unregister_sweep_apply]
    rw [if_neg]
    rintro ⟨hlt, _⟩
    omega

set_option maxRecDepth 100000 in
/-- C6 (the code falls short of the claim): after `xf_vfs_register("/foo")`, nine
successful `xf_vfs_open` calls and a successful unregister of mount 0, by index
or by prefix, descriptor row 8 still has `vfs_index == 0`: the sweep of
`xf_vfs_unregister_with_id` runs over `XF_VFS_MAX_COUNT` rows, not over the
`XF_VFS_FDS_MAX` rows of the table. -/
theorem C6_unregister_leaves_row_beyond_max_count :
    (fooNineOpen.s_vfs 0).isSome = true ∧
    (fooNineOpen.s_fd_table 8).vfs_index = 0 ∧
    (xf_vfs_unregister_with_id fooNineOpen 0).1 = xf_err_t.XF_OK ∧
    ((xf_vfs_unregister_with_id fooNineOpen 0).2.s_fd_table 8).vfs_index = 0 ∧
    (xf_vfs_unregister fooNineOpen "/foo".toList).1 = xf_err_t.XF_OK ∧
    ((xf_vfs_unregister fooNineOpen "/foo".toList).2.s_fd_table 8).vfs_index = 0 ∧
    ((xf_vfs_unregister fooNineOpen "/foo".toList).2.s_fd_table 7) = FD_TABLE_ENTRY_UNUSED := by
  decide

/-! ## Theorems: descriptor table -/

/-- `first_unused_row` returns the lowest row whose `vfs_index` is -1. -/
theorem first_unused_row_some (tbl : Nat → fd_table_t) (i : Nat)
    (h : first_unused_row tbl = some i) :
    i < XF_VFS_FDS_MAX ∧ (tbl i).vfs_index = -1 ∧ ∀ j, j < i → (tbl j).vfs_index ≠ -1 := by
  obtain ⟨h1, h2, h3⟩ := range_find?_some _ _ _ h
  refine ⟨h1, by simpa using h2, fun j hj => ?_⟩
  have := h3 j hj
  simpa using this

theorem first_unused_row_exists (tbl : Nat → fd_table_t)
    (h : ∃ i, i < XF_VFS_FDS_MAX ∧ (tbl i).vfs_index = -1) :
    ∃ i, first_unused_row tbl = some i := by
  obtain ⟨i, hi, hu⟩ := h
  exact range_find?_exists _ _ ⟨i, hi, by simpa using hu⟩

/-- The successful path of `xf_vfs_open`. -/
theorem open_success (be : Backend) (s : State) (path : List Char) (flags mode : Int)
    (k : Nat) (vfs : xf_vfs_entry_t) (i : Nat)
    (hres : xf_vfs_get_vfs_for_path_ptr s path = some (k, vfs))
    (hro : ¬ (Int.land flags XF_VFS_O_ACCMODE ≠ XF_VFS_O_RDONLY ∧
      Int.land vfs.flags XF_VFS_FLAG_READONLY_FS ≠ 0))
    (hopen : vfs.vfs.open_ = true)
    (hb : 0 ≤ (be (BackendCall.open_ k (uses_ctx vfs) (translate_path vfs path) flags mode)).ret)
    (hi : first_unused_row s.s_fd_table = some i) :
    (xf_vfs_open be s path flags mode).1 = (i : Int) ∧
    (xf_vfs_open be s path flags mode).2.s_fd_table =
      Function.update s.s_fd_table i
        { s.s_fd_table i with
          permanent := false,
          vfs_index := to_vfs_index_t vfs.offset,
          local_fd := to_local_fd_t
            (be (BackendCall.open_ k (uses_ctx vfs) (translate_path vfs path) flags mode)).ret } ∧
    (xf_vfs_open be s path flags mode).2.s_vfs = s.s_vfs ∧
    (xf_vfs_open be s path flags mode).2.s_vfs_count = s.s_vfs_count := by
  unfold xf_vfs_open
  simp only [hres, hro, if_false, hopen, Bool.true_eq_false, backend_call, hb, ge_iff_le,
    if_true, hi]
  simp

/-- A non-negative result of `xf_vfs_open` comes from its successful path. -/
theorem open_nonneg (be : Backend) (s : State) (path : List Char) (flags mode : Int)
    (h : 0 ≤ (xf_vfs_open be s path flags mode).1) :
    ∃ k vfs i, xf_vfs_get_vfs_for_path_ptr s path = some (k, vfs) ∧
      first_unused_row s.s_fd_table = some i ∧
      (xf_vfs_open be s path flags mode).1 = (i : Int) ∧
      (xf_vfs_open be s path flags mode).2.s_fd_table =
        Function.update s.s_fd_table i
          { s.s_fd_table i with
            permanent := false,
            vfs_index := to_vfs_index_t vfs.offset,
            local_fd := to_local_fd_t
              (be (BackendCall.open_ k (uses_ctx vfs) (translate_path vfs path) flags mode)).ret } := by
  cases hres : xf_vfs_get_vfs_for_path_ptr s path with
  | none =>
    unfold xf_vfs_open at h
    simp [hres] at h
  | some kv =>
    obtain ⟨k, vfs⟩ := kv
    by_cases hro : Int.land flags XF_VFS_O_ACCMODE ≠ XF_VFS_O_RDONLY ∧
        Int.land vfs.flags XF_VFS_FLAG_READONLY_FS ≠ 0
    · unfold xf_vfs_open at h
      simp [hres, hro] at h
    · by_cases hopen : vfs.vfs.open_ = true
      · by_cases hb : 0 ≤ (be (BackendCall.open_ k (uses_ctx vfs) (translate_path vfs path)
            flags mode)).ret
        · cases hi : first_unused_row s.s_fd_table with
          | none =>
            unfold xf_vfs_open at h
            simp only [hres, hro, if_false, hopen, Bool.true_eq_false, backend_call, hb,
              ge_iff_le, if_true, hi] at h
            split_ifs at h <;> simp at h
          | some i =>
            obtain ⟨h1, h2, _, _⟩ := open_success be s path flags mode k vfs i hres hro hopen hb hi
            exact ⟨k, vfs, i, rfl, rfl, h1, h2⟩
        · unfold xf_vfs_open at h
          simp [hres, hro, hopen, backend_call, hb] at h
      · unfold xf_vfs_open at h
        simp [hres, hro, hopen] at h

theorem ptr_some (s : State) (path : List Char) (k : Nat) (m : xf_vfs_entry_t)
    (h : xf_vfs_get_vfs_for_path_ptr s path = some (k, m)) :
    xf_vfs_get_vfs_for_path_idx s path = some k ∧ s.s_vfs k = some m := by
  unfold xf_vfs_get_vfs_for_path_ptr at h
  cases hi : xf_vfs_get_vfs_for_path_idx s path with
  | none => rw [hi] at h; cases h
  | some k' =>
    rw [hi] at h
    simp only [Option.some_bind] at h
    cases hs : s.s_vfs k' with
    | none => rw [hs] at h; cases h
    | some e =>
      rw [hs] at h
      simp only [Option.map_some', Option.some.injEq, Prod.mk.injEq] at h
      obtain ⟨rfl, rfl⟩ := h
      exact ⟨rfl, hs⟩

theorem to_vfs_index_t_of_small (x : Int) (h0 : 0 ≤ x) (h1 : x < (XF_VFS_MAX_COUNT : Int)) :
    to_vfs_index_t x = x := by
  unfold to_vfs_index_t
  unfold XF_VFS_MAX_COUNT at h1
  omega

theorem to_local_fd_t_cast (b : Int) : ((to_local_fd_t b : Nat) : Int) = b % 256 := by
  unfold to_local_fd_t
  exact Int.toNat_of_nonneg (Int.emod_nonneg b (by decide))

theorem fooRegistered_slot0 : fooRegistered.s_vfs 0 = some (dummyMount "/foo" 0) := by
  decide

theorem fooRegistered_offsetOk : OffsetOk fooRegistered := by
  intro i e he
  by_cases hi : i = 0
  · subst hi
    rw [fooRegistered_slot0] at he
    cases he
    exact ⟨rfl, by decide⟩
  · have hfun : fooRegistered.s_vfs
        = Function.update State.init.s_vfs 0 (some (dummyMount "/foo" 0)) := rfl
    rw [hfun, Function.update_noteq hi] at he
    cases he

/-- C7 as stated fails: in the state after `xf_vfs_register("/foo")`, with every
descriptor row unused and a backend whose `open` returns 256, `xf_vfs_open`
returns fd 0 but row 0 holds `local_fd == 0`, not 256: `local_fd_t` is
`uint8_t`. -/
theorem C7_open_local_fd_counterexample :
    xf_vfs_get_vfs_for_path_ptr fooRegistered "/foo/file".toList
      = some (0, dummyMount "/foo" 0) ∧
    (bigFdBackend (BackendCall.open_ 0 (uses_ctx (dummyMount "/foo" 0))
      (translate_path (dummyMount "/foo" 0) "/foo/file".toList) XF_VFS_O_RDONLY 0)).ret = 256 ∧
    (fooRegistered.s_fd_table 0).vfs_index = -1 ∧
    (xf_vfs_open bigFdBackend fooRegistered "/foo/file".toList XF_VFS_O_RDONLY 0).1 = 0 ∧
    ((xf_vfs_open bigFdBackend fooRegistered "/foo/file".toList XF_VFS_O_RDONLY 0).2.s_fd_table
      0).local_fd = 0 := by
  decide

/-- C7 (amended): for every state in which the path resolves to a mount `m` in
slot `k` (not blocked by the read-only check) whose operation set has `open`,
the backend open returns `b >= 0` and at least one descriptor row is unused,
`xf_vfs_open` returns the index `i` of the lowest unused row, and afterwards
row `i` has `permanent == false`, `vfs_index == m.offset` and
`local_fd == b mod 256` (so `local_fd == b` when `b < 256`), while every other
row is unchanged. -/
theorem C7_open_claims_lowest_unused_row (be : Backend) (s : State) (path : List Char)
    (flags mode : Int) (k : Nat) (m : xf_vfs_entry_t)
    (hoff : OffsetOk s)
    (hres : xf_vfs_get_vfs_for_path_ptr s path = some (k, m))
    (hro : ¬ (Int.land flags XF_VFS_O_ACCMODE ≠ XF_VFS_O_RDONLY ∧
      Int.land m.flags XF_VFS_FLAG_READONLY_FS ≠ 0))
    (hopen : m.vfs.open_ = true)
    (hb : 0 ≤ (be (BackendCall.open_ k (uses_ctx m) (translate_path m path) flags mode)).ret)
    (hfree : ∃ j, j < XF_VFS_FDS_MAX ∧ (s.s_fd_table j).vfs_index = -1) :
    ∃ i : Nat,
      (xf_vfs_open be s path flags mode).1 = (i : Int) ∧
      i < XF_VFS_FDS_MAX ∧ (s.s_fd_table i).vfs_index = -1 ∧
      (∀ j, j < i → (s.s_fd_table j).vfs_index ≠ -1) ∧
      ((xf_vfs_open be s path flags mode).2.s_fd_table i).permanent = false ∧
      ((xf_vfs_open be s path flags mode).2.s_fd_table i).vfs_index = m.offset ∧
      (((xf_vfs_open be s path flags mode).2.s_fd_table i).local_fd : Int) =
        (be (BackendCall.open_ k (uses_ctx m) (translate_path m path) flags mode)).ret % 256 ∧
      ((be (BackendCall.open_ k (uses_ctx m) (translate_path m path) flags mode)).ret < 256 →
        (((xf_vfs_open be s path flags mode).2.s_fd_table i).local_fd : Int) =
          (be (BackendCall.open_ k (uses_ctx m) (translate_path m path) flags mode)).ret) ∧
      ∀ j, j ≠ i → (xf_vfs_open be s path flags mode).2.s_fd_table j = s.s_fd_table j := by
  obtain ⟨i, hi⟩ := first_unused_row_exists s.s_fd_table hfree
  obtain ⟨hlt, hun, hlow⟩ := first_unused_row_some s.s_fd_table i hi
  obtain ⟨h1, h2, _, _⟩ := open_success be s path flags mode k m i hres hro hopen hb hi
  obtain ⟨hoff1, hoff2⟩ := hoff k m (ptr_some s path k m hres).2
  refine ⟨i, h1, hlt, hun, hlow, ?_, ?_, ?_, ?_, ?_⟩
  · rw [h2, Function.update_same]
  · rw [h2, Function.update_same]
    simp only
    rw [hoff1]
    exact to_vfs_index_t_of_small _ (by omega) (by exact_mod_cast hoff2)
  · rw [h2, Function.update_same]
    exact to_local_fd_t_cast _
  · intro hsmall
    rw [h2, Function.update_same]
    simp only
    rw [to_local_fd_t_cast]
    omega
  · intro j hj
    rw [h2, Function.update_noteq hj]

/-- Witness for C7 (amended): the first `xf_vfs_open("/foo/file")` after
`xf_vfs_register("/foo")`, with a backend that returns 1, yields fd 0 and row 0
holds `local_fd == 1`. -/
theorem C7_open_claims_lowest_unused_row_witness :
    OffsetOk fooRegistered ∧
    ∃ i : Nat,
      (xf_vfs_open okBackend fooRegistered "/foo/file".toList XF_VFS_O_RDONLY 0).1 = (i : Int) ∧
      (((xf_vfs_open okBackend fooRegistered "/foo/file".toList XF_VFS_O_RDONLY 0).2.s_fd_table
        i).local_fd : Int) = 1 := by
  refine ⟨fooRegistered_offsetOk, ?_⟩
  obtain ⟨i, h1, _, _, _, _, _, _, h8, _⟩ :=
    C7_open_claims_lowest_unused_row okBackend fooRegistered "/foo/file".toList
      XF_VFS_O_RDONLY 0 0 (dummyMount "/foo" 0) fooRegistered_offsetOk (by decide) (by decide)
      (by decide) (by decide) ⟨0, by decide, by decide⟩
  exact ⟨i, h1, h8 (by decide)⟩

theorem get_vfs_for_fd_some (s : State) (fd : Int) (k : Nat) (e : xf_vfs_entry_t)
    (h : get_vfs_for_fd s fd = some (k, e)) :
    fd_valid fd = true ∧ 0 ≤ (s.s_fd_table fd.toNat).vfs_index ∧
      (s.s_fd_table fd.toNat).vfs_index < (s.s_vfs_count : Int) ∧
      k = (s.s_fd_table fd.toNat).vfs_index.toNat ∧ s.s_vfs k = some e := by
  unfold get_vfs_for_fd at h
  by_cases hv : fd_valid fd = true
  · rw [if_pos hv] at h
    simp only at h
    unfold xf_vfs_get_vfs_for_index at h
    split_ifs at h with hc
    push_neg at hc
    cases hs : s.s_vfs (s.s_fd_table fd.toNat).vfs_index.toNat with
    | none => rw [hs] at h; cases h
    | some e' =>
      rw [hs] at h
      simp only [Option.map_some', Option.some.injEq, Prod.mk.injEq] at h
      obtain ⟨rfl, rfl⟩ := h
      exact ⟨hv, hc.1, hc.2, rfl, hs⟩
  · rw [if_neg hv] at h
    cases h

/-- C9: for every fd that names a used row whose mount exists and provides
`close`: `xf_vfs_close(fd)` calls the backend's close on the row's `local_fd`
and returns exactly its result, whatever that is; the row is unchanged if it is
permanent, equals the unused entry if it is not permanent and has no pending
select, and otherwise only gets `has_pending_close` set (keeping `vfs_index`
and `local_fd`); no other row changes. -/
theorem C9_close_row_transition (be : Backend) (s : State) (fd : Int) (k : Nat)
    (e : xf_vfs_entry_t)
    (hvfs : get_vfs_for_fd s fd = some (k, e))
    (hclose : e.vfs.close = true) :
    (s.s_fd_table fd.toNat).vfs_index ≠ -1 ∧
    (xf_vfs_close be s fd).1 =
      (be (BackendCall.close k (uses_ctx e) ((s.s_fd_table fd.toNat).local_fd : Int))).ret ∧
    ((s.s_fd_table fd.toNat).permanent = true →
      (xf_vfs_close be s fd).2.s_fd_table fd.toNat = s.s_fd_table fd.toNat) ∧
    ((s.s_fd_table fd.toNat).permanent = false →
      (s.s_fd_table fd.toNat).has_pending_select = false →
      (xf_vfs_close be s fd).2.s_fd_table fd.toNat = FD_TABLE_ENTRY_UNUSED) ∧
    ((s.s_fd_table fd.toNat).permanent = false →
      (s.s_fd_table fd.toNat).has_pending_select = true →
      (xf_vfs_close be s fd).2.s_fd_table fd.toNat
        = { s.s_fd_table fd.toNat with has_pending_close := true }) ∧
    (∀ j, j ≠ fd.toNat → (xf_vfs_close be s fd).2.s_fd_table j = s.s_fd_table j) := by
  obtain ⟨hv, h0, _, _, _⟩ := get_vfs_for_fd_some s fd k e hvfs
  have hloc : get_local_fd s (some (k, e)) fd = ((s.s_fd_table fd.toNat).local_fd : Int) := by
    unfold get_local_fd
    simp [hv]
  have hnn : ¬ (((s.s_fd_table fd.toNat).local_fd : Int) < 0) := by omega
  unfold xf_vfs_close
  simp only [hvfs, hloc, hnn, if_false, hclose, Bool.true_eq_false, backend_call]
  refine ⟨by omega, trivial, fun hp => ?_, fun hp hs => ?_, fun hp hs => ?_, fun j hj => ?_⟩
  · simp [hp]
  · simp [hp, hs]
  · simp [hp, hs]
  · by_cases hp : (s.s_fd_table fd.toNat).permanent = true
    · simp [hp]
    · by_cases hs : (s.s_fd_table fd.toNat).has_pending_select = true
      · simp [hp, hs, Function.update_noteq hj]
      · simp [hp, hs, Function.update_noteq hj]

/-- Witness for C9: closing descriptor 0 of `fooSelecting`, which has a pending
select, with a backend whose close fails with -1: the result is -1 and the row
stays allocated with `has_pending_close` set. -/
theorem C9_close_row_transition_witness :
    (xf_vfs_close (fun _ => { ret := -1, errno := some Errno.EBADF }) fooSelecting 0).1 = -1 ∧
    (xf_vfs_close (fun _ => { ret := -1, errno := some Errno.EBADF }) fooSelecting 0).2.s_fd_table 0
      = { fooSelecting.s_fd_table 0 with has_pending_close := true } := by
  have h := C9_close_row_transition (fun _ => { ret := -1, errno := some Errno.EBADF })
    fooSelecting 0 0 (dummyMount "/foo" 0) (by decide) (by decide)
  exact ⟨h.2.1, h.2.2.2.2.1 (by decide) (by decide)⟩

/-! ## Theorems: read-only mounts -/

/-- C10: for every mount `m` (in slot `k`) that has `XF_VFS_FLAG_READONLY_FS`
set, each mutating call whose path(s) or fd resolve to that mount
(`xf_vfs_open` with an access mode other than `O_RDONLY`, `unlink`, `rename`,
`mkdir`, `rmdir`, `truncate`, `ftruncate`, `link`) returns -1 and leaves the
state as it was except for `errno = EROFS`; in particular the log of backend
invocations is unchanged, so no backend operation is invoked. -/
theorem C10_readonly_mount_rejects_mutation (be : Backend) (s : State) (k : Nat)
    (m : xf_vfs_entry_t) (hro : Int.land m.flags XF_VFS_FLAG_READONLY_FS ≠ 0) :
    (∀ path flags mode, xf_vfs_get_vfs_for_path_ptr s path = some (k, m) →
      Int.land flags XF_VFS_O_ACCMODE ≠ XF_VFS_O_RDONLY →
      xf_vfs_open be s path flags mode = (-1, { s with errno := Errno.EROFS })) ∧
    (∀ path, xf_vfs_get_vfs_for_path_ptr s path = some (k, m) →
      xf_vfs_unlink be s path = (-1, { s with errno := Errno.EROFS })) ∧
    (∀ src dst, xf_vfs_get_vfs_for_path_ptr s src = some (k, m) →
      xf_vfs_get_vfs_for_path_ptr s dst = some (k, m) →
      xf_vfs_rename be s src dst = (-1, { s with errno := Errno.EROFS })) ∧
    (∀ name mode, xf_vfs_get_vfs_for_path_ptr s name = some (k, m) →
      xf_vfs_mkdir be s name mode = (-1, { s with errno := Errno.EROFS })) ∧
    (∀ name, xf_vfs_get_vfs_for_path_ptr s name = some (k, m) →
      xf_vfs_rmdir be s name = (-1, { s with errno := Errno.EROFS })) ∧
    (∀ path length, xf_vfs_get_vfs_for_path_ptr s path = some (k, m) →
      xf_vfs_truncate be s path length = (-1, { s with errno := Errno.EROFS })) ∧
    (∀ fd length, get_vfs_for_fd s fd = some (k, m) →
      xf_vfs_ftruncate be s fd length = (-1, { s with errno := Errno.EROFS })) ∧
    (∀ n1 n2, xf_vfs_get_vfs_for_path_ptr s n1 = some (k, m) →
      xf_vfs_get_vfs_for_path_ptr s n2 = some (k, m) →
      xf_vfs_link be s n1 n2 = (-1, { s with errno := Errno.EROFS })) := by
  refine ⟨?_, ?_, ?_, ?_, ?_, ?_, ?_, ?_⟩
  · intro path flags mode hres hacc
    unfold xf_vfs_open
    simp [hres, hacc, hro]
  · intro path hres
    unfold xf_vfs_unlink
    simp [hres, hro]
  · intro src dst hsrc _
    unfold xf_vfs_rename
    simp [hsrc, hro]
  · intro name mode hres
    unfold xf_vfs_mkdir
    simp [hres, hro]
  · intro name hres
    unfold xf_vfs_rmdir
    simp [hres, hro]
  · intro path length hres
    unfold xf_vfs_truncate
    simp [hres, hro]
  · intro fd length hvfs
    obtain ⟨hv, _, _, _, _⟩ := get_vfs_for_fd_some s fd k m hvfs
    have hloc : get_local_fd s (some (k, m)) fd = ((s.s_fd_table fd.toNat).local_fd : Int) := by
      unfold get_local_fd
      simp [hv]
    have hnn : ¬ (((s.s_fd_table fd.toNat).local_fd : Int) < 0) := by omega
    unfold xf_vfs_ftruncate
    simp only [hvfs, hloc, hnn, if_false, hro, ne_eq, not_false_eq_true, if_true]
  · intro n1 n2 h1 h2
    unfold xf_vfs_link
    simp [h1, h2, hro]

/-- Witness for C10 on a table whose mount at `/foo` is read-only and provides
every mutating operation: opening `/foo/file` for writing and truncating
descriptor 0 both fail with `EROFS` and invoke nothing. -/
theorem C10_readonly_mount_rejects_mutation_witness :
    xf_vfs_open okBackend readonlyMounts "/foo/file".toList XF_VFS_O_WRONLY 0
      = (-1, { readonlyMounts with errno := Errno.EROFS }) ∧
    xf_vfs_ftruncate okBackend readonlyMounts 0 0
      = (-1, { readonlyMounts with errno := Errno.EROFS }) ∧
    (xf_vfs_unlink okBackend readonlyMounts "/foo/file".toList).2.calls = [] := by
  have h := C10_readonly_mount_rejects_mutation okBackend readonlyMounts 0 readonlyFoo
    (by decide)
  refine ⟨h.1 _ _ _ (by decide) (by decide), h.2.2.2.2.2.2.1 _ _ (by decide), ?_⟩
  rw [h.2.1 _ (by decide)]
  rfl

/-! ## Theorems: unregistration by prefix -/

/-- The two ways `xf_vfs_unregister` can go: no slot below `s_vfs_count` passes
its test, or it hands the first such slot to `xf_vfs_unregister_with_id`. -/
theorem unregister_cases (s : State) (base_path : List Char) :
    (xf_vfs_unregister s base_path = (xf_err_t.XF_ERR_INVALID_STATE, s) ∧
      ∀ i, i < s.s_vfs_count → ∀ e, s.s_vfs i = some e → ¬ UnregMatch e base_path) ∨
    (∃ k e, k < s.s_vfs_count ∧ s.s_vfs k = some e ∧ UnregMatch e base_path ∧
      (∀ i, i < k → ∀ e', s.s_vfs i = some e' → ¬ UnregMatch e' base_path) ∧
      xf_vfs_unregister s base_path = xf_vfs_unregister_with_id s (k : Int)) := by
  unfold xf_vfs_unregister
  simp only
  cases hf : (List.range s.s_vfs_count).find? (fun i =>
      match s.s_vfs i with
      | none => false
      | some vfs =>
        decide (base_path.length = vfs.path_prefix_len ∧
          xf_memcmp base_path vfs.path_prefix vfs.path_prefix_len = 0)) with
  | none =>
    left
    refine ⟨rfl, fun i hi e he hm => ?_⟩
    have := List.find?_eq_none.1 hf i (List.mem_range.2 hi)
    rw [he] at this
    simp only [decide_eq_true_eq] at this
    exact this hm
  | some k =>
    right
    obtain ⟨hk, hq, hlow⟩ := range_find?_some _ _ _ hf
    cases hs : s.s_vfs k with
    | none =>
      rw [hs] at hq
      cases hq
    | some e =>
      rw [hs] at hq
      simp only [decide_eq_true_eq] at hq
      refine ⟨k, e, hk, hs, hq, fun i hi e' he' hm => ?_, rfl⟩
      have := hlow i hi
      rw [he'] at this
      simp only [decide_eq_false_iff_not] at this
      exact this hm

/-- For an entry that takes part in path matching and records the length of its
prefix, the code's test says the prefix is exactly `p`. -/
theorem unregMatch_iff_holdsPrefix (e : xf_vfs_entry_t) (p : List Char)
    (hlen : e.path_prefix_len = e.path_prefix.length) :
    UnregMatch e p ↔ HoldsPrefix e p := by
  unfold UnregMatch HoldsPrefix
  rw [xf_memcmp_eq_zero_iff]
  constructor
  · rintro ⟨h1, h2⟩
    refine ⟨h1.symm, ?_⟩
    rw [← h1, List.take_length, h1, hlen, List.take_length] at h2
    exact h2.symm
  · rintro ⟨h1, h2⟩
    refine ⟨h1.symm, ?_⟩
    rw [h2]

theorem unregister_with_id_of_occupied (s : State) (k : Nat) (e : xf_vfs_entry_t)
    (hk : k < XF_VFS_MAX_COUNT) (he : s.s_vfs k = some e) :
    xf_vfs_unregister_with_id s (k : Int) =
      (xf_err_t.XF_OK,
        { s with
          s_vfs := Function.update s.s_vfs k none,
          s_fd_table := unregister_sweep s.s_fd_table (k : Int) }) := by
  unfold xf_vfs_unregister_with_id
  have hc : ¬ ((k : Int) < 0 ∨ (k : Int) ≥ (XF_VFS_MAX_COUNT : Int) ∨
      (s.s_vfs (k : Int).toNat).isNone = true) := by
    simp only [Int.toNat_ofNat, he, Option.isNone_some, Bool.false_eq_true, or_false]
    omega
  rw [if_neg hc]
  simp only [Int.toNat_ofNat]

/-- `xf_vfs_unregister` on a well-formed table returns `XF_ERR_INVALID_STATE`
without touching the state when no occupied slot holds exactly `p`, and
`XF_OK` otherwise. -/
theorem unregister_ret (s : State) (p : List Char)
    (hcount : CountOk s) (hwf : PrefixLenOk s)
    (hstr : p.length ≠ XF_VFS_PATH_PREFIX_LEN_IGNORED) :
    ((¬ ∃ i e, s.s_vfs i = some e ∧ HoldsPrefix e p) →
      xf_vfs_unregister s p = (xf_err_t.XF_ERR_INVALID_STATE, s)) ∧
    ((∃ i e, s.s_vfs i = some e ∧ HoldsPrefix e p) →
      (xf_vfs_unregister s p).1 = xf_err_t.XF_OK) := by
  have conv : ∀ i e, s.s_vfs i = some e → (UnregMatch e p ↔ HoldsPrefix e p) := by
    intro i e he
    by_cases hign : e.path_prefix_len = XF_VFS_PATH_PREFIX_LEN_IGNORED
    · constructor
      · rintro ⟨h1, _⟩
        exact absurd (h1.trans hign) hstr
      · rintro ⟨h1, _⟩
        exact absurd (h1.symm.trans hign) hstr
    · exact unregMatch_iff_holdsPrefix e p (hwf i e he hign)
  rcases unregister_cases s p with ⟨hres, hall⟩ | ⟨k, e, hk, he, hm, _, hres⟩
  · refine ⟨fun _ => hres, ?_⟩
    rintro ⟨i, e, he, hh⟩
    exact absurd ((conv i e he).2 hh) (hall i (hcount.2 i e he) e he)
  · have hk8 : k < XF_VFS_MAX_COUNT := lt_of_lt_of_le hk hcount.1
    refine ⟨fun hno => absurd ⟨k, e, he, (conv k e he).1 hm⟩ hno, fun _ => ?_⟩
    rw [hres, unregister_with_id_of_occupied s k e hk8 he]

/-- C11: on a well-formed mount table, `xf_vfs_unregister(p)` returns
`XF_ERR_INVALID_STATE` if and only if no occupied mount slot holds a prefix of
exactly the same length and bytes as `p`, and in that case the whole state
(mount table and descriptor table) is unchanged. -/
theorem C11_unregister_invalid_state_iff_no_exact_prefix (s : State) (p : List Char)
    (hcount : CountOk s) (hwf : PrefixLenOk s)
    (hstr : p.length ≠ XF_VFS_PATH_PREFIX_LEN_IGNORED) :
    ((xf_vfs_unregister s p).1 = xf_err_t.XF_ERR_INVALID_STATE ↔
      ¬ ∃ i e, s.s_vfs i = some e ∧ HoldsPrefix e p) ∧
    ((xf_vfs_unregister s p).1 = xf_err_t.XF_ERR_INVALID_STATE →
      (xf_vfs_unregister s p).2 = s) := by
  obtain ⟨hno, hyes⟩ := unregister_ret s p hcount hwf hstr
  have hiff : (xf_vfs_unregister s p).1 = xf_err_t.XF_ERR_INVALID_STATE ↔
      ¬ ∃ i e, s.s_vfs i = some e ∧ HoldsPrefix e p := by
    constructor
    · intro h hex
      rw [hyes hex] at h
      cases h
    · intro h
      rw [hno h]
  refine ⟨hiff, fun h => ?_⟩
  rw [hno (hiff.1 h)]

theorem countOk_of_list (s : State) (l : List (Option xf_vfs_entry_t))
    (hs : s.s_vfs = slots l) (hc : s.s_vfs_count = l.length)
    (h8 : l.length ≤ XF_VFS_MAX_COUNT) : CountOk s := by
  refine ⟨by rw [hc]; exact h8, fun i e he => ?_⟩
  rw [hs] at he
  unfold slots at he
  rw [List.getD_eq_getElem?_getD] at he
  rw [hc]
  by_contra hge
  rw [List.getElem?_eq_none (by omega)] at he
  cases he

/-- Witness for C11 on the test suite's nested mounts: `/foo/b` matches neither
`/foo` nor `/foo/bar`, so unregistering it returns `XF_ERR_INVALID_STATE` and
changes nothing. -/
theorem C11_unregister_invalid_state_iff_no_exact_prefix_witness :
    (xf_vfs_unregister nestedMountsA "/foo/b".toList).1 = xf_err_t.XF_ERR_INVALID_STATE ∧
    (xf_vfs_unregister nestedMountsA "/foo/b".toList).2 = nestedMountsA ∧
    ¬ ∃ i e, nestedMountsA.s_vfs i = some e ∧ HoldsPrefix e "/foo/b".toList := by
  have h := C11_unregister_invalid_state_iff_no_exact_prefix nestedMountsA "/foo/b".toList
    (countOk_of_list _ _ rfl rfl (by decide)) (prefixLenOk_of_list _ _ rfl (by decide))
    (by decide)
  have hret : (xf_vfs_unregister nestedMountsA "/foo/b".toList).1
      = xf_err_t.XF_ERR_INVALID_STATE := by decide
  exact ⟨hret, h.2 hret, h.1.1 hret⟩

/-! ## Theorems: the resolver after a slot is emptied -/

theorem step_congr (T T' : Nat → Option xf_vfs_entry_t) (path : List Char)
    (acc : Option Nat × Int) (n : Nat) (h : T n = T' n) :
    get_vfs_for_path_step T path acc n = get_vfs_for_path_step T' path acc n := by
  unfold get_vfs_for_path_step
  rw [h]

theorem step_of_empty (T : Nat → Option xf_vfs_entry_t) (path : List Char)
    (acc : Option Nat × Int) (n : Nat) (h : T n = none) :
    get_vfs_for_path_step T path acc n = acc := by
  unfold get_vfs_for_path_step
  rw [h]

theorem loop_congr (T T' : Nat → Option xf_vfs_entry_t) (path : List Char) (n : Nat)
    (h : ∀ i, i < n → T i = T' i) :
    get_vfs_for_path_loop T path n = get_vfs_for_path_loop T' path n := by
  induction n with
  | zero => rfl
  | succ n ih =>
    rw [get_vfs_for_path_loop_succ, get_vfs_for_path_loop_succ,
      ih (fun i hi => h i (by omega)), step_congr T T' path _ n (h n (by omega))]

/-- The possible results of one resolver iteration. -/
theorem step_result (T : Nat → Option xf_vfs_entry_t) (path : List Char)
    (acc : Option Nat × Int) (n : Nat) :
    get_vfs_for_path_step T path acc n = acc ∨
    get_vfs_for_path_step T path acc n = (some n, acc.2) ∨
    ∃ e, T n = some e ∧ acc.2 < (e.path_prefix_len : Int) ∧
      get_vfs_for_path_step T path acc n = (some n, (e.path_prefix_len : Int)) := by
  unfold get_vfs_for_path_step
  cases hn : T n with
  | none => exact Or.inl rfl
  | some e =>
    simp only
    split_ifs with h1 h2 h3 h4 h5
    · exact Or.inl rfl
    · exact Or.inl rfl
    · exact Or.inr (Or.inl rfl)
    · exact Or.inl rfl
    · exact Or.inr (Or.inr ⟨e, rfl, h5, rfl⟩)
    · exact Or.inl rfl

/-- A successful `xf_vfs_unregister` empties one occupied slot, keeps
`s_vfs_count` and leaves every other slot as it was. -/
theorem unregister_ok_table (s : State) (P : List Char)
    (hok : (xf_vfs_unregister s P).1 = xf_err_t.XF_OK) :
    ∃ k e, k < s.s_vfs_count ∧ s.s_vfs k = some e ∧ UnregMatch e P ∧
      (∀ i, i < k → ∀ e', s.s_vfs i = some e' → ¬ UnregMatch e' P) ∧
      (xf_vfs_unregister s P).2.s_vfs = Function.update s.s_vfs k none ∧
      (xf_vfs_unregister s P).2.s_vfs_count = s.s_vfs_count ∧
      (xf_vfs_unregister s P).2.s_fd_table = unregister_sweep s.s_fd_table (k : Int) := by
  rcases unregister_cases s P with ⟨hres, _⟩ | ⟨k, e, hk, he, hm, hfirst, hres⟩
  · rw [hres] at hok
    cases hok
  · refine ⟨k, e, hk, he, hm, hfirst, ?_⟩
    rw [hres] at hok ⊢
    unfold xf_vfs_unregister_with_id at hok ⊢
    split_ifs at hok ⊢ with hc
    simp only [Int.toNat_ofNat]
    trivial

/-- C12 as stated fails: with three fallback mounts registered, `/x` resolves to
the mount in slot 1; `xf_vfs_unregister("")` succeeds, empties slot 0 and leaves
slots 1 and 2 as they were, yet `/x` now resolves to the mount in slot 2. -/
theorem C12_unregister_three_fallbacks_counterexample :
    xf_vfs_get_vfs_for_path_idx tripleFallback "/x".toList = some 1 ∧
    (xf_vfs_unregister tripleFallback []).1 = xf_err_t.XF_OK ∧
    (xf_vfs_unregister tripleFallback []).2.s_vfs 0 = none ∧
    (xf_vfs_unregister tripleFallback []).2.s_vfs 1 = tripleFallback.s_vfs 1 ∧
    (xf_vfs_unregister tripleFallback []).2.s_vfs 2 = tripleFallback.s_vfs 2 ∧
    xf_vfs_get_vfs_for_path_idx (xf_vfs_unregister tripleFallback []).2 "/x".toList
      = some 2 := by
  decide

/-! ## Theorems: register then unregister -/

/-- A successful `xf_vfs_register_fs_common` took the lowest free slot and left
the state `state_with_mount`. -/
theorem register_fs_common_ok (s : State) (base_path : List Char) (len : Nat)
    (ops : xf_vfs_fs_ops_t) (flags : Int) (ctx : Nat) (heap : List Bool)
    (h : (xf_vfs_register_fs_common s base_path len (some ops) flags ctx heap).ret
      = xf_err_t.XF_OK) :
    ∃ index, xf_get_free_index s = some index ∧
      (xf_vfs_register_fs_common s base_path len (some ops) flags ctx heap).vfs_index
        = some index ∧
      (xf_vfs_register_fs_common s base_path len (some ops) flags ctx heap).state
        = state_with_mount s index (registered_entry base_path len ops flags ctx index) ∧
      (len ≠ XF_VFS_PATH_PREFIX_LEN_IGNORED → len ≤ XF_VFS_PATH_MAX) := by
  unfold xf_vfs_register_fs_common at h ⊢
  simp only at h ⊢
  by_cases h1 : len ≠ XF_VFS_PATH_PREFIX_LEN_IGNORED ∧ (len = 1 ∨ len > XF_VFS_PATH_MAX)
  · rw [if_pos h1] at h
    cases h
  · rw [if_neg h1] at h ⊢
    by_cases h2 : len ≠ XF_VFS_PATH_PREFIX_LEN_IGNORED ∧ len ≥ 2 ∧
        (base_path.getD 0 NUL ≠ '/' ∨ base_path.getD (len - 1) NUL = '/')
    · rw [if_pos h2] at h
      cases h
    · rw [if_neg h2] at h ⊢
      cases hidx : xf_get_free_index s with
      | none =>
        rw [hidx] at h
        cases h
      | some index =>
        obtain ⟨_, hnone⟩ := get_free_index_lt s index hidx
        rw [hidx] at h
        simp only [hnone, Option.isSome_none, Bool.false_eq_true, if_false] at h ⊢
        by_cases hm : (xf_malloc heap).1 = true
        · simp only [hm, Bool.not_true, Bool.false_eq_true, if_false]
          refine ⟨index, rfl, rfl, ?_, fun hne => ?_⟩
          · unfold state_with_mount registered_entry
            by_cases hc : index = s.s_vfs_count
            · simp only [hc, if_true]
            · simp only [hc, if_false]
          · by_contra hc
            exact h1 ⟨hne, Or.inr (by omega)⟩
        · have hm' : (xf_malloc heap).1 = false := by simpa using hm
          simp only [hm', Bool.not_false, if_true] at h
          cases h

theorem make_fs_ops_ret_ok (v : xf_vfs_t) (heap : List Bool) (ops : Option xf_vfs_fs_ops_t)
    (heap' : List Bool) (h : xf_vfs_make_fs_ops v heap = (xf_err_t.XF_OK, ops, heap')) :
    ∃ o, ops = some o := by
  unfold xf_vfs_make_fs_ops xf_minify_vfs at h
  simp only at h
  split_ifs at h <;> simp at h <;> exact ⟨_, h.1.symm⟩

/-- A successful `xf_vfs_register_common` stored, in the lowest free slot, an
entry with the given length and the flags of `v`. -/
theorem register_common_ok (s : State) (base_path : List Char) (len : Nat) (v : xf_vfs_t)
    (ctx : Nat) (heap : List Bool)
    (h : (xf_vfs_register_common s base_path len (some v) ctx heap).ret = xf_err_t.XF_OK) :
    ∃ index ops, xf_get_free_index s = some index ∧
      (xf_vfs_register_common s base_path len (some v) ctx heap).vfs_index = some index ∧
      (xf_vfs_register_common s base_path len (some v) ctx heap).state
        = state_with_mount s index (registered_entry base_path len ops v.flags ctx index) ∧
      (len ≠ XF_VFS_PATH_PREFIX_LEN_IGNORED → len ≤ XF_VFS_PATH_MAX) := by
  unfold xf_vfs_register_common at h ⊢
  simp only at h ⊢
  by_cases hst : Int.land v.flags XF_VFS_FLAG_STATIC ≠ 0
  · rw [if_pos hst] at h
    cases h
  · rw [if_neg hst] at h ⊢
    rcases hmk : xf_vfs_make_fs_ops v heap with ⟨ret, ops, heap'⟩
    rw [hmk] at h
    cases ret <;> try (exact absurd h (by simp))
    obtain ⟨o, rfl⟩ := make_fs_ops_ret_ok v heap ops heap' hmk
    simp only at h ⊢
    obtain ⟨index, h1, h2, h3, h4⟩ :=
      register_fs_common_ok s base_path len o v.flags ctx heap' h
    exact ⟨index, o, h1, h2, h3, h4⟩

theorem free_index_le_count (s : State) (index : Nat) (hcount : CountOk s)
    (h : xf_get_free_index s = some index) : index ≤ s.s_vfs_count := by
  unfold xf_get_free_index at h
  obtain ⟨_, _, hlow⟩ := range_find?_some _ _ _ h
  by_contra hgt
  have := hlow s.s_vfs_count (by omega)
  cases hs : s.s_vfs s.s_vfs_count with
  | none =>
    rw [hs] at this
    cases this
  | some e =>
    have := hcount.2 _ e hs
    omega

theorem init_countOk : CountOk State.init :=
  ⟨Nat.zero_le _, fun i e he => by cases he⟩

/-- What the rollback loop of `xf_vfs_register_fd_range` does to each row. -/
theorem rollback_apply (tbl : Nat → fd_table_t) (index : Int) (a len j : Nat) :
    ((List.range' a len).foldl
      (fun t j => if (t j).vfs_index = index then Function.update t j FD_TABLE_ENTRY_UNUSED
        else t) tbl) j
      = if a ≤ j ∧ j < a + len ∧ (tbl j).vfs_index = index then FD_TABLE_ENTRY_UNUSED
        else tbl j := by
  induction len generalizing j with
  | zero =>
    simp only [List.range'_zero, List.foldl_nil]
    rw [if_neg]
    omega
  | succ n ih =>
    rw [List.range'_concat, List.foldl_append]
    simp only [List.foldl_cons, List.foldl_nil, Nat.one_mul]
    have hn := ih (a + n)
    rw [if_neg (by omega)] at hn
    rw [hn]
    by_cases hid : (tbl (a + n)).vfs_index = index
    · rw [if_pos hid]
      by_cases hj : j = a + n
      · subst hj
        rw [Function.update_same, if_pos ⟨by omega, by omega, hid⟩]
      · rw [Function.update_noteq hj, ih j]
        by_cases hc : a ≤ j ∧ j < a + n ∧ (tbl j).vfs_index = index
        · rw [if_pos hc, if_pos ⟨hc.1, by omega, hc.2.2⟩]
        · rw [if_neg hc, if_neg]
          rintro ⟨h1, h2, h3⟩
          exact hc ⟨h1, by omega, h3⟩
    · rw [if_neg hid, ih j]
      by_cases hc : a ≤ j ∧ j < a + n ∧ (tbl j).vfs_index = index
      · rw [if_pos hc, if_pos ⟨hc.1, by omega, hc.2.2⟩]
      · rw [if_neg hc, if_neg]
        rintro ⟨h1, h2, h3⟩
        by_cases hj : j = a + n
        · subst hj
          exact hid h3
        · exact hc ⟨h1, by omega, h3⟩

theorem register_fd_range_rollback_apply (tbl : Nat → fd_table_t) (index : Int)
    (min_fd i j : Nat) (hle : min_fd ≤ i) :
    register_fd_range_rollback tbl index min_fd i j
      = if min_fd ≤ j ∧ j < i ∧ (tbl j).vfs_index = index then FD_TABLE_ENTRY_UNUSED
        else tbl j := by
  unfold register_fd_range_rollback
  rw [rollback_apply]
  have : min_fd + (i - min_fd) = i := by omega
  rw [this]

/-- The claiming loop over rows that are all unused claims each of them. -/
theorem register_fd_range_loop_ok (index : Int) (min_fd : Nat) (n i : Nat)
    (tbl : Nat → fd_table_t)
    (hrows : ∀ j, i ≤ j → j < i + n → (tbl j).vfs_index = -1) :
    register_fd_range_loop index min_fd n i tbl =
      (true, fun j => if i ≤ j ∧ j < i + n then claimed_row (tbl j) index j else tbl j) := by
  induction n generalizing i tbl with
  | zero =>
    unfold register_fd_range_loop
    congr 1
    funext j
    rw [if_neg]
    omega
  | succ n ih =>
    unfold register_fd_range_loop
    have hi := hrows i (le_refl _) (by omega)
    rw [if_neg (by rw [hi]; simp)]
    rw [ih (i + 1)]
    · congr 1
      funext j
      by_cases hj : j = i
      · subst hj
        rw [if_neg (by omega), if_pos ⟨le_refl _, by omega⟩, Function.update_same]
        rfl
      · rw [Function.update_noteq hj]
        by_cases hc : i ≤ j ∧ j < i + (n + 1)
        · rw [if_pos hc, if_pos ⟨by omega, by omega⟩]
        · rw [if_neg hc, if_neg]
          omega
    · intro j h1 h2
      rw [Function.update_noteq (by omega)]
      exact hrows j (by omega) (by omega)

/-- The claiming loop that meets a used row `c` first: every row it had claimed
so far, from `min_fd` on, is reset to the unused entry; no other row changes. -/
theorem register_fd_range_loop_conflict (index : Int) (min_fd : Nat)
    (hidx : to_vfs_index_t index = index) (n i c : Nat) (tbl : Nat → fd_table_t)
    (hmin : min_fd ≤ i)
    (hclaimed : ∀ j, min_fd ≤ j → j < i → (tbl j).vfs_index = index)
    (hc1 : i ≤ c) (hc2 : c < i + n) (hused : (tbl c).vfs_index ≠ -1)
    (hfirst : ∀ j, i ≤ j → j < c → (tbl j).vfs_index = -1) :
    register_fd_range_loop index min_fd n i tbl =
      (false, fun j => if min_fd ≤ j ∧ j < c then FD_TABLE_ENTRY_UNUSED else tbl j) := by
  induction n generalizing i tbl with
  | zero => omega
  | succ n ih =>
    unfold register_fd_range_loop
    by_cases hi : (tbl i).vfs_index ≠ -1
    · rw [if_pos hi]
      have hci : c = i := by
        by_contra hne
        exact hi (hfirst i (le_refl _) (by omega))
      subst hci
      congr 1
      funext j
      rw [register_fd_range_rollback_apply tbl index min_fd c j hmin]
      by_cases hj : min_fd ≤ j ∧ j < c
      · rw [if_pos ⟨hj.1, hj.2, hclaimed j hj.1 hj.2⟩, if_pos hj]
      · rw [if_neg hj, if_neg]
        rintro ⟨h1, h2, _⟩
        exact hj ⟨h1, h2⟩
    · rw [if_neg hi]
      have hlt : i < c := by
        by_contra hge
        have : c = i := by omega
        subst this
        exact hi hused
      rw [ih (i + 1) _ (by omega)]
      · congr 1
        funext j
        by_cases hj : min_fd ≤ j ∧ j < c
        · rw [if_pos hj, if_pos hj]
        · rw [if_neg hj, if_neg hj, Function.update_noteq]
          omega
      · intro j h1 h2
        by_cases hj : j = i
        · subst hj
          rw [Function.update_same]
          exact hidx
        · rw [Function.update_noteq hj]
          exact hclaimed j h1 (by omega)
      · omega
      · omega
      · rw [Function.update_noteq (by omega)]
        exact hused
      · intro j h1 h2
        rw [Function.update_noteq (by omega)]
        exact hfirst j (by omega) h2

/-- With a usable operation set, a free slot and successful allocation,
`xf_vfs_register_common` with the IGNORED length succeeds and stores, in the
lowest free slot, an entry whose prefix length is the IGNORED sentinel. -/
theorem register_common_ignored_ok (s : State) (v : xf_vfs_t) (ctx : Nat)
    (heap : List Bool)
    (hstatic : Int.land v.flags XF_VFS_FLAG_STATIC = 0)
    (hfree : ∃ i, i < XF_VFS_MAX_COUNT ∧ s.s_vfs i = none)
    (halloc : AllocOk heap) :
    ∃ index ops, xf_get_free_index s = some index ∧
      (xf_vfs_register_common s [] XF_VFS_PATH_PREFIX_LEN_IGNORED (some v) ctx heap).ret
        = xf_err_t.XF_OK ∧
      (xf_vfs_register_common s [] XF_VFS_PATH_PREFIX_LEN_IGNORED (some v) ctx heap).vfs_index
        = some index ∧
      (xf_vfs_register_common s [] XF_VFS_PATH_PREFIX_LEN_IGNORED (some v) ctx heap).state
        = state_with_mount s index
            (registered_entry [] XF_VFS_PATH_PREFIX_LEN_IGNORED ops v.flags ctx index) := by
  have hret : (xf_vfs_register_common s [] XF_VFS_PATH_PREFIX_LEN_IGNORED (some v) ctx
      heap).ret = xf_err_t.XF_OK := by
    obtain ⟨ops, heap', hmk, halloc'⟩ := make_fs_ops_ok v heap halloc
    obtain ⟨index, hidx, hnone⟩ := get_free_index_of_free s hfree
    obtain ⟨hm, _⟩ := allocOk_malloc heap' halloc'
    unfold xf_vfs_register_common
    simp only [hstatic, ne_eq, not_true_eq_false, if_false, hmk]
    unfold xf_vfs_register_fs_common
    simp only [ne_eq, not_true_eq_false, false_and, if_false, hidx, hnone,
      Option.isSome_none, Bool.false_eq_true, hm, Bool.not_true]
  obtain ⟨index, ops, h1, h2, h3, _⟩ :=
    register_common_ok s [] XF_VFS_PATH_PREFIX_LEN_IGNORED v ctx heap hret
  exact ⟨index, ops, h1, hret, h2, h3⟩

theorem to_local_fd_t_of_small (j : Nat) (h : j < 256) : to_local_fd_t (j : Int) = j := by
  unfold to_local_fd_t
  omega

/-- Claim C14. For `0 <= min_fd <= max_fd <= XF_VFS_FDS_MAX`, a usable
operation set, a free mount slot, successful allocation and every row in
`[min_fd, max_fd)` unused, `xf_vfs_register_fd_range` returns `XF_OK`, stores in
the lowest free slot `index` a mount whose prefix length is the IGNORED sentinel
(the other slots keep their content), leaves every row `j` of the range with
`permanent == true`, `local_fd == j` and `vfs_index == index`, and leaves the
rows outside the range unchanged. -/
theorem C14_register_fd_range_claims_rows (s : State) (v : xf_vfs_t) (ctx : Nat)
    (min_fd max_fd : Int) (heap : List Bool)
    (hmin : 0 ≤ min_fd) (hle : min_fd ≤ max_fd) (hmax : max_fd ≤ (XF_VFS_FDS_MAX : Int))
    (hstatic : Int.land v.flags XF_VFS_FLAG_STATIC = 0)
    (hfree : ∃ i, i < XF_VFS_MAX_COUNT ∧ s.s_vfs i = none)
    (halloc : AllocOk heap)
    (hrows : ∀ j : Nat, min_fd ≤ (j : Int) → (j : Int) < max_fd →
      (s.s_fd_table j).vfs_index = -1) :
    ∃ index e,
      xf_get_free_index s = some index ∧ index < XF_VFS_MAX_COUNT ∧ s.s_vfs index = none ∧
      (xf_vfs_register_fd_range s (some v) ctx min_fd max_fd heap).1 = xf_err_t.XF_OK ∧
      (xf_vfs_register_fd_range s (some v) ctx min_fd max_fd heap).2.s_vfs index = some e ∧
      e.path_prefix_len = XF_VFS_PATH_PREFIX_LEN_IGNORED ∧ e.offset = (index : Int) ∧
      (∀ i, i ≠ index →
        (xf_vfs_register_fd_range s (some v) ctx min_fd max_fd heap).2.s_vfs i = s.s_vfs i) ∧
      (∀ j : Nat, min_fd ≤ (j : Int) → (j : Int) < max_fd →
        ((xf_vfs_register_fd_range s (some v) ctx min_fd max_fd heap).2.s_fd_table j).permanent
          = true ∧
        ((xf_vfs_register_fd_range s (some v) ctx min_fd max_fd heap).2.s_fd_table j).local_fd
          = j ∧
        ((xf_vfs_register_fd_range s (some v) ctx min_fd max_fd heap).2.s_fd_table j).vfs_index
          = (index : Int)) ∧
      (∀ j : Nat, ¬ (min_fd ≤ (j : Int) ∧ (j : Int) < max_fd) →
        (xf_vfs_register_fd_range s (some v) ctx min_fd max_fd heap).2.s_fd_table j
          = s.s_fd_table j) := by
  obtain ⟨index, ops, hidx, hret, hvi, hst⟩ :=
    register_common_ignored_ok s v ctx heap hstatic hfree halloc
  obtain ⟨hlt, hnone⟩ := get_free_index_lt s index hidx
  have hloop := register_fd_range_loop_ok (index : Int) min_fd.toNat
    (max_fd.toNat - min_fd.toNat) min_fd.toNat s.s_fd_table
    (fun j h1 h2 => hrows j (by omega) (by omega))
  have hres : xf_vfs_register_fd_range s (some v) ctx min_fd max_fd heap =
      (xf_err_t.XF_OK,
        { state_with_mount s index
            (registered_entry [] XF_VFS_PATH_PREFIX_LEN_IGNORED ops v.flags ctx index) with
          s_fd_table := fun j =>
            if min_fd.toNat ≤ j ∧ j < min_fd.toNat + (max_fd.toNat - min_fd.toNat) then
              claimed_row (s.s_fd_table j) (index : Int) j
            else s.s_fd_table j }) := by
    unfold xf_vfs_register_fd_range
    unfold XF_VFS_FDS_MAX at hmax ⊢
    rw [if_neg (by omega)]
    simp only [hret, hvi, hst, Option.getD_some, if_true]
    have hloop2 : register_fd_range_loop (index : Int) min_fd.toNat
        (max_fd.toNat - min_fd.toNat) min_fd.toNat
        (state_with_mount s index
          (registered_entry [] XF_VFS_PATH_PREFIX_LEN_IGNORED ops v.flags ctx index)).s_fd_table
        = _ := hloop
    rw [hloop2]
  rw [hres]
  have hvidx : to_vfs_index_t (index : Int) = (index : Int) :=
    to_vfs_index_t_of_small _ (by omega) (by exact_mod_cast hlt)
  refine ⟨index, registered_entry [] XF_VFS_PATH_PREFIX_LEN_IGNORED ops v.flags ctx index,
    hidx, hlt, hnone, rfl, ?_, rfl, rfl, ?_, ?_, ?_⟩
  · simp [state_with_mount]
  · intro i hi
    simp [state_with_mount, Function.update_noteq hi]
  · intro j h1 h2
    unfold XF_VFS_FDS_MAX at hmax
    have hin : min_fd.toNat ≤ j ∧ j < min_fd.toNat + (max_fd.toNat - min_fd.toNat) := by
      omega
    simp only [if_pos hin, claimed_row, hvidx]
    exact ⟨trivial, to_local_fd_t_of_small j (by omega), trivial⟩
  · intro j hj
    have hout : ¬ (min_fd.toNat ≤ j ∧ j < min_fd.toNat + (max_fd.toNat - min_fd.toNat)) := by
      omega
    simp only [if_neg hout]

/-- Witness for C14: `xf_vfs_register_fd_range(vfs, ctx, 0, 4)` at program
start claims descriptors 0..3 for mount 0 and leaves descriptor 4 unused. -/
theorem C14_register_fd_range_claims_rows_witness :
    (xf_vfs_register_fd_range State.init (some DUMMY_VFS) 0 0 4 []).1 = xf_err_t.XF_OK ∧
    (∀ j : Nat, (j : Int) < 4 →
      ((xf_vfs_register_fd_range State.init (some DUMMY_VFS) 0 0 4 []).2.s_fd_table j).permanent
        = true ∧
      ((xf_vfs_register_fd_range State.init (some DUMMY_VFS) 0 0 4 []).2.s_fd_table j).local_fd
        = j ∧
      ((xf_vfs_register_fd_range State.init (some DUMMY_VFS) 0 0 4 []).2.s_fd_table j).vfs_index
        = 0) ∧
    (xf_vfs_register_fd_range State.init (some DUMMY_VFS) 0 0 4 []).2.s_fd_table 4
      = FD_TABLE_ENTRY_UNUSED := by
  obtain ⟨index, e, hidx, _, _, hret, _, _, _, _, hin, hout⟩ :=
    C14_register_fd_range_claims_rows State.init DUMMY_VFS 0 0 4 [] (by decide) (by decide)
      (by decide) (by decide) ⟨0, by decide, rfl⟩ (fun b hb => by cases hb)
      (fun j _ _ => rfl)
  have h0 : index = 0 := by
    have : xf_get_free_index State.init = some 0 := by decide
    rw [this] at hidx
    exact (Option.some.inj hidx).symm
  subst h0
  refine ⟨hret, fun j hj => hin j (by omega) hj, ?_⟩
  rw [hout 4 (by omega)]
  rfl

/-- What `xf_vfs_register_fd_range` does when `c` is the first used row of the
range: the mount table is as before, the rows `[min_fd, c)` hold the unused
entry, and no other row changes. -/
theorem register_fd_range_conflict (s : State) (v : xf_vfs_t) (ctx : Nat)
    (min_fd max_fd : Int) (heap : List Bool) (c : Nat)
    (hmin : 0 ≤ min_fd) (hmax : max_fd ≤ (XF_VFS_FDS_MAX : Int))
    (hstatic : Int.land v.flags XF_VFS_FLAG_STATIC = 0)
    (hfree : ∃ i, i < XF_VFS_MAX_COUNT ∧ s.s_vfs i = none)
    (halloc : AllocOk heap)
    (hc1 : min_fd ≤ (c : Int)) (hc2 : (c : Int) < max_fd)
    (hused : (s.s_fd_table c).vfs_index ≠ -1)
    (hfirst : ∀ j : Nat, min_fd ≤ (j : Int) → j < c → (s.s_fd_table j).vfs_index = -1) :
    (xf_vfs_register_fd_range s (some v) ctx min_fd max_fd heap).1
      = xf_err_t.XF_ERR_INVALID_ARG ∧
    (∀ i, (xf_vfs_register_fd_range s (some v) ctx min_fd max_fd heap).2.s_vfs i = s.s_vfs i) ∧
    (∀ j : Nat,
      (xf_vfs_register_fd_range s (some v) ctx min_fd max_fd heap).2.s_fd_table j
        = if min_fd ≤ (j : Int) ∧ j < c then FD_TABLE_ENTRY_UNUSED else s.s_fd_table j) := by
  obtain ⟨index, ops, hidx, hret, hvi, hst⟩ :=
    register_common_ignored_ok s v ctx heap hstatic hfree halloc
  obtain ⟨hlt, hnone⟩ := get_free_index_lt s index hidx
  have hvidx : to_vfs_index_t (index : Int) = (index : Int) :=
    to_vfs_index_t_of_small _ (by omega) (by exact_mod_cast hlt)
  have hloop := register_fd_range_loop_conflict (index : Int) min_fd.toNat hvidx
    (max_fd.toNat - min_fd.toNat) min_fd.toNat c s.s_fd_table (le_refl _)
    (fun j h1 h2 => by omega) (by omega) (by omega) hused
    (fun j h1 h2 => hfirst j (by omega) h2)
  have hres : xf_vfs_register_fd_range s (some v) ctx min_fd max_fd heap =
      (xf_err_t.XF_ERR_INVALID_ARG,
        { state_with_mount s index
            (registered_entry [] XF_VFS_PATH_PREFIX_LEN_IGNORED ops v.flags ctx index) with
          s_vfs := Function.update (state_with_mount s index
            (registered_entry [] XF_VFS_PATH_PREFIX_LEN_IGNORED ops v.flags ctx index)).s_vfs
            index none
          s_fd_table := fun j =>
            if min_fd.toNat ≤ j ∧ j < c then FD_TABLE_ENTRY_UNUSED else s.s_fd_table j }) := by
    unfold xf_vfs_register_fd_range
    unfold XF_VFS_FDS_MAX at hmax ⊢
    rw [if_neg (by omega)]
    simp only [hret, hvi, hst, Option.getD_some, if_true]
    have hloop2 : register_fd_range_loop (index : Int) min_fd.toNat
        (max_fd.toNat - min_fd.toNat) min_fd.toNat
        (state_with_mount s index
          (registered_entry [] XF_VFS_PATH_PREFIX_LEN_IGNORED ops v.flags ctx index)).s_fd_table
        = _ := hloop
    rw [hloop2]
    simp only [Int.toNat_ofNat]
  rw [hres]
  refine ⟨rfl, ?_, ?_⟩
  · intro i
    simp only [state_with_mount, Function.update_idem]
    by_cases hi : i = index
    · subst hi
      rw [Function.update_same, hnone]
    · rw [Function.update_noteq hi]
  · intro j
    by_cases hj : min_fd ≤ (j : Int) ∧ j < c
    · rw [if_pos hj]
      simp only
      rw [if_pos ⟨by omega, hj.2⟩]
    · rw [if_neg hj]
      simp only
      rw [if_neg]
      omega

/-- Counterexample to C15 as stated: in `staleSelectFlag` descriptor 1 is used
and descriptor 0 is unused but carries `has_pending_select`. The call
`xf_vfs_register_fd_range(vfs, ctx, 0, 2)` claims row 0, meets row 1, returns
`XF_ERR_INVALID_ARG` and resets row 0 to `FD_TABLE_ENTRY_UNUSED`, which is not
the value row 0 had before the call. -/
theorem C15_register_fd_range_rollback_counterexample :
    (staleSelectFlag.s_fd_table 0).vfs_index = -1 ∧
    (staleSelectFlag.s_fd_table 1).vfs_index ≠ -1 ∧
    (xf_vfs_register_fd_range staleSelectFlag (some DUMMY_VFS) 0 0 2 []).1
      = xf_err_t.XF_ERR_INVALID_ARG ∧
    (xf_vfs_register_fd_range staleSelectFlag (some DUMMY_VFS) 0 0 2 []).2.s_fd_table 0
      = FD_TABLE_ENTRY_UNUSED ∧
    (xf_vfs_register_fd_range staleSelectFlag (some DUMMY_VFS) 0 0 2 []).2.s_fd_table 0
      ≠ staleSelectFlag.s_fd_table 0 := by
  decide

/-- Claim C15 (amended). When `c` is the first used row of `[min_fd, max_fd)`
(bounds in range, usable operation set, free mount slot, successful
allocation), `xf_vfs_register_fd_range` returns `XF_ERR_INVALID_ARG`, every
mount slot, the one it allocated included, is as before the call, each row
claimed before the conflict (`min_fd <= j < c`) holds `FD_TABLE_ENTRY_UNUSED`,
and every other row equals its value before the call; so does a claimed row
that held `FD_TABLE_ENTRY_UNUSED` before. -/
theorem C15_register_fd_range_rollback (s : State) (v : xf_vfs_t) (ctx : Nat)
    (min_fd max_fd : Int) (heap : List Bool) (c : Nat)
    (hmin : 0 ≤ min_fd) (hmax : max_fd ≤ (XF_VFS_FDS_MAX : Int))
    (hstatic : Int.land v.flags XF_VFS_FLAG_STATIC = 0)
    (hfree : ∃ i, i < XF_VFS_MAX_COUNT ∧ s.s_vfs i = none)
    (halloc : AllocOk heap)
    (hc1 : min_fd ≤ (c : Int)) (hc2 : (c : Int) < max_fd)
    (hused : (s.s_fd_table c).vfs_index ≠ -1)
    (hfirst : ∀ j : Nat, min_fd ≤ (j : Int) → j < c → (s.s_fd_table j).vfs_index = -1) :
    (xf_vfs_register_fd_range s (some v) ctx min_fd max_fd heap).1
      = xf_err_t.XF_ERR_INVALID_ARG ∧
    (∀ i, (xf_vfs_register_fd_range s (some v) ctx min_fd max_fd heap).2.s_vfs i = s.s_vfs i) ∧
    (∀ j : Nat, min_fd ≤ (j : Int) → j < c →
      (xf_vfs_register_fd_range s (some v) ctx min_fd max_fd heap).2.s_fd_table j
        = FD_TABLE_ENTRY_UNUSED) ∧
    (∀ j : Nat, ¬ (min_fd ≤ (j : Int) ∧ j < c) →
      (xf_vfs_register_fd_range s (some v) ctx min_fd max_fd heap).2.s_fd_table j
        = s.s_fd_table j) ∧
    (∀ j : Nat, s.s_fd_table j = FD_TABLE_ENTRY_UNUSED →
      (xf_vfs_register_fd_range s (some v) ctx min_fd max_fd heap).2.s_fd_table j
        = s.s_fd_table j) := by
  obtain ⟨h1, h2, h3⟩ := register_fd_range_conflict s v ctx min_fd max_fd heap c hmin hmax
    hstatic hfree halloc hc1 hc2 hused hfirst
  refine ⟨h1, h2, ?_, ?_, ?_⟩
  · intro j ha hb
    rw [h3 j, if_pos ⟨ha, hb⟩]
  · intro j hj
    rw [h3 j, if_neg hj]
  · intro j hj
    rw [h3 j]
    by_cases hc : min_fd ≤ (j : Int) ∧ j < c
    · rw [if_pos hc, hj]
    · rw [if_neg hc]

/-- Witness for C15 (amended): with descriptor 2 open on mount 0,
`xf_vfs_register_fd_range(vfs, ctx, 0, 4)` fails and every row is as before. -/
theorem C15_register_fd_range_rollback_witness :
    (xf_vfs_register_fd_range fooThirdOpen (some DUMMY_VFS) 0 0 4 []).1
      = xf_err_t.XF_ERR_INVALID_ARG ∧
    (∀ j : Nat,
      (xf_vfs_register_fd_range fooThirdOpen (some DUMMY_VFS) 0 0 4 []).2.s_fd_table j
        = fooThirdOpen.s_fd_table j) := by
  have h := C15_register_fd_range_rollback fooThirdOpen DUMMY_VFS 0 0 4 [] 2 (by decide)
    (by decide) (by decide) ⟨1, by decide, by decide⟩ (fun b hb => by cases hb)
    (by decide) (by decide) (by decide)
    (fun j _ hj => by
      have hj2 : j ≠ 2 := by omega
      show (Function.update (fun _ => FD_TABLE_ENTRY_UNUSED) 2 _ j).vfs_index = -1
      rw [Function.update_noteq hj2]
      rfl)
  refine ⟨h.1, fun j => ?_⟩
  by_cases hj : (0 : Int) ≤ (j : Int) ∧ j < 2
  · apply h.2.2.2.2 j
    have hj2 : j ≠ 2 := by omega
    show Function.update (fun _ => FD_TABLE_ENTRY_UNUSED) 2 _ j = FD_TABLE_ENTRY_UNUSED
    rw [Function.update_noteq hj2]
  · exact h.2.2.2.1 j hj

/-! ## Theorems: xf_vfs_register_fd_with_local_fd -/

theorem first_unused_row_none (tbl : Nat → fd_table_t)
    (h : ∀ j, j < XF_VFS_FDS_MAX → (tbl j).vfs_index ≠ -1) : first_unused_row tbl = none := by
  unfold first_unused_row
  rw [List.find?_eq_none]
  intro j hj
  simpa using h j (List.mem_range.1 hj)

/-- Counterexample to C16 as stated: after `xf_vfs_register("/foo")`,
`xf_vfs_register_fd_with_local_fd(0, 256, true, &fd)` returns `XF_OK` with
`fd == 0`, but row 0 holds `local_fd == 0`, not the given 256: the column is
the 8-bit `local_fd_t`. -/
theorem C16_register_fd_local_fd_counterexample :
    (0 : Int) < (fooRegistered.s_vfs_count : Int) ∧
    (xf_vfs_register_fd_with_local_fd fooRegistered 0 256 true true).ret = xf_err_t.XF_OK ∧
    (xf_vfs_register_fd_with_local_fd fooRegistered 0 256 true true).fd = some 0 ∧
    ((xf_vfs_register_fd_with_local_fd fooRegistered 0 256 true true).state.s_fd_table
      0).local_fd = 0 := by
  decide

/-- Claim C16 (amended). For `0 <= vfs_id < s_vfs_count` (with
`s_vfs_count <= XF_VFS_MAX_COUNT`, as registration keeps it) and a non-NULL out
pointer: if some row is unused, `xf_vfs_register_fd_with_local_fd` returns
`XF_OK`, writes the index `i` of the lowest unused row to `*fd`, and row `i`
gets `permanent` as requested, `vfs_index == vfs_id` and
`local_fd == local_fd mod 256` when `local_fd >= 0` (so the given value when it
is below 256) or `i` when it is negative; nothing else changes. If no row is
unused it returns `XF_ERR_NO_MEM`, writes nothing and leaves the state as it
was. -/
theorem C16_register_fd_claims_lowest_unused_row (s : State) (vfs_id local_fd : Int)
    (permanent : Bool)
    (h0 : 0 ≤ vfs_id) (h1 : vfs_id < (s.s_vfs_count : Int))
    (hcount : s.s_vfs_count ≤ XF_VFS_MAX_COUNT) :
    ((∃ j, j < XF_VFS_FDS_MAX ∧ (s.s_fd_table j).vfs_index = -1) →
      ∃ i : Nat,
        i < XF_VFS_FDS_MAX ∧ (s.s_fd_table i).vfs_index = -1 ∧
        (∀ j, j < i → (s.s_fd_table j).vfs_index ≠ -1) ∧
        (xf_vfs_register_fd_with_local_fd s vfs_id local_fd permanent true).ret
          = xf_err_t.XF_OK ∧
        (xf_vfs_register_fd_with_local_fd s vfs_id local_fd permanent true).fd
          = some (i : Int) ∧
        (xf_vfs_register_fd_with_local_fd s vfs_id local_fd permanent true).state =
          { s with
            s_fd_table := Function.update s.s_fd_table i
              { s.s_fd_table i with
                permanent := permanent,
                vfs_index := vfs_id,
                local_fd := if local_fd ≥ 0 then (local_fd % 256).toNat else i } } ∧
        (0 ≤ local_fd → local_fd < 256 →
          (((xf_vfs_register_fd_with_local_fd s vfs_id local_fd permanent true).state.s_fd_table
            i).local_fd : Int) = local_fd) ∧
        (∀ j, j ≠ i →
          (xf_vfs_register_fd_with_local_fd s vfs_id local_fd permanent true).state.s_fd_table j
            = s.s_fd_table j)) ∧
    ((∀ j, j < XF_VFS_FDS_MAX → (s.s_fd_table j).vfs_index ≠ -1) →
      (xf_vfs_register_fd_with_local_fd s vfs_id local_fd permanent true).ret
        = xf_err_t.XF_ERR_NO_MEM ∧
      (xf_vfs_register_fd_with_local_fd s vfs_id local_fd permanent true).fd = none ∧
      (xf_vfs_register_fd_with_local_fd s vfs_id local_fd permanent true).state = s) := by
  have hvid : to_vfs_index_t vfs_id = vfs_id :=
    to_vfs_index_t_of_small _ h0 (by
      have : (s.s_vfs_count : Int) ≤ (XF_VFS_MAX_COUNT : Int) := by exact_mod_cast hcount
      omega)
  have hguard : ¬ (vfs_id < 0 ∨ vfs_id ≥ (s.s_vfs_count : Int) ∨ true = false) := by
    simp only [Bool.true_eq_false, or_false]
    omega
  constructor
  · intro hfree
    obtain ⟨i, hi⟩ := first_unused_row_exists s.s_fd_table hfree
    obtain ⟨hlt, hun, hlow⟩ := first_unused_row_some s.s_fd_table i hi
    have hres : xf_vfs_register_fd_with_local_fd s vfs_id local_fd permanent true =
        ⟨xf_err_t.XF_OK, some (i : Int),
          { s with
            s_fd_table := Function.update s.s_fd_table i
              { s.s_fd_table i with
                permanent := permanent,
                vfs_index := vfs_id,
                local_fd := if local_fd ≥ 0 then (local_fd % 256).toNat else i } }⟩ := by
      unfold xf_vfs_register_fd_with_local_fd
      rw [if_neg hguard, hi]
      simp only [hvid]
      have hli : to_local_fd_t (i : Int) = i :=
        to_local_fd_t_of_small i (by unfold XF_VFS_FDS_MAX at hlt; omega)
      rw [hli]
      rfl
    rw [hres]
    refine ⟨i, hlt, hun, hlow, rfl, rfl, rfl, ?_, ?_⟩
    · intro ha hb
      simp only [Function.update_same]
      rw [if_pos ha]
      omega
    · intro j hj
      simp only [Function.update_noteq hj]
  · intro hfull
    have hn := first_unused_row_none s.s_fd_table hfull
    unfold xf_vfs_register_fd_with_local_fd
    rw [if_neg hguard, hn]
    exact ⟨rfl, rfl, rfl⟩

/-- Witness for C16 (amended): `xf_vfs_register_fd(0, &fd)` after
`xf_vfs_register("/foo")` claims row 0 with `local_fd == 0`. -/
theorem C16_register_fd_claims_lowest_unused_row_witness :
    ∃ i : Nat,
      (xf_vfs_register_fd_with_local_fd fooRegistered 0 (-1) true true).ret = xf_err_t.XF_OK ∧
      (xf_vfs_register_fd_with_local_fd fooRegistered 0 (-1) true true).fd = some (i : Int) ∧
      (∀ j, j ≠ i →
        (xf_vfs_register_fd_with_local_fd fooRegistered 0 (-1) true true).state.s_fd_table j
          = fooRegistered.s_fd_table j) := by
  obtain ⟨i, _, _, _, h1, h2, _, _, h3⟩ :=
    (C16_register_fd_claims_lowest_unused_row fooRegistered 0 (-1) true (by decide)
      (by decide) (by decide)).1 ⟨0, by decide, by decide⟩
  exact ⟨i, h1, h2, h3⟩

/-! ## Theorems: xf_vfs_open with a full descriptor table -/

set_option maxRecDepth 1000000 in
/-- Counterexample to C17 as stated: the mount at `/foo` provides `open` but no
`close`, every descriptor row is in use, and the backend `open` returns 1. Then
`xf_vfs_open` returns -1 with `errno == ENOSYS` (not `ENOMEM`), and the only
backend call it made is the `open`: the backend descriptor is not closed. -/
theorem C17_open_full_table_counterexample :
    (∀ j, j < XF_VFS_FDS_MAX → (openOnlyFull.s_fd_table j).vfs_index ≠ -1) ∧
    (xf_vfs_get_vfs_for_path_ptr openOnlyFull "/foo/file".toList).isSome = true ∧
    (okBackend (BackendCall.open_ 0 false (some "/file".toList) XF_VFS_O_RDONLY 0)).ret = 1 ∧
    (xf_vfs_open okBackend openOnlyFull "/foo/file".toList XF_VFS_O_RDONLY 0).1 = -1 ∧
    (xf_vfs_open okBackend openOnlyFull "/foo/file".toList XF_VFS_O_RDONLY 0).2.errno
      = Errno.ENOSYS ∧
    (xf_vfs_open okBackend openOnlyFull "/foo/file".toList XF_VFS_O_RDONLY 0).2.calls
      = openOnlyFull.calls ++
        [BackendCall.open_ 0 false (some "/file".toList) XF_VFS_O_RDONLY 0] := by
  decide

/-- Claim C17 (amended). With no unused descriptor row, a path that resolves to
the mount `m` in slot `k` and a backend `open` that returns `b >= 0`:
if `m` provides `close`, `xf_vfs_open` calls the backend `close` on `b`, returns
-1 and leaves `errno == ENOMEM`; if `m` has no `close`, it returns -1 with
`errno == ENOSYS` and makes no further backend call. In both cases the mount
and descriptor tables are unchanged. -/
theorem C17_open_full_table_closes_backend_fd (be : Backend) (s : State) (path : List Char)
    (flags mode : Int) (k : Nat) (m : xf_vfs_entry_t)
    (hres : xf_vfs_get_vfs_for_path_ptr s path = some (k, m))
    (hro : ¬ (Int.land flags XF_VFS_O_ACCMODE ≠ XF_VFS_O_RDONLY ∧
      Int.land m.flags XF_VFS_FLAG_READONLY_FS ≠ 0))
    (hopen : m.vfs.open_ = true)
    (hb : 0 ≤ (be (BackendCall.open_ k (uses_ctx m) (translate_path m path) flags mode)).ret)
    (hfull : ∀ j, j < XF_VFS_FDS_MAX → (s.s_fd_table j).vfs_index ≠ -1) :
    (m.vfs.close = true →
      xf_vfs_open be s path flags mode =
        (-1, { s with
          errno := Errno.ENOMEM,
          calls := s.calls ++
            [BackendCall.open_ k (uses_ctx m) (translate_path m path) flags mode,
             BackendCall.close k (uses_ctx m)
              (be (BackendCall.open_ k (uses_ctx m) (translate_path m path) flags mode)).ret] })) ∧
    (m.vfs.close = false →
      xf_vfs_open be s path flags mode =
        (-1, { s with
          errno := Errno.ENOSYS,
          calls := s.calls ++
            [BackendCall.open_ k (uses_ctx m) (translate_path m path) flags mode] })) ∧
    (xf_vfs_open be s path flags mode).1 = -1 ∧
    (xf_vfs_open be s path flags mode).2.s_fd_table = s.s_fd_table ∧
    (xf_vfs_open be s path flags mode).2.s_vfs = s.s_vfs := by
  have hn := first_unused_row_none s.s_fd_table hfull
  have hT : m.vfs.close = true →
      xf_vfs_open be s path flags mode =
        (-1, { s with
          errno := Errno.ENOMEM,
          calls := s.calls ++
            [BackendCall.open_ k (uses_ctx m) (translate_path m path) flags mode,
             BackendCall.close k (uses_ctx m)
              (be (BackendCall.open_ k (uses_ctx m) (translate_path m path) flags mode)).ret] }) := by
    intro hclose
    unfold xf_vfs_open
    simp only [hres, hro, if_false, hopen, Bool.true_eq_false, backend_call, hb, ge_iff_le,
      if_true, hn, hclose]
    simp
  have hF : m.vfs.close = false →
      xf_vfs_open be s path flags mode =
        (-1, { s with
          errno := Errno.ENOSYS,
          calls := s.calls ++
            [BackendCall.open_ k (uses_ctx m) (translate_path m path) flags mode] }) := by
    intro hclose
    unfold xf_vfs_open
    simp only [hres, hro, if_false, hopen, Bool.true_eq_false, backend_call, hb, ge_iff_le,
      if_true, hn, hclose]
  refine ⟨hT, hF, ?_⟩
  cases hc : m.vfs.close
  · rw [hF hc]
    exact ⟨rfl, rfl, rfl⟩
  · rw [hT hc]
    exact ⟨rfl, rfl, rfl⟩

set_option maxRecDepth 1000000 in
/-- Witness for C17 (amended): after 64 opens on the `/foo` mount of the test
suite, which provides `close`, the next `xf_vfs_open` returns -1 with
`errno == ENOMEM` after closing the backend descriptor 1. -/
theorem C17_open_full_table_closes_backend_fd_witness :
    xf_vfs_open okBackend fooFull "/foo/file".toList XF_VFS_O_RDONLY 0 =
      (-1, { fooFull with
        errno := Errno.ENOMEM,
        calls := fooFull.calls ++
          [BackendCall.open_ 0 true (some "/file".toList) XF_VFS_O_RDONLY 0,
           BackendCall.close 0 true 1] }) :=
  (C17_open_full_table_closes_backend_fd okBackend fooFull "/foo/file".toList
    XF_VFS_O_RDONLY 0 0 (dummyMount "/foo" 0) (by decide) (by decide) (by decide) (by decide)
    (by decide)).1 (by decide)

/-! ## Theorems: invalid descriptors -/

theorem get_vfs_for_fd_of_bad (s : State) (fd : Int) (h : BadFd s fd) :
    get_vfs_for_fd s fd = none := by
  unfold get_vfs_for_fd
  by_cases hv : fd_valid fd = true
  · rw [if_pos hv]
    unfold fd_valid at hv
    simp only [Bool.and_eq_true, decide_eq_true_eq] at hv
    unfold xf_vfs_get_vfs_for_index
    simp only
    by_cases hr : (s.s_fd_table fd.toNat).vfs_index < 0 ∨
        (s.s_fd_table fd.toNat).vfs_index ≥ (s.s_vfs_count : Int)
    · rw [if_pos hr]
    · rw [if_neg hr]
      rcases h with h | h | h | h
      · omega
      · omega
      · omega
      · rw [h]
        rfl
  · rw [if_neg hv]

/-- Claim C18. For each of read, write, pread, pwrite, lseek, close, fstat,
fcntl, ioctl and fsync: if `fd < 0`, `fd >= XF_VFS_FDS_MAX`, the row of `fd` is
unused or the mount slot the row names is empty, the call returns -1 and the
state afterwards is the state before with `errno == EBADF`: no backend call is
logged and both tables are unchanged. -/
theorem C18_invalid_fd_gives_ebadf (be : Backend) (s : State) (fd : Int)
    (h : BadFd s fd) :
    (∀ dst size, xf_vfs_read be s fd dst size = (-1, { s with errno := Errno.EBADF })) ∧
    (∀ data size, xf_vfs_write be s fd data size = (-1, { s with errno := Errno.EBADF })) ∧
    (∀ dst size offset,
      xf_vfs_pread be s fd dst size offset = (-1, { s with errno := Errno.EBADF })) ∧
    (∀ src size offset,
      xf_vfs_pwrite be s fd src size offset = (-1, { s with errno := Errno.EBADF })) ∧
    (∀ size mode, xf_vfs_lseek be s fd size mode = (-1, { s with errno := Errno.EBADF })) ∧
    xf_vfs_close be s fd = (-1, { s with errno := Errno.EBADF }) ∧
    (∀ st, xf_vfs_fstat be s fd st = (-1, { s with errno := Errno.EBADF })) ∧
    (∀ cmd arg, xf_vfs_fcntl_r be s fd cmd arg = (-1, { s with errno := Errno.EBADF })) ∧
    (∀ cmd args, xf_vfs_ioctl be s fd cmd args = (-1, { s with errno := Errno.EBADF })) ∧
    xf_vfs_fsync be s fd = (-1, { s with errno := Errno.EBADF }) := by
  have hn := get_vfs_for_fd_of_bad s fd h
  refine ⟨?_, ?_, ?_, ?_, ?_, ?_, ?_, ?_, ?_, ?_⟩
  · intros
    unfold xf_vfs_read
    simp only [hn]
  · intros
    unfold xf_vfs_write
    simp only [hn]
  · intros
    unfold xf_vfs_pread
    simp only [hn]
  · intros
    unfold xf_vfs_pwrite
    simp only [hn]
  · intros
    unfold xf_vfs_lseek
    simp only [hn]
  · unfold xf_vfs_close
    simp only [hn]
  · intros
    unfold xf_vfs_fstat
    simp only [hn]
  · intros
    unfold xf_vfs_fcntl_r
    simp only [hn]
  · intros
    unfold xf_vfs_ioctl
    simp only [hn]
  · unfold xf_vfs_fsync
    simp only [hn]

set_option maxRecDepth 100000 in
/-- Witness for C18: with only `/foo` registered, descriptor 64 is out of range
and descriptor 0 is unused; after unregistering `/foo` with nine descriptors
open, descriptor 8 still names mount 0, whose slot is empty. Each call fails
with `EBADF`. -/
theorem C18_invalid_fd_gives_ebadf_witness :
    xf_vfs_close okBackend fooRegistered 64
      = (-1, { fooRegistered with errno := Errno.EBADF }) ∧
    xf_vfs_read okBackend fooRegistered 0 0 16
      = (-1, { fooRegistered with errno := Errno.EBADF }) ∧
    ((xf_vfs_unregister_with_id fooNineOpen 0).2.s_fd_table 8).vfs_index = 0 ∧
    xf_vfs_fsync okBackend (xf_vfs_unregister_with_id fooNineOpen 0).2 8
      = (-1, { (xf_vfs_unregister_with_id fooNineOpen 0).2 with errno := Errno.EBADF }) :=
  ⟨(C18_invalid_fd_gives_ebadf okBackend fooRegistered 64 (Or.inr (Or.inl (by decide)))).2.2.2.2.2.1,
   (C18_invalid_fd_gives_ebadf okBackend fooRegistered 0
      (Or.inr (Or.inr (Or.inl (by decide))))).1 0 16,
   by decide,
   (C18_invalid_fd_gives_ebadf okBackend (xf_vfs_unregister_with_id fooNineOpen 0).2 8
      (Or.inr (Or.inr (Or.inr (by decide))))).2.2.2.2.2.2.2.2.2⟩

/-! ## Theorems: absent operations -/

theorem check_and_call_subcomponent_null (be : Backend) (s : State) (e : xf_vfs_entry_t)
    (func : xf_vfs_dir_ops_t → Bool) (call : BackendCall) (h : DirSlotNull e func) :
    CHECK_AND_CALL_SUBCOMPONENT be s e func call = (-1, { s with errno := Errno.ENOSYS }) := by
  unfold CHECK_AND_CALL_SUBCOMPONENT
  cases hd : e.vfs.dir with
  | none => rfl
  | some d => simp [h d hd]

theorem check_and_call_subcomponentp_null (be : Backend) (s : State) (e : xf_vfs_entry_t)
    (func : xf_vfs_dir_ops_t → Bool) (call : BackendCall) (h : DirSlotNull e func) :
    CHECK_AND_CALL_SUBCOMPONENTP be s e func call = (0, { s with errno := Errno.ENOSYS }) := by
  unfold CHECK_AND_CALL_SUBCOMPONENTP
  cases hd : e.vfs.dir with
  | none => rfl
  | some d => simp [h d hd]

/-- A descriptor that names a mount has a non-negative `local_fd`. -/
theorem get_local_fd_nonneg (s : State) (fd : Int) (k : Nat) (e : xf_vfs_entry_t)
    (h : get_vfs_for_fd s fd = some (k, e)) :
    ¬ (get_local_fd s (some (k, e)) fd < 0) := by
  obtain ⟨hv, _⟩ := get_vfs_for_fd_some s fd k e h
  unfold get_local_fd
  simp [hv]

/-- Absent operations reached through a descriptor. -/
theorem enosys_fd_ops (be : Backend) (s : State) (fd : Int) (k : Nat) (e : xf_vfs_entry_t)
    (h : get_vfs_for_fd s fd = some (k, e)) :
    (e.vfs.write = false → ∀ data size,
      xf_vfs_write be s fd data size = (-1, { s with errno := Errno.ENOSYS })) ∧
    (e.vfs.lseek = false → ∀ size mode,
      xf_vfs_lseek be s fd size mode = (-1, { s with errno := Errno.ENOSYS })) ∧
    (e.vfs.read = false → ∀ dst size,
      xf_vfs_read be s fd dst size = (-1, { s with errno := Errno.ENOSYS })) ∧
    (e.vfs.pread = false → ∀ dst size offset,
      xf_vfs_pread be s fd dst size offset = (-1, { s with errno := Errno.ENOSYS })) ∧
    (e.vfs.pwrite = false → ∀ src size offset,
      xf_vfs_pwrite be s fd src size offset = (-1, { s with errno := Errno.ENOSYS })) ∧
    (e.vfs.close = false →
      xf_vfs_close be s fd = (-1, { s with errno := Errno.ENOSYS })) ∧
    (e.vfs.fstat = false → ∀ st,
      xf_vfs_fstat be s fd st = (-1, { s with errno := Errno.ENOSYS })) ∧
    (e.vfs.fcntl = false → ∀ cmd arg,
      xf_vfs_fcntl_r be s fd cmd arg = (-1, { s with errno := Errno.ENOSYS })) ∧
    (e.vfs.ioctl = false → ∀ cmd args,
      xf_vfs_ioctl be s fd cmd args = (-1, { s with errno := Errno.ENOSYS })) ∧
    (e.vfs.fsync = false →
      xf_vfs_fsync be s fd = (-1, { s with errno := Errno.ENOSYS })) ∧
    (Int.land e.flags XF_VFS_FLAG_READONLY_FS = 0 → DirSlotNull e (fun d => d.ftruncate) →
      ∀ length, xf_vfs_ftruncate be s fd length = (-1, { s with errno := Errno.ENOSYS })) := by
  have hloc := get_local_fd_nonneg s fd k e h
  refine ⟨?_, ?_, ?_, ?_, ?_, ?_, ?_, ?_, ?_, ?_, ?_⟩
  · intro hnull data size
    unfold xf_vfs_write CHECK_AND_CALL
    simp only [h, hloc, if_false, hnull, if_true]
  · intro hnull size mode
    unfold xf_vfs_lseek CHECK_AND_CALL
    simp only [h, hloc, if_false, hnull, if_true]
  · intro hnull dst size
    unfold xf_vfs_read CHECK_AND_CALL
    simp only [h, hloc, if_false, hnull, if_true]
  · intro hnull dst size offset
    unfold xf_vfs_pread CHECK_AND_CALL
    simp only [h, hloc, if_false, hnull, if_true]
  · intro hnull src size offset
    unfold xf_vfs_pwrite CHECK_AND_CALL
    simp only [h, hloc, if_false, hnull, if_true]
  · intro hnull
    unfold xf_vfs_close
    simp only [h, hloc, if_false, hnull, if_true]
  · intro hnull st
    unfold xf_vfs_fstat CHECK_AND_CALL
    simp only [h, hloc, if_false, hnull, if_true]
  · intro hnull cmd arg
    unfold xf_vfs_fcntl_r CHECK_AND_CALL
    simp only [h, hloc, if_false, hnull, if_true]
  · intro hnull cmd args
    unfold xf_vfs_ioctl CHECK_AND_CALL
    simp only [h, hloc, if_false, hnull, if_true]
  · intro hnull
    unfold xf_vfs_fsync CHECK_AND_CALL
    simp only [h, hloc, if_false, hnull, if_true]
  · intro hrw hnull length
    unfold xf_vfs_ftruncate
    simp only [h, hloc, if_false, hrw, ne_eq, not_true_eq_false]
    cases hd : e.vfs.dir with
    | none => rfl
    | some d => simp [hnull d hd]

/-- Absent operations reached through a path, for a call that is not stopped
by the read-only check. -/
theorem enosys_path_ops (be : Backend) (s : State) (path : List Char) (k : Nat)
    (e : xf_vfs_entry_t) (h : xf_vfs_get_vfs_for_path_ptr s path = some (k, e)) :
    (e.vfs.open_ = false → ∀ flags mode,
      ¬ (Int.land flags XF_VFS_O_ACCMODE ≠ XF_VFS_O_RDONLY ∧
        Int.land e.flags XF_VFS_FLAG_READONLY_FS ≠ 0) →
      xf_vfs_open be s path flags mode = (-1, { s with errno := Errno.ENOSYS })) ∧
    (DirSlotNull e (fun d => d.stat) → ∀ st,
      xf_vfs_stat be s path st = (-1, { s with errno := Errno.ENOSYS })) ∧
    (DirSlotNull e (fun d => d.utime) → ∀ times,
      xf_vfs_utime be s path times = (-1, { s with errno := Errno.ENOSYS })) ∧
    (DirSlotNull e (fun d => d.access) → ∀ amode,
      xf_vfs_access be s path amode = (-1, { s with errno := Errno.ENOSYS })) ∧
    (DirSlotNull e (fun d => d.opendir) →
      xf_vfs_opendir be s path = (none, { s with errno := Errno.ENOSYS })) ∧
    (Int.land e.flags XF_VFS_FLAG_READONLY_FS = 0 → DirSlotNull e (fun d => d.unlink) →
      xf_vfs_unlink be s path = (-1, { s with errno := Errno.ENOSYS })) ∧
    (Int.land e.flags XF_VFS_FLAG_READONLY_FS = 0 → DirSlotNull e (fun d => d.mkdir) →
      ∀ mode, xf_vfs_mkdir be s path mode = (-1, { s with errno := Errno.ENOSYS })) ∧
    (Int.land e.flags XF_VFS_FLAG_READONLY_FS = 0 → DirSlotNull e (fun d => d.rmdir) →
      xf_vfs_rmdir be s path = (-1, { s with errno := Errno.ENOSYS })) ∧
    (Int.land e.flags XF_VFS_FLAG_READONLY_FS = 0 → DirSlotNull e (fun d => d.truncate) →
      ∀ length, xf_vfs_truncate be s path length = (-1, { s with errno := Errno.ENOSYS })) ∧
    (Int.land e.flags XF_VFS_FLAG_READONLY_FS = 0 → DirSlotNull e (fun d => d.link) →
      ∀ n2, xf_vfs_get_vfs_for_path_ptr s n2 = some (k, e) →
        xf_vfs_link be s path n2 = (-1, { s with errno := Errno.ENOSYS })) ∧
    (Int.land e.flags XF_VFS_FLAG_READONLY_FS = 0 → DirSlotNull e (fun d => d.rename) →
      ∀ dst, xf_vfs_get_vfs_for_path_ptr s dst = some (k, e) →
        xf_vfs_rename be s path dst = (-1, { s with errno := Errno.ENOSYS })) := by
  refine ⟨?_, ?_, ?_, ?_, ?_, ?_, ?_, ?_, ?_, ?_, ?_⟩
  · intro hnull flags mode hro
    unfold xf_vfs_open
    simp only [h, hro, if_false, hnull, if_true]
  · intro hnull st
    unfold xf_vfs_stat
    simp only [h]
    exact check_and_call_subcomponent_null be s e _ _ hnull
  · intro hnull times
    unfold xf_vfs_utime
    simp only [h]
    exact check_and_call_subcomponent_null be s e _ _ hnull
  · intro hnull amode
    unfold xf_vfs_access
    simp only [h]
    exact check_and_call_subcomponent_null be s e _ _ hnull
  · intro hnull
    unfold xf_vfs_opendir
    simp only [h]
    cases hd : e.vfs.dir with
    | none => rfl
    | some d => simp [hnull d hd]
  · intro hrw hnull
    unfold xf_vfs_unlink
    simp only [h, hrw, ne_eq, not_true_eq_false, if_false]
    cases hd : e.vfs.dir with
    | none => rfl
    | some d => simp [hnull d hd]
  · intro hrw hnull mode
    unfold xf_vfs_mkdir
    simp only [h, hrw, ne_eq, not_true_eq_false, if_false]
    cases hd : e.vfs.dir with
    | none => rfl
    | some d => simp [hnull d hd]
  · intro hrw hnull
    unfold xf_vfs_rmdir
    simp only [h, hrw, ne_eq, not_true_eq_false, if_false]
    cases hd : e.vfs.dir with
    | none => rfl
    | some d => simp [hnull d hd]
  · intro hrw hnull length
    unfold xf_vfs_truncate
    simp only [h, hrw, ne_eq, not_true_eq_false, if_false]
    cases hd : e.vfs.dir with
    | none => rfl
    | some d => simp [hnull d hd]
  · intro hrw hnull n2 h2
    unfold xf_vfs_link
    simp only [h, h2, hrw, ne_eq, not_true_eq_false, if_false]
    cases hd : e.vfs.dir with
    | none => rfl
    | some d => simp [hnull d hd]
  · intro hrw hnull dst h2
    unfold xf_vfs_rename
    simp only [h, h2, hrw, ne_eq, not_true_eq_false, if_false]
    cases hd : e.vfs.dir with
    | none => rfl
    | some d => simp [hnull d hd]

/-- Absent operations reached through a directory handle. -/
theorem enosys_dir_ops (be : Backend) (s : State) (pdir : xf_vfs_dir_t) (k : Nat)
    (e : xf_vfs_entry_t)
    (h : xf_vfs_get_vfs_for_index s (pdir.dd_vfs_idx : Int) = some (k, e)) :
    (DirSlotNull e (fun d => d.readdir) →
      xf_vfs_readdir be s pdir = (0, { s with errno := Errno.ENOSYS })) ∧
    (DirSlotNull e (fun d => d.readdir_r) → ∀ entry out_dirent,
      xf_vfs_readdir_r be s pdir entry out_dirent = (-1, { s with errno := Errno.ENOSYS })) ∧
    (DirSlotNull e (fun d => d.telldir) →
      xf_vfs_telldir be s pdir = (-1, { s with errno := Errno.ENOSYS })) ∧
    (DirSlotNull e (fun d => d.seekdir) → ∀ loc,
      xf_vfs_seekdir be s pdir loc = { s with errno := Errno.ENOSYS }) ∧
    (DirSlotNull e (fun d => d.seekdir) →
      xf_vfs_rewinddir be s pdir = { s with errno := Errno.ENOSYS }) ∧
    (DirSlotNull e (fun d => d.closedir) →
      xf_vfs_closedir be s pdir = (-1, { s with errno := Errno.ENOSYS })) := by
  refine ⟨?_, ?_, ?_, ?_, ?_, ?_⟩
  · intro hnull
    unfold xf_vfs_readdir
    simp only [h]
    exact check_and_call_subcomponentp_null be s e _ _ hnull
  · intro hnull entry out_dirent
    unfold xf_vfs_readdir_r
    simp only [h]
    exact check_and_call_subcomponent_null be s e _ _ hnull
  · intro hnull
    unfold xf_vfs_telldir
    simp only [h]
    exact check_and_call_subcomponent_null be s e _ _ hnull
  · intro hnull loc
    unfold xf_vfs_seekdir
    simp only [h]
    rw [check_and_call_subcomponent_null be s e _ _ hnull]
  · intro hnull
    unfold xf_vfs_rewinddir xf_vfs_seekdir
    simp only [h]
    rw [check_and_call_subcomponent_null be s e _ _ hnull]
  · intro hnull
    unfold xf_vfs_closedir
    simp only [h]
    exact check_and_call_subcomponent_null be s e _ _ hnull

/-- Claim C19 (amended). For every dispatched operation that reaches its
capability check, i.e. that is not stopped before it by the read-only check
(a mutating operation on a `XF_VFS_FLAG_READONLY_FS` mount fails with `EROFS`
first) or by the cross-device check of `link` and `rename`: if the operation's
slot in the resolved mount's operation set is NULL, or the directory sub-record
is absent, the call returns -1 (NULL for `opendir` and `readdir`, nothing for
`seekdir` and `rewinddir`) and the state afterwards is the state before with
`errno == ENOSYS`: no backend call is logged and both tables are unchanged. -/
theorem C19_absent_operation_gives_enosys (be : Backend) (s : State) :
    (∀ fd k e, get_vfs_for_fd s fd = some (k, e) →
        (e.vfs.write = false → ∀ data size,
          xf_vfs_write be s fd data size = (-1, { s with errno := Errno.ENOSYS })) ∧
        (e.vfs.lseek = false → ∀ size mode,
          xf_vfs_lseek be s fd size mode = (-1, { s with errno := Errno.ENOSYS })) ∧
        (e.vfs.read = false → ∀ dst size,
          xf_vfs_read be s fd dst size = (-1, { s with errno := Errno.ENOSYS })) ∧
        (e.vfs.pread = false → ∀ dst size offset,
          xf_vfs_pread be s fd dst size offset = (-1, { s with errno := Errno.ENOSYS })) ∧
        (e.vfs.pwrite = false → ∀ src size offset,
          xf_vfs_pwrite be s fd src size offset = (-1, { s with errno := Errno.ENOSYS })) ∧
        (e.vfs.close = false →
          xf_vfs_close be s fd = (-1, { s with errno := Errno.ENOSYS })) ∧
        (e.vfs.fstat = false → ∀ st,
          xf_vfs_fstat be s fd st = (-1, { s with errno := Errno.ENOSYS })) ∧
        (e.vfs.fcntl = false → ∀ cmd arg,
          xf_vfs_fcntl_r be s fd cmd arg = (-1, { s with errno := Errno.ENOSYS })) ∧
        (e.vfs.ioctl = false → ∀ cmd args,
          xf_vfs_ioctl be s fd cmd args = (-1, { s with errno := Errno.ENOSYS })) ∧
        (e.vfs.fsync = false →
          xf_vfs_fsync be s fd = (-1, { s with errno := Errno.ENOSYS })) ∧
        (Int.land e.flags XF_VFS_FLAG_READONLY_FS = 0 → DirSlotNull e (fun d => d.ftruncate) →
          ∀ length, xf_vfs_ftruncate be s fd length = (-1, { s with errno := Errno.ENOSYS }))) ∧
    (∀ path k e, xf_vfs_get_vfs_for_path_ptr s path = some (k, e) →
        (e.vfs.open_ = false → ∀ flags mode,
          ¬ (Int.land flags XF_VFS_O_ACCMODE ≠ XF_VFS_O_RDONLY ∧
            Int.land e.flags XF_VFS_FLAG_READONLY_FS ≠ 0) →
          xf_vfs_open be s path flags mode = (-1, { s with errno := Errno.ENOSYS })) ∧
        (DirSlotNull e (fun d => d.stat) → ∀ st,
          xf_vfs_stat be s path st = (-1, { s with errno := Errno.ENOSYS })) ∧
        (DirSlotNull e (fun d => d.utime) → ∀ times,
          xf_vfs_utime be s path times = (-1, { s with errno := Errno.ENOSYS })) ∧
        (DirSlotNull e (fun d => d.access) → ∀ amode,
          xf_vfs_access be s path amode = (-1, { s with errno := Errno.ENOSYS })) ∧
        (DirSlotNull e (fun d => d.opendir) →
          xf_vfs_opendir be s path = (none, { s with errno := Errno.ENOSYS })) ∧
        (Int.land e.flags XF_VFS_FLAG_READONLY_FS = 0 → DirSlotNull e (fun d => d.unlink) →
          xf_vfs_unlink be s path = (-1, { s with errno := Errno.ENOSYS })) ∧
        (Int.land e.flags XF_VFS_FLAG_READONLY_FS = 0 → DirSlotNull e (fun d => d.mkdir) →
          ∀ mode, xf_vfs_mkdir be s path mode = (-1, { s with errno := Errno.ENOSYS })) ∧
        (Int.land e.flags XF_VFS_FLAG_READONLY_FS = 0 → DirSlotNull e (fun d => d.rmdir) →
          xf_vfs_rmdir be s path = (-1, { s with errno := Errno.ENOSYS })) ∧
        (Int.land e.flags XF_VFS_FLAG_READONLY_FS = 0 → DirSlotNull e (fun d => d.truncate) →
          ∀ length, xf_vfs_truncate be s path length = (-1, { s with errno := Errno.ENOSYS })) ∧
        (Int.land e.flags XF_VFS_FLAG_READONLY_FS = 0 → DirSlotNull e (fun d => d.link) →
          ∀ n2, xf_vfs_get_vfs_for_path_ptr s n2 = some (k, e) →
            xf_vfs_link be s path n2 = (-1, { s with errno := Errno.ENOSYS })) ∧
        (Int.land e.flags XF_VFS_FLAG_READONLY_FS = 0 → DirSlotNull e (fun d => d.rename) →
          ∀ dst, xf_vfs_get_vfs_for_path_ptr s dst = some (k, e) →
            xf_vfs_rename be s path dst = (-1, { s with errno := Errno.ENOSYS }))) ∧
    (∀ pdir k e, xf_vfs_get_vfs_for_index s ((pdir : xf_vfs_dir_t).dd_vfs_idx : Int)
        = some (k, e) →
        (DirSlotNull e (fun d => d.readdir) →
          xf_vfs_readdir be s pdir = (0, { s with errno := Errno.ENOSYS })) ∧
        (DirSlotNull e (fun d => d.readdir_r) → ∀ entry out_dirent,
          xf_vfs_readdir_r be s pdir entry out_dirent = (-1, { s with errno := Errno.ENOSYS })) ∧
        (DirSlotNull e (fun d => d.telldir) →
          xf_vfs_telldir be s pdir = (-1, { s with errno := Errno.ENOSYS })) ∧
        (DirSlotNull e (fun d => d.seekdir) → ∀ loc,
          xf_vfs_seekdir be s pdir loc = { s with errno := Errno.ENOSYS }) ∧
        (DirSlotNull e (fun d => d.seekdir) →
          xf_vfs_rewinddir be s pdir = { s with errno := Errno.ENOSYS }) ∧
        (DirSlotNull e (fun d => d.closedir) →
          xf_vfs_closedir be s pdir = (-1, { s with errno := Errno.ENOSYS }))) :=
  ⟨fun fd k e h => enosys_fd_ops be s fd k e h,
   fun path k e h => enosys_path_ops be s path k e h,
   fun pdir k e h => enosys_dir_ops be s pdir k e h⟩

/-- Counterexample to C19 as stated: `/foo` is a read-only mount whose
directory sub-record has no `unlink`. `xf_vfs_unlink("/foo/file")` resolves to
it and fails with `errno == EROFS`, not `ENOSYS`: the read-only check comes
before the capability check. -/
theorem C19_absent_operation_counterexample :
    (xf_vfs_get_vfs_for_path_ptr readonlyDummy "/foo/file".toList).map
      (fun m => (m.1, m.2.vfs.dir.map fun d => d.unlink)) = some (0, some false) ∧
    (xf_vfs_unlink okBackend readonlyDummy "/foo/file".toList).1 = -1 ∧
    (xf_vfs_unlink okBackend readonlyDummy "/foo/file".toList).2.errno = Errno.EROFS := by
  decide

/-- Witness for C19 (amended): the test suite's operation set has neither
`unlink` nor `read`; `xf_vfs_unlink("/foo/file")` and `xf_vfs_read` on the open
descriptor 2 fail with `ENOSYS`. -/
theorem C19_absent_operation_gives_enosys_witness :
    xf_vfs_unlink okBackend fooThirdOpen "/foo/file".toList
      = (-1, { fooThirdOpen with errno := Errno.ENOSYS }) ∧
    xf_vfs_read okBackend fooThirdOpen 2 0 16
      = (-1, { fooThirdOpen with errno := Errno.ENOSYS }) :=
  ⟨((C19_absent_operation_gives_enosys okBackend fooThirdOpen).2.1 "/foo/file".toList 0
      (dummyMount "/foo" 0) (by decide)).2.2.2.2.2.1 (by decide)
      (fun d hd => by
        have h : d = { opendir := true, closedir := true } :=
          (Option.some.inj hd).symm
        rw [h]),
   ((C19_absent_operation_gives_enosys okBackend fooThirdOpen).1 2 0
      (dummyMount "/foo" 0) (by decide)).2.2.1 rfl 0 16⟩

/-! ## Theorems: operations on two paths -/

/-- Counterexample to C20 as stated: `/foo` is a read-only mount and `/foo1` a
different, writable one. `xf_vfs_rename("/foo/a", "/foo1/b")` has its endpoints
on different mounts but fails with `errno == EROFS`, not `EXDEV`:
`xf_vfs_rename` checks the read-only flag of the source mount first. -/
theorem C20_rename_cross_device_counterexample :
    (xf_vfs_get_vfs_for_path_ptr readonlyMounts "/foo/a".toList).map (fun m => m.1) = some 0 ∧
    (xf_vfs_get_vfs_for_path_ptr readonlyMounts "/foo1/b".toList).map (fun m => m.1) = some 1 ∧
    (xf_vfs_rename okBackend readonlyMounts "/foo/a".toList "/foo1/b".toList).1 = -1 ∧
    (xf_vfs_rename okBackend readonlyMounts "/foo/a".toList "/foo1/b".toList).2.errno
      = Errno.EROFS := by
  decide

/-- Claim C20 (amended). When the first path resolves to the mount in slot `k`
and the second path resolves to a different mount or to none: `xf_vfs_link`
returns -1 with `errno == EXDEV`; `xf_vfs_rename` returns -1 with
`errno == EXDEV` if the source mount is not read-only, and with
`errno == EROFS` if it is. In every case the state is otherwise unchanged, so no
backend operation is invoked. -/
theorem C20_cross_device_gives_exdev (be : Backend) (s : State) (n1 n2 : List Char)
    (k : Nat) (e : xf_vfs_entry_t)
    (h1 : xf_vfs_get_vfs_for_path_ptr s n1 = some (k, e))
    (h2 : ∀ k2 e2, xf_vfs_get_vfs_for_path_ptr s n2 = some (k2, e2) → k2 ≠ k) :
    xf_vfs_link be s n1 n2 = (-1, { s with errno := Errno.EXDEV }) ∧
    (Int.land e.flags XF_VFS_FLAG_READONLY_FS = 0 →
      xf_vfs_rename be s n1 n2 = (-1, { s with errno := Errno.EXDEV })) ∧
    (Int.land e.flags XF_VFS_FLAG_READONLY_FS ≠ 0 →
      xf_vfs_rename be s n1 n2 = (-1, { s with errno := Errno.EROFS })) ∧
    (xf_vfs_link be s n1 n2).2.calls = s.calls ∧
    (xf_vfs_rename be s n1 n2).1 = -1 ∧
    (xf_vfs_rename be s n1 n2).2.calls = s.calls := by
  have hlink : xf_vfs_link be s n1 n2 = (-1, { s with errno := Errno.EXDEV }) := by
    unfold xf_vfs_link
    simp only [h1]
    cases hd : xf_vfs_get_vfs_for_path_ptr s n2 with
    | none => rfl
    | some r =>
      obtain ⟨k2, e2⟩ := r
      have hne : k ≠ k2 := fun hk => h2 k2 e2 hd hk.symm
      simp only [hne, ne_eq, not_false_eq_true, if_true]
  have hrw : Int.land e.flags XF_VFS_FLAG_READONLY_FS = 0 →
      xf_vfs_rename be s n1 n2 = (-1, { s with errno := Errno.EXDEV }) := by
    intro hflag
    unfold xf_vfs_rename
    simp only [h1, hflag, ne_eq, not_true_eq_false, if_false]
    cases hd : xf_vfs_get_vfs_for_path_ptr s n2 with
    | none => rfl
    | some r =>
      obtain ⟨k2, e2⟩ := r
      have hne : k ≠ k2 := fun hk => h2 k2 e2 hd hk.symm
      simp only [hne, not_false_eq_true, if_true]
  have hro : Int.land e.flags XF_VFS_FLAG_READONLY_FS ≠ 0 →
      xf_vfs_rename be s n1 n2 = (-1, { s with errno := Errno.EROFS }) := by
    intro hflag
    unfold xf_vfs_rename
    simp only [h1, hflag, ne_eq, not_false_eq_true, if_true]
  refine ⟨hlink, hrw, hro, ?_, ?_, ?_⟩
  · rw [hlink]
  · by_cases hflag : Int.land e.flags XF_VFS_FLAG_READONLY_FS = 0
    · rw [hrw hflag]
    · rw [hro hflag]
  · by_cases hflag : Int.land e.flags XF_VFS_FLAG_READONLY_FS = 0
    · rw [hrw hflag]
    · rw [hro hflag]

/-- Witness for C20 (amended) on the mount table of the path-parsing test:
linking or renaming `/foo/a` (mount 0) to `/foo1/b` (mount 1) fails with
`EXDEV`. -/
theorem C20_cross_device_gives_exdev_witness :
    xf_vfs_link okBackend testMounts "/foo/a".toList "/foo1/b".toList
      = (-1, { testMounts with errno := Errno.EXDEV }) ∧
    xf_vfs_rename okBackend testMounts "/foo/a".toList "/foo1/b".toList
      = (-1, { testMounts with errno := Errno.EXDEV }) := by
  have h := C20_cross_device_gives_exdev okBackend testMounts "/foo/a".toList
    "/foo1/b".toList 0 (dummyMount "/foo" 0) (by decide)
    (fun k2 e2 h2 => by
      have hk : (xf_vfs_get_vfs_for_path_ptr testMounts "/foo1/b".toList).map (fun m => m.1)
          = some 1 := by decide
      rw [h2] at hk
      simp only [Option.map_some', Option.some.injEq] at hk
      omega)
  exact ⟨h.1, h.2.1 (by decide)⟩

/-! ## Theorems: the bound on `s_vfs_count` -/

/-- A successful registration keeps `CountOk`: the new entry goes to a slot
below `XF_VFS_MAX_COUNT` that is at most the old `s_vfs_count`, and the count
grows by one only when that slot is the old count. -/
theorem register_common_countOk (s : State) (base_path : List Char) (len : Nat)
    (v : xf_vfs_t) (ctx : Nat) (heap : List Bool) (hc : CountOk s)
    (h : (xf_vfs_register_common s base_path len (some v) ctx heap).ret = xf_err_t.XF_OK) :
    CountOk (xf_vfs_register_common s base_path len (some v) ctx heap).state := by
  obtain ⟨index, ops, hidx, _, hst, _⟩ := register_common_ok s base_path len v ctx heap h
  obtain ⟨hlt, _⟩ := get_free_index_lt s index hidx
  have hle := free_index_le_count s index hc hidx
  rw [hst]
  unfold CountOk state_with_mount
  simp only
  constructor
  · by_cases hi : index = s.s_vfs_count
    · rw [if_pos hi]
      omega
    · rw [if_neg hi]
      exact hc.1
  · intro i e he
    by_cases hie : i = index
    · subst hie
      by_cases hi : i = s.s_vfs_count
      · rw [if_pos hi]
        omega
      · rw [if_neg hi]
        omega
    · rw [Function.update_noteq hie] at he
      have := hc.2 i e he
      by_cases hi : index = s.s_vfs_count
      · rw [if_pos hi]
        omega
      · rw [if_neg hi]
        exact this

/-- Unregistering by index keeps `CountOk`: it only empties a slot. -/
theorem unregister_with_id_countOk (s : State) (vfs_id : Int) (hc : CountOk s) :
    CountOk (xf_vfs_unregister_with_id s vfs_id).2 := by
  unfold xf_vfs_unregister_with_id
  split_ifs with hbad
  · exact hc
  · refine ⟨hc.1, fun i e he => ?_⟩
    simp only at he
    by_cases hi : i = vfs_id.toNat
    · subst hi
      rw [Function.update_same] at he
      cases he
    · rw [Function.update_noteq hi] at he
      exact hc.2 i e he

/-! ## Theorems: unregistration by index -/

/-- For an index that is out of range or names an empty slot,
`xf_vfs_unregister_with_id` returns `XF_ERR_INVALID_ARG` and changes nothing. -/
theorem unregister_with_id_unknown (s : State) (vfs_id : Int)
    (h : vfs_id < 0 ∨ vfs_id ≥ (XF_VFS_MAX_COUNT : Int) ∨ s.s_vfs vfs_id.toNat = none) :
    xf_vfs_unregister_with_id s vfs_id = (xf_err_t.XF_ERR_INVALID_ARG, s) := by
  unfold xf_vfs_unregister_with_id
  rw [if_pos]
  rcases h with h | h | h
  · exact Or.inl h
  · exact Or.inr (Or.inl h)
  · exact Or.inr (Or.inr (by rw [h]; rfl))

/-- C25 (the code falls short of the claim and of its own header): with only
`/foo` registered in slot 0, `xf_vfs_unregister_with_id` on the empty slot 1, on
the out-of-range indices 8 and -1, and at program start on slot 0, returns
`XF_ERR_INVALID_ARG`, not `XF_ERR_INVALID_STATE`. -/
theorem C25_unregister_with_id_unknown_returns_invalid_arg :
    fooRegistered.s_vfs 1 = none ∧
    (xf_vfs_unregister_with_id fooRegistered 1).1 = xf_err_t.XF_ERR_INVALID_ARG ∧
    (xf_vfs_unregister_with_id fooRegistered 8).1 = xf_err_t.XF_ERR_INVALID_ARG ∧
    (xf_vfs_unregister_with_id fooRegistered (-1)).1 = xf_err_t.XF_ERR_INVALID_ARG ∧
    (xf_vfs_unregister_with_id State.init 0).1 = xf_err_t.XF_ERR_INVALID_ARG ∧
    (xf_vfs_unregister_with_id fooRegistered 1).1 ≠ xf_err_t.XF_ERR_INVALID_STATE := by
  decide

/-! ## Theorems: mounts without a path prefix -/

/-- Claim C28. Whatever the path, empty or not, the slot `xf_vfs_get_vfs_for_path`
points into never holds a mount whose prefix length is the IGNORED sentinel,
which is the length given to every mount created through
`xf_vfs_register_fd_range`, `xf_vfs_register_with_id` or
`xf_vfs_register_fs_with_id`. -/
theorem C28_resolver_skips_ignored_mounts (s : State) (path : List Char) (k : Nat)
    (e : xf_vfs_entry_t) (h : xf_vfs_get_vfs_for_path_ptr s path = some (k, e)) :
    e.path_prefix_len ≠ XF_VFS_PATH_PREFIX_LEN_IGNORED ∧
    xf_vfs_get_vfs_for_path s path = some e := by
  obtain ⟨hidx, hk⟩ := ptr_some s path k e h
  have hres : xf_vfs_get_vfs_for_path s path = some e := by
    rw [resolve_entry_of_idx s path k hidx, hk]
  refine ⟨?_, hres⟩
  obtain ⟨_, _, _, _, hcase⟩ := resolve_some s path e hres
  rcases hcase with hf | hq
  · unfold IsFallback at hf
    rw [hf]
    decide
  · exact hq.1.1

/-- Witness for C28: slot 0 holds the mount of `xf_vfs_register_fd_range` and
slot 1 a fallback mount; the empty path and `/x` resolve to slot 1. -/
theorem C28_resolver_skips_ignored_mounts_witness :
    (rangeThenFallback.s_vfs 0).map (fun e => e.path_prefix_len)
      = some XF_VFS_PATH_PREFIX_LEN_IGNORED ∧
    (xf_vfs_get_vfs_for_path_ptr rangeThenFallback []).map (fun m => m.1) = some 1 ∧
    (dummyMount "" 1).path_prefix_len ≠ XF_VFS_PATH_PREFIX_LEN_IGNORED :=
  ⟨by decide, by decide,
   (C28_resolver_skips_ignored_mounts rangeThenFallback [] 1 (dummyMount "" 1)
      (by decide)).1⟩

/-! ## Theorems: equal prefixes -/

theorem earliestBest_step (T : Nat → Option xf_vfs_entry_t) (path : List Char) (n : Nat)
    (acc : Option Nat × Int) (hinv : ResolveInv T path n acc)
    (hfirst : EarliestBest T path acc) :
    EarliestBest T path (get_vfs_for_path_step T path acc n) := by
  unfold get_vfs_for_path_step
  cases hn : T n with
  | none => exact hfirst
  | some vfs =>
    simp only
    split_ifs with h1 h2 h3 h4 h5
    · exact hfirst
    · exact hfirst
    · intro k hk i hi e he hq
      simp only [Option.some.injEq] at hk
      subst hk
      exact absurd hq ((hinv.none_case h3.2).2 i hi e he).2
    · exact hfirst
    · intro k hk i hi e he hq
      simp only [Option.some.injEq] at hk
      subst hk
      have := hinv.upper i hi e he hq
      simp only
      omega
    · exact hfirst

theorem earliestBest_loop (T : Nat → Option xf_vfs_entry_t) (path : List Char) (n : Nat) :
    EarliestBest T path (get_vfs_for_path_loop T path n) := by
  induction n with
  | zero =>
    intro k hk
    cases hk
  | succ n ih =>
    rw [get_vfs_for_path_loop_succ]
    exact earliestBest_step T path n _ (resolveInv_loop T path n) ih

/-- Among the slots whose prefix is the longest one that qualifies for the
path, the resolver returns the lowest-indexed. -/
theorem resolve_earliest_longest (s : State) (path : List Char) (i : Nat)
    (e : xf_vfs_entry_t) (hi : i < s.s_vfs_count) (he : s.s_vfs i = some e)
    (hq : Qualifies e path)
    (hmax : ∀ i', i' < s.s_vfs_count → ∀ e', s.s_vfs i' = some e' → Qualifies e' path →
      e'.path_prefix_len ≤ e.path_prefix_len) :
    ∃ k ek, xf_vfs_get_vfs_for_path_idx s path = some k ∧ k ≤ i ∧ s.s_vfs k = some ek ∧
      Qualifies ek path ∧ ek.path_prefix_len = e.path_prefix_len ∧
      ∀ i', i' < k → ∀ e', s.s_vfs i' = some e' → Qualifies e' path →
        e'.path_prefix_len < e.path_prefix_len := by
  have hinv := resolveInv_loop s.s_vfs path s.s_vfs_count
  have hfirst := earliestBest_loop s.s_vfs path s.s_vfs_count
  have hup := hinv.upper i hi e he hq
  have hpos := hq.2.1
  unfold xf_vfs_get_vfs_for_path_idx
  cases hb : (get_vfs_for_path_loop s.s_vfs path s.s_vfs_count).1 with
  | none =>
    have := (hinv.none_case hb).1
    omega
  | some k =>
    obtain ⟨hk, ek, hek, hcase⟩ := hinv.some_case k hb
    rcases hcase with ⟨_, hle⟩ | ⟨hqk, heq⟩
    · omega
    · have hlen : ek.path_prefix_len = e.path_prefix_len := by
        have := hmax k hk ek hek hqk
        omega
      refine ⟨k, ek, rfl, ?_, hek, hqk, hlen, fun i' hi' e' he' hq' => ?_⟩
      · by_contra hgt
        have := hfirst k hb i (by omega) e he hq
        omega
      · have := hfirst k hb i' hi' e' he' hq'
        omega

/-- Counterexample to C30 as stated: slots 0 and 1 both hold the prefix `/foo`,
which is the longest (the only) match for `/foo/file`; the resolver returns
slot 0, the earlier-scanned one, not slot 1. -/
theorem C30_equal_prefixes_counterexample :
    (fooTwice.s_vfs 0).map (fun e => e.path_prefix) = some "/foo".toList ∧
    (fooTwice.s_vfs 1).map (fun e => e.path_prefix) = some "/foo".toList ∧
    xf_vfs_get_vfs_for_path_idx fooTwice "/foo/file".toList = some 0 ∧
    (xf_vfs_get_vfs_for_path fooTwice "/foo/file".toList).map (fun e => e.ctx) = some 0 := by
  decide

/-- Claim C30 (amended). When the occupied slots `i < j` hold the same
non-empty prefix and that prefix is the longest match for the path,
`xf_vfs_get_vfs_for_path` returns a slot `k <= i` that holds a qualifying prefix
of that length, never slot `j`: the best match is replaced only by a strictly
longer one, so the earliest-scanned slot wins. If no slot below `i` holds a
qualifying prefix of that length, it returns slot `i`. -/
theorem C30_equal_prefixes_earlier_slot_wins (s : State) (path : List Char) (i j : Nat)
    (ei ej : xf_vfs_entry_t) (hij : i < j) (hj : j < s.s_vfs_count)
    (hei : s.s_vfs i = some ei) (_hej : s.s_vfs j = some ej)
    (hsame : ej.path_prefix_len = ei.path_prefix_len ∧ ej.path_prefix = ei.path_prefix)
    (hq : Qualifies ei path)
    (hmax : ∀ i', i' < s.s_vfs_count → ∀ e', s.s_vfs i' = some e' → Qualifies e' path →
      e'.path_prefix_len ≤ ei.path_prefix_len) :
    Qualifies ej path ∧
    ∃ k ek, xf_vfs_get_vfs_for_path_idx s path = some k ∧ k ≤ i ∧ k ≠ j ∧
      xf_vfs_get_vfs_for_path s path = some ek ∧ s.s_vfs k = some ek ∧
      Qualifies ek path ∧ ek.path_prefix_len = ei.path_prefix_len ∧
      ((∀ i', i' < i → ∀ e', s.s_vfs i' = some e' → Qualifies e' path →
        e'.path_prefix_len < ei.path_prefix_len) → k = i) := by
  have hqj : Qualifies ej path := by
    unfold Qualifies Matches at hq ⊢
    rw [hsame.1, hsame.2]
    exact hq
  obtain ⟨k, ek, hidx, hki, hek, hqk, hlen, _⟩ :=
    resolve_earliest_longest s path i ei (by omega) hei hq hmax
  refine ⟨hqj, k, ek, hidx, hki, by omega, ?_, hek, hqk, hlen, fun hbelow => ?_⟩
  · rw [resolve_entry_of_idx s path k hidx, hek]
  · by_contra hne
    have := hbelow k (by omega) ek hek hqk
    omega

/-- Witness for C30 (amended): with `/foo` registered twice, `/foo/file`
resolves to slot 0. -/
theorem C30_equal_prefixes_earlier_slot_wins_witness :
    xf_vfs_get_vfs_for_path_idx fooTwice "/foo/file".toList = some 0 := by
  have h0 : fooTwice.s_vfs 0 = some (dummyMount "/foo" 0) := by decide
  have h1 : fooTwice.s_vfs 1 = some (dummyMount "/foo" 1) := by decide
  have hq : Qualifies (dummyMount "/foo" 0) "/foo/file".toList := by
    unfold Qualifies Matches
    decide
  obtain ⟨_, k, ek, hidx, hk, _⟩ :=
    C30_equal_prefixes_earlier_slot_wins fooTwice "/foo/file".toList 0 1
      (dummyMount "/foo" 0) (dummyMount "/foo" 1) (by decide) (by decide) h0 h1
      ⟨rfl, rfl⟩ hq
      (fun i' hi' e' he' _ => by
        have hc : fooTwice.s_vfs_count = 2 := by decide
        rw [hc] at hi'
        interval_cases i'
        · rw [h0] at he'
          cases he'
          exact le_refl _
        · rw [h1] at he'
          cases he'
          exact le_refl _)
  have : k = 0 := by omega
  rw [this] at hidx
  exact hidx

/-! ## Theorems: xf_vfs_unregister_fd -/

/-- Counterexample to C27 as stated: after `xf_vfs_register("/foo")`,
`xf_vfs_register_fd_with_local_fd(0, 5, true, &fd)` yields `fd == 0`, a used row
of mount 0; `xf_vfs_unregister_fd(0, 0)` returns `XF_ERR_INVALID_ARG` because
the row's `local_fd` (5) differs from `fd`. The same happens to a row registered
with `permanent == false`. -/
theorem C27_unregister_fd_counterexample :
    (xf_vfs_register_fd_with_local_fd fooRegistered 0 5 true true).ret = xf_err_t.XF_OK ∧
    (xf_vfs_register_fd_with_local_fd fooRegistered 0 5 true true).fd = some 0 ∧
    ((xf_vfs_register_fd_with_local_fd fooRegistered 0 5 true true).state.s_fd_table
      0).vfs_index = 0 ∧
    (xf_vfs_unregister_fd (xf_vfs_register_fd_with_local_fd fooRegistered 0 5 true true).state
      0 0).1 = xf_err_t.XF_ERR_INVALID_ARG ∧
    (xf_vfs_register_fd_with_local_fd fooRegistered 0 (-1) false true).fd = some 0 ∧
    (xf_vfs_unregister_fd
      (xf_vfs_register_fd_with_local_fd fooRegistered 0 (-1) false true).state
      0 0).1 = xf_err_t.XF_ERR_INVALID_ARG := by
  decide

/-- What `xf_vfs_register_fd_with_local_fd` returns when row `i` is the lowest
unused row. -/
theorem register_fd_with_local_fd_ok (s : State) (vfs_id local_fd : Int) (permanent : Bool)
    (i : Nat) (h0 : 0 ≤ vfs_id) (h1 : vfs_id < (s.s_vfs_count : Int))
    (hi : first_unused_row s.s_fd_table = some i) :
    xf_vfs_register_fd_with_local_fd s vfs_id local_fd permanent true =
      ⟨xf_err_t.XF_OK, some (i : Int),
        { s with
          s_fd_table := Function.update s.s_fd_table i
            { s.s_fd_table i with
              permanent := permanent,
              vfs_index := to_vfs_index_t vfs_id,
              local_fd := if local_fd ≥ 0 then to_local_fd_t local_fd
                          else to_local_fd_t (i : Int) } }⟩ := by
  unfold xf_vfs_register_fd_with_local_fd
  rw [if_neg, hi]
  simp only [Bool.true_eq_false, or_false]
  omega

/-- Claim C27 (amended). For `0 <= vfs_id < s_vfs_count` and
`0 <= fd < XF_VFS_FDS_MAX`: `xf_vfs_unregister_fd(vfs_id, fd)` returns `XF_OK`
and resets row `fd` to the unused entry, leaving all other rows unchanged,
exactly when the row is permanent, its `vfs_index` is `vfs_id` and its
`local_fd` equals `fd`; otherwise it returns `XF_ERR_INVALID_ARG` and changes
nothing. A descriptor obtained through `xf_vfs_register_fd(vfs_id, &fd)` is such
a row, so unregistering it succeeds. -/
theorem C27_unregister_fd_resets_permanent_row (s : State) (vfs_id : Int)
    (h0 : 0 ≤ vfs_id) (h1 : vfs_id < (s.s_vfs_count : Int))
    (hcount : s.s_vfs_count ≤ XF_VFS_MAX_COUNT) :
    (∀ fd : Int, 0 ≤ fd → fd < (XF_VFS_FDS_MAX : Int) →
      ((s.s_fd_table fd.toNat).permanent = true ∧ (s.s_fd_table fd.toNat).vfs_index = vfs_id ∧
          ((s.s_fd_table fd.toNat).local_fd : Int) = fd →
        xf_vfs_unregister_fd s vfs_id fd =
          (xf_err_t.XF_OK,
            { s with s_fd_table := Function.update s.s_fd_table fd.toNat FD_TABLE_ENTRY_UNUSED })) ∧
      (¬ ((s.s_fd_table fd.toNat).permanent = true ∧
          (s.s_fd_table fd.toNat).vfs_index = vfs_id ∧
          ((s.s_fd_table fd.toNat).local_fd : Int) = fd) →
        xf_vfs_unregister_fd s vfs_id fd = (xf_err_t.XF_ERR_INVALID_ARG, s))) ∧
    (∀ i : Nat, (xf_vfs_register_fd s vfs_id true).fd = some (i : Int) →
      (xf_vfs_register_fd s vfs_id true).ret = xf_err_t.XF_OK ∧
      xf_vfs_unregister_fd (xf_vfs_register_fd s vfs_id true).state vfs_id (i : Int) =
        (xf_err_t.XF_OK,
          { (xf_vfs_register_fd s vfs_id true).state with
            s_fd_table := Function.update (xf_vfs_register_fd s vfs_id true).state.s_fd_table i
              FD_TABLE_ENTRY_UNUSED })) := by
  have hguard : ∀ (t : State) (fd : Int), t.s_vfs_count = s.s_vfs_count → 0 ≤ fd →
      fd < (XF_VFS_FDS_MAX : Int) →
      ¬ (vfs_id < 0 ∨ vfs_id ≥ (t.s_vfs_count : Int) ∨ fd < 0 ∨ fd ≥ (XF_VFS_FDS_MAX : Int)) := by
    intro t fd ht ha hb
    rw [ht]
    omega
  constructor
  · intro fd ha hb
    constructor
    · intro hrow
      unfold xf_vfs_unregister_fd
      rw [if_neg (hguard s fd rfl ha hb)]
      simp only
      rw [if_pos hrow]
    · intro hrow
      unfold xf_vfs_unregister_fd
      rw [if_neg (hguard s fd rfl ha hb)]
      simp only
      rw [if_neg hrow]
  · intro i hfd
    unfold xf_vfs_register_fd at hfd ⊢
    cases hrow : first_unused_row s.s_fd_table with
    | none =>
      unfold xf_vfs_register_fd_with_local_fd at hfd
      rw [if_neg (by simp only [Bool.true_eq_false, or_false]; omega), hrow] at hfd
      cases hfd
    | some i' =>
      have hres := register_fd_with_local_fd_ok s vfs_id (-1) true i' h0 h1 hrow
      rw [hres] at hfd ⊢
      simp only [Option.some.injEq, Nat.cast_inj] at hfd
      subst hfd
      obtain ⟨hlt, _, _⟩ := first_unused_row_some s.s_fd_table i' hrow
      refine ⟨rfl, ?_⟩
      have hvid : to_vfs_index_t vfs_id = vfs_id :=
        to_vfs_index_t_of_small _ h0 (by
          have : (s.s_vfs_count : Int) ≤ (XF_VFS_MAX_COUNT : Int) := by exact_mod_cast hcount
          omega)
      have hli : to_local_fd_t (i' : Int) = i' :=
        to_local_fd_t_of_small i' (by unfold XF_VFS_FDS_MAX at hlt; omega)
      unfold xf_vfs_unregister_fd
      rw [if_neg (hguard _ (i' : Int) rfl (by omega) (by exact_mod_cast hlt))]
      simp only [Int.toNat_ofNat, Function.update_same]
      rw [if_pos]
      refine ⟨trivial, hvid, ?_⟩
      rw [if_neg (by omega), hli]

/-- Witness for C27 (amended): after `xf_vfs_register("/foo")`,
`xf_vfs_register_fd(0, &fd)` yields `fd == 0` and `xf_vfs_unregister_fd(0, 0)`
succeeds. -/
theorem C27_unregister_fd_resets_permanent_row_witness :
    (xf_vfs_register_fd fooRegistered 0 true).fd = some 0 ∧
    (xf_vfs_unregister_fd (xf_vfs_register_fd fooRegistered 0 true).state 0 0).1
      = xf_err_t.XF_OK := by
  have hfd : (xf_vfs_register_fd fooRegistered 0 true).fd = some ((0 : Nat) : Int) := by decide
  have h := (C27_unregister_fd_resets_permanent_row fooRegistered 0 (by decide) (by decide)
    (by decide)).2 0 hfd
  exact ⟨hfd, congrArg Prod.fst h.2⟩

/-! ## Theorems: the slot a registration uses -/

theorem get_free_index_full (s : State) (h : TableFull s) : xf_get_free_index s = none := by
  unfold xf_get_free_index
  rw [List.find?_eq_none]
  intro i hi
  have := h i (List.mem_range.1 hi)
  cases hs : s.s_vfs i with
  | none => exact absurd hs this
  | some e => simp

/-- With a full table `xf_vfs_register_fs_common` gets past its prefix checks
(valid prefix, or the IGNORED length) and returns `XF_ERR_NO_MEM` untouched. -/
theorem register_fs_common_full (s : State) (base_path : List Char) (len : Nat)
    (ops : xf_vfs_fs_ops_t) (flags : Int) (ctx : Nat) (heap : List Bool)
    (hfull : TableFull s)
    (hlen : len = XF_VFS_PATH_PREFIX_LEN_IGNORED ∨
      (len = base_path.length ∧ ValidPrefix base_path)) :
    xf_vfs_register_fs_common s base_path len (some ops) flags ctx heap =
      ⟨xf_err_t.XF_ERR_NO_MEM, none, s, heap⟩ := by
  unfold xf_vfs_register_fs_common
  simp only
  rw [if_neg, if_neg, get_free_index_full s hfull]
  · rintro ⟨h1, _, h3⟩
    rcases hlen with hlen | ⟨hl, hv⟩
    · exact h1 hlen
    · subst hl
      unfold ValidPrefix at hv
      rcases hv with hv | ⟨_, _, h4, h5⟩
      · omega
      · rcases h3 with h3 | h3
        · exact h3 h4
        · exact h5 h3
  · rintro ⟨h1, h2⟩
    rcases hlen with hlen | ⟨hl, hv⟩
    · exact h1 hlen
    · subst hl
      unfold ValidPrefix at hv
      rcases hv with hv | ⟨h3, h4, _⟩
      · omega
      · unfold XF_VFS_PATH_MAX at h2 h4
        omega

theorem make_fs_ops_cases (v : xf_vfs_t) (heap : List Bool) :
    (∃ ops heap', xf_vfs_make_fs_ops v heap = (xf_err_t.XF_OK, some ops, heap')) ∨
    (∃ heap', xf_vfs_make_fs_ops v heap = (xf_err_t.XF_ERR_NO_MEM, none, heap')) := by
  unfold xf_vfs_make_fs_ops xf_minify_vfs
  simp only
  split_ifs <;> simp

/-- With a full table `xf_vfs_register_common` returns `XF_ERR_NO_MEM` and
leaves the state as it was, whether or not its allocations succeed. -/
theorem register_common_full (s : State) (base_path : List Char) (len : Nat) (v : xf_vfs_t)
    (ctx : Nat) (heap : List Bool) (hfull : TableFull s)
    (hstatic : Int.land v.flags XF_VFS_FLAG_STATIC = 0)
    (hlen : len = XF_VFS_PATH_PREFIX_LEN_IGNORED ∨
      (len = base_path.length ∧ ValidPrefix base_path)) :
    (xf_vfs_register_common s base_path len (some v) ctx heap).ret = xf_err_t.XF_ERR_NO_MEM ∧
    (xf_vfs_register_common s base_path len (some v) ctx heap).vfs_index = none ∧
    (xf_vfs_register_common s base_path len (some v) ctx heap).state = s := by
  unfold xf_vfs_register_common
  simp only [hstatic, ne_eq, not_true_eq_false, if_false]
  rcases make_fs_ops_cases v heap with ⟨ops, heap', hmk⟩ | ⟨heap', hmk⟩
  · rw [hmk]
    simp only
    rw [register_fs_common_full s base_path len ops v.flags ctx heap' hfull hlen]
    exact ⟨rfl, rfl, rfl⟩
  · rw [hmk]
    exact ⟨rfl, rfl, rfl⟩

/-- Claim C24. When all `XF_VFS_MAX_COUNT` mount slots are occupied, every
registration call with an otherwise valid prefix and operation set
(`xf_vfs_register`, `xf_vfs_register_fs`, `xf_vfs_register_with_id`,
`xf_vfs_register_fs_with_id`, `xf_vfs_register_fd_range` with in-range bounds)
returns `XF_ERR_NO_MEM` and leaves the state, i.e. the mount table,
`s_vfs_count` and the descriptor table, as it was, whatever the outcome of its
allocations. -/
theorem C24_registration_into_full_table (s : State) (hfull : TableFull s) :
    (∀ base_path v ctx heap, ValidPrefix base_path →
      Int.land v.flags XF_VFS_FLAG_STATIC = 0 →
      xf_vfs_register s base_path (some v) ctx heap = (xf_err_t.XF_ERR_NO_MEM, s)) ∧
    (∀ base_path ops flags ctx heap, ValidPrefix base_path →
      (xf_vfs_register_fs s base_path (some ops) flags ctx heap).ret
        = xf_err_t.XF_ERR_NO_MEM ∧
      (xf_vfs_register_fs s base_path (some ops) flags ctx heap).state = s) ∧
    (∀ v ctx heap, Int.land v.flags XF_VFS_FLAG_STATIC = 0 →
      (xf_vfs_register_with_id s (some v) ctx true heap).ret = xf_err_t.XF_ERR_NO_MEM ∧
      (xf_vfs_register_with_id s (some v) ctx true heap).vfs_id = some (-1) ∧
      (xf_vfs_register_with_id s (some v) ctx true heap).state = s) ∧
    (∀ ops flags ctx heap,
      (xf_vfs_register_fs_with_id s (some ops) flags ctx true heap).ret
        = xf_err_t.XF_ERR_NO_MEM ∧
      (xf_vfs_register_fs_with_id s (some ops) flags ctx true heap).vfs_id = some (-1) ∧
      (xf_vfs_register_fs_with_id s (some ops) flags ctx true heap).state = s) ∧
    (∀ v ctx min_fd max_fd heap, Int.land v.flags XF_VFS_FLAG_STATIC = 0 →
      0 ≤ min_fd → min_fd ≤ max_fd → max_fd ≤ (XF_VFS_FDS_MAX : Int) →
      xf_vfs_register_fd_range s (some v) ctx min_fd max_fd heap
        = (xf_err_t.XF_ERR_NO_MEM, s)) := by
  refine ⟨?_, ?_, ?_, ?_, ?_⟩
  · intro base_path v ctx heap hv hstatic
    obtain ⟨h1, _, h3⟩ := register_common_full s base_path base_path.length v ctx heap hfull
      hstatic (Or.inr ⟨rfl, hv⟩)
    unfold xf_vfs_register
    simp only [h1, h3]
  · intro base_path ops flags ctx heap hv
    unfold xf_vfs_register_fs
    simp only
    by_cases hst : Int.land flags XF_VFS_FLAG_STATIC ≠ 0
    · rw [if_pos hst, register_fs_common_full s base_path _ ops flags ctx heap hfull
        (Or.inr ⟨rfl, hv⟩)]
      exact ⟨rfl, rfl⟩
    · rw [if_neg hst]
      cases hd : xf_vfs_duplicate_fs_ops ops heap with
      | mk copy heap' =>
        cases copy with
        | none => exact ⟨rfl, rfl⟩
        | some c =>
          simp only
          rw [register_fs_common_full s base_path _ c flags ctx heap' hfull (Or.inr ⟨rfl, hv⟩)]
          exact ⟨rfl, rfl⟩
  · intro v ctx heap hstatic
    obtain ⟨h1, h2, h3⟩ := register_common_full s [] XF_VFS_PATH_PREFIX_LEN_IGNORED v ctx heap
      hfull hstatic (Or.inl rfl)
    unfold xf_vfs_register_with_id vfs_id_out
    simp only [Bool.true_eq_false, if_false, h1, h2, h3]
    exact ⟨trivial, trivial, trivial⟩
  · intro ops flags ctx heap
    unfold xf_vfs_register_fs_with_id vfs_id_out
    simp only [Bool.true_eq_false, if_false]
    rw [register_fs_common_full s [] _ ops flags ctx heap hfull (Or.inl rfl)]
    exact ⟨rfl, rfl, rfl⟩
  · intro v ctx min_fd max_fd heap hstatic h0 h1 h2
    obtain ⟨hr, _, hs⟩ := register_common_full s [] XF_VFS_PATH_PREFIX_LEN_IGNORED v ctx heap
      hfull hstatic (Or.inl rfl)
    unfold xf_vfs_register_fd_range
    rw [if_neg (by omega)]
    simp only [hr, hs]
    rfl

/-- Witness for C24: with `/m0` .. `/m7` registered, a ninth `xf_vfs_register`
and an `xf_vfs_register_fd_range` return `XF_ERR_NO_MEM` and change nothing. -/
theorem C24_registration_into_full_table_witness :
    xf_vfs_register eightMounts "/m8".toList (some DUMMY_VFS) 0 []
      = (xf_err_t.XF_ERR_NO_MEM, eightMounts) ∧
    xf_vfs_register_fd_range eightMounts (some DUMMY_VFS) 0 0 4 []
      = (xf_err_t.XF_ERR_NO_MEM, eightMounts) := by
  have hfull : TableFull eightMounts := by
    unfold TableFull
    decide
  have h := C24_registration_into_full_table eightMounts hfull
  exact ⟨h.1 "/m8".toList DUMMY_VFS 0 [] (by decide) (by decide),
    h.2.2.2.2 DUMMY_VFS 0 0 4 [] (by decide) (by decide) (by decide) (by decide)⟩

/-! ## Theorems: directory handles -/

/-- Counterexample to C26 as stated: `/foo` (slot 0) is unregistered after
`xf_vfs_opendir("/foo/dir")` and `/bar` is registered afterwards, into slot 0.
`xf_vfs_closedir` on the old handle does not fail with `EBADF`: it calls the
`closedir` of the mount now in slot 0 and returns its result. -/
theorem C26_stale_dir_handle_counterexample :
    (xf_vfs_opendir okBackend fooRegistered "/foo/dir".toList).1 = some fooDirHandle ∧
    fooDirUnregistered.s_vfs 0 = none ∧
    (fooDirSlotReused.s_vfs 0).map (fun e => e.path_prefix) = some "/bar".toList ∧
    (xf_vfs_closedir okBackend fooDirSlotReused fooDirHandle).1 = 1 ∧
    (xf_vfs_closedir okBackend fooDirSlotReused fooDirHandle).2.errno ≠ Errno.EBADF ∧
    (xf_vfs_closedir okBackend fooDirSlotReused fooDirHandle).2.calls
      = fooDirSlotReused.calls ++ [BackendCall.closedir 0 true fooDirHandle] := by
  decide

/-- A handle whose `dd_vfs_idx` names an empty slot: every directory-handle
operation fails with `EBADF` and changes nothing else. -/
theorem dir_ops_ebadf (be : Backend) (t : State) (pdir : xf_vfs_dir_t)
    (h : t.s_vfs pdir.dd_vfs_idx = none) :
    xf_vfs_readdir be t pdir = (0, { t with errno := Errno.EBADF }) ∧
    (∀ entry out_dirent,
      xf_vfs_readdir_r be t pdir entry out_dirent = (-1, { t with errno := Errno.EBADF })) ∧
    xf_vfs_telldir be t pdir = (-1, { t with errno := Errno.EBADF }) ∧
    (∀ loc, xf_vfs_seekdir be t pdir loc = { t with errno := Errno.EBADF }) ∧
    xf_vfs_rewinddir be t pdir = { t with errno := Errno.EBADF } ∧
    xf_vfs_closedir be t pdir = (-1, { t with errno := Errno.EBADF }) := by
  have hn : xf_vfs_get_vfs_for_index t (pdir.dd_vfs_idx : Int) = none := by
    unfold xf_vfs_get_vfs_for_index
    split_ifs
    · rfl
    · simp only [Int.toNat_ofNat, h, Option.map_none']
  refine ⟨?_, ?_, ?_, ?_, ?_, ?_⟩
  · unfold xf_vfs_readdir
    simp only [hn]
  · intro entry out_dirent
    unfold xf_vfs_readdir_r
    simp only [hn]
  · unfold xf_vfs_telldir
    simp only [hn]
  · intro loc
    unfold xf_vfs_seekdir
    simp only [hn]
  · unfold xf_vfs_rewinddir xf_vfs_seekdir
    simp only [hn]
  · unfold xf_vfs_closedir
    simp only [hn]

/-- A handle whose `dd_vfs_idx` names an occupied slot: each directory-handle
operation the mount in that slot provides is invoked on that mount. -/
theorem dir_ops_dispatch (be : Backend) (t : State) (pdir : xf_vfs_dir_t)
    (e : xf_vfs_entry_t) (d : xf_vfs_dir_ops_t)
    (hcount : pdir.dd_vfs_idx < t.s_vfs_count)
    (h : t.s_vfs pdir.dd_vfs_idx = some e) (hd : e.vfs.dir = some d) :
    (d.readdir = true → xf_vfs_readdir be t pdir =
      backend_call be t (BackendCall.readdir pdir.dd_vfs_idx (uses_ctx e) pdir)) ∧
    (d.readdir_r = true → ∀ entry out_dirent, xf_vfs_readdir_r be t pdir entry out_dirent =
      backend_call be t
        (BackendCall.readdir_r pdir.dd_vfs_idx (uses_ctx e) pdir entry out_dirent)) ∧
    (d.telldir = true → xf_vfs_telldir be t pdir =
      backend_call be t (BackendCall.telldir pdir.dd_vfs_idx (uses_ctx e) pdir)) ∧
    (d.seekdir = true → ∀ loc, xf_vfs_seekdir be t pdir loc =
      (backend_call be t (BackendCall.seekdir pdir.dd_vfs_idx (uses_ctx e) pdir loc)).2) ∧
    (d.closedir = true → xf_vfs_closedir be t pdir =
      backend_call be t (BackendCall.closedir pdir.dd_vfs_idx (uses_ctx e) pdir)) := by
  have hn : xf_vfs_get_vfs_for_index t (pdir.dd_vfs_idx : Int)
      = some (pdir.dd_vfs_idx, e) := by
    unfold xf_vfs_get_vfs_for_index
    rw [if_neg (by omega)]
    simp only [Int.toNat_ofNat, h, Option.map_some']
  refine ⟨?_, ?_, ?_, ?_, ?_⟩
  · intro hop
    unfold xf_vfs_readdir CHECK_AND_CALL_SUBCOMPONENTP
    simp only [hn, hd, hop, Bool.true_eq_false, if_false]
  · intro hop entry out_dirent
    unfold xf_vfs_readdir_r CHECK_AND_CALL_SUBCOMPONENT
    simp only [hn, hd, hop, Bool.true_eq_false, if_false]
  · intro hop
    unfold xf_vfs_telldir CHECK_AND_CALL_SUBCOMPONENT
    simp only [hn, hd, hop, Bool.true_eq_false, if_false]
  · intro hop loc
    unfold xf_vfs_seekdir CHECK_AND_CALL_SUBCOMPONENT
    simp only [hn, hd, hop, Bool.true_eq_false, if_false]
  · intro hop
    unfold xf_vfs_closedir CHECK_AND_CALL_SUBCOMPONENT
    simp only [hn, hd, hop, Bool.true_eq_false, if_false]

/-- The handle `xf_vfs_opendir` returns carries the slot of the resolved
mount. -/
theorem opendir_handle_idx (be : Backend) (s : State) (name : List Char) (k : Nat)
    (e : xf_vfs_entry_t) (pdir : xf_vfs_dir_t) (hoff : OffsetOk s)
    (hres : xf_vfs_get_vfs_for_path_ptr s name = some (k, e))
    (hopen : (xf_vfs_opendir be s name).1 = some pdir) : pdir.dd_vfs_idx = k := by
  obtain ⟨ho1, ho2⟩ := hoff k e (ptr_some s name k e hres).2
  unfold xf_vfs_opendir at hopen
  simp only [hres] at hopen
  cases hd : e.vfs.dir with
  | none =>
    rw [hd] at hopen
    cases hopen
  | some d =>
    rw [hd] at hopen
    simp only at hopen
    have hidx : to_uint16_t e.offset = k := by
      rw [ho1]
      unfold to_uint16_t
      unfold XF_VFS_MAX_COUNT at ho2
      omega
    split_ifs at hopen with h1 h2
    simp only [Option.some.injEq] at hopen
    rw [← hopen]
    exact hidx

/-- Claim C26 (amended). A handle returned by `xf_vfs_opendir` carries in
`dd_vfs_idx` the slot `k` of the resolved mount. A later `readdir`, `readdir_r`,
`telldir`, `seekdir`, `rewinddir` or `closedir` on the handle, in whatever state
`t` the calls in between have produced, fails with `errno == EBADF` and invokes
no backend operation when slot `k` is empty in `t` (the mount was unregistered
and no later registration took the slot); when slot `k` is occupied in `t`, by
the same mount or by one registered afterwards, the call is dispatched to the
mount in slot `k`. -/
theorem C26_dir_handle_follows_slot (be : Backend) (s : State) (name : List Char) (k : Nat)
    (e : xf_vfs_entry_t) (pdir : xf_vfs_dir_t) (hoff : OffsetOk s)
    (hres : xf_vfs_get_vfs_for_path_ptr s name = some (k, e))
    (hopen : (xf_vfs_opendir be s name).1 = some pdir) :
    pdir.dd_vfs_idx = k ∧
    (∀ t : State, t.s_vfs k = none →
        xf_vfs_readdir be t pdir = (0, { t with errno := Errno.EBADF }) ∧
        (∀ entry out_dirent,
          xf_vfs_readdir_r be t pdir entry out_dirent = (-1, { t with errno := Errno.EBADF })) ∧
        xf_vfs_telldir be t pdir = (-1, { t with errno := Errno.EBADF }) ∧
        (∀ loc, xf_vfs_seekdir be t pdir loc = { t with errno := Errno.EBADF }) ∧
        xf_vfs_rewinddir be t pdir = { t with errno := Errno.EBADF } ∧
        xf_vfs_closedir be t pdir = (-1, { t with errno := Errno.EBADF })) ∧
    (∀ (t : State) (e' : xf_vfs_entry_t) (d : xf_vfs_dir_ops_t), k < t.s_vfs_count →
      t.s_vfs k = some e' → e'.vfs.dir = some d →
        (d.readdir = true → xf_vfs_readdir be t pdir =
          backend_call be t (BackendCall.readdir k (uses_ctx e') pdir)) ∧
        (d.readdir_r = true → ∀ entry out_dirent, xf_vfs_readdir_r be t pdir entry out_dirent =
          backend_call be t
            (BackendCall.readdir_r k (uses_ctx e') pdir entry out_dirent)) ∧
        (d.telldir = true → xf_vfs_telldir be t pdir =
          backend_call be t (BackendCall.telldir k (uses_ctx e') pdir)) ∧
        (d.seekdir = true → ∀ loc, xf_vfs_seekdir be t pdir loc =
          (backend_call be t (BackendCall.seekdir k (uses_ctx e') pdir loc)).2) ∧
        (d.closedir = true → xf_vfs_closedir be t pdir =
          backend_call be t (BackendCall.closedir k (uses_ctx e') pdir))) := by
  obtain rfl := opendir_handle_idx be s name k e pdir hoff hres hopen
  exact ⟨rfl, fun t ht => dir_ops_ebadf be t pdir ht,
    fun t e' d hc ht hd => dir_ops_dispatch be t pdir e' d hc ht hd⟩

/-- Witness for C26 (amended): the handle of `xf_vfs_opendir("/foo/dir")` names
slot 0; after `xf_vfs_unregister("/foo")`, `xf_vfs_closedir` on it fails with
`EBADF` and invokes nothing. -/
theorem C26_dir_handle_follows_slot_witness :
    fooDirHandle.dd_vfs_idx = 0 ∧
    xf_vfs_closedir okBackend fooDirUnregistered fooDirHandle
      = (-1, { fooDirUnregistered with errno := Errno.EBADF }) := by
  have h := C26_dir_handle_follows_slot okBackend fooRegistered "/foo/dir".toList 0
    (dummyMount "/foo" 0) fooDirHandle fooRegistered_offsetOk (by decide) (by decide)
  exact ⟨h.1, (h.2.1 fooDirUnregistered (by decide)).2.2.2.2.2⟩

/-! ## Theorems: rows and the slots they name -/

set_option maxRecDepth 100000 in
/-- C29 (the code falls short of the claim): two runs of the public API that
end with a used descriptor row naming an empty mount slot. First,
`xf_vfs_register("/foo")`, nine `xf_vfs_open` calls and `xf_vfs_unregister("/foo")`:
the sweep stops at row `XF_VFS_MAX_COUNT - 1`, so row 8 still has
`vfs_index == 0` while slot 0 is empty. Second, `xf_vfs_register("/foo")`,
`xf_vfs_unregister_with_id(0)` and `xf_vfs_register_fd(0, &fd)`: the call only
checks `vfs_id < s_vfs_count`, succeeds, and row 0 names the empty slot 0. -/
theorem C29_used_row_names_empty_slot :
    ((xf_vfs_unregister fooNineOpen "/foo".toList).1 = xf_err_t.XF_OK ∧
      ((xf_vfs_unregister fooNineOpen "/foo".toList).2.s_fd_table 8).vfs_index = 0 ∧
      (xf_vfs_unregister fooNineOpen "/foo".toList).2.s_vfs 0 = none) ∧
    ((xf_vfs_unregister_with_id fooRegistered 0).1 = xf_err_t.XF_OK ∧
      (xf_vfs_register_fd (xf_vfs_unregister_with_id fooRegistered 0).2 0 true).ret
        = xf_err_t.XF_OK ∧
      ((xf_vfs_register_fd (xf_vfs_unregister_with_id fooRegistered 0).2 0 true).state.s_fd_table
        0).vfs_index = 0 ∧
      (xf_vfs_register_fd (xf_vfs_unregister_with_id fooRegistered 0).2 0 true).state.s_vfs 0
        = none) := by
  decide

/-! ## Theorems: descriptor sets -/

theorem isset_set (n m : Nat) (p : xf_fd_set) :
    XF_FD_ISSET m (XF_FD_SET n p) = (XF_FD_ISSET m p || decide (n = m)) := by
  unfold XF_FD_ISSET XF_FD_SET
  rw [Nat.testBit_or, Nat.one_shiftLeft, Nat.testBit_two_pow]

theorem isset_clr (n m : Nat) (p : xf_fd_set) :
    XF_FD_ISSET m (XF_FD_CLR n p) = (XF_FD_ISSET m p && !decide (n = m)) := by
  unfold XF_FD_ISSET XF_FD_CLR
  rw [Nat.testBit_xor, Nat.testBit_and, Nat.one_shiftLeft, Nat.testBit_two_pow]
  cases Nat.testBit p m <;> cases decide (n = m) <;> rfl

theorem isset_zero (m : Nat) : XF_FD_ISSET m XF_FD_ZERO = false := by
  unfold XF_FD_ISSET XF_FD_ZERO
  exact Nat.zero_testBit m

/-- Clearing descriptor `n` in a caller's set leaves every other descriptor's
membership as it was. -/
theorem safe_isset_clr_other (n m : Nat) (fds : Option xf_fd_set) (h : n ≠ m) :
    xf_vfs_safe_fd_isset m (fds.map (XF_FD_CLR n)) = xf_vfs_safe_fd_isset m fds := by
  cases fds with
  | none => rfl
  | some p =>
    simp only [Option.map_some', xf_vfs_safe_fd_isset]
    rw [isset_clr]
    simp [h]

/-! ## Theorems: what xf_vfs_select leaves alone -/

theorem sameTables_refl (s : State) : SameTables s s := ⟨rfl, rfl, rfl⟩

theorem sameTables_trans (s t u : State) (h1 : SameTables s t) (h2 : SameTables t u) :
    SameTables s u :=
  ⟨h2.1.trans h1.1, h2.2.1.trans h1.2.1, h2.2.2.trans h1.2.2⟩

/-- A backend call changes `errno` and the log only. -/
theorem backend_call_ret_sameTables (be : Backend) (s : State) (c : BackendCall) :
    SameTables s (backend_call_ret be s c).2 := ⟨rfl, rfl, rfl⟩

/-- What the final sweep of `xf_vfs_select` does to each row. -/
theorem select_sweep_apply (tbl : Nat → fd_table_t) (n j : Nat) :
    select_sweep tbl n j
      = if j < n ∧ (tbl j).has_pending_close = true then FD_TABLE_ENTRY_UNUSED else tbl j := by
  unfold select_sweep
  induction n generalizing j with
  | zero => simp
  | succ n ih =>
    rw [List.range_succ, List.foldl_append]
    simp only [List.foldl_cons, List.foldl_nil]
    have hn := ih n
    simp only [lt_self_iff_false, false_and, if_false] at hn
    rw [hn]
    by_cases hid : (tbl n).has_pending_close = true
    · rw [if_pos hid]
      by_cases hj : j = n
      · subst hj
        simp [hid]
      · rw [Function.update_noteq hj, ih j]
        have : (j < n + 1) ↔ (j < n) := by omega
        simp only [this]
    · rw [if_neg hid, ih j]
      by_cases hj : j = n
      · subst hj
        simp [hid]
      · have : (j < n + 1) ↔ (j < n) := by omega
        simp only [this]

/-- `call_end_selects` changes `errno` and the log only. -/
theorem call_end_selects_sameTables (be : Backend) (n : Nat) (l : select_locals) (s : State) :
    SameTables s (call_end_selects be n l s) := by
  unfold call_end_selects
  induction n with
  | zero => exact sameTables_refl s
  | succ n ih =>
    rw [List.range_succ, List.foldl_append]
    simp only [List.foldl_cons, List.foldl_nil]
    refine sameTables_trans _ _ _ ih ?_
    split
    · exact sameTables_refl _
    · split
      · exact sameTables_refl _
      · split_ifs
        · exact backend_call_ret_sameTables be _ _
        · exact sameTables_refl _

/-! ## Theorems: the first loop of xf_vfs_select -/

theorem select_move_fd_spec (fd local_fd : Nat) (global : Option xf_fd_set) (isset : Bool)
    (item_set : xf_fd_set) (g' : Option xf_fd_set) (b : Bool) (i' : xf_fd_set)
    (h : select_move_fd fd local_fd global isset item_set = some (g', b, i')) :
    ∀ m, m ≠ fd → xf_vfs_safe_fd_isset m g' = xf_vfs_safe_fd_isset m global := by
  intro m hm
  unfold select_move_fd at h
  split_ifs at h with h1 h2
  · simp only [Option.some.injEq, Prod.mk.injEq] at h
    rw [← h.1]
    exact safe_isset_clr_other fd m global (Ne.symm hm)
  · simp only [Option.some.injEq, Prod.mk.injEq] at h
    rw [← h.1]

theorem select_mark_fd_spec (be : Backend) (s : State) (l : select_locals) (fd : Nat)
    (s' : State) (l' : select_locals)
    (h : select_mark_fd be (s, l) fd = some (s', l')) :
    s'.s_vfs = s.s_vfs ∧ s'.s_vfs_count = s.s_vfs_count ∧
    s'.s_fd_table =
      (if xf_vfs_safe_fd_isset fd l.errorfds = true then
        Function.update s.s_fd_table fd { s.s_fd_table fd with has_pending_select := true }
      else s.s_fd_table) ∧
    (∀ m, m ≠ fd → xf_vfs_safe_fd_isset m l'.errorfds = xf_vfs_safe_fd_isset m l.errorfds) ∧
    l'.vfs_count = l.vfs_count := by
  unfold select_mark_fd at h
  simp only at h
  generalize hs1 : (if xf_vfs_safe_fd_isset fd l.errorfds = true then
      ({ s with
        s_fd_table := Function.update s.s_fd_table fd
          { s.s_fd_table fd with has_pending_select := true } } : State)
    else s) = s1 at h
  have key : SameTables s1 s' ∧
      (∀ m, m ≠ fd → xf_vfs_safe_fd_isset m l'.errorfds = xf_vfs_safe_fd_isset m l.errorfds) ∧
      l'.vfs_count = l.vfs_count := by
    split_ifs at h
    · simp only [Option.some.injEq, Prod.mk.injEq] at h
      obtain ⟨rfl, rfl⟩ := h
      exact ⟨sameTables_refl _, fun _ _ => rfl, rfl⟩
    · simp only [Option.some.injEq, Prod.mk.injEq] at h
      obtain ⟨rfl, rfl⟩ := h
      exact ⟨sameTables_refl _, fun _ _ => rfl, rfl⟩
    · split at h
      · cases h
      · split at h
        · cases h
        · split_ifs at h
          all_goals
            simp only [Option.some.injEq, Prod.mk.injEq] at h
            obtain ⟨rfl, rfl⟩ := h
            exact ⟨backend_call_ret_sameTables be _ _, fun _ _ => rfl, rfl⟩
    · simp only [Option.some.injEq, Prod.mk.injEq] at h
      obtain ⟨rfl, rfl⟩ := h
      exact ⟨sameTables_refl _, fun _ _ => rfl, rfl⟩
    · split at h
      · cases h
      · split at h
        · cases h
        · split at h
          · cases h
          · rename_i h1 _ _ _ h2 _ _ _ h3
            simp only [Option.some.injEq, Prod.mk.injEq] at h
            obtain ⟨rfl, rfl⟩ := h
            exact ⟨sameTables_refl _, select_move_fd_spec _ _ _ _ _ _ _ _ h3, rfl⟩
  obtain ⟨⟨k1, k2, k3⟩, k4, k5⟩ := key
  refine ⟨?_, ?_, ?_, k4, k5⟩
  · rw [k1, ← hs1]
    split_ifs <;> rfl
  · rw [k2, ← hs1]
    split_ifs <;> rfl
  · rw [k3, ← hs1]
    split_ifs <;> rfl

/-- The first loop of `xf_vfs_select`, when it runs to its end: the mount table
is untouched, the rows below `nfds` whose descriptor is in the caller's
`errorfds` have `has_pending_select` set, and no other row changes. -/
theorem select_mark_loop_spec (be : Backend) (n : Nat) (s : State) (l : select_locals)
    (s' : State) (l' : select_locals)
    (h : select_mark_loop be n (s, l) = some (s', l')) :
    s'.s_vfs = s.s_vfs ∧ s'.s_vfs_count = s.s_vfs_count ∧
    s'.s_fd_table = marked_table s.s_fd_table n l.errorfds ∧
    (∀ m, n ≤ m → xf_vfs_safe_fd_isset m l'.errorfds = xf_vfs_safe_fd_isset m l.errorfds) ∧
    l'.vfs_count = l.vfs_count := by
  induction n generalizing s' l' with
  | zero =>
    unfold select_mark_loop at h
    simp only [List.range_zero, List.foldl_nil, Option.some.injEq, Prod.mk.injEq] at h
    obtain ⟨rfl, rfl⟩ := h
    refine ⟨rfl, rfl, ?_, fun _ _ => rfl, rfl⟩
    funext j
    unfold marked_table
    rw [if_neg]
    omega
  | succ n ih =>
    unfold select_mark_loop at h ih
    rw [List.range_succ, List.foldl_append] at h
    simp only [List.foldl_cons, List.foldl_nil] at h
    cases hmid : (List.range n).foldl
        (fun acc fd => acc.bind fun st => select_mark_fd be st fd) (some (s, l)) with
    | none =>
      rw [hmid] at h
      cases h
    | some mid =>
      obtain ⟨sm, lm⟩ := mid
      rw [hmid] at h
      simp only [Option.some_bind] at h
      obtain ⟨i1, i2, i3, i4, i5⟩ := ih sm lm hmid
      obtain ⟨k1, k2, k3, k4, k5⟩ := select_mark_fd_spec be sm lm n s' l' h
      have hn : xf_vfs_safe_fd_isset n lm.errorfds = xf_vfs_safe_fd_isset n l.errorfds :=
        i4 n (le_refl _)
      refine ⟨k1.trans i1, k2.trans i2, ?_, fun m hm => ?_, k5.trans i5⟩
      · rw [k3, hn, i3]
        funext j
        unfold marked_table
        by_cases he : xf_vfs_safe_fd_isset n l.errorfds = true
        · rw [if_pos he]
          by_cases hj : j = n
          · subst hj
            rw [Function.update_same, if_neg (by omega), if_pos ⟨by omega, he⟩]
          · rw [Function.update_noteq hj]
            have : (j < n + 1) ↔ (j < n) := by omega
            simp only [this]
        · rw [if_neg he]
          by_cases hj : j = n
          · subst hj
            rw [if_neg (by omega), if_neg (fun hc => he hc.2)]
          · have : (j < n + 1) ↔ (j < n) := by omega
            simp only [this]
      · rw [k4 m (by omega), i4 m (by omega)]

/-! ## Theorems: the loop that calls start_select -/

theorem select_start_fd_sameTables (be : Backend) (nfds : Int) (acc : StartLoop) (i : Nat) :
    SameTables acc.state (select_start_fd be nfds acc i).state := by
  unfold select_start_fd
  cases acc with
  | failed j err s l => exact sameTables_refl _
  | running s l =>
    simp only
    split
    · exact sameTables_refl _
    · split
      · exact sameTables_refl _
      · split_ifs
        · exact sameTables_refl _
        · exact sameTables_refl _
        · exact backend_call_ret_sameTables be s _
        · exact backend_call_ret_sameTables be s _

theorem select_start_loop_sameTables (be : Backend) (nfds : Int) (n : Nat) (s : State)
    (l : select_locals) : SameTables s (select_start_loop be nfds n s l).state := by
  unfold select_start_loop
  induction n with
  | zero => exact sameTables_refl s
  | succ n ih =>
    rw [List.range_succ, List.foldl_append]
    simp only [List.foldl_cons, List.foldl_nil]
    exact sameTables_trans _ _ _ ih (select_start_fd_sameTables be nfds _ n)

/-! ## Theorems: the two halves of xf_vfs_select -/

/-- The first half of `xf_vfs_select`, when it reaches the wait: `nfds` is in
range, the mount table is untouched, and the descriptor table is the one it
started with, marked. -/
theorem select_begin_waiting (be : Backend) (s : State) (nfds : Int)
    (readfds writefds errorfds : Option xf_fd_set) (heap : List Bool)
    (l : select_locals) (s1 : State) (heap1 : List Bool)
    (h : xf_vfs_select_begin be s nfds readfds writefds errorfds heap
      = SelectBegin.waiting l s1 heap1) :
    0 ≤ nfds ∧ nfds ≤ (XF_VFS_FDS_MAX : Int) ∧
    s1.s_vfs = s.s_vfs ∧ s1.s_vfs_count = s.s_vfs_count ∧
    s1.s_fd_table = marked_table s.s_fd_table nfds.toNat errorfds := by
  unfold xf_vfs_select_begin at h
  by_cases hb : nfds > (XF_VFS_FDS_MAX : Int) ∨ nfds < 0
  · rw [if_pos hb] at h
    cases h
  · rw [if_neg hb] at h
    simp only at h
    split_ifs at h with ha1
    split at h
    · cases h
    · rename_i sm lm hmark
      obtain ⟨m1, m2, m3, _, _⟩ := select_mark_loop_spec be _ _ _ _ _ hmark
      split_ifs at h with ha2 ha3
      all_goals
        split at h
        · rename_i s2 l3 hstart
          have hst : SameTables sm (StartLoop.running s2 l3).state :=
            hstart ▸ select_start_loop_sameTables be nfds _ sm _
          cases h
          exact ⟨by omega, by omega, hst.1.trans m1, hst.2.1.trans m2, hst.2.2.trans m3⟩
        · split at h <;> cases h

/-- The second half of `xf_vfs_select`, when it runs to its return: the mount
table is untouched and the descriptor table is the one the wait ended with,
swept. -/
theorem select_end_tables (be : Backend) (signalled : Nat → fds_triple_t → fds_triple_t)
    (s : State) (l : select_locals) (nfds : Int) (timeout : Option (Int × Int))
    (heap : List Bool) (r : SelectResult)
    (h : xf_vfs_select_end be signalled s l nfds timeout heap = some r) :
    r.state.s_vfs = s.s_vfs ∧ r.state.s_vfs_count = s.s_vfs_count ∧
    r.state.s_fd_table = select_sweep s.s_fd_table nfds.toNat := by
  unfold xf_vfs_select_end at h
  simp only at h
  split at h
  · cases h
  · rename_i m hm
    simp only [Option.some.injEq] at h
    rw [← h]
    simp only
    cases hsock : l.socket_select with
    | none =>
      simp only [hsock]
      have hst := call_end_selects_sameTables be l.vfs_count
        { l with vfs_fds_triple := fun i =>
            if (l.vfs_fds_triple i).isset then
              { signalled i (l.vfs_fds_triple i) with isset := true }
            else l.vfs_fds_triple i } s
      exact ⟨hst.1, hst.2.1, congrArg (fun t => select_sweep t nfds.toNat) hst.2.2⟩
    | some k =>
      simp only [hsock]
      have hst := call_end_selects_sameTables be l.vfs_count
        { l with vfs_fds_triple := fun i =>
            if (l.vfs_fds_triple i).isset then
              { signalled i (l.vfs_fds_triple i) with isset := true }
            else l.vfs_fds_triple i }
        (backend_call_ret be s
          (BackendCall.socket_select k nfds l.readfds l.writefds l.errorfds timeout)).2
      have hbc := backend_call_ret_sameTables be s
        (BackendCall.socket_select k nfds l.readfds l.writefds l.errorfds timeout)
      have := sameTables_trans _ _ _ hbc hst
      exact ⟨this.1, this.2.1, congrArg (fun t => select_sweep t nfds.toNat) this.2.2⟩

/-! ## Theorems: xf_vfs_select and nfds -/

theorem select_mark_fd_null (be : Backend) (s : State) (l : select_locals) (fd : Nat)
    (hr : l.readfds = none) (hw : l.writefds = none) (he : l.errorfds = none) :
    select_mark_fd be (s, l) fd = some (s, l) := by
  unfold select_mark_fd
  simp only [hr, hw, he, xf_vfs_safe_fd_isset, select_move_fd, Bool.false_eq_true, if_false,
    Bool.or_self, Bool.false_and]
  split_ifs
  · rfl
  · rfl
  · rfl
  · obtain ⟨vc, tr, ss, sl, sem, r, w, e, da⟩ := l
    simp only at hr hw he
    subst hr hw he
    simp only [Option.some.injEq, Prod.mk.injEq, true_and, select_locals.mk.injEq, and_true]
    exact Function.update_eq_self _ _

theorem select_mark_loop_null (be : Backend) (n : Nat) (s : State) (l : select_locals)
    (hr : l.readfds = none) (hw : l.writefds = none) (he : l.errorfds = none) :
    select_mark_loop be n (s, l) = some (s, l) := by
  unfold select_mark_loop
  induction n with
  | zero => rfl
  | succ n ih =>
    rw [List.range_succ, List.foldl_append, ih]
    simp only [List.foldl_cons, List.foldl_nil, Option.some_bind]
    exact select_mark_fd_null be s l n hr hw he

/-- With no per-mount set in use, the loop over the mounts calls nothing. -/
theorem select_start_loop_idle (be : Backend) (nfds : Int) (n : Nat) (s : State)
    (l : select_locals) (h : ∀ i, (l.vfs_fds_triple i).isset = false) :
    select_start_loop be nfds n s l = StartLoop.running s l := by
  unfold select_start_loop
  induction n with
  | zero => rfl
  | succ n ih =>
    rw [List.range_succ, List.foldl_append, ih]
    simp only [List.foldl_cons, List.foldl_nil]
    unfold select_start_fd
    simp only [h, if_true]
    split
    · rfl
    · split
      · rfl
      · split_ifs <;> rfl

theorem call_end_selects_idle (be : Backend) (n : Nat) (l : select_locals) (s : State)
    (h : ∀ i, (l.vfs_fds_triple i).isset = false) : call_end_selects be n l s = s := by
  unfold call_end_selects
  induction n with
  | zero => rfl
  | succ n ih =>
    rw [List.range_succ, List.foldl_append, ih]
    simp only [List.foldl_cons, List.foldl_nil, h, Bool.false_eq_true, and_false, if_false]
    split
    · rfl
    · split <;> rfl

theorem set_global_fd_sets_idle (tbl : Nat → fd_table_t) (triples : Nat → fds_triple_t)
    (n : Nat) (readfds writefds errorfds : Option xf_fd_set)
    (h : ∀ i, (triples i).isset = false) :
    set_global_fd_sets tbl triples n readfds writefds errorfds
      = some ⟨0, readfds, writefds, errorfds⟩ := by
  unfold set_global_fd_sets
  induction n with
  | zero => rfl
  | succ n ih =>
    rw [List.range_succ, List.foldl_append, ih]
    simp only [List.foldl_cons, List.foldl_nil, h, Bool.false_eq_true, if_false]

/-- `xf_vfs_select(nfds, NULL, NULL, NULL, timeout)` with `nfds` in range and
successful allocation: nothing is armed, no backend is called, the call returns
0, and the descriptor table is swept. -/
theorem select_null_sets (be : Backend) (signalled : Nat → fds_triple_t → fds_triple_t)
    (s : State) (nfds : Int) (timeout : Option (Int × Int)) (heap : List Bool)
    (h0 : 0 ≤ nfds) (h1 : nfds ≤ (XF_VFS_FDS_MAX : Int)) (halloc : AllocOk heap) :
    xf_vfs_select be signalled s nfds none none none timeout heap =
      some ⟨0, none, none, none,
        { s with s_fd_table := select_sweep s.s_fd_table nfds.toNat },
        (xf_malloc (xf_malloc (xf_malloc heap).2).2).2⟩ := by
  obtain ⟨a1, halloc1⟩ := allocOk_malloc heap halloc
  obtain ⟨a2, halloc2⟩ := allocOk_malloc _ halloc1
  obtain ⟨a3, _⟩ := allocOk_malloc _ halloc2
  have hbegin : xf_vfs_select_begin be s nfds none none none heap =
      SelectBegin.waiting
        { vfs_count := s.s_vfs_count,
          vfs_fds_triple := fun _ => ⟨false, XF_FD_ZERO, XF_FD_ZERO, XF_FD_ZERO⟩,
          socket_select := none, sel_sem_is_local := true, sel_sem := 1,
          readfds := none, writefds := none, errorfds := none,
          driver_args := fun _ => 0 }
        s (xf_malloc (xf_malloc (xf_malloc heap).2).2).2 := by
    unfold xf_vfs_select_begin
    rw [if_neg (by omega)]
    simp only [a1, Bool.true_eq_false, if_false]
    rw [select_mark_loop_null be _ s _ rfl rfl rfl]
    simp only [Option.isNone_none, if_true, a2, a3, Bool.true_eq_false, if_false]
    rw [select_start_loop_idle be nfds _ s _ (fun _ => rfl)]
  unfold xf_vfs_select
  rw [hbegin]
  simp only
  unfold xf_vfs_select_end
  simp only [Option.map_none', Bool.false_eq_true, if_false]
  rw [call_end_selects_idle be _ _ s (fun _ => rfl),
    set_global_fd_sets_idle _ _ _ _ _ _ (fun _ => rfl)]
  simp

/-- With `nfds` in range, a return of `xf_vfs_select` before its wait is one of
the `ENOMEM` or `EINTR` returns, never the `EINVAL` one. -/
theorem select_begin_in_range (be : Backend) (s : State) (nfds : Int)
    (readfds writefds errorfds : Option xf_fd_set) (heap : List Bool) (r : SelectResult)
    (h0 : 0 ≤ nfds) (h1 : nfds ≤ (XF_VFS_FDS_MAX : Int))
    (h : xf_vfs_select_begin be s nfds readfds writefds errorfds heap
      = SelectBegin.returned r) :
    r.ret = -1 ∧ (r.state.errno = Errno.ENOMEM ∨ r.state.errno = Errno.EINTR) := by
  unfold xf_vfs_select_begin at h
  rw [if_neg (by omega)] at h
  simp only at h
  split_ifs at h with ha1
  · cases h
    exact ⟨rfl, Or.inl rfl⟩
  · split at h
    · cases h
    · split_ifs at h with ha2 ha3
      all_goals first
        | (cases h
           exact ⟨rfl, Or.inl rfl⟩)
        | (split at h
           · cases h
           · split at h
             · cases h
             · cases h
               exact ⟨rfl, Or.inr rfl⟩)

/-- Claim C22. For `nfds < 0` or `nfds > XF_VFS_FDS_MAX`, `xf_vfs_select` returns
-1 with `errno == EINVAL`; the state is otherwise unchanged (no backend call is
logged, both tables are as before), nothing is allocated and the caller's sets
are as they were. Every `nfds` from 0 to `XF_VFS_FDS_MAX`, both ends included,
gets past that check: a return before the wait is then an `ENOMEM` or `EINTR`
one, and with NULL sets and successful allocation the call returns 0, for
`nfds == 0` and `nfds == XF_VFS_FDS_MAX` in particular. -/
theorem C22_select_rejects_out_of_range_nfds (be : Backend)
    (signalled : Nat → fds_triple_t → fds_triple_t) (s : State)
    (readfds writefds errorfds : Option xf_fd_set) (timeout : Option (Int × Int))
    (heap : List Bool) :
    (∀ nfds : Int, nfds < 0 ∨ nfds > (XF_VFS_FDS_MAX : Int) →
      xf_vfs_select be signalled s nfds readfds writefds errorfds timeout heap =
        some ⟨-1, readfds, writefds, errorfds, { s with errno := Errno.EINVAL }, heap⟩) ∧
    (∀ nfds : Int, 0 ≤ nfds → nfds ≤ (XF_VFS_FDS_MAX : Int) → ∀ r,
      xf_vfs_select_begin be s nfds readfds writefds errorfds heap = SelectBegin.returned r →
      r.state.errno = Errno.ENOMEM ∨ r.state.errno = Errno.EINTR) ∧
    (AllocOk heap →
      (xf_vfs_select be signalled s 0 none none none timeout heap).map (fun r => r.ret)
        = some 0 ∧
      (xf_vfs_select be signalled s (XF_VFS_FDS_MAX : Int) none none none timeout heap).map
        (fun r => r.ret) = some 0) := by
  refine ⟨?_, ?_, ?_⟩
  · intro nfds hbad
    unfold xf_vfs_select xf_vfs_select_begin
    rw [if_pos (by omega)]
  · intro nfds h0 h1 r hr
    exact (select_begin_in_range be s nfds readfds writefds errorfds heap r h0 h1 hr).2
  · intro halloc
    rw [select_null_sets be signalled s 0 timeout heap (by decide) (by decide) halloc,
      select_null_sets be signalled s (XF_VFS_FDS_MAX : Int) timeout heap (by decide)
        (le_refl _) halloc]
    exact ⟨rfl, rfl⟩

/-- Witness for C22: with descriptor 2 open on `/foo`, `xf_vfs_select` with
`nfds == 65` and with `nfds == -1` is refused with `EINVAL` and leaves the
caller's `readfds` (descriptor 2) alone; `nfds == 64` with NULL sets returns 0. -/
theorem C22_select_rejects_out_of_range_nfds_witness :
    xf_vfs_select okBackend (fun _ t => t) fooThirdOpen 65 (some (XF_FD_SET 2 XF_FD_ZERO))
        none none none [] =
      some ⟨-1, some (XF_FD_SET 2 XF_FD_ZERO), none, none,
        { fooThirdOpen with errno := Errno.EINVAL }, []⟩ ∧
    xf_vfs_select okBackend (fun _ t => t) fooThirdOpen (-1) (some (XF_FD_SET 2 XF_FD_ZERO))
        none none none [] =
      some ⟨-1, some (XF_FD_SET 2 XF_FD_ZERO), none, none,
        { fooThirdOpen with errno := Errno.EINVAL }, []⟩ ∧
    (xf_vfs_select okBackend (fun _ t => t) fooThirdOpen 64 none none none none []).map
      (fun r => r.ret) = some 0 := by
  have h := C22_select_rejects_out_of_range_nfds okBackend (fun _ t => t) fooThirdOpen
    (some (XF_FD_SET 2 XF_FD_ZERO)) none none none []
  have h' := C22_select_rejects_out_of_range_nfds okBackend (fun _ t => t) fooThirdOpen
    none none none none []
  exact ⟨h.1 65 (by decide), h.1 (-1) (by decide), (h'.2.2 (fun b hb => by cases hb)).2⟩

/-! ## Theorems: close during select -/

/-- A mount that is neither a fallback nor qualifies for `path` leaves the
resolver's accumulator as it is. -/
theorem resolve_step_skip (s_vfs : Nat → Option xf_vfs_entry_t) (path : List Char)
    (acc : Option Nat × Int) (n : Nat) (e : xf_vfs_entry_t) (hsn : s_vfs n = some e)
    (hnf : ¬ IsFallback e) (hnq : ¬ Qualifies e path) :
    get_vfs_for_path_step s_vfs path acc n = acc := by
  unfold IsFallback at hnf
  unfold get_vfs_for_path_step
  simp only [hsn]
  by_cases c1 : e.path_prefix_len = XF_VFS_PATH_PREFIX_LEN_IGNORED
  · rw [if_pos c1]
  · rw [if_neg c1]
    by_cases c2 : path.length < e.path_prefix_len ∨
        xf_memcmp path e.path_prefix e.path_prefix_len ≠ 0
    · rw [if_pos c2]
    · rw [if_neg c2, if_neg (by simp [hnf])]
      by_cases c3 : path.length > e.path_prefix_len ∧
          path.getD e.path_prefix_len NUL ≠ '/'
      · rw [if_pos c3]
      · exfalso
        apply hnq
        unfold Qualifies Matches
        unfold xf_memcmp at c2
        simp only [not_or, not_lt, ne_eq, ite_eq_left_iff, one_ne_zero, imp_false,
          not_not] at c2
        refine ⟨⟨c1, c2.1, c2.2⟩, by omega, ?_⟩
        by_cases hl : path.length = e.path_prefix_len
        · exact Or.inl hl
        · right
          by_contra hne
          exact c3 ⟨by omega, hne⟩

/-- The separator test of the resolver at offset 0. -/
theorem separator_test_at_zero (path : List Char) :
    (path.length > 0 ∧ path.getD 0 NUL ≠ '/') ↔ ¬ EmptyOrRooted path := by
  unfold EmptyOrRooted
  cases path with
  | nil => simp
  | cons c t => simp

/-- What the resolver does at a fallback mount. -/
theorem resolve_step_fallback (s_vfs : Nat → Option xf_vfs_entry_t) (path : List Char)
    (acc : Option Nat × Int) (n : Nat) (e : xf_vfs_entry_t) (hsn : s_vfs n = some e)
    (hfb : IsFallback e) :
    get_vfs_for_path_step s_vfs path acc n =
      if acc.1 = none then (some n, acc.2)
      else if ¬ EmptyOrRooted path then acc
      else if acc.2 < 0 then (some n, 0) else acc := by
  unfold IsFallback at hfb
  unfold get_vfs_for_path_step
  simp only [hsn]
  have hign : (0 : Nat) ≠ XF_VFS_PATH_PREFIX_LEN_IGNORED := by decide
  rw [hfb, if_neg hign, if_neg (by simp [xf_memcmp])]
  by_cases c0 : acc.1 = none
  · rw [if_pos ⟨rfl, c0⟩, if_pos c0]
  · rw [if_neg (by simp [c0]), if_neg c0]
    by_cases hr : EmptyOrRooted path
    · rw [if_neg (by rw [separator_test_at_zero]; exact not_not.mpr hr),
        if_neg (not_not.mpr hr)]
      rfl
    · rw [if_pos (by rw [separator_test_at_zero]; exact hr), if_pos hr]

/-- The resolver's accumulator after slots `0 .. n-1` when no scanned mount
qualifies and `f1 < f2` are the first two fallback slots. -/
theorem resolve_loop_two_fallbacks (s_vfs : Nat → Option xf_vfs_entry_t) (path : List Char)
    (f1 f2 : Nat) (e1 e2 : xf_vfs_entry_t) (hf : f1 < f2)
    (h1 : s_vfs f1 = some e1) (hfb1 : IsFallback e1)
    (h2 : s_vfs f2 = some e2) (hfb2 : IsFallback e2)
    (hfirst : ∀ i e, i < f2 → i ≠ f1 → s_vfs i = some e → ¬ IsFallback e) (n : Nat)
    (hnoq : ∀ i e, i < n → s_vfs i = some e → ¬ Qualifies e path) :
    get_vfs_for_path_loop s_vfs path n =
      if n ≤ f1 then (none, -1)
      else if n ≤ f2 then (some f1, -1)
      else if EmptyOrRooted path then (some f2, 0) else (some f1, -1) := by
  induction n with
  | zero => simp [get_vfs_for_path_loop]
  | succ n ih =>
    have ihn := ih (fun i e hi => hnoq i e (by omega))
    have hq := hnoq n
    rw [get_vfs_for_path_loop_succ]
    rcases Nat.lt_trichotomy n f1 with hlt | heq | hgt
    · -- before the first fallback
      have hp : get_vfs_for_path_loop s_vfs path n = (none, -1) := by
        rw [ihn, if_pos (by omega)]
      rw [hp, if_pos (show n + 1 ≤ f1 by omega)]
      cases hsn : s_vfs n with
      | none => simp [get_vfs_for_path_step, hsn]
      | some e =>
        exact resolve_step_skip s_vfs path _ n e hsn (hfirst n e (by omega) (by omega) hsn)
          (hq e (by omega) hsn)
    · -- the first fallback
      subst heq
      have hp : get_vfs_for_path_loop s_vfs path n = (none, -1) := by
        rw [ihn, if_pos (le_refl _)]
      rw [hp, if_neg (show ¬ n + 1 ≤ n by omega), if_pos (show n + 1 ≤ f2 by omega),
        resolve_step_fallback s_vfs path _ n e1 h1 hfb1, if_pos rfl]
    · rcases Nat.lt_trichotomy n f2 with hlt2 | heq2 | hgt2
      · -- between the two fallbacks
        have hp : get_vfs_for_path_loop s_vfs path n = (some f1, -1) := by
          rw [ihn, if_neg (by omega), if_pos (by omega)]
        rw [hp, if_neg (show ¬ n + 1 ≤ f1 by omega), if_pos (show n + 1 ≤ f2 by omega)]
        cases hsn : s_vfs n with
        | none => simp [get_vfs_for_path_step, hsn]
        | some e =>
          exact resolve_step_skip s_vfs path _ n e hsn (hfirst n e (by omega) (by omega) hsn)
            (hq e (by omega) hsn)
      · -- the second fallback
        subst heq2
        have hp : get_vfs_for_path_loop s_vfs path n = (some f1, -1) := by
          rw [ihn, if_neg (by omega), if_pos (le_refl _)]
        rw [hp, if_neg (show ¬ n + 1 ≤ f1 by omega), if_neg (show ¬ n + 1 ≤ n by omega),
          resolve_step_fallback s_vfs path _ n e2 h2 hfb2, if_neg (by simp)]
        by_cases hr : EmptyOrRooted path
        · rw [if_neg (not_not.mpr hr),
            if_pos (show ((some f1, (-1 : Int)) : Option Nat × Int).2 < 0 by simp), if_pos hr]
        · rw [if_pos hr, if_neg hr]
      · -- after the second fallback
        have hp : get_vfs_for_path_loop s_vfs path n =
            if EmptyOrRooted path then (some f2, (0 : Int)) else (some f1, -1) := by
          rw [ihn, if_neg (by omega), if_neg (by omega)]
        rw [hp, if_neg (show ¬ n + 1 ≤ f1 by omega), if_neg (show ¬ n + 1 ≤ f2 by omega)]
        cases hsn : s_vfs n with
        | none => simp [get_vfs_for_path_step, hsn]
        | some e =>
          by_cases hfe : IsFallback e
          · rw [resolve_step_fallback s_vfs path _ n e hsn hfe]
            by_cases hr : EmptyOrRooted path
            · simp [hr]
            · simp [hr]
          · exact resolve_step_skip s_vfs path _ n e hsn hfe (hq e (by omega) hsn)

/-- C40 as stated fails: with two fallback mounts registered (slots 0 and 1)
and no other mount, `x` resolves to the first one and `/x` to the second. -/
theorem C40_fallback_choice_counterexample :
    (twoFallbacks.s_vfs 0).map (fun e => e.path_prefix_len) = some 0 ∧
    (twoFallbacks.s_vfs 1).map (fun e => e.path_prefix_len) = some 0 ∧
    twoFallbacks.s_vfs_count = 2 ∧
    xf_vfs_get_vfs_for_path_idx twoFallbacks "x".toList = some 0 ∧
    xf_vfs_get_vfs_for_path_idx twoFallbacks "/x".toList = some 1 := by
  decide

/-- Claim C40 (amended). When several fallback (empty-prefix) mounts are
registered, `f1 < f2` being the slots of the first two the scan meets, and no
mount qualifies for `path` with a non-empty prefix, `xf_vfs_get_vfs_for_path`
selects the mount in slot `f1` for a non-empty path that does not begin with
`/`, and the mount in slot `f2` for the empty path and for every path that
begins with `/`. -/
theorem C40_fallback_choice_depends_on_leading_slash (s : State) (path : List Char)
    (f1 f2 : Nat) (hfb : FirstTwoFallbacks s f1 f2) (hnoq : NoneQualifies s path) :
    (¬ EmptyOrRooted path → xf_vfs_get_vfs_for_path_idx s path = some f1) ∧
    (EmptyOrRooted path → xf_vfs_get_vfs_for_path_idx s path = some f2) := by
  obtain ⟨hf, hcount, ⟨e1, h1, hfb1⟩, ⟨e2, h2, hfb2⟩, hfirst⟩ := hfb
  have hloop := resolve_loop_two_fallbacks s.s_vfs path f1 f2 e1 e2 hf h1 hfb1 h2 hfb2 hfirst
    s.s_vfs_count (fun i e hi he => hnoq i e hi he)
  unfold xf_vfs_get_vfs_for_path_idx
  rw [hloop, if_neg (by omega), if_neg (by omega)]
  constructor
  · intro hr
    rw [if_neg hr]
  · intro hr
    rw [if_pos hr]

/-- Witness for C40 (amended): in `tripleFallback` the first two fallback slots
are 0 and 1; `foo/bar` resolves to slot 0, `/foo/bar` and the empty path to
slot 1. -/
theorem C40_fallback_choice_depends_on_leading_slash_witness :
    xf_vfs_get_vfs_for_path_idx tripleFallback "foo/bar".toList = some 0 ∧
    xf_vfs_get_vfs_for_path_idx tripleFallback "/foo/bar".toList = some 1 ∧
    xf_vfs_get_vfs_for_path_idx tripleFallback [] = some 1 := by
  have hfb : FirstTwoFallbacks tripleFallback 0 1 := by
    refine ⟨by decide, by decide, ⟨_, rfl, rfl⟩, ⟨_, rfl, rfl⟩, ?_⟩
    intro i e hi hne
    omega
  have hnoq : ∀ path, NoneQualifies tripleFallback path := by
    intro path i e hi he hq
    have hi3 : i < 3 := hi
    have h0 : e.path_prefix_len = 0 := by
      interval_cases i
      · have h : tripleFallback.s_vfs 0 = some e := he
        have : (tripleFallback.s_vfs 0).map (fun e => e.path_prefix_len) = some 0 := by decide
        rw [h] at this
        simpa using this
      · have h : tripleFallback.s_vfs 1 = some e := he
        have : (tripleFallback.s_vfs 1).map (fun e => e.path_prefix_len) = some 0 := by decide
        rw [h] at this
        simpa using this
      · have h : tripleFallback.s_vfs 2 = some e := he
        have : (tripleFallback.s_vfs 2).map (fun e => e.path_prefix_len) = some 0 := by decide
        rw [h] at this
        simpa using this
    exact absurd hq.2.1 (by omega)
  exact ⟨(C40_fallback_choice_depends_on_leading_slash tripleFallback "foo/bar".toList 0 1 hfb
      (hnoq _)).1 (by decide),
    (C40_fallback_choice_depends_on_leading_slash tripleFallback "/foo/bar".toList 0 1 hfb
      (hnoq _)).2 (by decide),
    (C40_fallback_choice_depends_on_leading_slash tripleFallback [] 0 1 hfb (hnoq _)).2
      (by decide)⟩

/-! ## Theorems: the flags xf_vfs_select leaves behind -/

set_option maxRecDepth 100000 in
/-- C31 (the code falls short of the claim). With `/foo` registered and
descriptor 0 open, `xf_vfs_select(1, NULL, NULL, &errorfds, NULL)` with
descriptor 0 in `errorfds` returns 1 and row 0 still has
`has_pending_select == true`: the final sweep never clears the flag. The
`xf_vfs_close(0)` that follows therefore only sets `has_pending_close`; a second
`xf_vfs_select(1, NULL, NULL, NULL, NULL)` whose semaphore cannot be created
returns -1 with `ENOMEM` before the sweep, and row 0, which had
`has_pending_close`, is still allocated. When that second call completes, row 0
is the unused entry. -/
theorem C31_select_leaves_pending_flags :
    (xf_vfs_select okBackend (fun _ t => t) fooOneOpen 1 none none
        (some (XF_FD_SET 0 XF_FD_ZERO)) none []).map
      (fun r => (r.ret, (r.state.s_fd_table 0).has_pending_select)) = some (1, true) ∧
    closedAfterSelect.map (fun s => s.s_fd_table 0)
      = some { permanent := false, has_pending_close := true, has_pending_select := true,
               vfs_index := 0, local_fd := 1 } ∧
    closedAfterSelect.bind (fun s =>
        (xf_vfs_select okBackend (fun _ t => t) s 1 none none none none [true, false]).map
          fun r => (r.ret, r.state.errno, r.state.s_fd_table 0))
      = some (-1, Errno.ENOMEM,
          { permanent := false, has_pending_close := true, has_pending_select := true,
            vfs_index := 0, local_fd := 1 }) ∧
    closedAfterSelect.bind (fun s =>
        (xf_vfs_select okBackend (fun _ t => t) s 1 none none none none []).map
          fun r => (r.ret, r.state.s_fd_table 0))
      = some (0, FD_TABLE_ENTRY_UNUSED) := by
  decide

set_option maxRecDepth 100000 in
/-- C38 (the code falls short of the claim). With `/foo` registered and no
descriptor open, `xf_vfs_select(1, NULL, NULL, &errorfds, NULL)` with descriptor
0 in `errorfds` returns 0 and leaves row 0 unused (`vfs_index == -1`) with
`has_pending_select == true`. The `xf_vfs_open` that follows claims row 0 and
the row keeps the flag; `xf_vfs_close(0)` then calls the backend's `close` but
leaves the row allocated with `has_pending_close` set. -/
theorem C38_unused_row_keeps_pending_select :
    (xf_vfs_select okBackend (fun _ t => t) fooRegistered 1 none none
        (some (XF_FD_SET 0 XF_FD_ZERO)) none []).map (fun r => r.ret) = some 0 ∧
    selectedUnused.map (fun s => s.s_fd_table 0)
      = some { FD_TABLE_ENTRY_UNUSED with has_pending_select := true } ∧
    selectedUnused.map
        (fun s => (xf_vfs_open okBackend s "/foo/file".toList XF_VFS_O_RDONLY 0).1)
      = some 0 ∧
    selectedUnused.map (fun s =>
        (xf_vfs_open okBackend s "/foo/file".toList XF_VFS_O_RDONLY 0).2.s_fd_table 0)
      = some { permanent := false, has_pending_close := false, has_pending_select := true,
               vfs_index := 0, local_fd := 1 } ∧
    selectedUnused.map (fun s =>
        (xf_vfs_close okBackend
          (xf_vfs_open okBackend s "/foo/file".toList XF_VFS_O_RDONLY 0).2 0).2.s_fd_table 0)
      = some { permanent := false, has_pending_close := true, has_pending_select := true,
               vfs_index := 0, local_fd := 1 } := by
  decide

/-! ## Theorems: the backend invocations of xf_vfs_select -/

/-- `xf_vfs_get_vfs_for_index` at a slot number. -/
theorem get_vfs_for_index_nat (s : State) (i : Nat) :
    xf_vfs_get_vfs_for_index s (i : Int) =
      if i < s.s_vfs_count then (s.s_vfs i).map fun e => (i, e) else none := by
  unfold xf_vfs_get_vfs_for_index
  by_cases h : i < s.s_vfs_count
  · rw [if_neg (by omega), if_pos h]
    simp
  · rw [if_pos (by omega), if_neg h]

/-- States with the same tables resolve a slot number alike. -/
theorem get_vfs_for_index_sameTables (s t : State) (h : SameTables s t) (i : Int) :
    xf_vfs_get_vfs_for_index t i = xf_vfs_get_vfs_for_index s i := by
  unfold xf_vfs_get_vfs_for_index
  rw [h.1, h.2.1]

/-- One iteration of the first loop of `xf_vfs_select` invokes at most
`get_socket_select_semaphore`. -/
theorem select_mark_fd_calls (be : Backend) (s : State) (l : select_locals) (fd : Nat)
    (s' : State) (l' : select_locals)
    (h : select_mark_fd be (s, l) fd = some (s', l')) :
    ∃ ms, s'.calls = s.calls ++ ms ∧ ∀ c, c ∈ ms → c.Quiet := by
  unfold select_mark_fd at h
  simp only at h
  generalize hs1 : (if xf_vfs_safe_fd_isset fd l.errorfds = true then
      ({ s with
        s_fd_table := Function.update s.s_fd_table fd
          { s.s_fd_table fd with has_pending_select := true } } : State)
    else s) = s1 at h
  have hc : s1.calls = s.calls := by
    rw [← hs1]
    split_ifs <;> rfl
  have hnil : ∃ ms, s1.calls = s.calls ++ ms ∧ ∀ c, c ∈ ms → c.Quiet :=
    ⟨[], by rw [hc, List.append_nil], fun c hc => absurd hc (List.not_mem_nil c)⟩
  split_ifs at h
  · simp only [Option.some.injEq, Prod.mk.injEq] at h
    obtain ⟨rfl, rfl⟩ := h
    exact hnil
  · simp only [Option.some.injEq, Prod.mk.injEq] at h
    obtain ⟨rfl, rfl⟩ := h
    exact hnil
  · split at h
    · cases h
    · split at h
      · cases h
      · split_ifs at h
        all_goals
          simp only [Option.some.injEq, Prod.mk.injEq] at h
          obtain ⟨rfl, rfl⟩ := h
          refine ⟨[BackendCall.get_socket_select_semaphore (s.s_fd_table fd).vfs_index.toNat],
            ?_, ?_⟩
          · simp only [backend_call_ret]
            rw [hc]
          · intro c hc
            rw [List.mem_singleton] at hc
            rw [hc]
            exact ⟨rfl, rfl, rfl⟩
  · simp only [Option.some.injEq, Prod.mk.injEq] at h
    obtain ⟨rfl, rfl⟩ := h
    exact hnil
  · split at h
    · cases h
    · split at h
      · cases h
      · split at h
        · cases h
        · simp only [Option.some.injEq, Prod.mk.injEq] at h
          obtain ⟨rfl, rfl⟩ := h
          exact hnil

/-- The first loop of `xf_vfs_select` invokes nothing but
`get_socket_select_semaphore`. -/
theorem select_mark_loop_calls (be : Backend) (n : Nat) (s : State) (l : select_locals)
    (s' : State) (l' : select_locals)
    (h : select_mark_loop be n (s, l) = some (s', l')) :
    ∃ ms, s'.calls = s.calls ++ ms ∧ ∀ c, c ∈ ms → c.Quiet := by
  induction n generalizing s' l' with
  | zero =>
    unfold select_mark_loop at h
    simp only [List.range_zero, List.foldl_nil, Option.some.injEq, Prod.mk.injEq] at h
    obtain ⟨rfl, rfl⟩ := h
    exact ⟨[], by rw [List.append_nil], fun c hc => absurd hc (List.not_mem_nil c)⟩
  | succ n ih =>
    unfold select_mark_loop at h ih
    rw [List.range_succ, List.foldl_append] at h
    simp only [List.foldl_cons, List.foldl_nil] at h
    cases hmid : (List.range n).foldl
        (fun acc fd => acc.bind fun st => select_mark_fd be st fd) (some (s, l)) with
    | none =>
      rw [hmid] at h
      cases h
    | some mid =>
      obtain ⟨sm, lm⟩ := mid
      rw [hmid] at h
      simp only [Option.some_bind] at h
      obtain ⟨ms1, e1, q1⟩ := ih sm lm hmid
      obtain ⟨ms2, e2, q2⟩ := select_mark_fd_calls be sm lm n s' l' h
      refine ⟨ms1 ++ ms2, by rw [e2, e1, List.append_assoc], fun c hc => ?_⟩
      rcases List.mem_append.mp hc with hc | hc
      · exact q1 c hc
      · exact q2 c hc
/-- A backend invocation is appended to the log. -/
theorem backend_call_ret_calls (be : Backend) (s : State) (c : BackendCall) :
    (backend_call_ret be s c).2.calls = s.calls ++ [c] := rfl

/-- The `start_select` calls that returned `XF_OK` stay so when the loop moves
on to a mount that is not called. -/
theorem startedOk_skip (be : Backend) (s : State) (isset : Nat → Bool) (n : Nat)
    (cs : List BackendCall) (h : StartedOk be s isset n cs) (hn : ¬ Starts s isset n) :
    StartedOk be s isset (n + 1) cs := by
  refine ⟨fun c hc => ?_, fun k hk hs => ?_⟩
  · obtain ⟨k, h1, h2, h3, h4⟩ := h.1 c hc
    exact ⟨k, h1, by omega, h3, h4⟩
  · by_cases hkn : k = n
    · subst hkn
      exact absurd hs hn
    · exact h.2 k (by omega) hs

/-- The `start_select` calls that returned `XF_OK`, one more of them. -/
theorem startedOk_call (be : Backend) (s : State) (isset : Nat → Bool) (n : Nat)
    (cs : List BackendCall) (c : BackendCall) (h : StartedOk be s isset n cs)
    (hslot : c.start_select_slot = some n) (hok : (be c).err = xf_err_t.XF_OK)
    (hstarts : Starts s isset n) :
    StartedOk be s isset (n + 1) (cs ++ [c]) := by
  refine ⟨fun c' hc => ?_, fun k hk hs => ?_⟩
  · rcases List.mem_append.mp hc with hc | hc
    · obtain ⟨k, h1, h2, h3, h4⟩ := h.1 c' hc
      exact ⟨k, h1, by omega, h3, h4⟩
    · rw [List.mem_singleton] at hc
      rw [hc]
      exact ⟨n, hslot, by omega, hok, hstarts⟩
  · by_cases hkn : k = n
    · subst hkn
      exact ⟨c, List.mem_append.mpr (Or.inr (List.mem_singleton.mpr rfl)), hslot⟩
    · obtain ⟨c', h1, h2⟩ := h.2 k (by omega) hs
      exact ⟨c', List.mem_append.mpr (Or.inl h1), h2⟩

/-- One iteration of the loop that calls `start_select` keeps `StartLog`. -/
theorem startLog_step (be : Backend) (nfds : Int) (s : State) (isset : Nat → Bool) (n : Nat)
    (acc : StartLoop) (h : StartLog be s isset n acc) :
    StartLog be s isset (n + 1) (select_start_fd be nfds acc n) := by
  cases acc with
  | failed i err s' l' =>
    obtain ⟨h1, h2, h3, h4, h5⟩ := h
    exact ⟨by omega, h2, h3, h4, h5⟩
  | running s' l' =>
    obtain ⟨hst, hiss, cs, hcs, hok⟩ := h
    have hskip : ¬ Starts s isset n → StartLog be s isset (n + 1) (StartLoop.running s' l') :=
      fun hn => ⟨hst, hiss, cs, hcs, startedOk_skip be s isset n cs hok hn⟩
    unfold select_start_fd
    simp only
    rw [get_vfs_for_index_sameTables s s' hst, get_vfs_for_index_nat]
    by_cases hn : n < s.s_vfs_count
    · rw [if_pos hn]
      cases hv : s.s_vfs n with
      | none =>
        simp only [Option.map_none']
        exact hskip (fun ⟨vfs, sel, _, h2, _⟩ => by rw [hv] at h2; cases h2)
      | some vfs =>
        simp only [Option.map_some']
        cases hsel : vfs.vfs.select with
        | none =>
          simp only
          refine hskip (fun ⟨vfs', sel, _, h2, h3, _⟩ => ?_)
          rw [hv] at h2
          cases h2
          rw [hsel] at h3
          cases h3
        | some sel =>
          simp only
          by_cases hss : sel.start_select = false
          · rw [if_pos hss]
            refine hskip (fun ⟨vfs', sel', _, h2, h3, h4, _⟩ => ?_)
            rw [hv] at h2
            cases h2
            rw [hsel] at h3
            cases h3
            rw [hss] at h4
            cases h4
          · rw [if_neg hss]
            by_cases hi : (l'.vfs_fds_triple n).isset = false
            · rw [if_pos hi]
              refine hskip (fun ⟨_, _, _, _, _, _, h5⟩ => ?_)
              rw [← hiss n, hi] at h5
              cases h5
            · rw [if_neg hi]
              have hiss' : ∀ i,
                  (Function.update l'.vfs_fds_triple n
                    { l'.vfs_fds_triple n with
                      readfds := (be (BackendCall.start_select n nfds
                        (l'.vfs_fds_triple n).readfds (l'.vfs_fds_triple n).writefds
                        (l'.vfs_fds_triple n).errorfds l'.sel_sem_is_local l'.sel_sem)).readfds,
                      writefds := (be (BackendCall.start_select n nfds
                        (l'.vfs_fds_triple n).readfds (l'.vfs_fds_triple n).writefds
                        (l'.vfs_fds_triple n).errorfds l'.sel_sem_is_local l'.sel_sem)).writefds,
                      errorfds := (be (BackendCall.start_select n nfds
                        (l'.vfs_fds_triple n).readfds (l'.vfs_fds_triple n).writefds
                        (l'.vfs_fds_triple n).errorfds l'.sel_sem_is_local l'.sel_sem)).errorfds }
                    i).isset = isset i := by
                intro i
                by_cases hin : i = n
                · subst hin
                  rw [Function.update_same]
                  exact hiss i
                · rw [Function.update_noteq hin]
                  exact hiss i
              by_cases herr : (backend_call_ret be s'
                  (BackendCall.start_select n nfds (l'.vfs_fds_triple n).readfds
                    (l'.vfs_fds_triple n).writefds (l'.vfs_fds_triple n).errorfds
                    l'.sel_sem_is_local l'.sel_sem)).1.err ≠ xf_err_t.XF_OK
              · rw [if_pos herr]
                refine ⟨by omega, herr,
                  sameTables_trans _ _ _ hst (backend_call_ret_sameTables be s' _), hiss',
                  cs, BackendCall.start_select n nfds (l'.vfs_fds_triple n).readfds
                    (l'.vfs_fds_triple n).writefds (l'.vfs_fds_triple n).errorfds
                    l'.sel_sem_is_local l'.sel_sem, ?_, hok, rfl, rfl⟩
                rw [backend_call_ret_calls, hcs, List.append_assoc]
              · rw [if_neg herr]
                refine ⟨sameTables_trans _ _ _ hst (backend_call_ret_sameTables be s' _),
                  hiss', cs ++ [BackendCall.start_select n nfds (l'.vfs_fds_triple n).readfds
                    (l'.vfs_fds_triple n).writefds (l'.vfs_fds_triple n).errorfds
                    l'.sel_sem_is_local l'.sel_sem], ?_,
                  startedOk_call be s isset n cs _ hok rfl (not_not.mp herr)
                    ⟨vfs, sel, hn, hv, hsel, by simpa using hss,
                      by rw [← hiss n]; simpa using hi⟩⟩
                rw [backend_call_ret_calls, hcs, List.append_assoc]
    · rw [if_neg hn]
      exact hskip (fun ⟨_, _, h1, _⟩ => hn h1)

/-- The loop that calls `start_select`: what it has logged when it ends. -/
theorem select_start_loop_log (be : Backend) (nfds : Int) (n : Nat) (s : State)
    (l : select_locals) :
    StartLog be s (fun i => (l.vfs_fds_triple i).isset) n (select_start_loop be nfds n s l) := by
  unfold select_start_loop
  induction n with
  | zero =>
    exact ⟨sameTables_refl s, fun _ => rfl, [], by rw [List.append_nil],
      fun c hc => absurd hc (List.not_mem_nil c), fun k hk => absurd hk (by omega)⟩
  | succ n ih =>
    rw [List.range_succ, List.foldl_append]
    simp only [List.foldl_cons, List.foldl_nil]
    exact startLog_step be nfds s _ n _ ih

/-- `call_end_selects` only invokes `end_select`, on mounts below `n` that
`Ends`; it invokes it on each of them. -/
theorem call_end_selects_log (be : Backend) (n : Nat) (l : select_locals) (s : State) :
    ∃ es, (call_end_selects be n l s).calls = s.calls ++ es ∧
      EndedOnly s (fun i => (l.vfs_fds_triple i).isset) n es ∧
      ∀ k, k < n → Ends s (fun i => (l.vfs_fds_triple i).isset) k →
        ∃ d, d ∈ es ∧ d.end_select_slot = some k := by
  unfold call_end_selects
  induction n with
  | zero =>
    exact ⟨[], by simp, fun d hd => absurd hd (List.not_mem_nil d),
      fun k hk => absurd hk (by omega)⟩
  | succ n ih =>
    obtain ⟨es, he, hes, hall⟩ := ih
    have hst := call_end_selects_sameTables be n l s
    unfold call_end_selects at hst
    rw [List.range_succ, List.foldl_append]
    simp only [List.foldl_cons, List.foldl_nil]
    have hskip : ¬ Ends s (fun i => (l.vfs_fds_triple i).isset) n →
        ∃ es', ((List.range n).foldl
          (fun (s : State) (i : Nat) =>
            match xf_vfs_get_vfs_for_index s (i : Int) with
            | none => s
            | some (_, vfs) =>
              match vfs.vfs.select with
              | none => s
              | some sel =>
                if sel.end_select = true ∧ (l.vfs_fds_triple i).isset = true then
                  (backend_call_ret be s (BackendCall.end_select i (l.driver_args i))).2
                else s) s).calls = s.calls ++ es' ∧
          EndedOnly s (fun i => (l.vfs_fds_triple i).isset) (n + 1) es' ∧
          ∀ k, k < n + 1 → Ends s (fun i => (l.vfs_fds_triple i).isset) k →
            ∃ d, d ∈ es' ∧ d.end_select_slot = some k := by
      intro hn
      refine ⟨es, he, fun d hd => ?_, fun k hk hek => ?_⟩
      · obtain ⟨k, h1, h2, h3⟩ := hes d hd
        exact ⟨k, h1, by omega, h3⟩
      · by_cases hkn : k = n
        · subst hkn
          exact absurd hek hn
        · exact hall k (by omega) hek
    rw [get_vfs_for_index_sameTables s _ hst, get_vfs_for_index_nat]
    by_cases hn : n < s.s_vfs_count
    · rw [if_pos hn]
      cases hv : s.s_vfs n with
      | none =>
        simp only [Option.map_none']
        exact hskip (fun ⟨vfs, sel, _, h2, _⟩ => by rw [hv] at h2; cases h2)
      | some vfs =>
        simp only [Option.map_some']
        cases hsel : vfs.vfs.select with
        | none =>
          simp only
          refine hskip (fun ⟨vfs', sel, _, h2, h3, _⟩ => ?_)
          rw [hv] at h2
          cases h2
          rw [hsel] at h3
          cases h3
        | some sel =>
          simp only
          by_cases hc : sel.end_select = true ∧ (l.vfs_fds_triple n).isset = true
          · rw [if_pos hc]
            have hends : Ends s (fun i => (l.vfs_fds_triple i).isset) n :=
              ⟨vfs, sel, hn, hv, hsel, hc.1, hc.2⟩
            refine ⟨es ++ [BackendCall.end_select n (l.driver_args n)], ?_, fun d hd => ?_,
              fun k hk hek => ?_⟩
            · rw [backend_call_ret_calls, he, List.append_assoc]
            · rcases List.mem_append.mp hd with hd | hd
              · obtain ⟨k, h1, h2, h3⟩ := hes d hd
                exact ⟨k, h1, by omega, h3⟩
              · rw [List.mem_singleton] at hd
                rw [hd]
                exact ⟨n, rfl, by omega, hends⟩
            · by_cases hkn : k = n
              · subst hkn
                exact ⟨_, List.mem_append.mpr (Or.inr (List.mem_singleton.mpr rfl)), rfl⟩
              · obtain ⟨d, h1, h2⟩ := hall k (by omega) hek
                exact ⟨d, List.mem_append.mpr (Or.inl h1), h2⟩
          · rw [if_neg hc]
            refine hskip (fun ⟨vfs', sel', _, h2, h3, h4, h5⟩ => ?_)
            rw [hv] at h2
            cases h2
            rw [hsel] at h3
            cases h3
            exact hc ⟨h4, h5⟩
    · rw [if_neg hn]
      exact hskip (fun ⟨_, _, h1, _⟩ => hn h1)
/-- `Starts` looks at the mount table, `s_vfs_count` and the flags only. -/
theorem starts_congr (s t : State) (h1 : t.s_vfs = s.s_vfs)
    (h2 : t.s_vfs_count = s.s_vfs_count) (isset isset' : Nat → Bool)
    (hi : ∀ i, isset' i = isset i) (i : Nat) :
    Starts t isset' i ↔ Starts s isset i := by
  unfold Starts
  rw [h1, h2, hi i]

/-- `Ends` looks at the mount table, `s_vfs_count` and the flags only. -/
theorem ends_congr (s t : State) (h1 : t.s_vfs = s.s_vfs)
    (h2 : t.s_vfs_count = s.s_vfs_count) (isset isset' : Nat → Bool)
    (hi : ∀ i, isset' i = isset i) (i : Nat) :
    Ends t isset' i ↔ Ends s isset i := by
  unfold Ends
  rw [h1, h2, hi i]

theorem startedOk_congr (be : Backend) (s t : State) (h1 : t.s_vfs = s.s_vfs)
    (h2 : t.s_vfs_count = s.s_vfs_count) (isset isset' : Nat → Bool)
    (hi : ∀ i, isset' i = isset i) (n : Nat) (cs : List BackendCall)
    (hok : StartedOk be t isset' n cs) : StartedOk be s isset n cs :=
  ⟨fun c hc => by
      obtain ⟨k, a1, a2, a3, a4⟩ := hok.1 c hc
      exact ⟨k, a1, a2, a3, (starts_congr s t h1 h2 isset isset' hi k).mp a4⟩,
    fun k hk hs => hok.2 k hk ((starts_congr s t h1 h2 isset isset' hi k).mpr hs)⟩

theorem endedOnly_congr (s t : State) (h1 : t.s_vfs = s.s_vfs)
    (h2 : t.s_vfs_count = s.s_vfs_count) (isset isset' : Nat → Bool)
    (hi : ∀ i, isset' i = isset i) (n : Nat)
    (es : List BackendCall) (hes : EndedOnly t isset' n es) : EndedOnly s isset n es := by
  intro d hd
  obtain ⟨k, h1', h2', h3⟩ := hes d hd
  exact ⟨k, h1', h2', (ends_congr s t h1 h2 isset isset' hi k).mp h3⟩

/-- An `end_select` on a mount that `Ends` is on a mount below `s_vfs_count`. -/
theorem endedOnly_bound (s : State) (isset : Nat → Bool) (n : Nat) (es : List BackendCall)
    (hes : EndedOnly s isset n es) : EndedOnly s isset s.s_vfs_count es := by
  intro d hd
  obtain ⟨k, h1, _, h3⟩ := hes d hd
  obtain ⟨vfs, sel, hk, hrest⟩ := h3
  exact ⟨k, h1, hk, vfs, sel, hk, hrest⟩

/-- The second half of `xf_vfs_select` invokes at most one `socket_select` and
then `end_select` on mounts that `Ends`. -/
theorem select_end_log (be : Backend) (signalled : Nat → fds_triple_t → fds_triple_t)
    (s : State) (l : select_locals) (nfds : Int) (timeout : Option (Int × Int))
    (heap : List Bool) (r : SelectResult)
    (h : xf_vfs_select_end be signalled s l nfds timeout heap = some r) :
    ∃ mid es, r.state.calls = s.calls ++ (mid ++ es) ∧
      (∀ c, c ∈ mid → c.is_socket_select = true) ∧
      EndedOnly s (fun i => (l.vfs_fds_triple i).isset) l.vfs_count es := by
  unfold xf_vfs_select_end at h
  simp only at h
  split at h
  · cases h
  · rename_i m hm
    simp only [Option.some.injEq] at h
    rw [← h]
    simp only
    have hiss : (fun i => ((if (l.vfs_fds_triple i).isset = true then
          ({ signalled i (l.vfs_fds_triple i) with isset := true } : fds_triple_t)
        else l.vfs_fds_triple i)).isset) = fun i => (l.vfs_fds_triple i).isset := by
      funext i
      by_cases hi : (l.vfs_fds_triple i).isset = true
      · rw [if_pos hi, hi]
      · rw [if_neg hi]
    cases hsock : l.socket_select with
    | none =>
      simp only [hsock]
      obtain ⟨es, he, hes, _⟩ := call_end_selects_log be l.vfs_count
        { l with vfs_fds_triple := fun i =>
            if (l.vfs_fds_triple i).isset then
              { signalled i (l.vfs_fds_triple i) with isset := true }
            else l.vfs_fds_triple i } s
      simp only [hiss] at hes
      simp only [hsock] at he
      exact ⟨[], es, by rw [List.nil_append]; exact he,
        fun c hc => absurd hc (List.not_mem_nil c), hes⟩
    | some k =>
      simp only [hsock]
      obtain ⟨es, he, hes, _⟩ := call_end_selects_log be l.vfs_count
        { l with vfs_fds_triple := fun i =>
            if (l.vfs_fds_triple i).isset then
              { signalled i (l.vfs_fds_triple i) with isset := true }
            else l.vfs_fds_triple i }
        (backend_call_ret be s
          (BackendCall.socket_select k nfds l.readfds l.writefds l.errorfds timeout)).2
      simp only [hiss] at hes
      refine ⟨[BackendCall.socket_select k nfds l.readfds l.writefds l.errorfds timeout], es,
        ?_, fun c hc => ?_,
        endedOnly_congr s _ rfl rfl _ _ (fun _ => rfl) _ es hes⟩
      · simp only [hsock] at he
        rw [he, backend_call_ret_calls, List.append_assoc]
      · rw [List.mem_singleton] at hc
        rw [hc]
        rfl

/-- The first half of `xf_vfs_select`, when it reaches the wait: it has invoked
`get_socket_select_semaphore` at most, and then `start_select`, with result
`XF_OK`, on every mount that `Starts`. -/
theorem select_begin_waiting_log (be : Backend) (s : State) (nfds : Int)
    (readfds writefds errorfds : Option xf_fd_set) (heap : List Bool)
    (l : select_locals) (s1 : State) (heap1 : List Bool)
    (h : xf_vfs_select_begin be s nfds readfds writefds errorfds heap
      = SelectBegin.waiting l s1 heap1) :
    ∃ ms cs, s1.calls = s.calls ++ (ms ++ cs) ∧ (∀ c, c ∈ ms → c.Quiet) ∧
      StartedOk be s (fun i => (l.vfs_fds_triple i).isset) s.s_vfs_count cs := by
  unfold xf_vfs_select_begin at h
  by_cases hb : nfds > (XF_VFS_FDS_MAX : Int) ∨ nfds < 0
  · rw [if_pos hb] at h
    cases h
  · rw [if_neg hb] at h
    simp only at h
    split_ifs at h with ha1
    split at h
    · cases h
    · rename_i sm lm hmark
      obtain ⟨m1, m2, _, _, m5⟩ := select_mark_loop_spec be _ _ _ _ _ hmark
      obtain ⟨ms, hms, hq⟩ := select_mark_loop_calls be _ _ _ _ _ hmark
      split_ifs at h with ha2 ha3
      all_goals
        split at h
        · rename_i s2 l3 hstart
          have hlog : StartLog be sm _ s.s_vfs_count (StartLoop.running s2 l3) :=
            hstart ▸ select_start_loop_log be nfds _ sm _
          obtain ⟨hst, hiss, cs, hcs, hok⟩ := hlog
          cases h
          exact ⟨ms, cs, by rw [hcs, hms, List.append_assoc], hq,
            startedOk_congr be s sm m1 m2 _ _ (fun i => (hiss i).symm) _ cs hok⟩
        · split at h <;> cases h

/-- The first half of `xf_vfs_select`, when it returns before the wait: the
shape of what it has invoked. -/
theorem select_begin_returned_log (be : Backend) (s : State) (nfds : Int)
    (readfds writefds errorfds : Option xf_fd_set) (heap : List Bool) (res : SelectResult)
    (h : xf_vfs_select_begin be s nfds readfds writefds errorfds heap
      = SelectBegin.returned res) :
    ∃ new, res.state.calls = s.calls ++ new ∧ SelectLogShape be s res new := by
  have early : ∀ (ms : List BackendCall) (res : SelectResult),
      (∀ c, c ∈ ms → c.Quiet) → res.ret = -1 → res.state.calls = s.calls ++ ms →
      ∃ new, res.state.calls = s.calls ++ new ∧ SelectLogShape be s res new :=
    fun ms res hq hret hcalls =>
      ⟨ms, hcalls, fun _ => false, ms, [], [], by simp, hq, Or.inr (Or.inr ⟨rfl, rfl, hret⟩)⟩
  unfold xf_vfs_select_begin at h
  by_cases hb : nfds > (XF_VFS_FDS_MAX : Int) ∨ nfds < 0
  · rw [if_pos hb] at h
    cases h
    exact early [] _ (fun c hc => absurd hc (List.not_mem_nil c)) rfl (by simp)
  · rw [if_neg hb] at h
    simp only at h
    split_ifs at h with ha1
    · cases h
      exact early [] _ (fun c hc => absurd hc (List.not_mem_nil c)) rfl (by simp)
    · split at h
      · cases h
      · rename_i sm lm hmark
        obtain ⟨m1, m2, _, _, m5⟩ := select_mark_loop_spec be _ _ _ _ _ hmark
        obtain ⟨ms, hms, hq⟩ := select_mark_loop_calls be _ _ _ _ _ hmark
        split_ifs at h with ha2 ha3 ha4 ha5
        all_goals
          first
            | (cases h
               exact early ms _ hq rfl hms)
            | (split at h
               · cases h
               · rename_i i err s2 l3 hstart
                 have hlog : StartLog be sm _ s.s_vfs_count (StartLoop.failed i err s2 l3) :=
                   hstart ▸ select_start_loop_log be nfds _ sm _
                 obtain ⟨hi, herr, hst, hiss, cs, c, hcs, hok, hslot, hbe⟩ := hlog
                 split at h
                 · cases h
                 · rename_i m hm
                   cases h
                   have hs2 : s2.s_vfs = s.s_vfs := hst.1.trans m1
                   have hs2c : s2.s_vfs_count = s.s_vfs_count := hst.2.1.trans m2
                   by_cases hns : err = xf_err_t.XF_ERR_NOT_SUPPORTED
                   · refine ⟨ms ++ cs ++ [c], ?_, fun i => (l3.vfs_fds_triple i).isset, ms, cs,
                       [c], rfl, hq, Or.inr (Or.inl ⟨i, c, [], rfl,
                         startedOk_congr be s sm m1 m2 _ _ (fun i => (hiss i).symm) _ cs hok,
                         hi, hslot, by rw [hbe]; exact herr, rfl, rfl, fun _ => rfl,
                         fun hne => absurd (hbe.trans hns) hne⟩)⟩
                     simp only [hns, ne_eq, not_true_eq_false, if_false]
                     rw [hcs, hms]
                     simp
                   · obtain ⟨es, he, hes, hall⟩ := call_end_selects_log be i l3 s2
                     refine ⟨ms ++ cs ++ (c :: es), ?_, fun i => (l3.vfs_fds_triple i).isset,
                       ms, cs, c :: es, rfl, hq, Or.inr (Or.inl ⟨i, c, es, rfl,
                         startedOk_congr be s sm m1 m2 _ _ (fun i => (hiss i).symm) _ cs hok,
                         hi, hslot, by rw [hbe]; exact herr, rfl, rfl,
                         fun heq => absurd (hbe.symm.trans heq) hns,
                         fun _ => ⟨endedOnly_congr s s2 hs2 hs2c _ _ (fun _ => rfl) i es hes,
                           fun k hk hek => hall k hk
                             ((ends_congr s s2 hs2 hs2c _ _ (fun _ => rfl) k).mpr hek)⟩⟩)⟩
                     simp only [ne_eq, hns, not_false_eq_true, if_true]
                     rw [he, hcs, hms]
                     simp)

/-- The shape of what one `xf_vfs_select` call invokes. -/
theorem select_log (be : Backend) (signalled : Nat → fds_triple_t → fds_triple_t) (s : State)
    (nfds : Int) (readfds writefds errorfds : Option xf_fd_set)
    (timeout : Option (Int × Int)) (heap : List Bool) (res : SelectResult)
    (h : xf_vfs_select be signalled s nfds readfds writefds errorfds timeout heap = some res) :
    ∃ new, res.state.calls = s.calls ++ new ∧ SelectLogShape be s res new := by
  unfold xf_vfs_select at h
  split at h
  · cases h
  · rename_i r hbegin
    simp only [Option.some.injEq] at h
    rw [← h]
    exact select_begin_returned_log be s nfds readfds writefds errorfds heap r hbegin
  · rename_i l s1 heap1 hbegin
    obtain ⟨_, _, b1, b2, _⟩ :=
      select_begin_waiting be s nfds readfds writefds errorfds heap l s1 heap1 hbegin
    obtain ⟨ms, cs, hcalls, hq, hok⟩ :=
      select_begin_waiting_log be s nfds readfds writefds errorfds heap l s1 heap1 hbegin
    obtain ⟨mid, es, hend, hmid, hes⟩ := select_end_log be signalled s1 l nfds timeout heap1 res h
    refine ⟨ms ++ cs ++ (mid ++ es), by rw [hend, hcalls]; simp,
      fun i => (l.vfs_fds_triple i).isset, ms, cs, mid ++ es, rfl, hq,
      Or.inl ⟨mid, es, rfl, hok, hmid, ?_⟩⟩
    exact endedOnly_bound s _ _ es (endedOnly_congr s s1 b1 b2 _ _ (fun _ => rfl) _ es hes)

/-- A `start_select` invocation is neither an `end_select` nor a
`socket_select`. -/
theorem start_slot_excl (c : BackendCall) (k : Nat) (h : c.start_select_slot = some k) :
    c.end_select_slot = none ∧ c.is_socket_select = false := by
  cases c <;> first | exact ⟨rfl, rfl⟩ | cases h

/-- An `end_select` invocation is neither a `start_select` nor a
`socket_select`. -/
theorem end_slot_excl (c : BackendCall) (k : Nat) (h : c.end_select_slot = some k) :
    c.start_select_slot = none ∧ c.is_socket_select = false := by
  cases c <;> first | exact ⟨rfl, rfl⟩ | cases h

/-- A `socket_select` invocation is neither a `start_select` nor an
`end_select`. -/
theorem socket_select_excl (c : BackendCall) (h : c.is_socket_select = true) :
    c.start_select_slot = none ∧ c.end_select_slot = none := by
  cases c <;> first | exact ⟨rfl, rfl⟩ | cases h

/-- In a list split at an element `d` that does not occur in its first part
`l1`, all of `l1` lies before `d`. -/
theorem mem_before_split {α : Type} (l1 l2 pre post : List α) (d : α)
    (h : l1 ++ l2 = pre ++ d :: post) (hd : d ∉ l1) : ∀ c, c ∈ l1 → c ∈ pre := by
  intro c hc
  rcases List.append_eq_append_iff.mp h with ⟨a, h1, _⟩ | ⟨a, h1, h2⟩
  · rw [h1]
    exact List.mem_append.mpr (Or.inl hc)
  · cases a with
    | nil =>
      rw [List.append_nil] at h1
      rw [← h1]
      exact hc
    | cons x t =>
      simp only [List.cons_append, List.cons.injEq] at h2
      exfalso
      apply hd
      rw [h1, h2.1]
      exact List.mem_append.mpr (Or.inr (List.mem_cons_self _ _))

/-! ## Theorems: a start_select that fails -/

set_option maxRecDepth 100000 in
/-- C32 as stated fails: with `/sel` registered (a mount with `start_select`
and `end_select`), descriptor 0 open on it and a backend whose `start_select`
returns `XF_ERR_NOT_SUPPORTED`, `xf_vfs_select(1, &readfds, NULL, NULL, NULL)`
with descriptor 0 in `readfds` invokes that `start_select` and returns -1 with
`errno == EINTR`. -/
theorem C32_not_supported_counterexample :
    (notSupportedBackend (BackendCall.start_select 0 1 2 0 0 true 1)).err
      = xf_err_t.XF_ERR_NOT_SUPPORTED ∧
    notSupportedSelect.map (fun r => (r.ret, r.state.errno)) = some (-1, Errno.EINTR) ∧
    notSupportedSelect.map (fun r => r.state.calls)
      = some (selOneOpen.calls ++ [BackendCall.start_select 0 1 2 0 0 true 1]) := by
  decide

/-- Claim C32 (amended). If, in an `xf_vfs_select` call that returns, a
backend's `start_select` (on mount `k`) returns anything other than `XF_OK`,
`XF_ERR_NOT_SUPPORTED` included, the call aborts: it returns -1 with
`errno == EINTR`, invokes no `start_select` on a later mount and no
`socket_select`. When the error is `XF_ERR_NOT_SUPPORTED` it invokes no
`end_select` at all; otherwise it invokes `end_select` only on mounts below `k`,
and on every mount below `k` whose `start_select` it had invoked and which
provides `end_select`. -/
theorem C32_start_select_error_aborts (be : Backend)
    (signalled : Nat → fds_triple_t → fds_triple_t) (s : State) (nfds : Int)
    (readfds writefds errorfds : Option xf_fd_set) (timeout : Option (Int × Int))
    (heap : List Bool) (res : SelectResult) (new : List BackendCall) (c : BackendCall)
    (k : Nat)
    (hsel : xf_vfs_select be signalled s nfds readfds writefds errorfds timeout heap
      = some res)
    (hnew : res.state.calls = s.calls ++ new) (hc : c ∈ new)
    (hslot : c.start_select_slot = some k) (herr : (be c).err ≠ xf_err_t.XF_OK) :
    res.ret = -1 ∧ res.state.errno = Errno.EINTR ∧
    (∀ d, d ∈ new → d.is_socket_select = false) ∧
    (∀ d j, d ∈ new → d.start_select_slot = some j → j ≤ k) ∧
    ((be c).err = xf_err_t.XF_ERR_NOT_SUPPORTED → ∀ d, d ∈ new → d.end_select_slot = none) ∧
    ((be c).err ≠ xf_err_t.XF_ERR_NOT_SUPPORTED →
      (∀ d j, d ∈ new → d.end_select_slot = some j → j < k) ∧
      ∀ c' j vfs sel, c' ∈ new → c'.start_select_slot = some j → j < k →
        s.s_vfs j = some vfs → vfs.vfs.select = some sel → sel.end_select = true →
        ∃ d, d ∈ new ∧ d.end_select_slot = some j) := by
  obtain ⟨new', hnew', isset, ms, cs, tail, hsplit, hq, hshape⟩ :=
    select_log be signalled s nfds readfds writefds errorfds timeout heap res hsel
  have hnn : new = new' := List.append_cancel_left (hnew.symm.trans hnew')
  subst hnn
  subst hsplit
  have hms : c ∉ ms := fun hm => by
    have := (hq c hm).1
    rw [hslot] at this
    cases this
  have hcs : ∀ n, StartedOk be s isset n cs → c ∉ cs := fun n hok hm => by
    obtain ⟨_, _, _, h3, _⟩ := hok.1 c hm
    exact herr h3
  have hends : ∀ n es, EndedOnly s isset n es → c ∉ es := fun n es hes hm => by
    obtain ⟨j, h1, _⟩ := hes c hm
    have := (end_slot_excl c j h1).1
    rw [hslot] at this
    cases this
  rcases hshape with ⟨mid, es, rfl, hok, hmid, hes⟩ | ⟨i, c0, es, rfl, hok, hi, hslot0, herr0,
      hret, herrno, hns, hother⟩ | ⟨rfl, rfl, _⟩
  · exfalso
    rcases List.mem_append.mp hc with h1 | h1
    · rcases List.mem_append.mp h1 with h2 | h2
      · exact hms h2
      · exact hcs _ hok h2
    · rcases List.mem_append.mp h1 with h2 | h2
      · have := (socket_select_excl c (hmid c h2)).1
        rw [hslot] at this
        cases this
      · exact hends _ es hes h2
  · have hes : ∀ d, d ∈ es → ∃ j, d.end_select_slot = some j ∧ j < i := by
      intro d hd
      by_cases hn : (be c0).err = xf_err_t.XF_ERR_NOT_SUPPORTED
      · rw [hns hn] at hd
        cases hd
      · obtain ⟨j, h1, h2, _⟩ := (hother hn).1 d hd
        exact ⟨j, h1, h2⟩
    have hcc : c = c0 := by
      rcases List.mem_append.mp hc with h1 | h1
      · rcases List.mem_append.mp h1 with h2 | h2
        · exact absurd h2 hms
        · exact absurd h2 (hcs _ hok)
      · rcases List.mem_cons.mp h1 with h2 | h2
        · exact h2
        · obtain ⟨j, h3, _⟩ := hes c h2
          have := (end_slot_excl c j h3).1
          rw [hslot] at this
          cases this
    subst hcc
    have hki : k = i := by
      rw [hslot] at hslot0
      exact Option.some.inj hslot0
    subst hki
    have hcases : ∀ d, d ∈ ms ++ cs ++ c :: es →
        d.Quiet ∨ (∃ j, d.start_select_slot = some j ∧ j < k ∧ Starts s isset j) ∨ d = c ∨
          ∃ j, d.end_select_slot = some j ∧ j < k := by
      intro d hd
      rcases List.mem_append.mp hd with h1 | h1
      · rcases List.mem_append.mp h1 with h2 | h2
        · exact Or.inl (hq d h2)
        · obtain ⟨j, a1, a2, _, a4⟩ := hok.1 d h2
          exact Or.inr (Or.inl ⟨j, a1, a2, a4⟩)
      · rcases List.mem_cons.mp h1 with h2 | h2
        · exact Or.inr (Or.inr (Or.inl h2))
        · exact Or.inr (Or.inr (Or.inr (hes d h2)))
    refine ⟨hret, herrno, fun d hd => ?_, fun d j hd hj => ?_, fun hn d hd => ?_,
      fun hn => ⟨fun d j hd hj => ?_, fun c' j vfs sel hc' hj hjk hv hsel hend => ?_⟩⟩
    · rcases hcases d hd with h | ⟨j, h, _⟩ | h | ⟨j, h, _⟩
      · exact h.2.2
      · exact (start_slot_excl d j h).2
      · rw [h]
        exact (start_slot_excl c k hslot).2
      · exact (end_slot_excl d j h).2
    · rcases hcases d hd with h | ⟨j', h, hlt, _⟩ | h | ⟨j', h, _⟩
      · rw [h.1] at hj
        cases hj
      · rw [h] at hj
        have := Option.some.inj hj
        omega
      · rw [h, hslot] at hj
        have := Option.some.inj hj
        omega
      · rw [(end_slot_excl d j' h).1] at hj
        cases hj
    · rcases List.mem_append.mp hd with h1 | h1
      · rcases List.mem_append.mp h1 with h2 | h2
        · exact (hq d h2).2.1
        · obtain ⟨j, a1, _⟩ := hok.1 d h2
          exact (start_slot_excl d j a1).1
      · rcases List.mem_cons.mp h1 with h2 | h2
        · rw [h2]
          exact (start_slot_excl c k hslot).1
        · rw [hns hn] at h2
          cases h2
    · rcases hcases d hd with h | ⟨j', h, _⟩ | h | ⟨j', h, hlt⟩
      · rw [h.2.1] at hj
        cases hj
      · rw [(start_slot_excl d j' h).1] at hj
        cases hj
      · rw [h, (start_slot_excl c k hslot).1] at hj
        cases hj
      · rw [h] at hj
        have := Option.some.inj hj
        omega
    · have hst : Starts s isset j := by
        rcases hcases c' hc' with h | ⟨j', h, _, hs⟩ | h | ⟨j', h, _⟩
        · rw [h.1] at hj
          cases hj
        · rw [h] at hj
          rw [← Option.some.inj hj]
          exact hs
        · rw [h, hslot] at hj
          have := Option.some.inj hj
          omega
        · rw [(end_slot_excl c' j' h).1] at hj
          cases hj
      obtain ⟨vfs', sel', hjc, hv', _, _, hiss⟩ := hst
      obtain ⟨d, hd, hdslot⟩ := (hother hn).2 j hjk ⟨vfs, sel, hjc, hv, hsel, hend, hiss⟩
      exact ⟨d, List.mem_append.mpr (Or.inr (List.mem_cons_of_mem _ hd)), hdslot⟩
  · exfalso
    rcases List.mem_append.mp hc with h1 | h1
    · rcases List.mem_append.mp h1 with h2 | h2
      · exact hms h2
      · cases h2
    · cases h1

set_option maxRecDepth 100000 in
/-- Witness for C32 (amended): the call of `C32_not_supported_counterexample`. -/
theorem C32_start_select_error_aborts_witness :
    notSupportedResult.ret = -1 ∧ notSupportedResult.state.errno = Errno.EINTR ∧
    ∀ d, d ∈ [BackendCall.start_select 0 1 2 0 0 true 1] → d.end_select_slot = none := by
  have h := C32_start_select_error_aborts notSupportedBackend (fun _ t => t) selOneOpen 1
    (some (XF_FD_SET 0 XF_FD_ZERO)) none none none [] notSupportedResult
    [BackendCall.start_select 0 1 2 0 0 true 1] (BackendCall.start_select 0 1 2 0 0 true 1) 0
    rfl (by decide) (by decide) rfl (by decide)
  exact ⟨h.1, h.2.1, h.2.2.2.2.1 (by decide)⟩

/-! ## Theorems: which mounts get end_select -/

set_option maxRecDepth 100000 in
/-- C33 (the code falls short of the claim). With `/end` registered (a mount
that provides `end_select` but no `start_select`) and descriptor 0 open on it,
`xf_vfs_select(1, &readfds, NULL, NULL, NULL)` with descriptor 0 in `readfds`
invokes `end_select` on mount 0 although no `start_select` was invoked in the
call: the whole log of the call is the one `end_select`. -/
theorem C33_end_select_without_start_select :
    (endOnlyOpen.s_vfs 0).map (fun e => e.vfs.select)
      = some (some { end_select := true }) ∧
    (xf_vfs_select okBackend (fun _ t => t) endOnlyOpen 1 (some (XF_FD_SET 0 XF_FD_ZERO))
        none none none []).map (fun r => r.state.calls)
      = some (endOnlyOpen.calls ++ [BackendCall.end_select 0 0]) := by
  decide

/-- In every `xf_vfs_select` call that returns, on both the normal path and the
abort path, `end_select` is invoked on a mount only if that mount provides
`end_select` and, when the mount also provides `start_select`, its
`start_select` was invoked earlier in the same call and returned `XF_OK`. -/
theorem end_select_follows_start_select (be : Backend)
    (signalled : Nat → fds_triple_t → fds_triple_t) (s : State) (nfds : Int)
    (readfds writefds errorfds : Option xf_fd_set) (timeout : Option (Int × Int))
    (heap : List Bool) (res : SelectResult)
    (hsel : xf_vfs_select be signalled s nfds readfds writefds errorfds timeout heap
      = some res) :
    ∃ new, res.state.calls = s.calls ++ new ∧
      ∀ pre d post k, new = pre ++ d :: post → d.end_select_slot = some k →
        ∃ vfs sel, k < s.s_vfs_count ∧ s.s_vfs k = some vfs ∧ vfs.vfs.select = some sel ∧
          sel.end_select = true ∧
          (sel.start_select = true →
            ∃ c, c ∈ pre ∧ c.start_select_slot = some k ∧ (be c).err = xf_err_t.XF_OK) := by
  obtain ⟨new, hnew, isset, ms, cs, tail, hsplit, hq, hshape⟩ :=
    select_log be signalled s nfds readfds writefds errorfds timeout heap res hsel
  refine ⟨new, hnew, fun pre d post k hpre hd => ?_⟩
  subst hsplit
  have hms : d ∉ ms := fun hm => by
    have := (hq d hm).2.1
    rw [hd] at this
    cases this
  have hcs : ∀ n, StartedOk be s isset n cs → d ∉ cs := fun n hok hm => by
    obtain ⟨j, h1, _⟩ := hok.1 d hm
    have := (start_slot_excl d j h1).1
    rw [hd] at this
    cases this
  have hdmem : d ∈ ms ++ cs ++ tail := by
    rw [hpre]
    exact List.mem_append.mpr (Or.inr (List.mem_cons_self _ _))
  have key : ∀ (n : Nat) (front : List BackendCall), StartedOk be s isset n cs →
      (∀ c, c ∈ cs → c ∈ front) → (∀ c, c ∈ front → c ∈ pre) → k < n → Ends s isset k →
      ∃ vfs sel, k < s.s_vfs_count ∧ s.s_vfs k = some vfs ∧ vfs.vfs.select = some sel ∧
        sel.end_select = true ∧
        (sel.start_select = true →
          ∃ c, c ∈ pre ∧ c.start_select_slot = some k ∧ (be c).err = xf_err_t.XF_OK) := by
    intro n front hok hfront hin hkn ⟨vfs, sel, hk, hv, hsel, hend, hiss⟩
    refine ⟨vfs, sel, hk, hv, hsel, hend, fun hstart => ?_⟩
    obtain ⟨c, hc, hcslot⟩ := hok.2 k hkn ⟨vfs, sel, hk, hv, hsel, hstart, hiss⟩
    obtain ⟨j, a1, _, a3, _⟩ := hok.1 c hc
    exact ⟨c, hin c (hfront c hc), hcslot, a3⟩
  rcases hshape with ⟨mid, es, rfl, hok, hmid, hes⟩ | ⟨i, c0, es, rfl, hok, hi, hslot0, herr0,
      hret, herrno, hns, hother⟩ | ⟨rfl, rfl, _⟩
  · have hnotfront : d ∉ ms ++ cs ++ mid := fun hm => by
      rcases List.mem_append.mp hm with h1 | h1
      · rcases List.mem_append.mp h1 with h2 | h2
        · exact hms h2
        · exact hcs _ hok h2
      · have := (socket_select_excl d (hmid d h1)).2
        rw [hd] at this
        cases this
    have hdes : d ∈ es := by
      rcases List.mem_append.mp hdmem with h1 | h1
      · exact absurd (List.mem_append.mpr (Or.inl h1)) hnotfront
      · rcases List.mem_append.mp h1 with h2 | h2
        · exact absurd (List.mem_append.mpr (Or.inr h2)) hnotfront
        · exact h2
    obtain ⟨j, h1, h2, h3⟩ := hes d hdes
    rw [hd] at h1
    obtain rfl := Option.some.inj h1
    have hsplit2 : (ms ++ cs ++ mid) ++ es = pre ++ d :: post := by
      rw [← hpre]
      simp
    exact key _ (ms ++ cs ++ mid) hok
      (fun c hc => List.mem_append.mpr (Or.inl (List.mem_append.mpr (Or.inr hc))))
      (mem_before_split _ es pre post d hsplit2 hnotfront) h2 h3
  · have hnotfront : d ∉ ms ++ cs ++ [c0] := fun hm => by
      rcases List.mem_append.mp hm with h1 | h1
      · rcases List.mem_append.mp h1 with h2 | h2
        · exact hms h2
        · exact hcs _ hok h2
      · rw [List.mem_singleton] at h1
        have := (start_slot_excl c0 i hslot0).1
        rw [← h1, hd] at this
        cases this
    have hdes : d ∈ es := by
      rcases List.mem_append.mp hdmem with h1 | h1
      · exact absurd (List.mem_append.mpr (Or.inl h1)) hnotfront
      · rcases List.mem_cons.mp h1 with h2 | h2
        · exact absurd (List.mem_append.mpr (Or.inr (List.mem_singleton.mpr h2))) hnotfront
        · exact h2
    have hn : (be c0).err ≠ xf_err_t.XF_ERR_NOT_SUPPORTED := fun hn => by
      rw [hns hn] at hdes
      cases hdes
    obtain ⟨j, h1, h2, h3⟩ := (hother hn).1 d hdes
    rw [hd] at h1
    obtain rfl := Option.some.inj h1
    have hsplit2 : (ms ++ cs ++ [c0]) ++ es = pre ++ d :: post := by
      rw [← hpre]
      simp
    exact key _ (ms ++ cs ++ [c0]) hok
      (fun c hc => List.mem_append.mpr (Or.inl (List.mem_append.mpr (Or.inr hc))))
      (mem_before_split _ es pre post d hsplit2 hnotfront) h2 h3
  · exfalso
    rcases List.mem_append.mp hdmem with h1 | h1
    · rcases List.mem_append.mp h1 with h2 | h2
      · exact hms h2
      · cases h2
    · cases h1

set_option maxRecDepth 100000 in
/-- With `/sel` registered (a mount with `start_select` and `end_select`) and
descriptor 0 open on it, `xf_vfs_select(1, &readfds, NULL, NULL, NULL)` invokes
`start_select` on mount 0, which returns `XF_OK`, and then `end_select` on
mount 0. -/
theorem end_select_follows_start_select_on_sel :
    okSelectResult.state.calls = selOneOpen.calls ++
      [BackendCall.start_select 0 1 2 0 0 true 1, BackendCall.end_select 0 0] ∧
    ∃ c, c ∈ [BackendCall.start_select 0 1 2 0 0 true 1] ∧ c.start_select_slot = some 0 ∧
      (okBackend c).err = xf_err_t.XF_OK := by
  obtain ⟨new, hnew, h⟩ := end_select_follows_start_select okBackend (fun _ t => t)
    selOneOpen 1 (some (XF_FD_SET 0 XF_FD_ZERO)) none none none [] okSelectResult rfl
  have hcalls : okSelectResult.state.calls = selOneOpen.calls ++
      [BackendCall.start_select 0 1 2 0 0 true 1, BackendCall.end_select 0 0] := by decide
  have hn : new = [BackendCall.start_select 0 1 2 0 0 true 1] ++
      BackendCall.end_select 0 0 :: [] := List.append_cancel_left (hnew.symm.trans hcalls)
  obtain ⟨vfs, sel, _, hv, hsel, _, hstart⟩ := h _ _ _ 0 hn rfl
  have hsel0 : (selOneOpen.s_vfs 0).bind (fun e => e.vfs.select)
      = some { start_select := true, end_select := true } := by decide
  rw [hv] at hsel0
  simp only [Option.some_bind, hsel] at hsel0
  exact ⟨hcalls, hstart (by rw [Option.some.inj hsel0])⟩

/-! ## Theorems: the merge step of xf_vfs_select -/

/-- One block of `set_global_fd_sets`: the set it leaves and the count. -/
theorem set_global_fd_spec (fd local_fd : Nat) (item_set : xf_fd_set)
    (global g' : Option xf_fd_set) (ret ret' : Int)
    (h : set_global_fd fd local_fd item_set global ret = some (g', ret')) :
    g'.isSome = global.isSome ∧
    ret' = ret + (if global.isSome = true ∧ XF_FD_ISSET local_fd item_set = true then 1 else 0) ∧
    ∀ x, xf_vfs_safe_fd_isset x g' =
      (xf_vfs_safe_fd_isset x global ||
        (global.isSome && decide (x = fd) && XF_FD_ISSET local_fd item_set)) := by
  unfold set_global_fd at h
  cases global with
  | none =>
    simp only [Option.some.injEq, Prod.mk.injEq] at h
    obtain ⟨rfl, rfl⟩ := h
    simp [xf_vfs_safe_fd_isset]
  | some g =>
    simp only at h
    split_ifs at h with h1 h2
    · simp only [Option.some.injEq, Prod.mk.injEq] at h
      obtain ⟨rfl, rfl⟩ := h
      refine ⟨rfl, by simp [h2], fun x => ?_⟩
      simp only [xf_vfs_safe_fd_isset, isset_set, Option.isSome_some, Bool.true_and, h2,
        Bool.and_true]
      congr 1
      exact decide_eq_decide.mpr ⟨fun h => h.symm, fun h => h.symm⟩
    · simp only [Option.some.injEq, Prod.mk.injEq] at h
      obtain ⟨rfl, rfl⟩ := h
      refine ⟨rfl, by simp [h2], fun x => ?_⟩
      simp [xf_vfs_safe_fd_isset, h2]

/-- The body of the inner loop of `set_global_fd_sets`. -/
theorem set_global_fd_row_spec (tbl : Nat → fd_table_t) (item : fds_triple_t) (i : Nat)
    (a a' : merge_acc) (fd : Nat)
    (h : set_global_fd_row tbl item i (some a) fd = some a') :
    a'.ret = a.ret + hit_count a.readfds (row_hit tbl i item.readfds fd)
      + hit_count a.writefds (row_hit tbl i item.writefds fd)
      + hit_count a.errorfds (row_hit tbl i item.errorfds fd) ∧
    (a'.readfds.isSome = a.readfds.isSome ∧ a'.writefds.isSome = a.writefds.isSome ∧
      a'.errorfds.isSome = a.errorfds.isSome) ∧
    (∀ x, xf_vfs_safe_fd_isset x a'.readfds = (xf_vfs_safe_fd_isset x a.readfds ||
      (a.readfds.isSome && decide (x = fd) && row_hit tbl i item.readfds fd))) ∧
    (∀ x, xf_vfs_safe_fd_isset x a'.writefds = (xf_vfs_safe_fd_isset x a.writefds ||
      (a.writefds.isSome && decide (x = fd) && row_hit tbl i item.writefds fd))) ∧
    (∀ x, xf_vfs_safe_fd_isset x a'.errorfds = (xf_vfs_safe_fd_isset x a.errorfds ||
      (a.errorfds.isSome && decide (x = fd) && row_hit tbl i item.errorfds fd))) := by
  unfold set_global_fd_row at h
  simp only [Option.some_bind] at h
  unfold row_hit hit_count
  by_cases hrow : (tbl fd).vfs_index = (i : Int)
  · rw [if_pos hrow] at h
    split at h
    · cases h
    · rename_i r1 ret1 h1
      split at h
      · cases h
      · rename_i r2 ret2 h2
        split at h
        · cases h
        · rename_i r3 ret3 h3
          simp only [Option.some.injEq] at h
          rw [← h]
          obtain ⟨p1, q1, m1⟩ := set_global_fd_spec _ _ _ _ _ _ _ h1
          obtain ⟨p2, q2, m2⟩ := set_global_fd_spec _ _ _ _ _ _ _ h2
          obtain ⟨p3, q3, m3⟩ := set_global_fd_spec _ _ _ _ _ _ _ h3
          simp only [hrow, decide_True, Bool.true_and]
          exact ⟨by rw [q3, q2, q1], ⟨p1, p2, p3⟩, m1, m2, m3⟩
  · rw [if_neg hrow] at h
    simp only [Option.some.injEq] at h
    rw [← h]
    simp [hrow]

theorem hit_count_eq (global : Option xf_fd_set) (hit : Bool) :
    hit_count global hit = set_count global (if hit then 1 else 0) := by
  unfold hit_count set_count
  cases global <;> cases hit <;> simp

theorem set_count_add (global : Option xf_fd_set) (a b : Nat) :
    set_count global (a + b) = set_count global a + set_count global b := by
  unfold set_count
  split_ifs <;> simp

/-- Counting a disjunction of two properties that exclude each other. -/
theorem countP_or_disjoint {α : Type} (p q : α → Bool) (l : List α)
    (h : ∀ x, x ∈ l → p x = true → q x = false) :
    l.countP (fun x => p x || q x) = l.countP p + l.countP q := by
  induction l with
  | nil => rfl
  | cons a t ih =>
    have iht := ih (fun x hx => h x (List.mem_cons_of_mem a hx))
    have ha := h a (List.mem_cons_self a t)
    simp only [List.countP_cons, iht]
    cases hp : p a <;> cases hq : q a
    · simp
    · simp
      omega
    · simp
      omega
    · rw [ha hp] at hq
      cases hq

/-- The inner loop of `set_global_fd_sets` over the descriptors below `m`. -/
theorem set_global_fd_rows_spec (tbl : Nat → fd_table_t) (item : fds_triple_t) (i : Nat)
    (a : merge_acc) (m : Nat) (a' : merge_acc)
    (h : (List.range m).foldl (set_global_fd_row tbl item i) (some a) = some a') :
    a'.ret = a.ret
      + set_count a.readfds ((List.range m).countP (row_hit tbl i item.readfds))
      + set_count a.writefds ((List.range m).countP (row_hit tbl i item.writefds))
      + set_count a.errorfds ((List.range m).countP (row_hit tbl i item.errorfds)) ∧
    (a'.readfds.isSome = a.readfds.isSome ∧ a'.writefds.isSome = a.writefds.isSome ∧
      a'.errorfds.isSome = a.errorfds.isSome) ∧
    (∀ x, xf_vfs_safe_fd_isset x a'.readfds = (xf_vfs_safe_fd_isset x a.readfds ||
      (a.readfds.isSome && decide (x < m) && row_hit tbl i item.readfds x))) ∧
    (∀ x, xf_vfs_safe_fd_isset x a'.writefds = (xf_vfs_safe_fd_isset x a.writefds ||
      (a.writefds.isSome && decide (x < m) && row_hit tbl i item.writefds x))) ∧
    (∀ x, xf_vfs_safe_fd_isset x a'.errorfds = (xf_vfs_safe_fd_isset x a.errorfds ||
      (a.errorfds.isSome && decide (x < m) && row_hit tbl i item.errorfds x))) := by
  induction m generalizing a' with
  | zero =>
    simp only [List.range_zero, List.foldl_nil, Option.some.injEq] at h
    rw [← h]
    simp [set_count]
  | succ m ih =>
    rw [List.range_succ, List.foldl_append] at h
    simp only [List.foldl_cons, List.foldl_nil] at h
    cases hmid : (List.range m).foldl (set_global_fd_row tbl item i) (some a) with
    | none =>
      rw [hmid] at h
      cases h
    | some mid =>
      rw [hmid] at h
      obtain ⟨i1, ⟨j1, j2, j3⟩, k1, k2, k3⟩ := ih mid hmid
      obtain ⟨s1, ⟨t1, t2, t3⟩, u1, u2, u3⟩ := set_global_fd_row_spec tbl item i mid a' m h
      have hmem : ∀ (g g1 g2 : Option xf_fd_set) (hit : Nat → Bool),
          g1.isSome = g.isSome →
          (∀ x, xf_vfs_safe_fd_isset x g1 = (xf_vfs_safe_fd_isset x g ||
            (g.isSome && decide (x < m) && hit x))) →
          (∀ x, xf_vfs_safe_fd_isset x g2 = (xf_vfs_safe_fd_isset x g1 ||
            (g1.isSome && decide (x = m) && hit m))) →
          ∀ x, xf_vfs_safe_fd_isset x g2 = (xf_vfs_safe_fd_isset x g ||
            (g.isSome && decide (x < m + 1) && hit x)) := by
        intro g g1 g2 hit hs h1 h2 x
        rw [h2 x, h1 x, hs]
        by_cases hx : x = m
        · subst hx
          simp
        · have hlt : (x < m + 1) ↔ (x < m) := by omega
          simp [hx, hlt]
      refine ⟨?_, ⟨t1.trans j1, t2.trans j2, t3.trans j3⟩,
        hmem _ _ _ _ j1 k1 u1, hmem _ _ _ _ j2 k2 u2, hmem _ _ _ _ j3 k3 u3⟩
      rw [s1, i1, hit_count_eq, hit_count_eq, hit_count_eq]
      simp only [List.range_succ, List.countP_append, List.countP_cons, List.countP_nil,
        set_count_add, zero_add]
      unfold set_count
      rw [j1, j2, j3]
      ring

theorem inserted_succ (tbl : Nat → fd_table_t) (triples : Nat → fds_triple_t) (n : Nat)
    (pick : fds_triple_t → xf_fd_set) (x : Nat) :
    inserted tbl triples (n + 1) pick x =
      (inserted tbl triples n pick x ||
        ((triples n).isset && row_hit tbl n (pick (triples n)) x)) := by
  unfold inserted row_hit
  by_cases hidx : (tbl x).vfs_index = (n : Int)
  · simp [hidx]
  · by_cases h0 : 0 ≤ (tbl x).vfs_index
    · have hne : (tbl x).vfs_index.toNat ≠ n := by
        intro hc
        apply hidx
        omega
      have hlt : ((tbl x).vfs_index.toNat < n + 1) ↔ ((tbl x).vfs_index.toNat < n) := by omega
      simp [hidx, hlt]
    · simp [hidx, h0]

theorem inserted_disjoint (tbl : Nat → fd_table_t) (triples : Nat → fds_triple_t) (n : Nat)
    (pick : fds_triple_t → xf_fd_set) (x : Nat)
    (h : inserted tbl triples n pick x = true) :
    ((triples n).isset && row_hit tbl n (pick (triples n)) x) = false := by
  unfold inserted at h
  unfold row_hit
  simp only [Bool.and_eq_true, decide_eq_true_eq] at h
  have hne : (tbl x).vfs_index ≠ (n : Int) := by omega
  simp [hne]

theorem inserted_zero (tbl : Nat → fd_table_t) (triples : Nat → fds_triple_t)
    (pick : fds_triple_t → xf_fd_set) (x : Nat) :
    inserted tbl triples 0 pick x = false := by
  unfold inserted
  simp

/-- Once the merge has stopped at an access outside a set, it stays stopped. -/
theorem set_global_fd_rows_none (tbl : Nat → fd_table_t) (item : fds_triple_t) (i : Nat)
    (l : List Nat) : l.foldl (set_global_fd_row tbl item i) none = none := by
  induction l with
  | nil => rfl
  | cons a t ih =>
    simp only [List.foldl_cons]
    exact ih

/-- `set_global_fd_sets`, when it runs to its end: the count it returns is the
number of insertions, and a descriptor is in a set afterwards exactly when it
was there before or has been inserted. -/
theorem set_global_fd_sets_spec (tbl : Nat → fd_table_t) (triples : Nat → fds_triple_t)
    (n : Nat) (readfds writefds errorfds : Option xf_fd_set) (m : merge_acc)
    (h : set_global_fd_sets tbl triples n readfds writefds errorfds = some m) :
    m.ret = (insertions tbl triples n (fun t => t.readfds) readfds : Int)
      + (insertions tbl triples n (fun t => t.writefds) writefds : Int)
      + (insertions tbl triples n (fun t => t.errorfds) errorfds : Int) ∧
    (m.readfds.isSome = readfds.isSome ∧ m.writefds.isSome = writefds.isSome ∧
      m.errorfds.isSome = errorfds.isSome) ∧
    (∀ x, xf_vfs_safe_fd_isset x m.readfds = (xf_vfs_safe_fd_isset x readfds ||
      (readfds.isSome && decide (x < XF_VFS_FDS_MAX) &&
        inserted tbl triples n (fun t => t.readfds) x))) ∧
    (∀ x, xf_vfs_safe_fd_isset x m.writefds = (xf_vfs_safe_fd_isset x writefds ||
      (writefds.isSome && decide (x < XF_VFS_FDS_MAX) &&
        inserted tbl triples n (fun t => t.writefds) x))) ∧
    (∀ x, xf_vfs_safe_fd_isset x m.errorfds = (xf_vfs_safe_fd_isset x errorfds ||
      (errorfds.isSome && decide (x < XF_VFS_FDS_MAX) &&
        inserted tbl triples n (fun t => t.errorfds) x))) := by
  have hins : ∀ (g : Option xf_fd_set) (k : Nat) (pick : fds_triple_t → xf_fd_set),
      (insertions tbl triples k pick g : Int)
        = set_count g ((List.range XF_VFS_FDS_MAX).countP (inserted tbl triples k pick)) := by
    intro g k pick
    unfold insertions set_count
    split_ifs <;> simp
  simp only [hins]
  unfold set_global_fd_sets at h
  induction n generalizing m with
  | zero =>
    simp only [List.range_zero, List.foldl_nil, Option.some.injEq] at h
    rw [← h]
    have hz : ∀ pick : fds_triple_t → xf_fd_set,
        (List.range XF_VFS_FDS_MAX).countP (inserted tbl triples 0 pick) = 0 := by
      intro pick
      rw [List.countP_eq_zero]
      intro x _
      rw [inserted_zero]
      simp
    simp [hz, inserted_zero, set_count]
  | succ n ih =>
    rw [List.range_succ, List.foldl_append] at h
    simp only [List.foldl_cons, List.foldl_nil] at h
    cases hmid : (List.range n).foldl
        (fun acc i =>
          if (triples i).isset = true then
            (List.range XF_VFS_FDS_MAX).foldl (set_global_fd_row tbl (triples i) i) acc
          else acc)
        (some { ret := 0, readfds := readfds, writefds := writefds, errorfds := errorfds }) with
    | none =>
      rw [hmid] at h
      split_ifs at h
      rw [set_global_fd_rows_none] at h
      cases h
    | some mid =>
      rw [hmid] at h
      obtain ⟨i1, ⟨j1, j2, j3⟩, k1, k2, k3⟩ := ih mid hmid
      have hcount : ∀ (pick : fds_triple_t → xf_fd_set),
          (List.range XF_VFS_FDS_MAX).countP (inserted tbl triples (n + 1) pick)
            = (List.range XF_VFS_FDS_MAX).countP (inserted tbl triples n pick)
              + (List.range XF_VFS_FDS_MAX).countP
                  (fun x => (triples n).isset && row_hit tbl n (pick (triples n)) x) := by
        intro pick
        rw [← countP_or_disjoint _ _ _ (fun x _ hx => inserted_disjoint tbl triples n pick x hx)]
        congr 1
        funext x
        exact inserted_succ tbl triples n pick x
      by_cases hiss : (triples n).isset = true
      · rw [if_pos hiss] at h
        obtain ⟨s1, ⟨t1, t2, t3⟩, u1, u2, u3⟩ :=
          set_global_fd_rows_spec tbl (triples n) n mid XF_VFS_FDS_MAX m h
        have hmem : ∀ (g g1 g2 : Option xf_fd_set) (pick : fds_triple_t → xf_fd_set),
            g1.isSome = g.isSome →
            (∀ x, xf_vfs_safe_fd_isset x g1 = (xf_vfs_safe_fd_isset x g ||
              (g.isSome && decide (x < XF_VFS_FDS_MAX) && inserted tbl triples n pick x))) →
            (∀ x, xf_vfs_safe_fd_isset x g2 = (xf_vfs_safe_fd_isset x g1 ||
              (g1.isSome && decide (x < XF_VFS_FDS_MAX) &&
                row_hit tbl n (pick (triples n)) x))) →
            ∀ x, xf_vfs_safe_fd_isset x g2 = (xf_vfs_safe_fd_isset x g ||
              (g.isSome && decide (x < XF_VFS_FDS_MAX) &&
                inserted tbl triples (n + 1) pick x)) := by
          intro g g1 g2 pick hs h1 h2 x
          rw [h2 x, h1 x, hs, inserted_succ, hiss]
          cases xf_vfs_safe_fd_isset x g <;> cases g.isSome <;>
            cases decide (x < XF_VFS_FDS_MAX) <;>
            cases inserted tbl triples n pick x <;>
            cases row_hit tbl n (pick (triples n)) x <;> rfl
        refine ⟨?_, ⟨t1.trans j1, t2.trans j2, t3.trans j3⟩,
          hmem _ _ _ _ j1 k1 u1, hmem _ _ _ _ j2 k2 u2, hmem _ _ _ _ j3 k3 u3⟩
        rw [s1, i1, hcount, hcount, hcount]
        simp only [hiss, Bool.true_and, set_count_add]
        unfold set_count
        rw [j1, j2, j3]
        ring
      · rw [if_neg hiss] at h
        simp only [Option.some.injEq] at h
        rw [← h]
        have hf : (triples n).isset = false := by simpa using hiss
        have hsame : ∀ (pick : fds_triple_t → xf_fd_set) (x : Nat),
            inserted tbl triples (n + 1) pick x = inserted tbl triples n pick x := by
          intro pick x
          rw [inserted_succ, hf]
          simp
        refine ⟨?_, ⟨j1, j2, j3⟩, ?_, ?_, ?_⟩
        · rw [i1]
          have hfun : ∀ pick : fds_triple_t → xf_fd_set,
              inserted tbl triples (n + 1) pick = inserted tbl triples n pick :=
            fun pick => funext (hsame pick)
          simp only [hfun]
        · intro x
          rw [k1 x, hsame]
        · intro x
          rw [k2 x, hsame]
        · intro x
          rw [k3 x, hsame]

/-- The second half of `xf_vfs_select` with a seed that is not negative: the
return value is the seed plus the insertions of the merge step, and a
descriptor is in an output set exactly when the wait left it there or the merge
step inserted it. -/
theorem select_end_result (be : Backend) (signalled : Nat → fds_triple_t → fds_triple_t)
    (s : State) (l : select_locals) (nfds : Int) (timeout : Option (Int × Int))
    (heap : List Bool) (res : SelectResult)
    (h : xf_vfs_select_end be signalled s l nfds timeout heap = some res)
    (hseed : 0 ≤ (waited be l nfds timeout).1) :
    res.ret = (waited be l nfds timeout).1
      + (insertions s.s_fd_table (signalled_triples signalled l) l.vfs_count
          (fun t => t.readfds) (waited be l nfds timeout).2.1 : Int)
      + (insertions s.s_fd_table (signalled_triples signalled l) l.vfs_count
          (fun t => t.writefds) (waited be l nfds timeout).2.2.1 : Int)
      + (insertions s.s_fd_table (signalled_triples signalled l) l.vfs_count
          (fun t => t.errorfds) (waited be l nfds timeout).2.2.2 : Int) ∧
    (∀ x, xf_vfs_safe_fd_isset x res.readfds =
      (xf_vfs_safe_fd_isset x (waited be l nfds timeout).2.1 ||
        ((waited be l nfds timeout).2.1.isSome && decide (x < XF_VFS_FDS_MAX) &&
          inserted s.s_fd_table (signalled_triples signalled l) l.vfs_count
            (fun t => t.readfds) x))) ∧
    (∀ x, xf_vfs_safe_fd_isset x res.writefds =
      (xf_vfs_safe_fd_isset x (waited be l nfds timeout).2.2.1 ||
        ((waited be l nfds timeout).2.2.1.isSome && decide (x < XF_VFS_FDS_MAX) &&
          inserted s.s_fd_table (signalled_triples signalled l) l.vfs_count
            (fun t => t.writefds) x))) ∧
    (∀ x, xf_vfs_safe_fd_isset x res.errorfds =
      (xf_vfs_safe_fd_isset x (waited be l nfds timeout).2.2.2 ||
        ((waited be l nfds timeout).2.2.2.isSome && decide (x < XF_VFS_FDS_MAX) &&
          inserted s.s_fd_table (signalled_triples signalled l) l.vfs_count
            (fun t => t.errorfds) x))) := by
  unfold xf_vfs_select_end at h
  simp only at h
  split at h
  · cases h
  · rename_i m hm
    simp only [Option.some.injEq] at h
    rw [← h]
    simp only
    unfold waited at hseed ⊢
    unfold signalled_triples
    cases hsock : l.socket_select with
    | none =>
      simp only [hsock] at hm hseed ⊢
      rw [if_pos (by decide), (call_end_selects_sameTables be _ _ _).2.2] at hm
      cases hmg : set_global_fd_sets s.s_fd_table
          (fun i => if (l.vfs_fds_triple i).isset = true then
              { signalled i (l.vfs_fds_triple i) with isset := true }
            else l.vfs_fds_triple i) l.vfs_count
          (l.readfds.map (fun _ => XF_FD_ZERO)) (l.writefds.map (fun _ => XF_FD_ZERO))
          (l.errorfds.map (fun _ => XF_FD_ZERO)) with
      | none =>
        rw [hmg] at hm
        cases hm
      | some m0 =>
        rw [hmg] at hm
        simp only [Option.map_some', Option.some.injEq] at hm
        rw [← hm]
        obtain ⟨r1, _, r3, r4, r5⟩ := set_global_fd_sets_spec _ _ _ _ _ _ _ hmg
        refine ⟨?_, r3, r4, r5⟩
        simp only
        rw [r1]
        ring
    | some k =>
      simp only [hsock] at hm hseed ⊢
      have hseed' : (backend_call_ret be s
          (BackendCall.socket_select k nfds l.readfds l.writefds l.errorfds timeout)).1.ret ≥ 0 :=
        hseed
      rw [if_pos hseed', (call_end_selects_sameTables be _ _ _).2.2,
        (backend_call_ret_sameTables be _ _).2.2] at hm
      cases hmg : set_global_fd_sets s.s_fd_table
          (fun i => if (l.vfs_fds_triple i).isset = true then
              { signalled i (l.vfs_fds_triple i) with isset := true }
            else l.vfs_fds_triple i) l.vfs_count
          (l.readfds.map (fun _ => (backend_call_ret be s
            (BackendCall.socket_select k nfds l.readfds l.writefds l.errorfds timeout)).1.readfds))
          (l.writefds.map (fun _ => (backend_call_ret be s
            (BackendCall.socket_select k nfds l.readfds l.writefds l.errorfds timeout)).1.writefds))
          (l.errorfds.map (fun _ => (backend_call_ret be s
            (BackendCall.socket_select k nfds l.readfds l.writefds l.errorfds timeout)).1.errorfds))
        with
      | none =>
        rw [hmg] at hm
        cases hm
      | some m0 =>
        rw [hmg] at hm
        simp only [Option.map_some', Option.some.injEq] at hm
        rw [← hm]
        obtain ⟨r1, _, r3, r4, r5⟩ := set_global_fd_sets_spec _ _ _ _ _ _ _ hmg
        refine ⟨?_, r3, r4, r5⟩
        simp only
        rw [r1]
        simp only [backend_call_ret]
        ring

/-! ## Theorems: the sets after the first loop of xf_vfs_select -/

/-- One block of the first loop: the caller's set loses `fd`, and the per-mount
set gains `local_fd`, when `fd` was in the caller's set. -/
theorem select_move_fd_sets (fd local_fd : Nat) (global : Option xf_fd_set) (isset : Bool)
    (item_set : xf_fd_set) (g' : Option xf_fd_set) (b' : Bool) (i' : xf_fd_set)
    (h : select_move_fd fd local_fd global isset item_set = some (g', b', i')) :
    g'.isSome = global.isSome ∧
    (∀ x, xf_vfs_safe_fd_isset x g' = (xf_vfs_safe_fd_isset x global && !decide (x = fd))) ∧
    b' = (isset || xf_vfs_safe_fd_isset fd global) ∧
    (∀ b, XF_FD_ISSET b i' =
      (XF_FD_ISSET b item_set || (decide (local_fd = b) && xf_vfs_safe_fd_isset fd global))) := by
  unfold select_move_fd at h
  by_cases hin : xf_vfs_safe_fd_isset fd global = true
  · rw [if_pos hin] at h
    split_ifs at h
    simp only [Option.some.injEq, Prod.mk.injEq] at h
    obtain ⟨rfl, rfl, rfl⟩ := h
    refine ⟨by simp, fun x => ?_, by simp [hin], fun b => by rw [isset_set, hin]; simp⟩
    cases global with
    | none => rfl
    | some g =>
      simp only [Option.map_some', xf_vfs_safe_fd_isset, isset_clr]
      congr 2
      exact decide_eq_decide.mpr ⟨fun h => h.symm, fun h => h.symm⟩
  · rw [if_neg hin] at h
    simp only [Option.some.injEq, Prod.mk.injEq] at h
    obtain ⟨rfl, rfl, rfl⟩ := h
    have hf : xf_vfs_safe_fd_isset fd global = false := by simpa using hin
    refine ⟨rfl, fun x => ?_, by simp [hf], fun b => by simp [hf]⟩
    by_cases hx : x = fd
    · subst hx
      simp [hf]
    · simp [hx]

/-- One iteration of the first loop of `xf_vfs_select`: what it does to the
caller's sets and to the per-mount sets. -/
theorem select_mark_fd_sets (be : Backend) (s : State) (l : select_locals) (fd : Nat)
    (s' : State) (l' : select_locals)
    (h : select_mark_fd be (s, l) fd = some (s', l')) :
    (l'.readfds.isSome = l.readfds.isSome ∧ l'.writefds.isSome = l.writefds.isSome ∧
      l'.errorfds.isSome = l.errorfds.isSome) ∧
    ((∀ x, xf_vfs_safe_fd_isset x l'.readfds =
        (xf_vfs_safe_fd_isset x l.readfds && !(decide (x = fd) && movable s.s_fd_table fd))) ∧
      (∀ x, xf_vfs_safe_fd_isset x l'.writefds =
        (xf_vfs_safe_fd_isset x l.writefds && !(decide (x = fd) && movable s.s_fd_table fd))) ∧
      (∀ x, xf_vfs_safe_fd_isset x l'.errorfds =
        (xf_vfs_safe_fd_isset x l.errorfds &&
          !(decide (x = fd) && movable s.s_fd_table fd)))) ∧
    ((∀ i b, XF_FD_ISSET b (l'.vfs_fds_triple i).readfds =
        (XF_FD_ISSET b (l.vfs_fds_triple i).readfds ||
          (movable s.s_fd_table fd && decide ((s.s_fd_table fd).vfs_index = (i : Int)) &&
            decide ((s.s_fd_table fd).local_fd = b) && xf_vfs_safe_fd_isset fd l.readfds))) ∧
      (∀ i b, XF_FD_ISSET b (l'.vfs_fds_triple i).writefds =
        (XF_FD_ISSET b (l.vfs_fds_triple i).writefds ||
          (movable s.s_fd_table fd && decide ((s.s_fd_table fd).vfs_index = (i : Int)) &&
            decide ((s.s_fd_table fd).local_fd = b) && xf_vfs_safe_fd_isset fd l.writefds))) ∧
      (∀ i b, XF_FD_ISSET b (l'.vfs_fds_triple i).errorfds =
        (XF_FD_ISSET b (l.vfs_fds_triple i).errorfds ||
          (movable s.s_fd_table fd && decide ((s.s_fd_table fd).vfs_index = (i : Int)) &&
            decide ((s.s_fd_table fd).local_fd = b) &&
            xf_vfs_safe_fd_isset fd l.errorfds)))) ∧
    (∀ i, (l'.vfs_fds_triple i).isset =
      ((l.vfs_fds_triple i).isset ||
        (movable s.s_fd_table fd && decide ((s.s_fd_table fd).vfs_index = (i : Int)) &&
          (xf_vfs_safe_fd_isset fd l.readfds || xf_vfs_safe_fd_isset fd l.writefds ||
            xf_vfs_safe_fd_isset fd l.errorfds)))) := by
  unfold select_mark_fd at h
  simp only at h
  generalize hs1 : (if xf_vfs_safe_fd_isset fd l.errorfds = true then
      ({ s with
        s_fd_table := Function.update s.s_fd_table fd
          { s.s_fd_table fd with has_pending_select := true } } : State)
    else s) = s1 at h
  split_ifs at h with c1 c2 c3 c4 c5
  · simp only [Option.some.injEq, Prod.mk.injEq] at h
    obtain ⟨rfl, rfl⟩ := h
    have hmv : movable s.s_fd_table fd = false := by
      simp only [movable, Bool.and_eq_false_iff, decide_eq_false_iff_not]
      exact Or.inl (by omega)
    simp [hmv]
  · simp only [Option.some.injEq, Prod.mk.injEq] at h
    obtain ⟨rfl, rfl⟩ := h
    have hmv : movable s.s_fd_table fd = false := by simp [movable, c2]
    simp [hmv]
  · split at h
    · cases h
    · split at h
      · cases h
      · split_ifs at h
        all_goals
          simp only [Option.some.injEq, Prod.mk.injEq] at h
          obtain ⟨rfl, rfl⟩ := h
          have hmv : movable s.s_fd_table fd = false := by simp [movable, c2]
          simp [hmv]
  · simp only [Option.some.injEq, Prod.mk.injEq] at h
    obtain ⟨rfl, rfl⟩ := h
    have hmv : movable s.s_fd_table fd = false := by simp [movable, c2]
    simp [hmv]
  · split at h
    · cases h
    · split at h
      · cases h
      · split at h
        · cases h
        · rename_i _ g1 b1 i1 h1 _ g2 b2 i2 h2 _ g3 b3 i3 h3
          simp only [Option.some.injEq, Prod.mk.injEq] at h
          obtain ⟨rfl, rfl⟩ := h
          obtain ⟨p1, q1, r1, t1⟩ := select_move_fd_sets _ _ _ _ _ _ _ _ h1
          obtain ⟨p2, q2, r2, t2⟩ := select_move_fd_sets _ _ _ _ _ _ _ _ h2
          obtain ⟨p3, q3, r3, t3⟩ := select_move_fd_sets _ _ _ _ _ _ _ _ h3
          have hmv : movable s.s_fd_table fd = true := by
            simp only [movable, Bool.and_eq_true, decide_eq_true_eq, Bool.not_eq_true']
            exact ⟨by omega, by simpa using c2⟩
          have hidx : ∀ i : Nat, ((s.s_fd_table fd).vfs_index = (i : Int)) ↔
              (i = (s.s_fd_table fd).vfs_index.toNat) := by
            intro i
            omega
          have h0 : 0 ≤ (s.s_fd_table fd).vfs_index := by omega
          simp only [hmv, Bool.and_true, Bool.true_and]
          refine ⟨⟨p1, p2, p3⟩, ⟨q1, q2, q3⟩, ⟨fun i b => ?_, fun i b => ?_, fun i b => ?_⟩,
            fun i => ?_⟩
          · by_cases hi : i = (s.s_fd_table fd).vfs_index.toNat
            · rw [hi, Function.update_same, t1 b]
              simp [h0]
            · rw [Function.update_noteq hi]
              simp [(hidx i).not.mpr hi]
          · by_cases hi : i = (s.s_fd_table fd).vfs_index.toNat
            · rw [hi, Function.update_same, t2 b]
              simp [h0]
            · rw [Function.update_noteq hi]
              simp [(hidx i).not.mpr hi]
          · by_cases hi : i = (s.s_fd_table fd).vfs_index.toNat
            · rw [hi, Function.update_same, t3 b]
              simp [h0]
            · rw [Function.update_noteq hi]
              simp [(hidx i).not.mpr hi]
          · by_cases hi : i = (s.s_fd_table fd).vfs_index.toNat
            · rw [hi, Function.update_same]
              simp only [r3, r2, r1]
              simp [Bool.or_assoc, h0]
            · rw [Function.update_noteq hi]
              simp [(hidx i).not.mpr hi]

/-- Marking leaves `vfs_index`, `local_fd` and `permanent` of every row alone. -/
theorem marked_table_fields (tbl : Nat → fd_table_t) (n : Nat) (errorfds : Option xf_fd_set)
    (j : Nat) :
    (marked_table tbl n errorfds j).vfs_index = (tbl j).vfs_index ∧
    (marked_table tbl n errorfds j).local_fd = (tbl j).local_fd ∧
    (marked_table tbl n errorfds j).permanent = (tbl j).permanent := by
  unfold marked_table
  split_ifs <;> exact ⟨rfl, rfl, rfl⟩

theorem moved_bit_succ (tbl : Nat → fd_table_t) (global : Option xf_fd_set) (n i b : Nat) :
    moved_bit tbl global (n + 1) i b =
      (moved_bit tbl global n i b ||
        (movable tbl n && decide ((tbl n).vfs_index = (i : Int)) &&
          decide ((tbl n).local_fd = b) && xf_vfs_safe_fd_isset n global)) := by
  unfold moved_bit
  rw [List.range_succ, List.any_append]
  simp

theorem armed_mount_succ (tbl : Nat → fd_table_t) (readfds writefds errorfds : Option xf_fd_set)
    (n i : Nat) :
    armed_mount tbl readfds writefds errorfds (n + 1) i =
      (armed_mount tbl readfds writefds errorfds n i ||
        (movable tbl n && decide ((tbl n).vfs_index = (i : Int)) &&
          (xf_vfs_safe_fd_isset n readfds || xf_vfs_safe_fd_isset n writefds ||
            xf_vfs_safe_fd_isset n errorfds))) := by
  unfold armed_mount
  rw [List.range_succ, List.any_append]
  simp

/-- The first loop of `xf_vfs_select`, when it runs to its end, starting with
empty per-mount sets: the sets it leaves. -/
theorem select_mark_loop_sets (be : Backend) (n : Nat) (s : State) (l : select_locals)
    (s' : State) (l' : select_locals)
    (hinit : ∀ i, l.vfs_fds_triple i = ⟨false, XF_FD_ZERO, XF_FD_ZERO, XF_FD_ZERO⟩)
    (h : select_mark_loop be n (s, l) = some (s', l')) :
    MarkedSets s.s_fd_table l.readfds l.writefds l.errorfds n l' := by
  induction n generalizing s' l' with
  | zero =>
    unfold select_mark_loop at h
    simp only [List.range_zero, List.foldl_nil, Option.some.injEq, Prod.mk.injEq] at h
    obtain ⟨rfl, rfl⟩ := h
    refine ⟨fun x => by simp, fun x => by simp, fun x => by simp, rfl, rfl, rfl,
      fun i b => ?_, fun i b => ?_, fun i b => ?_, fun i => ?_⟩
    · rw [hinit i]
      simp [moved_bit, isset_zero]
    · rw [hinit i]
      simp [moved_bit, isset_zero]
    · rw [hinit i]
      simp [moved_bit, isset_zero]
    · rw [hinit i]
      simp [armed_mount]
  | succ n ih =>
    have hspec := fun sm lm hm => select_mark_loop_spec be n s l sm lm hm
    unfold select_mark_loop at h ih hspec
    rw [List.range_succ, List.foldl_append] at h
    simp only [List.foldl_cons, List.foldl_nil] at h
    cases hmid : (List.range n).foldl
        (fun acc fd => acc.bind fun st => select_mark_fd be st fd) (some (s, l)) with
    | none =>
      rw [hmid] at h
      cases h
    | some mid =>
      obtain ⟨sm, lm⟩ := mid
      rw [hmid] at h
      simp only [Option.some_bind] at h
      have inv := ih sm lm hmid
      obtain ⟨_, _, htbl, _, _⟩ := hspec sm lm hmid
      obtain ⟨⟨p1, p2, p3⟩, ⟨q1, q2, q3⟩, ⟨t1, t2, t3⟩, u⟩ :=
        select_mark_fd_sets be sm lm n s' l' h
      obtain ⟨f1, f2, f3⟩ := marked_table_fields s.s_fd_table n l.errorfds n
      have hmv : movable sm.s_fd_table n = movable s.s_fd_table n := by
        unfold movable
        rw [htbl, f1, f3]
      rw [htbl, f1, f2] at t1 t2 t3
      rw [htbl, f1] at u
      rw [← htbl, hmv] at t1 t2 t3 u
      rw [hmv] at q1 q2 q3
      have hglob : ∀ (g gm g' : Option xf_fd_set),
          (∀ x, xf_vfs_safe_fd_isset x gm =
            (xf_vfs_safe_fd_isset x g && !(decide (x < n) && movable s.s_fd_table x))) →
          (∀ x, xf_vfs_safe_fd_isset x g' =
            (xf_vfs_safe_fd_isset x gm && !(decide (x = n) && movable s.s_fd_table n))) →
          ∀ x, xf_vfs_safe_fd_isset x g' =
            (xf_vfs_safe_fd_isset x g && !(decide (x < n + 1) && movable s.s_fd_table x)) := by
        intro g gm g' h1 h2 x
        rw [h2 x, h1 x]
        by_cases hx : x = n
        · subst hx
          simp
        · have hlt : (x < n + 1) ↔ (x < n) := by omega
          simp [hx, hlt]
      have hcur : ∀ (g gm : Option xf_fd_set),
          (∀ x, xf_vfs_safe_fd_isset x gm =
            (xf_vfs_safe_fd_isset x g && !(decide (x < n) && movable s.s_fd_table x))) →
          xf_vfs_safe_fd_isset n gm = xf_vfs_safe_fd_isset n g := by
        intro g gm h1
        rw [h1 n]
        simp
      have c1 := hcur _ _ inv.global_r
      have c2 := hcur _ _ inv.global_w
      have c3 := hcur _ _ inv.global_e
      refine ⟨hglob _ _ _ inv.global_r q1, hglob _ _ _ inv.global_w q2,
        hglob _ _ _ inv.global_e q3, p1.trans inv.some_r, p2.trans inv.some_w,
        p3.trans inv.some_e, fun i b => ?_, fun i b => ?_, fun i b => ?_, fun i => ?_⟩
      · rw [t1 i b, inv.item_r i b, c1, moved_bit_succ]
      · rw [t2 i b, inv.item_w i b, c2, moved_bit_succ]
      · rw [t3 i b, inv.item_e i b, c3, moved_bit_succ]
      · rw [u i, inv.isset i, c1, c2, c3, armed_mount_succ]

/-! ## Theorems: the per-mount sets after the start loop -/

/-- One iteration of the loop that calls `start_select` changes at most the
per-mount sets of mount `n`, to what its `start_select` left in them, and the
`driver_args` slot of mount `n`. -/
theorem select_start_fd_locals (be : Backend) (nfds : Int) (s : State) (l : select_locals)
    (n : Nat) (Q : Nat → fds_triple_t → fds_triple_t → Prop) (hrefl : ∀ i t, Q i t t)
    (hstep : ∀ i (t : fds_triple_t) sl sem,
      Q i { t with
            readfds := (be (BackendCall.start_select i nfds t.readfds t.writefds t.errorfds
              sl sem)).readfds,
            writefds := (be (BackendCall.start_select i nfds t.readfds t.writefds t.errorfds
              sl sem)).writefds,
            errorfds := (be (BackendCall.start_select i nfds t.readfds t.writefds t.errorfds
              sl sem)).errorfds } t) :
    Q n ((select_start_fd be nfds (StartLoop.running s l) n).locals.vfs_fds_triple n)
      (l.vfs_fds_triple n) ∧
    (∀ i, i ≠ n →
      (select_start_fd be nfds (StartLoop.running s l) n).locals.vfs_fds_triple i
        = l.vfs_fds_triple i) ∧
    (select_start_fd be nfds (StartLoop.running s l) n).locals.readfds = l.readfds ∧
    (select_start_fd be nfds (StartLoop.running s l) n).locals.writefds = l.writefds ∧
    (select_start_fd be nfds (StartLoop.running s l) n).locals.errorfds = l.errorfds ∧
    (select_start_fd be nfds (StartLoop.running s l) n).locals.socket_select
      = l.socket_select ∧
    (select_start_fd be nfds (StartLoop.running s l) n).locals.vfs_count = l.vfs_count := by
  have hsame : Q n (l.vfs_fds_triple n) (l.vfs_fds_triple n) ∧
      (∀ i, i ≠ n → l.vfs_fds_triple i = l.vfs_fds_triple i) ∧ l.readfds = l.readfds ∧
      l.writefds = l.writefds ∧ l.errorfds = l.errorfds ∧
      l.socket_select = l.socket_select ∧ l.vfs_count = l.vfs_count :=
    ⟨hrefl _ _, fun _ _ => rfl, rfl, rfl, rfl, rfl, rfl⟩
  unfold select_start_fd
  simp only
  split
  · exact hsame
  · split
    · exact hsame
    · split_ifs
      · exact hsame
      · exact hsame
      · refine ⟨?_, fun i hi => ?_, rfl, rfl, rfl, rfl, rfl⟩
        · simp only [StartLoop.locals, Function.update_same]
          exact hstep n _ _ _
        · simp only [StartLoop.locals]
          rw [Function.update_noteq hi]
      · refine ⟨?_, fun i hi => ?_, rfl, rfl, rfl, rfl, rfl⟩
        · simp only [StartLoop.locals, Function.update_same]
          exact hstep n _ _ _
        · simp only [StartLoop.locals]
          rw [Function.update_noteq hi]

/-- The loop that calls `start_select` leaves the caller's sets alone, and of
each mount's per-mount sets what the mount's `start_select` made of them. -/
theorem select_start_loop_locals (be : Backend) (nfds : Int) (n : Nat) (s : State)
    (l : select_locals) (Q : Nat → fds_triple_t → fds_triple_t → Prop)
    (hrefl : ∀ i t, Q i t t)
    (hstep : ∀ i (t : fds_triple_t) sl sem,
      Q i { t with
            readfds := (be (BackendCall.start_select i nfds t.readfds t.writefds t.errorfds
              sl sem)).readfds,
            writefds := (be (BackendCall.start_select i nfds t.readfds t.writefds t.errorfds
              sl sem)).writefds,
            errorfds := (be (BackendCall.start_select i nfds t.readfds t.writefds t.errorfds
              sl sem)).errorfds } t) :
    (∀ i, Q i ((select_start_loop be nfds n s l).locals.vfs_fds_triple i)
      (l.vfs_fds_triple i)) ∧
    (select_start_loop be nfds n s l).locals.readfds = l.readfds ∧
    (select_start_loop be nfds n s l).locals.writefds = l.writefds ∧
    (select_start_loop be nfds n s l).locals.errorfds = l.errorfds ∧
    (select_start_loop be nfds n s l).locals.socket_select = l.socket_select ∧
    (select_start_loop be nfds n s l).locals.vfs_count = l.vfs_count := by
  have key : (∀ i, i < n →
        Q i ((select_start_loop be nfds n s l).locals.vfs_fds_triple i) (l.vfs_fds_triple i)) ∧
      (∀ i, n ≤ i →
        (select_start_loop be nfds n s l).locals.vfs_fds_triple i = l.vfs_fds_triple i) ∧
      (select_start_loop be nfds n s l).locals.readfds = l.readfds ∧
      (select_start_loop be nfds n s l).locals.writefds = l.writefds ∧
      (select_start_loop be nfds n s l).locals.errorfds = l.errorfds ∧
      (select_start_loop be nfds n s l).locals.socket_select = l.socket_select ∧
      (select_start_loop be nfds n s l).locals.vfs_count = l.vfs_count := by
    unfold select_start_loop
    induction n with
    | zero =>
      exact ⟨fun i hi => absurd hi (by omega), fun _ _ => rfl, rfl, rfl, rfl, rfl, rfl⟩
    | succ n ih =>
      rw [List.range_succ, List.foldl_append]
      simp only [List.foldl_cons, List.foldl_nil]
      obtain ⟨a1, a2, a3, a4, a5, a6, a7⟩ := ih
      cases hacc : (List.range n).foldl (select_start_fd be nfds) (StartLoop.running s l) with
      | failed f err s' l' =>
        rw [hacc] at a1 a2 a3 a4 a5 a6 a7
        have hid : select_start_fd be nfds (StartLoop.failed f err s' l') n
            = StartLoop.failed f err s' l' := rfl
        rw [hid]
        refine ⟨fun i hi => ?_, fun i hi => a2 i (by omega), a3, a4, a5, a6, a7⟩
        by_cases hin : i < n
        · exact a1 i hin
        · rw [a2 i (by omega)]
          exact hrefl _ _
      | running s' l' =>
        rw [hacc] at a1 a2 a3 a4 a5 a6 a7
        simp only [StartLoop.locals] at a1 a2 a3 a4 a5 a6 a7
        obtain ⟨b1, b2, b3, b4, b5, b6, b7⟩ :=
          select_start_fd_locals be nfds s' l' n Q hrefl hstep
        refine ⟨fun i hi => ?_, fun i hi => ?_, b3.trans a3, b4.trans a4, b5.trans a5,
          b6.trans a6, b7.trans a7⟩
        · by_cases hin : i = n
          · subst hin
            rw [← a2 i (le_refl _)]
            exact b1
          · rw [b2 i hin]
            exact a1 i (by omega)
        · rw [b2 i (by omega)]
          exact a2 i (by omega)
  obtain ⟨k1, k2, k3⟩ := key
  refine ⟨fun i => ?_, k3⟩
  by_cases hi : i < n
  · exact k1 i hi
  · rw [k2 i (by omega)]
    exact hrefl _ _

/-! ## Theorems: the parts of the first half of xf_vfs_select -/

/-- The first half of `xf_vfs_select`, when it reaches the wait, is its first
loop followed by the loop that calls `start_select`. -/
theorem select_begin_waiting_parts (be : Backend) (s : State) (nfds : Int)
    (readfds writefds errorfds : Option xf_fd_set) (heap : List Bool)
    (l : select_locals) (s1 : State) (heap1 : List Bool)
    (h : xf_vfs_select_begin be s nfds readfds writefds errorfds heap
      = SelectBegin.waiting l s1 heap1) :
    ∃ sm lm l2,
      select_mark_loop be nfds.toNat (s, initial_locals s readfds writefds errorfds)
        = some (sm, lm) ∧
      l2.vfs_fds_triple = lm.vfs_fds_triple ∧ l2.readfds = lm.readfds ∧
      l2.writefds = lm.writefds ∧ l2.errorfds = lm.errorfds ∧
      l2.socket_select = lm.socket_select ∧ l2.vfs_count = lm.vfs_count ∧
      select_start_loop be nfds s.s_vfs_count sm l2 = StartLoop.running s1 l := by
  unfold xf_vfs_select_begin at h
  by_cases hb : nfds > (XF_VFS_FDS_MAX : Int) ∨ nfds < 0
  · rw [if_pos hb] at h
    cases h
  · rw [if_neg hb] at h
    simp only at h
    split_ifs at h with ha1
    split at h
    · cases h
    · rename_i sm lm hmark
      split_ifs at h with ha2 ha3
      all_goals
        split at h
        · rename_i s2 l3 hstart
          cases h
          refine ⟨sm, lm, _, hmark, ?_, ?_, ?_, ?_, ?_, ?_, hstart⟩ <;> rfl
        · split at h <;> cases h

/-- A return of `xf_vfs_select` before the wait is a return of -1. -/
theorem select_begin_returned_ret (be : Backend) (s : State) (nfds : Int)
    (readfds writefds errorfds : Option xf_fd_set) (heap : List Bool) (r : SelectResult)
    (h : xf_vfs_select_begin be s nfds readfds writefds errorfds heap
      = SelectBegin.returned r) : r.ret = -1 := by
  unfold xf_vfs_select_begin at h
  by_cases hb : nfds > (XF_VFS_FDS_MAX : Int) ∨ nfds < 0
  · rw [if_pos hb] at h
    cases h
    rfl
  · rw [if_neg hb] at h
    simp only at h
    split_ifs at h with ha1
    · cases h
      rfl
    · split at h
      · cases h
      · split_ifs at h with ha2 ha3 ha4 ha5
        all_goals
          first
            | (cases h
               rfl)
            | (split at h
               · cases h
               · split at h
                 · cases h
                 · cases h
                   rfl)

/-- One iteration of the first loop of `xf_vfs_select` keeps `socket_select`
unless the descriptor is a permanent one in one of the caller's sets. -/
theorem select_mark_fd_socket (be : Backend) (s : State) (l : select_locals) (fd : Nat)
    (s' : State) (l' : select_locals)
    (h : select_mark_fd be (s, l) fd = some (s', l'))
    (hns : 0 ≤ (s.s_fd_table fd).vfs_index → (s.s_fd_table fd).permanent = true →
      (xf_vfs_safe_fd_isset fd l.readfds || xf_vfs_safe_fd_isset fd l.writefds ||
        xf_vfs_safe_fd_isset fd l.errorfds) = false) :
    l'.socket_select = l.socket_select := by
  unfold select_mark_fd at h
  simp only at h
  generalize hs1 : (if xf_vfs_safe_fd_isset fd l.errorfds = true then
      ({ s with
        s_fd_table := Function.update s.s_fd_table fd
          { s.s_fd_table fd with has_pending_select := true } } : State)
    else s) = s1 at h
  split_ifs at h with c1 c2 c3 c4 c5
  · simp only [Option.some.injEq, Prod.mk.injEq] at h
    obtain ⟨rfl, rfl⟩ := h
    rfl
  · simp only [Option.some.injEq, Prod.mk.injEq] at h
    obtain ⟨rfl, rfl⟩ := h
    rfl
  · rw [hns (by omega) c2] at c4
    cases c4
  · simp only [Option.some.injEq, Prod.mk.injEq] at h
    obtain ⟨rfl, rfl⟩ := h
    rfl
  · split at h
    · cases h
    · split at h
      · cases h
      · split at h
        · cases h
        · simp only [Option.some.injEq, Prod.mk.injEq] at h
          obtain ⟨rfl, rfl⟩ := h
          rfl

/-- The first loop of `xf_vfs_select` keeps `socket_select` when no permanent
descriptor below `n` is in one of the caller's sets. -/
theorem select_mark_loop_socket (be : Backend) (n : Nat) (s : State) (l : select_locals)
    (s' : State) (l' : select_locals)
    (hinit : ∀ i, l.vfs_fds_triple i = ⟨false, XF_FD_ZERO, XF_FD_ZERO, XF_FD_ZERO⟩)
    (h : select_mark_loop be n (s, l) = some (s', l'))
    (hns : NoSocketFd s.s_fd_table n l.readfds l.writefds l.errorfds) :
    l'.socket_select = l.socket_select := by
  induction n generalizing s' l' with
  | zero =>
    unfold select_mark_loop at h
    simp only [List.range_zero, List.foldl_nil, Option.some.injEq, Prod.mk.injEq] at h
    obtain ⟨rfl, rfl⟩ := h
    rfl
  | succ n ih =>
    have hspec := fun sm lm hm => select_mark_loop_spec be n s l sm lm hm
    have hsets := fun sm lm hm => select_mark_loop_sets be n s l sm lm hinit hm
    unfold select_mark_loop at h ih hspec hsets
    rw [List.range_succ, List.foldl_append] at h
    simp only [List.foldl_cons, List.foldl_nil] at h
    cases hmid : (List.range n).foldl
        (fun acc fd => acc.bind fun st => select_mark_fd be st fd) (some (s, l)) with
    | none =>
      rw [hmid] at h
      cases h
    | some mid =>
      obtain ⟨sm, lm⟩ := mid
      rw [hmid] at h
      simp only [Option.some_bind] at h
      have hprev := ih sm lm hmid (fun fd hfd => hns fd (by omega))
      obtain ⟨_, _, htbl, _, _⟩ := hspec sm lm hmid
      have inv := hsets sm lm hmid
      obtain ⟨f1, f2, f3⟩ := marked_table_fields s.s_fd_table n l.errorfds n
      rw [← hprev]
      apply select_mark_fd_socket be sm lm n s' l' h
      intro h0 hperm
      rw [htbl, f1] at h0
      rw [htbl, f3] at hperm
      have := hns n (by omega) h0 hperm
      rw [inv.global_r n, inv.global_w n, inv.global_e n]
      simpa using this

/-! ## Theorems: which descriptors xf_vfs_select reports -/

/-- A descriptor the merge step inserts, when the per-mount sets hold nothing
but `local_fd`s of descriptors the first loop moved out of the caller's set
`global`, and no two used rows of a mount share a `local_fd`: it is one of the
descriptors below `n` of that set. -/
theorem inserted_asked (tbl tbl1 : Nat → fd_table_t) (triples : Nat → fds_triple_t)
    (pick : fds_triple_t → xf_fd_set) (global : Option xf_fd_set) (n size x : Nat)
    (hsub : ∀ j b, XF_FD_ISSET b (pick (triples j)) = true → moved_bit tbl global n j b = true)
    (hfields : ∀ j, (tbl1 j).vfs_index = (tbl j).vfs_index ∧ (tbl1 j).local_fd = (tbl j).local_fd)
    (hdist : DistinctLocalFds tbl) (hx : x < XF_VFS_FDS_MAX) (hn : n ≤ XF_VFS_FDS_MAX)
    (hins : inserted tbl1 triples size pick x = true) :
    xf_vfs_safe_fd_isset x global = true ∧ x < n := by
  unfold inserted at hins
  simp only [Bool.and_eq_true, decide_eq_true_eq] at hins
  obtain ⟨⟨⟨h0, _⟩, _⟩, hbit⟩ := hins
  rw [(hfields x).1, (hfields x).2] at hbit
  rw [(hfields x).1] at h0
  have hm := hsub _ _ hbit
  unfold moved_bit at hm
  rw [List.any_eq_true] at hm
  obtain ⟨fd, hfd, hcond⟩ := hm
  simp only [Bool.and_eq_true, decide_eq_true_eq] at hcond
  obtain ⟨⟨⟨_, hidx⟩, hloc⟩, hin⟩ := hcond
  have hfdn : fd < n := List.mem_range.mp hfd
  have hxfd : x = fd := by
    apply hdist x fd hx (by omega) h0
    · rw [hidx]
      omega
    · exact hloc.symm
  rw [hxfd]
  exact ⟨hin, hfdn⟩

theorem fdSubset_trans (a b c : xf_fd_set) (h1 : FdSubset a b) (h2 : FdSubset b c) :
    FdSubset a c := fun n hn => h2 n (h1 n hn)

theorem fdSubset_refl (a : xf_fd_set) : FdSubset a a := fun _ h => h

/-- The per-mount sets the merge step reads hold nothing but what the first
loop put there, when the backends only clear bits. -/
theorem signalled_triples_subset (be : Backend) (signalled : Nat → fds_triple_t → fds_triple_t)
    (nfds : Int) (n : Nat) (sm : State) (l2 : select_locals) (hclr : OnlyClears be signalled)
    (j : Nat) :
    FdSubset (signalled_triples signalled (select_start_loop be nfds n sm l2).locals j).readfds
      (l2.vfs_fds_triple j).readfds ∧
    FdSubset (signalled_triples signalled (select_start_loop be nfds n sm l2).locals j).writefds
      (l2.vfs_fds_triple j).writefds ∧
    FdSubset (signalled_triples signalled (select_start_loop be nfds n sm l2).locals j).errorfds
      (l2.vfs_fds_triple j).errorfds := by
  obtain ⟨hq, _⟩ := select_start_loop_locals be nfds n sm l2
    (fun _ t' t => FdSubset t'.readfds t.readfds ∧ FdSubset t'.writefds t.writefds ∧
      FdSubset t'.errorfds t.errorfds)
    (fun _ t => ⟨fdSubset_refl _, fdSubset_refl _, fdSubset_refl _⟩)
    (fun i t sl sem => hclr.1 i nfds t.readfds t.writefds t.errorfds sl sem)
  obtain ⟨q1, q2, q3⟩ := hq j
  unfold signalled_triples
  split_ifs
  · obtain ⟨c1, c2, c3⟩ := hclr.2 j ((select_start_loop be nfds n sm l2).locals.vfs_fds_triple j)
    exact ⟨fdSubset_trans _ _ _ c1 q1, fdSubset_trans _ _ _ c2 q2, fdSubset_trans _ _ _ c3 q3⟩
  · exact ⟨q1, q2, q3⟩

theorem safe_isset_map_zero (x : Nat) (g : Option xf_fd_set) :
    xf_vfs_safe_fd_isset x (g.map fun _ => XF_FD_ZERO) = false := by
  cases g with
  | none => rfl
  | some p => exact isset_zero x

/-- The first half of `xf_vfs_select`, when it reaches the wait and no socket
descriptor is involved: the locals it waits with come from the first loop
through the loop that calls `start_select`, no socket mount was chosen, and the
table it waits with is the one the call started with as far as `vfs_index` and
`local_fd` go. -/
theorem select_waiting_parts (be : Backend) (s : State) (nfds : Int)
    (readfds writefds errorfds : Option xf_fd_set) (heap : List Bool)
    (l : select_locals) (s1 : State) (heap1 : List Bool)
    (hbegin : xf_vfs_select_begin be s nfds readfds writefds errorfds heap
      = SelectBegin.waiting l s1 heap1)
    (hns : NoSocketFd s.s_fd_table nfds.toNat readfds writefds errorfds) :
    ∃ sm lm l2,
      0 ≤ nfds ∧ nfds ≤ (XF_VFS_FDS_MAX : Int) ∧
      MarkedSets s.s_fd_table readfds writefds errorfds nfds.toNat lm ∧
      l2.vfs_fds_triple = lm.vfs_fds_triple ∧ l2.readfds = lm.readfds ∧
      l2.writefds = lm.writefds ∧ l2.errorfds = lm.errorfds ∧ l2.socket_select = none ∧
      l2.vfs_count = s.s_vfs_count ∧
      l = (select_start_loop be nfds s.s_vfs_count sm l2).locals ∧
      (∀ j, (s1.s_fd_table j).vfs_index = (s.s_fd_table j).vfs_index ∧
        (s1.s_fd_table j).local_fd = (s.s_fd_table j).local_fd) := by
  obtain ⟨hn0, hn1, _, _, htbl⟩ :=
    select_begin_waiting be s nfds readfds writefds errorfds heap l s1 heap1 hbegin
  obtain ⟨sm, lm, l2, hmark, e1, e2, e3, e4, e5, e6, hstart⟩ :=
    select_begin_waiting_parts be s nfds readfds writefds errorfds heap l s1 heap1 hbegin
  have inv := select_mark_loop_sets be nfds.toNat s _ sm lm (fun _ => rfl) hmark
  have hsock := select_mark_loop_socket be nfds.toNat s _ sm lm (fun _ => rfl) hmark hns
  obtain ⟨_, _, _, _, hvc⟩ := select_mark_loop_spec be _ _ _ _ _ hmark
  have hloc : (select_start_loop be nfds s.s_vfs_count sm l2).locals = l := by
    rw [hstart]
    rfl
  refine ⟨sm, lm, l2, hn0, hn1, inv, e1, e2, e3, e4, e5.trans hsock, e6.trans hvc,
    hloc.symm, fun j => ?_⟩
  rw [htbl]
  obtain ⟨f1, f2, _⟩ := marked_table_fields s.s_fd_table nfds.toNat errorfds j
  exact ⟨f1, f2⟩

/-- A call of `xf_vfs_select` that returns a count has gone through the wait. -/
theorem select_count_waited (be : Backend) (signalled : Nat → fds_triple_t → fds_triple_t)
    (s : State) (nfds : Int) (readfds writefds errorfds : Option xf_fd_set)
    (timeout : Option (Int × Int)) (heap : List Bool) (res : SelectResult)
    (hsel : xf_vfs_select be signalled s nfds readfds writefds errorfds timeout heap = some res)
    (hret : 0 ≤ res.ret) :
    ∃ l s1 heap1,
      xf_vfs_select_begin be s nfds readfds writefds errorfds heap
        = SelectBegin.waiting l s1 heap1 ∧
      xf_vfs_select_end be signalled s1 l nfds timeout heap1 = some res := by
  unfold xf_vfs_select at hsel
  split at hsel
  · cases hsel
  · rename_i r hbegin
    simp only [Option.some.injEq] at hsel
    rw [← hsel, select_begin_returned_ret be s nfds readfds writefds errorfds heap r hbegin]
      at hret
    omega
  · rename_i l s1 heap1 hbegin
    exact ⟨l, s1, heap1, hbegin, hsel⟩

theorem waited_no_socket (be : Backend) (l : select_locals) (nfds : Int)
    (timeout : Option (Int × Int)) (h : l.socket_select = none) :
    waited be l nfds timeout =
      (0, l.readfds.map (fun _ => XF_FD_ZERO), l.writefds.map (fun _ => XF_FD_ZERO),
        l.errorfds.map (fun _ => XF_FD_ZERO)) := by
  unfold waited
  rw [h]

/-- A table with one row in use has no two used rows with the same
`local_fd`. -/
theorem distinct_of_onlyRowZero (tbl : Nat → fd_table_t) (h : OnlyRowZero tbl) :
    DistinctLocalFds tbl := by
  intro x y hx hy h0 hidx _
  rw [h x hx h0, h y hy (by rw [← hidx]; exact h0)]

set_option maxRecDepth 100000 in
/-- C36 as stated fails: with `/foo` registered and descriptors 0, 1 and 2 open
on it, all three with local descriptor 1, `xf_vfs_select(3, &readfds, NULL,
NULL, NULL)` with only descriptor 2 in `readfds` returns 3 and reports
descriptors 0, 1 and 2 in `readfds`. No row is permanent and no backend
function is invoked. -/
theorem C36_shared_local_fd_counterexample :
    ((fooThreeOpen.s_fd_table 0).local_fd, (fooThreeOpen.s_fd_table 1).local_fd,
      (fooThreeOpen.s_fd_table 2).local_fd) = (1, 1, 1) ∧
    ((fooThreeOpen.s_fd_table 0).permanent, (fooThreeOpen.s_fd_table 1).permanent,
      (fooThreeOpen.s_fd_table 2).permanent) = (false, false, false) ∧
    XF_FD_ISSET 0 (XF_FD_SET 2 XF_FD_ZERO) = false ∧
    (xf_vfs_select okBackend (fun _ t => t) fooThreeOpen 3 (some (XF_FD_SET 2 XF_FD_ZERO))
        none none none []).map
      (fun r => (r.ret, xf_vfs_safe_fd_isset 0 r.readfds, xf_vfs_safe_fd_isset 1 r.readfds,
        xf_vfs_safe_fd_isset 2 r.readfds, r.state.calls))
      = some (3, true, true, true, fooThreeOpen.calls) := by
  decide

/-- Claim C36 (amended). For every `xf_vfs_select` call that returns a count
(a value that is not negative), involves no socket (permanent) descriptor, whose
backends only clear bits in the per-mount sets they are given, and in whose
descriptor table no two used rows of one mount hold the same `local_fd`: each
descriptor set in an output set was set in the corresponding input set and is
below `nfds`. -/
theorem C36_select_reports_only_asked (be : Backend)
    (signalled : Nat → fds_triple_t → fds_triple_t) (s : State) (nfds : Int)
    (readfds writefds errorfds : Option xf_fd_set) (timeout : Option (Int × Int))
    (heap : List Bool) (res : SelectResult)
    (hsel : xf_vfs_select be signalled s nfds readfds writefds errorfds timeout heap = some res)
    (hret : 0 ≤ res.ret)
    (hns : NoSocketFd s.s_fd_table nfds.toNat readfds writefds errorfds)
    (hclr : OnlyClears be signalled) (hdist : DistinctLocalFds s.s_fd_table) :
    (∀ x, xf_vfs_safe_fd_isset x res.readfds = true →
      xf_vfs_safe_fd_isset x readfds = true ∧ (x : Int) < nfds) ∧
    (∀ x, xf_vfs_safe_fd_isset x res.writefds = true →
      xf_vfs_safe_fd_isset x writefds = true ∧ (x : Int) < nfds) ∧
    (∀ x, xf_vfs_safe_fd_isset x res.errorfds = true →
      xf_vfs_safe_fd_isset x errorfds = true ∧ (x : Int) < nfds) := by
  obtain ⟨l, s1, heap1, hbegin, hend⟩ := select_count_waited be signalled s nfds readfds
    writefds errorfds timeout heap res hsel hret
  obtain ⟨sm, lm, l2, hn0, hn1, inv, e1, e2, e3, e4, e5, e6, rfl, hfields⟩ :=
    select_waiting_parts be s nfds readfds writefds errorfds heap l s1 heap1 hbegin hns
  obtain ⟨_, _, _, _, hsock, _⟩ := select_start_loop_locals be nfds s.s_vfs_count sm l2
    (fun _ _ _ => True) (fun _ _ => trivial) (fun _ _ _ _ => trivial)
  have hw := waited_no_socket be (select_start_loop be nfds s.s_vfs_count sm l2).locals nfds
    timeout (hsock.trans e5)
  obtain ⟨_, m1, m2, m3⟩ := select_end_result be signalled s1 _ nfds timeout heap1 res hend
    (by rw [hw])
  rw [hw] at m1 m2 m3
  simp only [safe_isset_map_zero, Bool.false_or] at m1 m2 m3
  have hnn : nfds.toNat ≤ XF_VFS_FDS_MAX := by
    have : (nfds.toNat : Int) ≤ (XF_VFS_FDS_MAX : Int) := by omega
    exact_mod_cast this
  have hsub := fun j => signalled_triples_subset be signalled nfds s.s_vfs_count sm l2 hclr j
  have fin : ∀ (pick : fds_triple_t → xf_fd_set) (global : Option xf_fd_set) (b : Bool) (x : Nat),
      (∀ j c, XF_FD_ISSET c (pick (signalled_triples signalled
          (select_start_loop be nfds s.s_vfs_count sm l2).locals j)) = true →
        moved_bit s.s_fd_table global nfds.toNat j c = true) →
      (b && decide (x < XF_VFS_FDS_MAX) && inserted s1.s_fd_table
        (signalled_triples signalled (select_start_loop be nfds s.s_vfs_count sm l2).locals)
        (select_start_loop be nfds s.s_vfs_count sm l2).locals.vfs_count pick x) = true →
      xf_vfs_safe_fd_isset x global = true ∧ (x : Int) < nfds := by
    intro pick global b x hs hx
    simp only [Bool.and_eq_true, decide_eq_true_eq] at hx
    obtain ⟨h1, h2⟩ := inserted_asked s.s_fd_table s1.s_fd_table _ pick global nfds.toNat _ x
      hs hfields hdist hx.1.2 hnn hx.2
    exact ⟨h1, by omega⟩
  refine ⟨fun x hx => ?_, fun x hx => ?_, fun x hx => ?_⟩
  · rw [m1 x] at hx
    refine fin (fun t => t.readfds) readfds _ x (fun j c hc => ?_) hx
    rw [← inv.item_r j c, ← e1]
    exact (hsub j).1 c hc
  · rw [m2 x] at hx
    refine fin (fun t => t.writefds) writefds _ x (fun j c hc => ?_) hx
    rw [← inv.item_w j c, ← e1]
    exact (hsub j).2.1 c hc
  · rw [m3 x] at hx
    refine fin (fun t => t.errorfds) errorfds _ x (fun j c hc => ?_) hx
    rw [← inv.item_e j c, ← e1]
    exact (hsub j).2.2 c hc

set_option maxRecDepth 100000 in
/-- Witness for C36 (amended): with `/sel` registered and descriptor 0 open on
it, `xf_vfs_select(1, &readfds, NULL, NULL, NULL)` with descriptor 0 in
`readfds`, against a backend that leaves the sets as they are, returns 1 and
every descriptor of the output `readfds` is descriptor 0. -/
theorem C36_select_reports_only_asked_witness :
    echoSelectResult.ret = 1 ∧
    ∀ x, xf_vfs_safe_fd_isset x echoSelectResult.readfds = true →
      xf_vfs_safe_fd_isset x (some (XF_FD_SET 0 XF_FD_ZERO)) = true ∧ (x : Int) < 1 := by
  have hrow : OnlyRowZero selOneOpen.s_fd_table := by
    unfold OnlyRowZero
    decide
  have hclr : OnlyClears echoBackend (fun _ t => t) :=
    ⟨fun _ _ _ _ _ _ _ => ⟨fdSubset_refl _, fdSubset_refl _, fdSubset_refl _⟩,
      fun _ _ => ⟨fdSubset_refl _, fdSubset_refl _, fdSubset_refl _⟩⟩
  have hns : NoSocketFd selOneOpen.s_fd_table (1 : Int).toNat (some (XF_FD_SET 0 XF_FD_ZERO))
      none none := by
    intro fd hfd _ hperm
    have h0 : fd = 0 := by
      have : fd < 1 := hfd
      omega
    subst h0
    exact absurd hperm (by decide)
  exact ⟨by decide,
    (C36_select_reports_only_asked echoBackend (fun _ t => t) selOneOpen 1
      (some (XF_FD_SET 0 XF_FD_ZERO)) none none none [] echoSelectResult rfl (by decide) hns
      hclr (distinct_of_onlyRowZero _ hrow)).1⟩

/-! ## Theorems: when the first half of xf_vfs_select reaches the wait -/

theorem backend_call_sameTables (be : Backend) (s : State) (c : BackendCall) :
    SameTables s (backend_call be s c).2 := ⟨rfl, rfl, rfl⟩

theorem check_and_call_sameTables (be : Backend) (s : State) (func : Bool) (c : BackendCall) :
    SameTables s (CHECK_AND_CALL be s func c).2 := by
  unfold CHECK_AND_CALL
  split <;> exact ⟨rfl, rfl, rfl⟩

theorem check_and_call_subcomponent_sameTables (be : Backend) (s : State) (vfs : xf_vfs_entry_t)
    (func : xf_vfs_dir_ops_t → Bool) (c : BackendCall) :
    SameTables s (CHECK_AND_CALL_SUBCOMPONENT be s vfs func c).2 := by
  unfold CHECK_AND_CALL_SUBCOMPONENT
  split
  · exact ⟨rfl, rfl, rfl⟩
  · split <;> exact ⟨rfl, rfl, rfl⟩

theorem check_and_call_subcomponentp_sameTables (be : Backend) (s : State)
    (vfs : xf_vfs_entry_t) (func : xf_vfs_dir_ops_t → Bool) (c : BackendCall) :
    SameTables s (CHECK_AND_CALL_SUBCOMPONENTP be s vfs func c).2 := by
  unfold CHECK_AND_CALL_SUBCOMPONENTP
  split
  · exact ⟨rfl, rfl, rfl⟩
  · split <;> exact ⟨rfl, rfl, rfl⟩

/-- The calls that only dispatch to a backend leave `s_vfs`, `s_vfs_count` and
the descriptor table as they were. -/
theorem dispatch_sameTables (be : Backend) (s : State) :
    (∀ fd data size, SameTables s (xf_vfs_write be s fd data size).2) ∧
    (∀ fd size mode, SameTables s (xf_vfs_lseek be s fd size mode).2) ∧
    (∀ fd dst size, SameTables s (xf_vfs_read be s fd dst size).2) ∧
    (∀ fd dst size offset, SameTables s (xf_vfs_pread be s fd dst size offset).2) ∧
    (∀ fd src size offset, SameTables s (xf_vfs_pwrite be s fd src size offset).2) ∧
    (∀ fd st, SameTables s (xf_vfs_fstat be s fd st).2) ∧
    (∀ fd cmd arg, SameTables s (xf_vfs_fcntl_r be s fd cmd arg).2) ∧
    (∀ fd cmd args, SameTables s (xf_vfs_ioctl be s fd cmd args).2) ∧
    (∀ fd, SameTables s (xf_vfs_fsync be s fd).2) ∧
    (∀ fd length, SameTables s (xf_vfs_ftruncate be s fd length).2) := by
  refine ⟨?_, ?_, ?_, ?_, ?_, ?_, ?_, ?_, ?_, ?_⟩
  all_goals intros
  · unfold xf_vfs_write
    try dsimp only
    repeat' split
    all_goals first | exact ⟨rfl, rfl, rfl⟩ | exact check_and_call_sameTables _ _ _ _
  · unfold xf_vfs_lseek
    try dsimp only
    repeat' split
    all_goals first | exact ⟨rfl, rfl, rfl⟩ | exact check_and_call_sameTables _ _ _ _
  · unfold xf_vfs_read
    try dsimp only
    repeat' split
    all_goals first | exact ⟨rfl, rfl, rfl⟩ | exact check_and_call_sameTables _ _ _ _
  · unfold xf_vfs_pread
    try dsimp only
    repeat' split
    all_goals first | exact ⟨rfl, rfl, rfl⟩ | exact check_and_call_sameTables _ _ _ _
  · unfold xf_vfs_pwrite
    try dsimp only
    repeat' split
    all_goals first | exact ⟨rfl, rfl, rfl⟩ | exact check_and_call_sameTables _ _ _ _
  · unfold xf_vfs_fstat
    try dsimp only
    repeat' split
    all_goals first | exact ⟨rfl, rfl, rfl⟩ | exact check_and_call_sameTables _ _ _ _
  · unfold xf_vfs_fcntl_r
    try dsimp only
    repeat' split
    all_goals first | exact ⟨rfl, rfl, rfl⟩ | exact check_and_call_sameTables _ _ _ _
  · unfold xf_vfs_ioctl
    try dsimp only
    repeat' split
    all_goals first | exact ⟨rfl, rfl, rfl⟩ | exact check_and_call_sameTables _ _ _ _
  · unfold xf_vfs_fsync
    try dsimp only
    repeat' split
    all_goals first | exact ⟨rfl, rfl, rfl⟩ | exact check_and_call_sameTables _ _ _ _
  · unfold xf_vfs_ftruncate
    try dsimp only
    repeat' split
    all_goals exact ⟨rfl, rfl, rfl⟩

/-- The path and directory calls leave `s_vfs`, `s_vfs_count` and the
descriptor table as they were. -/
theorem path_ops_sameTables (be : Backend) (s : State) :
    (∀ path st, SameTables s (xf_vfs_stat be s path st).2) ∧
    (∀ path times, SameTables s (xf_vfs_utime be s path times).2) ∧
    (∀ n1 n2, SameTables s (xf_vfs_link be s n1 n2).2) ∧
    (∀ path, SameTables s (xf_vfs_unlink be s path).2) ∧
    (∀ src dst, SameTables s (xf_vfs_rename be s src dst).2) ∧
    (∀ name, SameTables s (xf_vfs_opendir be s name).2) ∧
    (∀ pdir, SameTables s (xf_vfs_readdir be s pdir).2) ∧
    (∀ pdir entry out_dirent, SameTables s (xf_vfs_readdir_r be s pdir entry out_dirent).2) ∧
    (∀ pdir, SameTables s (xf_vfs_telldir be s pdir).2) ∧
    (∀ pdir loc, SameTables s (xf_vfs_seekdir be s pdir loc)) ∧
    (∀ pdir, SameTables s (xf_vfs_rewinddir be s pdir)) ∧
    (∀ pdir, SameTables s (xf_vfs_closedir be s pdir).2) ∧
    (∀ name mode, SameTables s (xf_vfs_mkdir be s name mode).2) ∧
    (∀ name, SameTables s (xf_vfs_rmdir be s name).2) ∧
    (∀ path amode, SameTables s (xf_vfs_access be s path amode).2) ∧
    (∀ path length, SameTables s (xf_vfs_truncate be s path length).2) := by
  refine ⟨?_, ?_, ?_, ?_, ?_, ?_, ?_, ?_, ?_, ?_, ?_, ?_, ?_, ?_, ?_, ?_⟩
  all_goals intros
  · unfold xf_vfs_stat
    try dsimp only
    repeat' split
    all_goals first
      | exact ⟨rfl, rfl, rfl⟩
      | exact check_and_call_subcomponent_sameTables _ _ _ _ _
  · unfold xf_vfs_utime
    try dsimp only
    repeat' split
    all_goals first
      | exact ⟨rfl, rfl, rfl⟩
      | exact check_and_call_subcomponent_sameTables _ _ _ _ _
  · unfold xf_vfs_link
    try dsimp only
    repeat' split
    all_goals exact ⟨rfl, rfl, rfl⟩
  · unfold xf_vfs_unlink
    try dsimp only
    repeat' split
    all_goals exact ⟨rfl, rfl, rfl⟩
  · unfold xf_vfs_rename
    try dsimp only
    repeat' split
    all_goals exact ⟨rfl, rfl, rfl⟩
  · unfold xf_vfs_opendir
    try dsimp only
    repeat' split
    all_goals exact ⟨rfl, rfl, rfl⟩
  · unfold xf_vfs_readdir
    try dsimp only
    repeat' split
    all_goals first
      | exact ⟨rfl, rfl, rfl⟩
      | exact check_and_call_subcomponentp_sameTables _ _ _ _ _
  · unfold xf_vfs_readdir_r
    try dsimp only
    repeat' split
    all_goals first
      | exact ⟨rfl, rfl, rfl⟩
      | exact check_and_call_subcomponent_sameTables _ _ _ _ _
  · unfold xf_vfs_telldir
    try dsimp only
    repeat' split
    all_goals first
      | exact ⟨rfl, rfl, rfl⟩
      | exact check_and_call_subcomponent_sameTables _ _ _ _ _
  · unfold xf_vfs_seekdir
    try dsimp only
    repeat' split
    all_goals first
      | exact ⟨rfl, rfl, rfl⟩
      | exact check_and_call_subcomponent_sameTables _ _ _ _ _
  · unfold xf_vfs_rewinddir xf_vfs_seekdir
    try dsimp only
    repeat' split
    all_goals first
      | exact ⟨rfl, rfl, rfl⟩
      | exact check_and_call_subcomponent_sameTables _ _ _ _ _
  · unfold xf_vfs_closedir
    try dsimp only
    repeat' split
    all_goals first
      | exact ⟨rfl, rfl, rfl⟩
      | exact check_and_call_subcomponent_sameTables _ _ _ _ _
  · unfold xf_vfs_mkdir
    try dsimp only
    repeat' split
    all_goals exact ⟨rfl, rfl, rfl⟩
  · unfold xf_vfs_rmdir
    try dsimp only
    repeat' split
    all_goals exact ⟨rfl, rfl, rfl⟩
  · unfold xf_vfs_access
    try dsimp only
    repeat' split
    all_goals first
      | exact ⟨rfl, rfl, rfl⟩
      | exact check_and_call_subcomponent_sameTables _ _ _ _ _
  · unfold xf_vfs_truncate
    try dsimp only
    repeat' split
    all_goals exact ⟨rfl, rfl, rfl⟩

theorem rowKept_refl (a : fd_table_t) : RowKept a a := ⟨rfl, rfl, rfl⟩

/-- A call that leaves the three tables alone is a `StepOk`. -/
theorem stepOk_of_sameTables (c : ApiCall) (s t : State) (h : SameTables s t)
    (hc : CountOk s) (ho : OffsetOk s) : StepOk c s t := by
  obtain ⟨h1, h2, h3⟩ := h
  refine ⟨⟨by rw [h2]; exact hc.1, fun i e he => ?_⟩, fun i e he => ?_, by rw [h2], fun j => ?_⟩
  · rw [h2]
    rw [h1] at he
    exact hc.2 i e he
  · rw [h1] at he
    exact ho i e he
  · rw [h3]
    exact Or.inr (Or.inl (rowKept_refl _))

/-- A call that leaves `s_vfs` and `s_vfs_count` alone and resets or keeps
each row is a `StepOk`. -/
theorem stepOk_of_rows (c : ApiCall) (s t : State) (h1 : t.s_vfs = s.s_vfs)
    (h2 : t.s_vfs_count = s.s_vfs_count)
    (h3 : ∀ j, t.s_fd_table j = FD_TABLE_ENTRY_UNUSED ∨ RowKept (s.s_fd_table j) (t.s_fd_table j))
    (hc : CountOk s) (ho : OffsetOk s) : StepOk c s t := by
  refine ⟨⟨by rw [h2]; exact hc.1, fun i e he => ?_⟩, fun i e he => ?_, by rw [h2], fun j => ?_⟩
  · rw [h2]
    rw [h1] at he
    exact hc.2 i e he
  · rw [h1] at he
    exact ho i e he
  · rcases h3 j with h | h
    · exact Or.inl h
    · exact Or.inr (Or.inl h)

/-- `xf_vfs_register_fs_common` keeps the mount table in order, does not lower
`s_vfs_count`, leaves the descriptor table alone, and on success hands back an
index below the new `s_vfs_count`. -/
theorem register_fs_common_effect (s : State) (base_path : List Char) (len : Nat)
    (vfs : Option xf_vfs_fs_ops_t) (flags : Int) (ctx : Nat) (heap : List Bool)
    (hc : CountOk s) (ho : OffsetOk s) :
    CountOk (xf_vfs_register_fs_common s base_path len vfs flags ctx heap).state ∧
    OffsetOk (xf_vfs_register_fs_common s base_path len vfs flags ctx heap).state ∧
    s.s_vfs_count ≤
      (xf_vfs_register_fs_common s base_path len vfs flags ctx heap).state.s_vfs_count ∧
    (xf_vfs_register_fs_common s base_path len vfs flags ctx heap).state.s_fd_table
      = s.s_fd_table ∧
    ((xf_vfs_register_fs_common s base_path len vfs flags ctx heap).ret = xf_err_t.XF_OK →
      ∃ index,
        (xf_vfs_register_fs_common s base_path len vfs flags ctx heap).vfs_index = some index ∧
        index <
          (xf_vfs_register_fs_common s base_path len vfs flags ctx heap).state.s_vfs_count) := by
  unfold xf_vfs_register_fs_common
  cases vfs with
  | none => exact ⟨hc, ho, le_refl _, rfl, fun h => by cases h⟩
  | some ops =>
    dsimp only
    by_cases h1 : len ≠ XF_VFS_PATH_PREFIX_LEN_IGNORED ∧ (len = 1 ∨ len > XF_VFS_PATH_MAX)
    · rw [if_pos h1]
      exact ⟨hc, ho, le_refl _, rfl, fun h => by cases h⟩
    rw [if_neg h1]
    by_cases h2 : len ≠ XF_VFS_PATH_PREFIX_LEN_IGNORED ∧ len ≥ 2 ∧
        (base_path.getD 0 NUL ≠ '/' ∨ base_path.getD (len - 1) NUL = '/')
    · rw [if_pos h2]
      exact ⟨hc, ho, le_refl _, rfl, fun h => by cases h⟩
    rw [if_neg h2]
    cases hfree : xf_get_free_index s with
    | none => exact ⟨hc, ho, le_refl _, rfl, fun h => by cases h⟩
    | some index =>
      dsimp only
      obtain ⟨hlt, hnone⟩ := get_free_index_lt s index hfree
      have hle := free_index_le_count s index hc hfree
      have hmax : XF_VFS_MAX_COUNT = 8 := rfl
      rw [if_neg (by rw [hnone]; simp)]
      have hslot : ∀ (f : Nat → Option xf_vfs_entry_t) (en : xf_vfs_entry_t) (i : Nat)
          (e : xf_vfs_entry_t), f = s.s_vfs → Function.update f index (some en) i = some e →
          (i = index ∧ e = en) ∨ (i ≠ index ∧ s.s_vfs i = some e) := by
        intro f en i e hf he
        by_cases hi : i = index
        · rw [hi, Function.update_same] at he
          cases he
          exact Or.inl ⟨hi, rfl⟩
        · rw [Function.update_noteq hi, hf] at he
          exact Or.inr ⟨hi, he⟩
      by_cases hidx : index = s.s_vfs_count
      · rw [if_pos hidx]
        by_cases hok : (!(xf_malloc heap).1) = true
        · rw [if_pos hok]
          refine ⟨⟨?_, fun i e he => ?_⟩, ho, Nat.le_succ _, rfl, fun h => by cases h⟩
          · show s.s_vfs_count + 1 ≤ XF_VFS_MAX_COUNT
            omega
          · show i < s.s_vfs_count + 1
            have := hc.2 i e he
            omega
        · rw [if_neg hok]
          refine ⟨⟨?_, fun i e he => ?_⟩, fun i e he => ?_, Nat.le_succ _, rfl,
            fun _ => ⟨index, rfl, ?_⟩⟩
          · show s.s_vfs_count + 1 ≤ XF_VFS_MAX_COUNT
            omega
          · show i < s.s_vfs_count + 1
            rcases hslot _ _ i e rfl he with ⟨hi, _⟩ | ⟨_, he'⟩
            · omega
            · have := hc.2 i e he'
              omega
          · rcases hslot _ _ i e rfl he with ⟨hi, hen⟩ | ⟨_, he'⟩
            · rw [hen, hi]
              exact ⟨rfl, hlt⟩
            · exact ho i e he'
          · show index < s.s_vfs_count + 1
            omega
      · rw [if_neg hidx]
        by_cases hok : (!(xf_malloc heap).1) = true
        · rw [if_pos hok]
          exact ⟨hc, ho, le_refl _, rfl, fun h => by cases h⟩
        · rw [if_neg hok]
          refine ⟨⟨hc.1, fun i e he => ?_⟩, fun i e he => ?_, le_refl _, rfl,
            fun _ => ⟨index, rfl, ?_⟩⟩
          · show i < s.s_vfs_count
            rcases hslot _ _ i e rfl he with ⟨hi, _⟩ | ⟨_, he'⟩
            · omega
            · exact hc.2 i e he'
          · rcases hslot _ _ i e rfl he with ⟨hi, hen⟩ | ⟨_, he'⟩
            · rw [hen, hi]
              exact ⟨rfl, hlt⟩
            · exact ho i e he'
          · show index < s.s_vfs_count
            omega

/-- `xf_vfs_register_common` keeps the mount table in order, does not lower
`s_vfs_count`, leaves the descriptor table alone, and on success hands back an
index below the new `s_vfs_count`. -/
theorem register_common_effect (s : State) (base_path : List Char) (len : Nat)
    (vfs : Option xf_vfs_t) (ctx : Nat) (heap : List Bool) (hc : CountOk s) (ho : OffsetOk s) :
    CountOk (xf_vfs_register_common s base_path len vfs ctx heap).state ∧
    OffsetOk (xf_vfs_register_common s base_path len vfs ctx heap).state ∧
    s.s_vfs_count ≤ (xf_vfs_register_common s base_path len vfs ctx heap).state.s_vfs_count ∧
    (xf_vfs_register_common s base_path len vfs ctx heap).state.s_fd_table = s.s_fd_table ∧
    ((xf_vfs_register_common s base_path len vfs ctx heap).ret = xf_err_t.XF_OK →
      ∃ index,
        (xf_vfs_register_common s base_path len vfs ctx heap).vfs_index = some index ∧
        index < (xf_vfs_register_common s base_path len vfs ctx heap).state.s_vfs_count) := by
  unfold xf_vfs_register_common
  cases vfs with
  | none => exact ⟨hc, ho, le_refl _, rfl, fun h => by cases h⟩
  | some v =>
    dsimp only
    by_cases hst : Int.land v.flags XF_VFS_FLAG_STATIC ≠ 0
    · rw [if_pos hst]
      exact ⟨hc, ho, le_refl _, rfl, fun h => by cases h⟩
    rw [if_neg hst]
    rcases make_fs_ops_cases v heap with ⟨ops, heap1, hm⟩ | ⟨heap1, hm⟩
    · rw [hm]
      exact register_fs_common_effect s base_path len (some ops) v.flags ctx heap1 hc ho
    · rw [hm]
      exact ⟨hc, ho, le_refl _, rfl, fun h => by cases h⟩

/-- `xf_vfs_register_fs` keeps the mount table in order, does not lower
`s_vfs_count` and leaves the descriptor table alone. -/
theorem register_fs_effect (s : State) (base_path : List Char) (vfs : Option xf_vfs_fs_ops_t)
    (flags : Int) (ctx : Nat) (heap : List Bool) (hc : CountOk s) (ho : OffsetOk s) :
    CountOk (xf_vfs_register_fs s base_path vfs flags ctx heap).state ∧
    OffsetOk (xf_vfs_register_fs s base_path vfs flags ctx heap).state ∧
    s.s_vfs_count ≤ (xf_vfs_register_fs s base_path vfs flags ctx heap).state.s_vfs_count ∧
    (xf_vfs_register_fs s base_path vfs flags ctx heap).state.s_fd_table = s.s_fd_table := by
  unfold xf_vfs_register_fs
  cases vfs with
  | none => exact ⟨hc, ho, le_refl _, rfl⟩
  | some ops =>
    dsimp only
    split
    · obtain ⟨a, b, c, d, _⟩ :=
        register_fs_common_effect s base_path base_path.length (some ops) flags ctx heap hc ho
      exact ⟨a, b, c, d⟩
    · split
      · exact ⟨hc, ho, le_refl _, rfl⟩
      · rename_i copy heap1 _
        obtain ⟨a, b, c, d, _⟩ :=
          register_fs_common_effect s base_path base_path.length (some copy) flags ctx heap1
            hc ho
        exact ⟨a, b, c, d⟩

/-- A call that changes the mount table and `s_vfs_count` but not the
descriptor table is a `StepOk`, when the tables it leaves are in order. -/
theorem stepOk_of_mounts (c : ApiCall) (s t : State) (hc : CountOk t) (ho : OffsetOk t)
    (hle : s.s_vfs_count ≤ t.s_vfs_count) (htbl : t.s_fd_table = s.s_fd_table) :
    StepOk c s t :=
  ⟨hc, ho, hle, fun j => by rw [htbl]; exact Or.inr (Or.inl (rowKept_refl _))⟩

/-- The registrations of mounts are `StepOk`. -/
theorem register_stepOk (s : State) (hc : CountOk s) (ho : OffsetOk s) (c : ApiCall) :
    (∀ base_path vfs ctx heap, StepOk c s (xf_vfs_register s base_path vfs ctx heap).2) ∧
    (∀ base_path len vfs ctx heap,
      StepOk c s (xf_vfs_register_common s base_path len vfs ctx heap).state) ∧
    (∀ base_path vfs flags ctx heap,
      StepOk c s (xf_vfs_register_fs s base_path vfs flags ctx heap).state) ∧
    (∀ vfs flags ctx vfs_id_nonnull heap,
      StepOk c s (xf_vfs_register_fs_with_id s vfs flags ctx vfs_id_nonnull heap).state) ∧
    (∀ vfs ctx vfs_id_nonnull heap,
      StepOk c s (xf_vfs_register_with_id s vfs ctx vfs_id_nonnull heap).state) := by
  refine ⟨fun base_path vfs ctx heap => ?_, fun base_path len vfs ctx heap => ?_,
    fun base_path vfs flags ctx heap => ?_, fun vfs flags ctx vfs_id_nonnull heap => ?_,
    fun vfs ctx vfs_id_nonnull heap => ?_⟩
  · obtain ⟨a, b, c1, d, _⟩ :=
      register_common_effect s base_path base_path.length vfs ctx heap hc ho
    exact stepOk_of_mounts c s _ a b c1 d
  · obtain ⟨a, b, c1, d, _⟩ := register_common_effect s base_path len vfs ctx heap hc ho
    exact stepOk_of_mounts c s _ a b c1 d
  · obtain ⟨a, b, c1, d⟩ := register_fs_effect s base_path vfs flags ctx heap hc ho
    exact stepOk_of_mounts c s _ a b c1 d
  · unfold xf_vfs_register_fs_with_id
    split
    · exact stepOk_of_sameTables c s s (sameTables_refl s) hc ho
    · obtain ⟨a, b, c1, d, _⟩ :=
        register_fs_common_effect s [] XF_VFS_PATH_PREFIX_LEN_IGNORED vfs flags ctx heap hc ho
      exact stepOk_of_mounts c s _ a b c1 d
  · unfold xf_vfs_register_with_id
    split
    · exact stepOk_of_sameTables c s s (sameTables_refl s) hc ho
    · obtain ⟨a, b, c1, d, _⟩ :=
        register_common_effect s [] XF_VFS_PATH_PREFIX_LEN_IGNORED vfs ctx heap hc ho
      exact stepOk_of_mounts c s _ a b c1 d

/-- Emptying a slot keeps the mount table in order. -/
theorem remove_slot_ok (s : State) (k : Nat) (hc : CountOk s) (ho : OffsetOk s)
    (t : State) (h1 : t.s_vfs = Function.update s.s_vfs k none)
    (h2 : t.s_vfs_count = s.s_vfs_count) : CountOk t ∧ OffsetOk t := by
  have hsub : ∀ i e, t.s_vfs i = some e → s.s_vfs i = some e := by
    intro i e he
    rw [h1] at he
    by_cases hi : i = k
    · rw [hi, Function.update_same] at he
      cases he
    · rwa [Function.update_noteq hi] at he
  refine ⟨⟨by rw [h2]; exact hc.1, fun i e he => ?_⟩, fun i e he => ho i e (hsub i e he)⟩
  rw [h2]
  exact hc.2 i e (hsub i e he)

/-- `xf_vfs_unregister_with_id` is a `StepOk`. -/
theorem unregister_with_id_stepOk (c : ApiCall) (s : State) (vfs_id : Int) (hc : CountOk s)
    (ho : OffsetOk s) : StepOk c s (xf_vfs_unregister_with_id s vfs_id).2 := by
  unfold xf_vfs_unregister_with_id
  split
  · exact stepOk_of_sameTables c s s (sameTables_refl s) hc ho
  · obtain ⟨a, b⟩ := remove_slot_ok s vfs_id.toNat hc ho
      { s with
        s_vfs := Function.update s.s_vfs vfs_id.toNat none,
        s_fd_table := unregister_sweep s.s_fd_table vfs_id } rfl rfl
    refine ⟨a, b, le_refl _, fun j => ?_⟩
    show RowStep c _ (s.s_fd_table j) (unregister_sweep s.s_fd_table vfs_id j)
    rw [unregister_sweep_apply]
    split
    · exact Or.inl rfl
    · exact Or.inr (Or.inl (rowKept_refl _))

/-- `xf_vfs_unregister` is a `StepOk`. -/
theorem unregister_stepOk (c : ApiCall) (s : State) (base_path : List Char) (hc : CountOk s)
    (ho : OffsetOk s) : StepOk c s (xf_vfs_unregister s base_path).2 := by
  rcases unregister_cases s base_path with ⟨h, _⟩ | ⟨k, _, _, _, _, _, h⟩
  · rw [h]
    exact stepOk_of_sameTables c s s (sameTables_refl s) hc ho
  · rw [h]
    exact unregister_with_id_stepOk c s _ hc ho

/-- `xf_vfs_unregister_fd` is a `StepOk`. -/
theorem unregister_fd_stepOk (c : ApiCall) (s : State) (vfs_id fd : Int) (hc : CountOk s)
    (ho : OffsetOk s) : StepOk c s (xf_vfs_unregister_fd s vfs_id fd).2 := by
  unfold xf_vfs_unregister_fd
  split
  · exact stepOk_of_sameTables c s s (sameTables_refl s) hc ho
  · dsimp only
    split
    · refine stepOk_of_rows c s _ rfl rfl (fun j => ?_) hc ho
      show Function.update s.s_fd_table fd.toNat FD_TABLE_ENTRY_UNUSED j = _ ∨
        RowKept _ (Function.update s.s_fd_table fd.toNat FD_TABLE_ENTRY_UNUSED j)
      by_cases hj : j = fd.toNat
      · rw [hj, Function.update_same]
        exact Or.inl rfl
      · rw [Function.update_noteq hj]
        exact Or.inr (rowKept_refl _)
    · exact stepOk_of_sameTables c s s (sameTables_refl s) hc ho

/-- `xf_vfs_set_readonly_flag` is a `StepOk`. -/
theorem set_readonly_flag_stepOk (c : ApiCall) (s : State) (base_path : List Char)
    (hc : CountOk s) (ho : OffsetOk s) :
    StepOk c s (xf_vfs_set_readonly_flag s base_path).2 := by
  unfold xf_vfs_set_readonly_flag
  dsimp only
  split
  · rename_i i _
    have hslot : ∀ j e,
        Function.update s.s_vfs i
          ((s.s_vfs i).map fun vfs =>
            { vfs with flags := Int.lor vfs.flags XF_VFS_FLAG_READONLY_FS }) j = some e →
        ∃ e0, s.s_vfs j = some e0 ∧ e.offset = e0.offset := by
      intro j e he
      by_cases hj : j = i
      · rw [hj, Function.update_same] at he
        cases hsi : s.s_vfs i with
        | none =>
          rw [hsi] at he
          cases he
        | some e0 =>
          rw [hsi] at he
          simp only [Option.map_some', Option.some.injEq] at he
          exact ⟨e0, by rw [hj, hsi], by rw [← he]⟩
      · rw [Function.update_noteq hj] at he
        exact ⟨e, he, rfl⟩
    refine stepOk_of_mounts c s _ ⟨hc.1, fun j e he => ?_⟩ (fun j e he => ?_) (le_refl _) rfl
    · obtain ⟨e0, h0, _⟩ := hslot j e he
      exact hc.2 j e0 h0
    · obtain ⟨e0, h0, hoff⟩ := hslot j e he
      rw [hoff]
      exact ho j e0 h0
  · exact stepOk_of_sameTables c s s (sameTables_refl s) hc ho

/-- `xf_vfs_close` is a `StepOk`. -/
theorem close_stepOk (c : ApiCall) (be : Backend) (s : State) (fd : Int) (hc : CountOk s)
    (ho : OffsetOk s) : StepOk c s (xf_vfs_close be s fd).2 := by
  unfold xf_vfs_close
  dsimp only
  split
  · exact stepOk_of_sameTables c s _ ⟨rfl, rfl, rfl⟩ hc ho
  · split
    · exact stepOk_of_sameTables c s _ ⟨rfl, rfl, rfl⟩ hc ho
    · split
      · exact stepOk_of_sameTables c s _ ⟨rfl, rfl, rfl⟩ hc ho
      · refine stepOk_of_rows c s _ rfl rfl (fun j => ?_) hc ho
        dsimp only [backend_call]
        split
        · split
          · by_cases hj : j = fd.toNat
            · rw [hj, Function.update_same]
              exact Or.inr ⟨rfl, rfl, rfl⟩
            · rw [Function.update_noteq hj]
              exact Or.inr (rowKept_refl _)
          · by_cases hj : j = fd.toNat
            · rw [hj, Function.update_same]
              exact Or.inl rfl
            · rw [Function.update_noteq hj]
              exact Or.inr (rowKept_refl _)
        · exact Or.inr (rowKept_refl _)

/-- `xf_vfs_select_triggered` and `xf_vfs_select_triggered_isr` leave the three
tables alone. -/
theorem select_triggered_sameTables (be : Backend) (s : State) (sem_is_local : Bool)
    (sem : Int) (woken : Nat) :
    SameTables s (xf_vfs_select_triggered be s sem_is_local sem) ∧
    SameTables s (xf_vfs_select_triggered_isr be s sem_is_local sem woken) := by
  unfold xf_vfs_select_triggered xf_vfs_select_triggered_isr
  constructor
  · split
    · exact ⟨rfl, rfl, rfl⟩
    · split <;> exact ⟨rfl, rfl, rfl⟩
  · split
    · exact ⟨rfl, rfl, rfl⟩
    · split <;> exact ⟨rfl, rfl, rfl⟩

/-- A call that leaves the mount table alone and claims one row for a slot
below `s_vfs_count` is a `StepOk`. -/
theorem stepOk_of_claim (c : ApiCall) (s t : State) (i : Nat) (row : fd_table_t)
    (h1 : t.s_vfs = s.s_vfs) (h2 : t.s_vfs_count = s.s_vfs_count)
    (h3 : t.s_fd_table = Function.update s.s_fd_table i row)
    (h0 : 0 ≤ row.vfs_index) (hlt : row.vfs_index < (s.s_vfs_count : Int)) (hcl : c.Claims row)
    (hc : CountOk s) (ho : OffsetOk s) : StepOk c s t := by
  refine ⟨⟨by rw [h2]; exact hc.1, fun j e he => ?_⟩, fun j e he => ?_, by rw [h2], fun j => ?_⟩
  · rw [h2]
    rw [h1] at he
    exact hc.2 j e he
  · rw [h1] at he
    exact ho j e he
  · rw [h3, h2]
    by_cases hj : j = i
    · rw [hj, Function.update_same]
      exact Or.inr (Or.inr ⟨h0, hlt, hcl⟩)
    · rw [Function.update_noteq hj]
      exact Or.inr (Or.inl (rowKept_refl _))

/-- `xf_vfs_open` is a `StepOk`. -/
theorem open_stepOk (be : Backend) (s : State) (path : List Char) (flags mode : Int)
    (hc : CountOk s) (ho : OffsetOk s) :
    StepOk (ApiCall.open_ be path flags mode) s (xf_vfs_open be s path flags mode).2 := by
  unfold xf_vfs_open
  cases hres : xf_vfs_get_vfs_for_path_ptr s path with
  | none => exact stepOk_of_sameTables _ s _ ⟨rfl, rfl, rfl⟩ hc ho
  | some p =>
    obtain ⟨k, vfs⟩ := p
    obtain ⟨_, hk⟩ := ptr_some s path k vfs hres
    obtain ⟨hoff, hk8⟩ := ho k vfs hk
    have hkc := hc.2 k vfs hk
    dsimp only
    split
    · exact stepOk_of_sameTables _ s _ ⟨rfl, rfl, rfl⟩ hc ho
    · split
      · exact stepOk_of_sameTables _ s _ ⟨rfl, rfl, rfl⟩ hc ho
      · dsimp only [backend_call]
        split
        · rename_i hret
          split
          · rename_i i _
            have hidx : to_vfs_index_t vfs.offset = (k : Int) := by
              rw [hoff]
              exact to_vfs_index_t_of_small _ (Int.natCast_nonneg k) (by exact_mod_cast hk8)
            refine stepOk_of_claim _ s _ i _ rfl rfl rfl ?_ ?_ ?_ hc ho
            · show 0 ≤ to_vfs_index_t vfs.offset
              rw [hidx]
              exact Int.natCast_nonneg k
            · show to_vfs_index_t vfs.offset < _
              rw [hidx]
              exact_mod_cast hkc
            · exact ⟨rfl, k, uses_ctx vfs, translate_path vfs path, hret, rfl⟩
          · split
            · exact stepOk_of_sameTables _ s _ ⟨rfl, rfl, rfl⟩ hc ho
            · exact stepOk_of_sameTables _ s _ ⟨rfl, rfl, rfl⟩ hc ho
        · exact stepOk_of_sameTables _ s _ ⟨rfl, rfl, rfl⟩ hc ho

/-- What `xf_vfs_register_fd_with_local_fd` does to the tables: nothing, or it
claims one row for the slot `vfs_id`, which is below `s_vfs_count`. -/
theorem register_fd_with_local_fd_effect (s : State) (vfs_id local_fd : Int)
    (permanent fd_nonnull : Bool) :
    SameTables s (xf_vfs_register_fd_with_local_fd s vfs_id local_fd permanent fd_nonnull).state ∨
    ∃ i row,
      (xf_vfs_register_fd_with_local_fd s vfs_id local_fd permanent fd_nonnull).state
        = { s with s_fd_table := Function.update s.s_fd_table i row } ∧
      row.vfs_index = to_vfs_index_t vfs_id ∧ 0 ≤ vfs_id ∧ vfs_id < (s.s_vfs_count : Int) ∧
      row.permanent = permanent ∧
      ((0 ≤ local_fd ∧ row.local_fd = to_local_fd_t local_fd) ∨
        (local_fd < 0 ∧ row.local_fd < XF_VFS_FDS_MAX)) := by
  unfold xf_vfs_register_fd_with_local_fd
  split
  · exact Or.inl ⟨rfl, rfl, rfl⟩
  · rename_i hguard
    split
    · rename_i i hi
      refine Or.inr ⟨i, _, rfl, rfl, by omega, by omega, rfl, ?_⟩
      by_cases hl : local_fd ≥ 0
      · exact Or.inl ⟨hl, by rw [if_pos hl]⟩
      · refine Or.inr ⟨by omega, ?_⟩
        show (if local_fd ≥ 0 then to_local_fd_t local_fd else to_local_fd_t (i : Int)) < _
        rw [if_neg hl]
        obtain ⟨hi64, _⟩ := first_unused_row_some s.s_fd_table i hi
        have h64 : XF_VFS_FDS_MAX = 64 := rfl
        rw [to_local_fd_t_of_small i (by omega)]
        exact hi64
    · exact Or.inl ⟨rfl, rfl, rfl⟩

/-- `xf_vfs_register_fd_with_local_fd` and `xf_vfs_register_fd` are `StepOk`. -/
theorem register_fd_stepOk (s : State) (hc : CountOk s) (ho : OffsetOk s) :
    (∀ vfs_id local_fd permanent fd_nonnull,
      StepOk (ApiCall.register_fd_with_local_fd vfs_id local_fd permanent fd_nonnull) s
        (xf_vfs_register_fd_with_local_fd s vfs_id local_fd permanent fd_nonnull).state) ∧
    (∀ vfs_id fd_nonnull,
      StepOk (ApiCall.register_fd vfs_id fd_nonnull) s
        (xf_vfs_register_fd s vfs_id fd_nonnull).state) := by
  have hmax : XF_VFS_MAX_COUNT = 8 := rfl
  have hcount := hc.1
  constructor
  · intro vfs_id local_fd permanent fd_nonnull
    rcases register_fd_with_local_fd_effect s vfs_id local_fd permanent fd_nonnull with
      h | ⟨i, row, hst, hidx, h0, hlt, hperm, hloc⟩
    · exact stepOk_of_sameTables _ s _ h hc ho
    · rw [hst]
      have hsmall : to_vfs_index_t vfs_id = vfs_id :=
        to_vfs_index_t_of_small _ h0 (by omega)
      refine stepOk_of_claim _ s _ i row rfl rfl rfl (by rw [hidx, hsmall]; exact h0)
        (by rw [hidx, hsmall]; exact hlt) ⟨hperm, ?_⟩ hc ho
      rcases hloc with h | h
      · exact Or.inl h
      · exact Or.inr h.2
  · intro vfs_id fd_nonnull
    unfold xf_vfs_register_fd
    rcases register_fd_with_local_fd_effect s vfs_id (-1) true fd_nonnull with
      h | ⟨i, row, hst, hidx, h0, hlt, hperm, hloc⟩
    · exact stepOk_of_sameTables _ s _ h hc ho
    · rw [hst]
      have hsmall : to_vfs_index_t vfs_id = vfs_id :=
        to_vfs_index_t_of_small _ h0 (by omega)
      refine stepOk_of_claim _ s _ i row rfl rfl rfl (by rw [hidx, hsmall]; exact h0)
        (by rw [hidx, hsmall]; exact hlt) ⟨hperm, ?_⟩ hc ho
      rcases hloc with h | h
      · omega
      · exact h.2

theorem to_local_fd_t_lt (x : Int) : to_local_fd_t x < 256 := by
  unfold to_local_fd_t
  omega

/-- Each row the claiming loop of `xf_vfs_register_fd_range` leaves is the row
it found, an unused row, or a permanent row claimed for `index`
whose `local_fd` fits `local_fd_t`. -/
theorem register_fd_range_loop_rows (index : Int) (min_fd : Nat) (t0 : Nat → fd_table_t)
    (n : Nat) : ∀ (i : Nat) (tbl : Nat → fd_table_t),
    (∀ j, tbl j = t0 j ∨ tbl j = FD_TABLE_ENTRY_UNUSED ∨
      ((tbl j).vfs_index = to_vfs_index_t index ∧ (tbl j).permanent = true ∧
        (tbl j).local_fd < 256)) →
    ∀ j, (register_fd_range_loop index min_fd n i tbl).2 j = t0 j ∨
      (register_fd_range_loop index min_fd n i tbl).2 j = FD_TABLE_ENTRY_UNUSED ∨
      (((register_fd_range_loop index min_fd n i tbl).2 j).vfs_index = to_vfs_index_t index ∧
        ((register_fd_range_loop index min_fd n i tbl).2 j).permanent = true ∧
        ((register_fd_range_loop index min_fd n i tbl).2 j).local_fd < 256) := by
  induction n with
  | zero =>
    intro i tbl h j
    exact h j
  | succ n ih =>
    intro i tbl h j
    unfold register_fd_range_loop
    split
    · show register_fd_range_rollback tbl index min_fd i j = _ ∨
        register_fd_range_rollback tbl index min_fd i j = _ ∨
        ((register_fd_range_rollback tbl index min_fd i j).vfs_index = _ ∧
          (register_fd_range_rollback tbl index min_fd i j).permanent = true ∧
          (register_fd_range_rollback tbl index min_fd i j).local_fd < 256)
      unfold register_fd_range_rollback
      rw [rollback_apply]
      split
      · exact Or.inr (Or.inl rfl)
      · exact h j
    · apply ih
      intro j'
      by_cases hj : j' = i
      · rw [hj, Function.update_same]
        exact Or.inr (Or.inr ⟨rfl, rfl, to_local_fd_t_lt (i : Int)⟩)
      · rw [Function.update_noteq hj]
        exact h j'

/-- `xf_vfs_register_fd_range` is a `StepOk`. -/
theorem register_fd_range_stepOk (s : State) (vfs : Option xf_vfs_t) (ctx : Nat)
    (min_fd max_fd : Int) (heap : List Bool) (hc : CountOk s) (ho : OffsetOk s) :
    StepOk (ApiCall.register_fd_range vfs ctx min_fd max_fd heap) s
      (xf_vfs_register_fd_range s vfs ctx min_fd max_fd heap).2 := by
  unfold xf_vfs_register_fd_range
  split
  · exact stepOk_of_sameTables _ s s (sameTables_refl s) hc ho
  · dsimp only
    obtain ⟨a, b, c1, d, hidx⟩ :=
      register_common_effect s [] XF_VFS_PATH_PREFIX_LEN_IGNORED vfs ctx heap hc ho
    split
    · rename_i hret
      obtain ⟨index, hvi, hlt⟩ := hidx hret
      rw [hvi]
      have hmax : XF_VFS_MAX_COUNT = 8 := rfl
      have hcount := a.1
      have hsmall : to_vfs_index_t ((index : Nat) : Int) = (index : Int) :=
        to_vfs_index_t_of_small _ (Int.natCast_nonneg index) (by omega)
      have hrows := register_fd_range_loop_rows ((index : Nat) : Int) min_fd.toNat s.s_fd_table
        (max_fd.toNat - min_fd.toNat) min_fd.toNat
        (xf_vfs_register_common s [] XF_VFS_PATH_PREFIX_LEN_IGNORED vfs ctx heap).state.s_fd_table
        (fun j => Or.inl (by rw [d]))
      have hstep : ∀ (t : State),
          t.s_vfs_count
            = (xf_vfs_register_common s [] XF_VFS_PATH_PREFIX_LEN_IGNORED vfs ctx
                heap).state.s_vfs_count →
          t.s_fd_table
            = (register_fd_range_loop ((index : Nat) : Int) min_fd.toNat
                (max_fd.toNat - min_fd.toNat) min_fd.toNat
                (xf_vfs_register_common s [] XF_VFS_PATH_PREFIX_LEN_IGNORED vfs ctx
                  heap).state.s_fd_table).2 →
          ∀ j, RowStep (ApiCall.register_fd_range vfs ctx min_fd max_fd heap) t.s_vfs_count
            (s.s_fd_table j) (t.s_fd_table j) := by
        intro t ht1 ht2 j
        rw [ht2, ht1]
        rcases hrows j with h | h | ⟨h1, h2⟩
        · rw [h]
          exact Or.inr (Or.inl (rowKept_refl _))
        · exact Or.inl h
        · refine Or.inr (Or.inr ⟨?_, ?_, h2⟩)
          · rw [h1, hsmall]
            exact Int.natCast_nonneg index
          · rw [h1, hsmall]
            exact_mod_cast hlt
      dsimp only [Option.getD_some]
      split
      · rename_i tbl hloop
        refine ⟨a, b, c1, ?_⟩
        have := hstep
          { (xf_vfs_register_common s [] XF_VFS_PATH_PREFIX_LEN_IGNORED vfs ctx heap).state with
            s_fd_table := tbl } rfl (by rw [hloop])
        exact this
      · rename_i tbl hloop
        obtain ⟨a', b'⟩ := remove_slot_ok
          (xf_vfs_register_common s [] XF_VFS_PATH_PREFIX_LEN_IGNORED vfs ctx heap).state
          ((index : Nat) : Int).toNat a b
          { (xf_vfs_register_common s [] XF_VFS_PATH_PREFIX_LEN_IGNORED vfs ctx heap).state with
            s_vfs := Function.update
              (xf_vfs_register_common s [] XF_VFS_PATH_PREFIX_LEN_IGNORED vfs ctx heap).state.s_vfs
              ((index : Nat) : Int).toNat none,
            s_fd_table := tbl } rfl rfl
        refine ⟨a', b', c1, ?_⟩
        have := hstep
          { (xf_vfs_register_common s [] XF_VFS_PATH_PREFIX_LEN_IGNORED vfs ctx heap).state with
            s_vfs := Function.update
              (xf_vfs_register_common s [] XF_VFS_PATH_PREFIX_LEN_IGNORED vfs ctx heap).state.s_vfs
              ((index : Nat) : Int).toNat none,
            s_fd_table := tbl } rfl (by rw [hloop])
        exact this
    · exact stepOk_of_mounts _ s _ a b c1 d

/-- The first half of `xf_vfs_select`, when it returns before the wait: the
mount table is untouched and the descriptor table is the one it found, with or
without the marks of the first loop. -/
theorem select_begin_returned_tables (be : Backend) (s : State) (nfds : Int)
    (readfds writefds errorfds : Option xf_fd_set) (heap : List Bool) (r : SelectResult)
    (h : xf_vfs_select_begin be s nfds readfds writefds errorfds heap
      = SelectBegin.returned r) :
    r.state.s_vfs = s.s_vfs ∧ r.state.s_vfs_count = s.s_vfs_count ∧
    (r.state.s_fd_table = s.s_fd_table ∨
      r.state.s_fd_table = marked_table s.s_fd_table nfds.toNat errorfds) := by
  unfold xf_vfs_select_begin at h
  by_cases hb : nfds > (XF_VFS_FDS_MAX : Int) ∨ nfds < 0
  · rw [if_pos hb] at h
    cases h
    exact ⟨rfl, rfl, Or.inl rfl⟩
  · rw [if_neg hb] at h
    simp only at h
    by_cases ha1 : (xf_malloc heap).1 = false
    · rw [if_pos ha1] at h
      cases h
      exact ⟨rfl, rfl, Or.inl rfl⟩
    · rw [if_neg ha1] at h
      split at h
      · cases h
      · rename_i sm lm hmark
        obtain ⟨m1, m2, m3, _, _⟩ := select_mark_loop_spec be _ _ _ _ _ hmark
        split_ifs at h
        all_goals first
          | (cases h
             exact ⟨m1, m2, Or.inr m3⟩)
          | (split at h
             · cases h
             · rename_i i err s2 l3 hstart
               have hst : SameTables sm (StartLoop.failed i err s2 l3).state :=
                 hstart ▸ select_start_loop_sameTables be nfds _ sm _
               have hst3 : SameTables sm
                   (if err ≠ xf_err_t.XF_ERR_NOT_SUPPORTED then call_end_selects be i l3 s2
                     else s2) := by
                 split
                 · exact sameTables_trans _ _ _ hst (call_end_selects_sameTables be i l3 s2)
                 · exact hst
               split at h
               · cases h
               · cases h
                 exact ⟨hst3.1.trans m1, hst3.2.1.trans m2, Or.inr (hst3.2.2.trans m3)⟩)

/-- The two halves of `xf_vfs_select` are `StepOk`. -/
theorem select_stepOk (c : ApiCall) (be : Backend) (s t : State) (hc : CountOk s)
    (ho : OffsetOk s) :
    (∀ nfds readfds writefds errorfds heap,
      (ApiCall.select_begin be nfds readfds writefds errorfds heap).step s = some t →
        StepOk c s t) ∧
    (∀ signalled l nfds timeout heap,
      (ApiCall.select_end be signalled l nfds timeout heap).step s = some t →
        StepOk c s t) := by
  constructor
  · intro nfds readfds writefds errorfds heap h
    have hmarked : ∀ j, RowKept (s.s_fd_table j)
        (marked_table s.s_fd_table nfds.toNat errorfds j) := fun j =>
      marked_table_fields s.s_fd_table nfds.toNat errorfds j
    unfold ApiCall.step at h
    dsimp only at h
    split at h
    · cases h
    · rename_i r hr
      simp only [Option.some.injEq] at h
      obtain ⟨h1, h2, h3⟩ :=
        select_begin_returned_tables be s nfds readfds writefds errorfds heap r hr
      rw [← h]
      refine stepOk_of_rows c s _ h1 h2 (fun j => Or.inr ?_) hc ho
      rcases h3 with h3 | h3
      · rw [h3]
        exact rowKept_refl _
      · rw [h3]
        exact hmarked j
    · rename_i l s1 heap1 hw
      simp only [Option.some.injEq] at h
      obtain ⟨_, _, h1, h2, h3⟩ :=
        select_begin_waiting be s nfds readfds writefds errorfds heap l s1 heap1 hw
      rw [← h]
      refine stepOk_of_rows c s _ h1 h2 (fun j => Or.inr ?_) hc ho
      rw [h3]
      exact hmarked j
  · intro signalled l nfds timeout heap h
    unfold ApiCall.step at h
    dsimp only at h
    cases hend : xf_vfs_select_end be signalled s l nfds timeout heap with
    | none =>
      rw [hend] at h
      cases h
    | some r =>
      rw [hend] at h
      simp only [Option.map_some', Option.some.injEq] at h
      obtain ⟨h1, h2, h3⟩ := select_end_tables be signalled s l nfds timeout heap r hend
      rw [← h]
      refine stepOk_of_rows c s _ h1 h2 (fun j => ?_) hc ho
      rw [h3, select_sweep_apply]
      split
      · exact Or.inl rfl
      · exact Or.inr (rowKept_refl _)

/-- Every call, made in a state whose mount table is in order, is a `StepOk`. -/
theorem step_stepOk (c : ApiCall) (s t : State) (h : c.step s = some t) (hc : CountOk s)
    (ho : OffsetOk s) : StepOk c s t := by
  cases c
  case select_begin be nfds readfds writefds errorfds heap =>
    exact (select_stepOk _ be s t hc ho).1 nfds readfds writefds errorfds heap h
  case select_end be signalled l nfds timeout heap =>
    exact (select_stepOk _ be s t hc ho).2 signalled l nfds timeout heap h
  all_goals
    simp only [ApiCall.step, Option.some.injEq] at h
    rw [← h]
  case register base_path vfs ctx heap => exact (register_stepOk s hc ho _).1 _ _ _ _
  case register_common base_path len vfs ctx heap =>
    exact (register_stepOk s hc ho _).2.1 _ _ _ _ _
  case register_fs base_path vfs flags ctx heap =>
    exact (register_stepOk s hc ho _).2.2.1 _ _ _ _ _
  case register_fd_range vfs ctx min_fd max_fd heap =>
    exact register_fd_range_stepOk s vfs ctx min_fd max_fd heap hc ho
  case register_fs_with_id vfs flags ctx vfs_id_nonnull heap =>
    exact (register_stepOk s hc ho _).2.2.2.1 _ _ _ _ _
  case register_with_id vfs ctx vfs_id_nonnull heap =>
    exact (register_stepOk s hc ho _).2.2.2.2 _ _ _ _
  case unregister_with_id vfs_id => exact unregister_with_id_stepOk _ s vfs_id hc ho
  case unregister_fs_with_id vfs_id => exact unregister_with_id_stepOk _ s vfs_id hc ho
  case unregister base_path => exact unregister_stepOk _ s base_path hc ho
  case unregister_fs base_path => exact unregister_stepOk _ s base_path hc ho
  case register_fd vfs_id fd_nonnull => exact (register_fd_stepOk s hc ho).2 _ _
  case register_fd_with_local_fd vfs_id local_fd permanent fd_nonnull =>
    exact (register_fd_stepOk s hc ho).1 _ _ _ _
  case unregister_fd vfs_id fd => exact unregister_fd_stepOk _ s vfs_id fd hc ho
  case set_readonly_flag base_path => exact set_readonly_flag_stepOk _ s base_path hc ho
  case open_ be path flags mode => exact open_stepOk be s path flags mode hc ho
  case close be fd => exact close_stepOk _ be s fd hc ho
  case write be fd data size =>
    exact stepOk_of_sameTables _ s _ ((dispatch_sameTables be s).1 _ _ _) hc ho
  case lseek be fd size mode =>
    exact stepOk_of_sameTables _ s _ ((dispatch_sameTables be s).2.1 _ _ _) hc ho
  case read be fd dst size =>
    exact stepOk_of_sameTables _ s _ ((dispatch_sameTables be s).2.2.1 _ _ _) hc ho
  case pread be fd dst size offset =>
    exact stepOk_of_sameTables _ s _ ((dispatch_sameTables be s).2.2.2.1 _ _ _ _) hc ho
  case pwrite be fd src size offset =>
    exact stepOk_of_sameTables _ s _ ((dispatch_sameTables be s).2.2.2.2.1 _ _ _ _) hc ho
  case fstat be fd st =>
    exact stepOk_of_sameTables _ s _ ((dispatch_sameTables be s).2.2.2.2.2.1 _ _) hc ho
  case fcntl_r be fd cmd arg =>
    exact stepOk_of_sameTables _ s _ ((dispatch_sameTables be s).2.2.2.2.2.2.1 _ _ _) hc ho
  case ioctl be fd cmd args =>
    exact stepOk_of_sameTables _ s _ ((dispatch_sameTables be s).2.2.2.2.2.2.2.1 _ _ _) hc ho
  case fsync be fd =>
    exact stepOk_of_sameTables _ s _ ((dispatch_sameTables be s).2.2.2.2.2.2.2.2.1 _) hc ho
  case ftruncate be fd length =>
    exact stepOk_of_sameTables _ s _ ((dispatch_sameTables be s).2.2.2.2.2.2.2.2.2 _ _) hc ho
  case stat be path st =>
    exact stepOk_of_sameTables _ s _ ((path_ops_sameTables be s).1 _ _) hc ho
  case utime be path times =>
    exact stepOk_of_sameTables _ s _ ((path_ops_sameTables be s).2.1 _ _) hc ho
  case link be n1 n2 =>
    exact stepOk_of_sameTables _ s _ ((path_ops_sameTables be s).2.2.1 _ _) hc ho
  case unlink be path =>
    exact stepOk_of_sameTables _ s _ ((path_ops_sameTables be s).2.2.2.1 _) hc ho
  case rename be src dst =>
    exact stepOk_of_sameTables _ s _ ((path_ops_sameTables be s).2.2.2.2.1 _ _) hc ho
  case opendir be name =>
    exact stepOk_of_sameTables _ s _ ((path_ops_sameTables be s).2.2.2.2.2.1 _) hc ho
  case readdir be pdir =>
    exact stepOk_of_sameTables _ s _ ((path_ops_sameTables be s).2.2.2.2.2.2.1 _) hc ho
  case readdir_r be pdir entry out_dirent =>
    exact stepOk_of_sameTables _ s _ ((path_ops_sameTables be s).2.2.2.2.2.2.2.1 _ _ _) hc ho
  case telldir be pdir =>
    exact stepOk_of_sameTables _ s _ ((path_ops_sameTables be s).2.2.2.2.2.2.2.2.1 _) hc ho
  case seekdir be pdir loc =>
    exact stepOk_of_sameTables _ s _ ((path_ops_sameTables be s).2.2.2.2.2.2.2.2.2.1 _ _) hc ho
  case rewinddir be pdir =>
    exact stepOk_of_sameTables _ s _
      ((path_ops_sameTables be s).2.2.2.2.2.2.2.2.2.2.1 _) hc ho
  case closedir be pdir =>
    exact stepOk_of_sameTables _ s _
      ((path_ops_sameTables be s).2.2.2.2.2.2.2.2.2.2.2.1 _) hc ho
  case mkdir be name mode =>
    exact stepOk_of_sameTables _ s _
      ((path_ops_sameTables be s).2.2.2.2.2.2.2.2.2.2.2.2.1 _ _) hc ho
  case rmdir be name =>
    exact stepOk_of_sameTables _ s _
      ((path_ops_sameTables be s).2.2.2.2.2.2.2.2.2.2.2.2.2.1 _) hc ho
  case access be path amode =>
    exact stepOk_of_sameTables _ s _
      ((path_ops_sameTables be s).2.2.2.2.2.2.2.2.2.2.2.2.2.2.1 _ _) hc ho
  case truncate be path length =>
    exact stepOk_of_sameTables _ s _
      ((path_ops_sameTables be s).2.2.2.2.2.2.2.2.2.2.2.2.2.2.2 _ _) hc ho
  case select_triggered be sem_is_local sem =>
    exact stepOk_of_sameTables _ s _ (select_triggered_sameTables be s sem_is_local sem 0).1
      hc ho
  case select_triggered_isr be sem_is_local sem woken =>
    exact stepOk_of_sameTables _ s _
      (select_triggered_sameTables be s sem_is_local sem woken).2 hc ho

theorem unused_row_index : FD_TABLE_ENTRY_UNUSED.vfs_index = -1 := by decide

theorem unused_row_local_fd : FD_TABLE_ENTRY_UNUSED.local_fd = 255 := by decide

/-- A `StepOk` keeps `RowsOk`. -/
theorem stepOk_rowsOk (c : ApiCall) (s t : State) (h : StepOk c s t) (hr : RowsOk s) :
    RowsOk t := by
  obtain ⟨_, _, hle, hrows⟩ := h
  intro fd hused
  rcases hrows fd with h | ⟨h1, _, _⟩ | ⟨h0, hlt, _⟩
  · rw [h] at hused
    exact absurd unused_row_index hused
  · rw [h1] at hused ⊢
    obtain ⟨a, b⟩ := hr fd hused
    exact ⟨a, by omega⟩
  · exact ⟨h0, hlt⟩

/-- A `StepOk` keeps every `local_fd` within `local_fd_t`. -/
theorem stepOk_local_fd_byte (c : ApiCall) (s t : State) (h : StepOk c s t)
    (hb : ∀ fd, (s.s_fd_table fd).local_fd < 256) : ∀ fd, (t.s_fd_table fd).local_fd < 256 := by
  obtain ⟨_, _, _, hrows⟩ := h
  have h64 : XF_VFS_FDS_MAX = 64 := rfl
  intro fd
  rcases hrows fd with h | ⟨_, h2, _⟩ | ⟨_, _, hcl⟩
  · rw [h, unused_row_local_fd]
    omega
  · rw [h2]
    exact hb fd
  · cases c
    case open_ be path flags mode =>
      obtain ⟨_, k, w, p, _, hl⟩ := hcl
      rw [hl]
      exact to_local_fd_t_lt _
    case register_fd_with_local_fd vfs_id local_fd permanent fd_nonnull =>
      obtain ⟨_, ⟨_, hl⟩ | hl⟩ := hcl
      · rw [hl]
        exact to_local_fd_t_lt _
      · omega
    case register_fd vfs_id fd_nonnull =>
      have := hcl.2
      omega
    case register_fd_range vfs ctx min_fd max_fd heap => exact hcl.2
    all_goals exact absurd hcl (by simp [ApiCall.Claims])

/-- A `StepOk` of a call that hands descriptors below `XF_VFS_FDS_MAX` to the
table keeps `LocalFdsOk`. -/
theorem stepOk_localFdsOk (c : ApiCall) (s t : State) (h : StepOk c s t)
    (hb : c.BoundedLocalFds) (hl : LocalFdsOk s) : LocalFdsOk t := by
  obtain ⟨_, _, _, hrows⟩ := h
  have h64 : XF_VFS_FDS_MAX = 64 := rfl
  intro fd hused hperm
  rcases hrows fd with h | ⟨h1, h2, h3⟩ | ⟨_, _, hcl⟩
  · rw [h] at hused
    exact absurd unused_row_index hused
  · rw [h1] at hused
    rw [h3] at hperm
    rw [h2]
    exact hl fd hused hperm
  · cases c
    case open_ be path flags mode =>
      obtain ⟨_, k, w, p, h0, hloc⟩ := hcl
      have hlt := hb k w p flags mode
      rw [hloc]
      unfold to_local_fd_t
      omega
    case register_fd_with_local_fd vfs_id local_fd permanent fd_nonnull =>
      obtain ⟨hp, ⟨h0, hloc⟩ | hloc⟩ := hcl
      · have hlt := hb (by rw [← hp]; exact hperm)
        rw [hloc]
        unfold to_local_fd_t
        omega
      · exact hloc
    case register_fd vfs_id fd_nonnull => exact hcl.2
    case register_fd_range vfs ctx min_fd max_fd heap =>
      rw [hcl.1] at hperm
      cases hperm
    all_goals exact absurd hcl (by simp [ApiCall.Claims])

/-- The tables at program start are in order. -/
theorem init_tables_ok :
    CountOk State.init ∧ OffsetOk State.init ∧ RowsOk State.init ∧ LocalFdsOk State.init ∧
    ∀ fd, (State.init.s_fd_table fd).local_fd < 256 := by
  refine ⟨init_countOk, init_invariants.2, fun fd h => absurd unused_row_index h,
    fun fd h => absurd unused_row_index h, fun fd => ?_⟩
  show FD_TABLE_ENTRY_UNUSED.local_fd < 256
  rw [unused_row_local_fd]
  omega

/-- Any sequence of calls keeps the tables in order. -/
theorem steps_tables_ok (cs : List ApiCall) : ∀ (s t : State), steps cs s = some t →
    CountOk s → OffsetOk s → RowsOk s → (∀ fd, (s.s_fd_table fd).local_fd < 256) →
    CountOk t ∧ OffsetOk t ∧ RowsOk t ∧ (∀ fd, (t.s_fd_table fd).local_fd < 256) ∧
    s.s_vfs_count ≤ t.s_vfs_count ∧
    ((∀ c, c ∈ cs → c.BoundedLocalFds) → LocalFdsOk s → LocalFdsOk t) := by
  induction cs with
  | nil =>
    intro s t h hc ho hr hb
    simp only [steps, Option.some.injEq] at h
    rw [← h]
    exact ⟨hc, ho, hr, hb, le_refl _, fun _ hl => hl⟩
  | cons c cs ih =>
    intro s t h hc ho hr hb
    unfold steps at h
    cases hstep : c.step s with
    | none =>
      rw [hstep] at h
      cases h
    | some u =>
      rw [hstep] at h
      have hok := step_stepOk c s u hstep hc ho
      obtain ⟨a, b, c1, d, e, f⟩ := ih u t h hok.1 hok.2.1 (stepOk_rowsOk c s u hok hr)
        (stepOk_local_fd_byte c s u hok hb)
      refine ⟨a, b, c1, d, le_trans hok.2.2.1 e, fun hall hl => ?_⟩
      exact f (fun c' hc' => hall c' (List.mem_cons_of_mem _ hc'))
        (stepOk_localFdsOk c s u hok (hall c (List.mem_cons_self _ _)) hl)

/-- The tables of every reachable state are in order. -/
theorem reachable_tables_ok (s : State) (h : Reachable s) :
    CountOk s ∧ OffsetOk s ∧ RowsOk s := by
  obtain ⟨cs, hcs⟩ := h
  obtain ⟨i1, i2, i3, _, i5⟩ := init_tables_ok
  obtain ⟨a, b, c, _⟩ := steps_tables_ok cs State.init s hcs i1 i2 i3 i5
  exact ⟨a, b, c⟩

/-- Claim C35. In every reachable state `s_vfs_count <= XF_VFS_MAX_COUNT`,
every occupied mount slot has an index below `s_vfs_count` (so it is one of the
slots `0 .. s_vfs_count-1` the resolver scans) and its entry's `offset` field
equals its slot index; and no call decreases `s_vfs_count`. -/
theorem C35_mount_count_invariant (s : State) (h : Reachable s) :
    s.s_vfs_count ≤ XF_VFS_MAX_COUNT ∧
    (∀ i e, s.s_vfs i = some e →
      i < s.s_vfs_count ∧ i ∈ List.range s.s_vfs_count ∧ e.offset = (i : Int)) ∧
    (∀ (c : ApiCall) (t : State), c.step s = some t → s.s_vfs_count ≤ t.s_vfs_count) := by
  obtain ⟨hc, ho, _⟩ := reachable_tables_ok s h
  refine ⟨hc.1, fun i e he => ⟨hc.2 i e he, List.mem_range.mpr (hc.2 i e he), (ho i e he).1⟩,
    fun c t hstep => (step_stepOk c s t hstep hc ho).2.2.1⟩

/-- Witness for C35: the state after `xf_vfs_register("/foo", DUMMY_VFS)` at
program start is reachable, and the invariant holds in it. -/
theorem C35_mount_count_invariant_witness :
    Reachable fooRegistered ∧
    fooRegistered.s_vfs_count ≤ XF_VFS_MAX_COUNT ∧
    (∀ i e, fooRegistered.s_vfs i = some e →
      i < fooRegistered.s_vfs_count ∧ i ∈ List.range fooRegistered.s_vfs_count ∧
        e.offset = (i : Int)) ∧
    (∀ (c : ApiCall) (t : State), c.step fooRegistered = some t →
      fooRegistered.s_vfs_count ≤ t.s_vfs_count) :=
  ⟨⟨[ApiCall.register "/foo".toList (some DUMMY_VFS) 0 []], rfl⟩,
    C35_mount_count_invariant fooRegistered
      ⟨[ApiCall.register "/foo".toList (some DUMMY_VFS) 0 []], rfl⟩⟩

/-- Claim C39. In every reachable state every used descriptor row has
`0 <= vfs_index < s_vfs_count`, so the index it gives into `vfs_fds_triple`, the
array `xf_vfs_select` sizes by its snapshot of `s_vfs_count`, is in range. -/
theorem C39_used_row_index_below_count (s : State) (h : Reachable s) (fd : Nat)
    (hused : (s.s_fd_table fd).vfs_index ≠ -1) :
    0 ≤ (s.s_fd_table fd).vfs_index ∧
    (s.s_fd_table fd).vfs_index < (s.s_vfs_count : Int) ∧
    ∀ readfds writefds errorfds,
      (s.s_fd_table fd).vfs_index.toNat
        < (initial_locals s readfds writefds errorfds).vfs_count := by
  obtain ⟨_, _, hr⟩ := reachable_tables_ok s h
  obtain ⟨h0, hlt⟩ := hr fd hused
  refine ⟨h0, hlt, fun _ _ _ => ?_⟩
  show (s.s_fd_table fd).vfs_index.toNat < s.s_vfs_count
  omega

set_option maxRecDepth 100000 in
/-- Witness for C39: the state after `xf_vfs_register("/foo", DUMMY_VFS)` and
one `xf_vfs_open("/foo/file")` is reachable, its row 0 is used, and the row
names slot 0, below `s_vfs_count = 1`. -/
theorem C39_used_row_index_below_count_witness :
    Reachable fooOneOpen ∧ (fooOneOpen.s_fd_table 0).vfs_index ≠ -1 ∧
    0 ≤ (fooOneOpen.s_fd_table 0).vfs_index ∧
    (fooOneOpen.s_fd_table 0).vfs_index < (fooOneOpen.s_vfs_count : Int) ∧
    ∀ readfds writefds errorfds,
      (fooOneOpen.s_fd_table 0).vfs_index.toNat
        < (initial_locals fooOneOpen readfds writefds errorfds).vfs_count :=
  ⟨⟨[ApiCall.register "/foo".toList (some DUMMY_VFS) 0 [],
      ApiCall.open_ okBackend "/foo/file".toList XF_VFS_O_RDONLY 0], rfl⟩,
    by decide,
    C39_used_row_index_below_count fooOneOpen
      ⟨[ApiCall.register "/foo".toList (some DUMMY_VFS) 0 [],
        ApiCall.open_ okBackend "/foo/file".toList XF_VFS_O_RDONLY 0], rfl⟩ 0 (by decide)⟩

set_option maxRecDepth 100000 in
/-- C37 as stated fails: after `xf_vfs_register("/foo", DUMMY_VFS)` and an
`xf_vfs_open("/foo/file")` whose backend hands out the descriptor 100, row 0 is
used, not permanent, and holds `local_fd == 100`, which is not below
`XF_VFS_FDS_MAX`; `xf_vfs_select(1, &readfds, NULL, NULL, NULL)` with
descriptor 0 in `readfds` then sets bit 100 of a per-mount set, outside the
set. -/
theorem C37_local_fd_counterexample :
    fooWideOpen.map (fun t => ((t.s_fd_table 0).vfs_index, (t.s_fd_table 0).permanent,
      (t.s_fd_table 0).local_fd)) = some (0, false, 100) ∧
    ¬ (100 < XF_VFS_FDS_MAX) ∧
    (fooWideOpen.bind fun t =>
      (xf_vfs_select okBackend (fun _ t => t) t 1 (some (XF_FD_SET 0 XF_FD_ZERO)) none none
        none []).map fun r => r.ret) = none := by
  decide

/-- Claim C37 (amended). In every reachable state the `local_fd` stored in every
row fits `local_fd_t` (it is below 256); and when every backend `open` result
and every `local_fd` handed to `xf_vfs_register_fd_with_local_fd` for a row
that is not permanent was below `XF_VFS_FDS_MAX`, the `local_fd` of every used
row that is not permanent is below `XF_VFS_FDS_MAX`, so below
`XF_FD_SETSIZE`, the number of bits of an `xf_fd_set`. -/
theorem C37_local_fd_below_fds_max (cs : List ApiCall) (s : State)
    (h : steps cs State.init = some s) :
    (∀ fd, (s.s_fd_table fd).local_fd < 256) ∧
    ((∀ c, c ∈ cs → c.BoundedLocalFds) →
      ∀ fd, (s.s_fd_table fd).vfs_index ≠ -1 → (s.s_fd_table fd).permanent = false →
        (s.s_fd_table fd).local_fd < XF_VFS_FDS_MAX ∧
        (s.s_fd_table fd).local_fd < XF_FD_SETSIZE) := by
  obtain ⟨i1, i2, i3, i4, i5⟩ := init_tables_ok
  obtain ⟨_, _, _, hb, _, hl⟩ := steps_tables_ok cs State.init s h i1 i2 i3 i5
  exact ⟨hb, fun hall fd hused hperm => ⟨hl hall i4 fd hused hperm, hl hall i4 fd hused hperm⟩⟩

set_option maxRecDepth 100000 in
/-- Witness for C37 (amended): `xf_vfs_register("/foo", DUMMY_VFS)` and an
`xf_vfs_open("/foo/file")` whose backend hands out the descriptor 1 lead to
`fooOneOpen`, where every used row that is not permanent holds a `local_fd`
below `XF_VFS_FDS_MAX`. -/
theorem C37_local_fd_below_fds_max_witness :
    steps [ApiCall.register "/foo".toList (some DUMMY_VFS) 0 [],
      ApiCall.open_ okBackend "/foo/file".toList XF_VFS_O_RDONLY 0] State.init
        = some fooOneOpen ∧
    (∀ fd, (fooOneOpen.s_fd_table fd).local_fd < 256) ∧
    ∀ fd, (fooOneOpen.s_fd_table fd).vfs_index ≠ -1 →
      (fooOneOpen.s_fd_table fd).permanent = false →
        (fooOneOpen.s_fd_table fd).local_fd < XF_VFS_FDS_MAX ∧
        (fooOneOpen.s_fd_table fd).local_fd < XF_FD_SETSIZE := by
  have hthm := C37_local_fd_below_fds_max
    [ApiCall.register "/foo".toList (some DUMMY_VFS) 0 [],
      ApiCall.open_ okBackend "/foo/file".toList XF_VFS_O_RDONLY 0] fooOneOpen rfl
  refine ⟨rfl, hthm.1, hthm.2 (fun c hc => ?_)⟩
  simp only [List.mem_cons, List.mem_singleton, List.not_mem_nil, or_false] at hc
  rcases hc with hc | hc
  · rw [hc]
    exact trivial
  · rw [hc]
    intro k w p flags mode
    show (1 : Int) < (XF_VFS_FDS_MAX : Int)
    decide

/-! ## Theorems: which paths keep their mount after an unregistration -/

theorem removalTrack_mono (T : Nat → Option xf_vfs_entry_t) (k n : Nat)
    (acc acc' : Option Nat × Int) (h : RemovalTrack T k n acc acc') :
    RemovalTrack T k (n + 1) acc acc' := by
  rcases h with h | ⟨hk, h1, h2⟩ | ⟨hk, f, hf, hfk, h1, h2, h3, h4⟩ |
      ⟨f, g, hkf, hfg, hg, h1, h2, h3, h4, h5⟩
  · exact Or.inl h
  · exact Or.inr (Or.inl ⟨by omega, h1, h2⟩)
  · exact Or.inr (Or.inr (Or.inl ⟨by omega, f, by omega, hfk, h1, h2, h3, h4⟩))
  · exact Or.inr (Or.inr (Or.inr ⟨f, g, hkf, hfg, by omega, h1, h2, h3, h4, h5⟩))

/-- One resolver iteration at a slot other than the emptied one keeps the two
scans related. -/
theorem removalTrack_step (T T' : Nat → Option xf_vfs_entry_t) (path : List Char)
    (k n : Nat) (acc acc' : Option Nat × Int)
    (hT : T' n = T n) (hkn : k < n)
    (hinv : ResolveInv T path n acc) (hinv' : ResolveInv T' path n acc')
    (hsim : RemovalTrack T k n acc acc') :
    RemovalTrack T k (n + 1) (get_vfs_for_path_step T path acc n)
      (get_vfs_for_path_step T' path acc' n) := by
  cases hn : T n with
  | none =>
    rw [step_of_empty T path acc n hn, step_of_empty T' path acc' n (hT.trans hn)]
    exact removalTrack_mono T k n acc acc' hsim
  | some e =>
    obtain ⟨b, l⟩ := acc
    obtain ⟨b', l'⟩ := acc'
    have hlow' : -1 ≤ l' := hinv'.lower
    unfold get_vfs_for_path_step
    rw [hT, hn]
    simp only
    by_cases h1 : e.path_prefix_len = XF_VFS_PATH_PREFIX_LEN_IGNORED
    · rw [if_pos h1, if_pos h1]
      exact removalTrack_mono T k n _ _ hsim
    · rw [if_neg h1, if_neg h1]
      by_cases h2 : path.length < e.path_prefix_len ∨
          xf_memcmp path e.path_prefix e.path_prefix_len ≠ 0
      · rw [if_pos h2, if_pos h2]
        exact removalTrack_mono T k n _ _ hsim
      · rw [if_neg h2, if_neg h2]
        rcases hsim with heq | ⟨_, hb, hle⟩ | ⟨_, f, hf, hfk, hacc, hacc', hek, hef⟩ |
            ⟨f, g, hkf, hfg, hg, hacc, hacc', hek, hef, heg⟩
        · -- the two scans agree
          cases heq
          exact Or.inl rfl
        · -- the scan of `T` points at slot `k`
          simp only at hb hle
          subst hb
          have hc3 : ¬ (e.path_prefix_len = 0 ∧ (some k : Option Nat) = none) :=
            fun h => by cases h.2
          rw [if_neg hc3]
          by_cases h4 : path.length > e.path_prefix_len ∧
              path.getD e.path_prefix_len NUL ≠ '/'
          · rw [if_pos h4]
            by_cases hc3' : e.path_prefix_len = 0 ∧ b' = none
            · rw [if_pos hc3']
              exact Or.inr (Or.inl ⟨by omega, rfl, hle⟩)
            · rw [if_neg hc3', if_pos h4]
              exact Or.inr (Or.inl ⟨by omega, rfl, hle⟩)
          · rw [if_neg h4]
            by_cases hl : l < (e.path_prefix_len : Int)
            · rw [if_pos hl]
              by_cases hc3' : e.path_prefix_len = 0 ∧ b' = none
              · rw [if_pos hc3']
                obtain ⟨hz, hb'⟩ := hc3'
                have hl1 : l = -1 := by
                  rw [hz] at hl
                  simp only [Nat.cast_zero] at hl
                  omega
                have hl1' : l' = -1 := by omega
                subst hl1 hl1'
                refine Or.inr (Or.inr (Or.inl ⟨by omega, n, by omega, by omega, ?_, rfl, ?_,
                  ⟨e, hn, hz⟩⟩))
                · rw [hz]
                  rfl
                · obtain ⟨_, ek, hek, hcase⟩ := hinv.some_case k rfl
                  rcases hcase with ⟨hfb, _⟩ | ⟨_, hlen⟩
                  · exact ⟨ek, hek, hfb⟩
                  · simp only at hlen
                    omega
              · rw [if_neg hc3', if_neg h4, if_pos (by omega : l' < (e.path_prefix_len : Int))]
                exact Or.inl rfl
            · rw [if_neg hl]
              by_cases hc3' : e.path_prefix_len = 0 ∧ b' = none
              · rw [if_pos hc3']
                exact Or.inr (Or.inl ⟨by omega, rfl, hle⟩)
              · rw [if_neg hc3', if_neg h4]
                by_cases hl' : l' < (e.path_prefix_len : Int)
                · rw [if_pos hl']
                  exact Or.inr (Or.inl ⟨by omega, rfl, by simp only; omega⟩)
                · rw [if_neg hl']
                  exact Or.inr (Or.inl ⟨by omega, rfl, hle⟩)
        · -- both scans point at the fallback `f`
          cases hacc
          cases hacc'
          have hc3 : ¬ (e.path_prefix_len = 0 ∧ (some f : Option Nat) = none) :=
            fun h => by cases h.2
          rw [if_neg hc3, if_neg hc3]
          by_cases h4 : path.length > e.path_prefix_len ∧
              path.getD e.path_prefix_len NUL ≠ '/'
          · rw [if_pos h4, if_pos h4]
            exact Or.inr (Or.inr (Or.inl ⟨by omega, f, by omega, hfk, rfl, rfl, hek, hef⟩))
          · rw [if_neg h4, if_neg h4]
            have hl' : (-1 : Int) < (e.path_prefix_len : Int) := by omega
            rw [if_pos hl']
            by_cases hl : (0 : Int) < (e.path_prefix_len : Int)
            · rw [if_pos hl]
              exact Or.inl rfl
            · -- a further fallback: only the scan of `T'` moves on to it
              have hz : e.path_prefix_len = 0 := by omega
              rw [if_neg hl]
              refine Or.inr (Or.inr (Or.inr ⟨f, n, hfk, hf, by omega, rfl, ?_, hek, hef,
                ⟨e, hn, hz⟩⟩))
              rw [hz]
              rfl
        · -- the scans point at the fallbacks `f` and `g`
          cases hacc
          cases hacc'
          have hc3 : ¬ (e.path_prefix_len = 0 ∧ (some f : Option Nat) = none) :=
            fun h => by cases h.2
          have hc3' : ¬ (e.path_prefix_len = 0 ∧ (some g : Option Nat) = none) :=
            fun h => by cases h.2
          rw [if_neg hc3, if_neg hc3']
          by_cases h4 : path.length > e.path_prefix_len ∧
              path.getD e.path_prefix_len NUL ≠ '/'
          · rw [if_pos h4, if_pos h4]
            exact Or.inr (Or.inr (Or.inr ⟨f, g, hkf, hfg, by omega, rfl, rfl, hek, hef, heg⟩))
          · rw [if_neg h4, if_neg h4]
            by_cases hl : (0 : Int) < (e.path_prefix_len : Int)
            · rw [if_pos hl, if_pos hl]
              exact Or.inl rfl
            · rw [if_neg hl, if_neg hl]
              exact Or.inr (Or.inr (Or.inr ⟨f, g, hkf, hfg, by omega, rfl, rfl, hek, hef,
                heg⟩))

/-- The scan over a table and the scan over the same table with slot `k`
emptied stay related at every stage. -/
theorem removalTrack_loop (T : Nat → Option xf_vfs_entry_t) (path : List Char) (k : Nat)
    (n : Nat) :
    RemovalTrack T k n (get_vfs_for_path_loop T path n)
      (get_vfs_for_path_loop (Function.update T k none) path n) := by
  induction n with
  | zero => exact Or.inl rfl
  | succ n ih =>
    rw [get_vfs_for_path_loop_succ, get_vfs_for_path_loop_succ]
    rcases Nat.lt_trichotomy n k with hlt | heq | hgt
    · -- slot `k` not reached yet
      have hsame : get_vfs_for_path_loop T path n
          = get_vfs_for_path_loop (Function.update T k none) path n :=
        loop_congr _ _ path n (fun i hi => by
          rw [Function.update_noteq (by omega : i ≠ k)])
      rw [← hsame, ← step_congr T (Function.update T k none) path _ n
        (by rw [Function.update_noteq (by omega : n ≠ k)])]
      exact Or.inl rfl
    · -- the emptied slot itself
      subst heq
      have hsame : get_vfs_for_path_loop T path n
          = get_vfs_for_path_loop (Function.update T n none) path n :=
        loop_congr _ _ path n (fun i hi => by
          rw [Function.update_noteq (by omega : i ≠ n)])
      rw [← hsame, step_of_empty (Function.update T n none) path _ n
        (Function.update_same n none T)]
      rcases step_result T path (get_vfs_for_path_loop T path n) n with h | h | ⟨e, _, hl, h⟩
      · rw [h]
        exact Or.inl rfl
      · rw [h]
        exact Or.inr (Or.inl ⟨by omega, rfl, le_refl _⟩)
      · rw [h]
        exact Or.inr (Or.inl ⟨by omega, rfl, by simp only; omega⟩)
    · exact removalTrack_step T (Function.update T k none) path k n _ _
        (Function.update_noteq (by omega : n ≠ k) none T) hgt
        (resolveInv_loop T path n) (resolveInv_loop _ path n) ih

/-- Emptying slot `k` does not change the resolution of a path that resolved to
another slot `j`, unless `j` holds a fallback, `k` held a fallback in a lower
slot and a further fallback sits in a higher slot. -/
theorem resolve_kept_after_removal (s s' : State) (k : Nat)
    (htab : s'.s_vfs = Function.update s.s_vfs k none)
    (hcnt : s'.s_vfs_count = s.s_vfs_count) (path : List Char) (j : Nat)
    (hres : xf_vfs_get_vfs_for_path_idx s path = some j) (hj : j ≠ k)
    (hshift : ¬ FallbackShift s k j) :
    xf_vfs_get_vfs_for_path_idx s' path = some j ∧
    xf_vfs_get_vfs_for_path s' path = xf_vfs_get_vfs_for_path s path := by
  have hidx : xf_vfs_get_vfs_for_path_idx s' path = some j := by
    unfold xf_vfs_get_vfs_for_path_idx at hres ⊢
    rw [htab, hcnt]
    rcases removalTrack_loop s.s_vfs path k s.s_vfs_count with h | ⟨_, h, _⟩ |
        ⟨_, f, _, _, h, h', _, _⟩ | ⟨f, g, hkf, hfg, hg, h, _, hek, hef, heg⟩
    · rw [← h]
      exact hres
    · rw [h] at hres
      cases hres
      exact absurd rfl hj
    · rw [h] at hres
      rw [h']
      exact hres
    · rw [h] at hres
      simp only [Option.some.injEq] at hres
      subst hres
      obtain ⟨eg, heg1, heg2⟩ := heg
      exact absurd ⟨hkf, hek, hef, g, eg, hfg, hg, heg1, heg2⟩ hshift
  refine ⟨hidx, ?_⟩
  rw [resolve_entry_of_idx s' path j hidx, resolve_entry_of_idx s path j hres, htab,
    Function.update_noteq hj]

/-- Among the slots up to one that has a property there is a least one that
has it. -/
theorem least_slot (p : Nat → Prop) (n : Nat) (h : p n) :
    ∃ m, m ≤ n ∧ p m ∧ ∀ i, i < m → ¬ p i := by
  classical
  exact ⟨Nat.find ⟨n, h⟩, Nat.find_min' _ h, Nat.find_spec _, fun i hi => Nat.find_min _ hi⟩

/-- Emptying slot `k` does change the resolution of a path that resolved to
slot `j` when `j` holds a fallback, `k` held a fallback in a lower slot and a
further fallback sits in a higher slot: the path then resolves to a slot above
`j`. -/
theorem resolve_moves_after_removal (s s' : State) (k : Nat)
    (htab : s'.s_vfs = Function.update s.s_vfs k none)
    (hcnt : s'.s_vfs_count = s.s_vfs_count) (path : List Char) (j : Nat)
    (hres : xf_vfs_get_vfs_for_path_idx s path = some j) (hshift : FallbackShift s k j) :
    ∃ g, j < g ∧ xf_vfs_get_vfs_for_path_idx s' path = some g := by
  obtain ⟨hkj, ⟨ek, hek, hfk⟩, ⟨ej, hej, hfj⟩, g, eg, hjg, hg, heg, hfg⟩ := hshift
  -- the path resolved to a fallback, so no scanned mount qualifies for it
  have hnoq : ∀ i e, i < s.s_vfs_count → s.s_vfs i = some e → ¬ Qualifies e path := by
    rcases resolve_cases s path with ⟨h, _⟩ | ⟨j', _, h, _, _, _, hq⟩ | ⟨j', e', h, _, he', hq, _⟩
    · rw [h] at hres
      cases hres
    · exact fun i e hi he => hq i hi e he
    · rw [h] at hres
      simp only [Option.some.injEq] at hres
      subst hres
      rw [hej] at he'
      simp only [Option.some.injEq] at he'
      subst he'
      have := hq.2.1
      unfold IsFallback at hfj
      omega
  have hjc : j < s.s_vfs_count := by omega
  -- the first two fallbacks of the table
  obtain ⟨f1, hf1k, ⟨e1, he1, hfb1⟩, hmin1⟩ :=
    least_slot (fun i => ∃ e, s.s_vfs i = some e ∧ IsFallback e) k ⟨ek, hek, hfk⟩
  obtain ⟨f2, hf2j, ⟨⟨e2, he2, hfb2⟩, hf12⟩, hmin2⟩ :=
    least_slot (fun i => (∃ e, s.s_vfs i = some e ∧ IsFallback e) ∧ f1 < i) j
      ⟨⟨ej, hej, hfj⟩, by omega⟩
  have hfirst : ∀ i e, i < f2 → i ≠ f1 → s.s_vfs i = some e → ¬ IsFallback e := by
    intro i e hi hne he hfb
    rcases Nat.lt_or_gt_of_ne hne with h | h
    · exact hmin1 i h ⟨e, he, hfb⟩
    · exact hmin2 i hi ⟨⟨e, he, hfb⟩, h⟩
  have hloop := resolve_loop_two_fallbacks s.s_vfs path f1 f2 e1 e2 hf12 he1 hfb1 he2 hfb2
    hfirst s.s_vfs_count hnoq
  rw [if_neg (by omega), if_neg (by omega)] at hloop
  unfold xf_vfs_get_vfs_for_path_idx at hres
  rw [hloop] at hres
  by_cases hr : EmptyOrRooted path
  · rw [if_pos hr] at hres
    simp only [Option.some.injEq] at hres
    subst hres
    have hkf1 : k = f1 := by
      by_contra hne
      exact hmin2 k hkj ⟨⟨ek, hek, hfk⟩, by omega⟩
    subst hkf1
    -- after the removal the first two fallbacks are `f2` and the next one
    have hT' : ∀ i, i ≠ k → s'.s_vfs i = s.s_vfs i := fun i hi => by
      rw [htab, Function.update_noteq hi]
    have hsub : ∀ i e, s'.s_vfs i = some e → i ≠ k ∧ s.s_vfs i = some e := by
      intro i e he
      by_cases hi : i = k
      · rw [htab, hi, Function.update_same] at he
        cases he
      · exact ⟨hi, by rw [← hT' i hi]; exact he⟩
    obtain ⟨g', hg'g, ⟨⟨eg', heg', hfbg'⟩, hjg'⟩, hming⟩ :=
      least_slot (fun i => (∃ e, s'.s_vfs i = some e ∧ IsFallback e) ∧ f2 < i) g
        ⟨⟨eg, by rw [hT' g (by omega)]; exact heg, hfg⟩, hjg⟩
    have hfirst' : ∀ i e, i < g' → i ≠ f2 → s'.s_vfs i = some e → ¬ IsFallback e := by
      intro i e hi hne he hfb
      obtain ⟨hik, he0⟩ := hsub i e he
      rcases Nat.lt_or_gt_of_ne hne with h | h
      · exact hfirst i e h hik he0 hfb
      · exact hming i hi ⟨⟨e, he, hfb⟩, h⟩
    have hloop' := resolve_loop_two_fallbacks s'.s_vfs path f2 g' e2 eg' hjg'
      (by rw [hT' f2 (by omega)]; exact he2) hfb2 heg' hfbg' hfirst' s.s_vfs_count
      (fun i e hi he => hnoq i e hi (hsub i e he).2)
    rw [if_neg (by omega), if_neg (by omega), if_pos hr] at hloop'
    refine ⟨g', hjg', ?_⟩
    unfold xf_vfs_get_vfs_for_path_idx
    rw [hcnt, hloop']
  · rw [if_neg hr] at hres
    simp only [Option.some.injEq] at hres
    omega

/-- Claim C12 (amended). For every mount table, a successful
`xf_vfs_unregister(P)` empties one occupied slot `k` and leaves every other slot
unchanged. A path that resolved to another slot `j` before the call resolves to
`j`, holding the same entry, after it, except in one configuration: `j` holds a
fallback mount, the removed mount was a fallback in a lower slot, and a third
fallback sits in a higher slot. In that configuration the path resolves to a
slot above `j` after the call. -/
theorem C12_unregister_keeps_other_mounts (s : State) (P : List Char)
    (hok : (xf_vfs_unregister s P).1 = xf_err_t.XF_OK) :
    ∃ k, (s.s_vfs k).isSome = true ∧
      (xf_vfs_unregister s P).2.s_vfs k = none ∧
      (∀ i, i ≠ k → (xf_vfs_unregister s P).2.s_vfs i = s.s_vfs i) ∧
      ∀ path j, xf_vfs_get_vfs_for_path_idx s path = some j → j ≠ k →
        (¬ FallbackShift s k j →
          xf_vfs_get_vfs_for_path_idx (xf_vfs_unregister s P).2 path = some j ∧
          xf_vfs_get_vfs_for_path (xf_vfs_unregister s P).2 path
            = xf_vfs_get_vfs_for_path s path) ∧
        (FallbackShift s k j →
          ∃ g, j < g ∧
            xf_vfs_get_vfs_for_path_idx (xf_vfs_unregister s P).2 path = some g) := by
  obtain ⟨k, e, _, he, _, _, htab, hcnt, _⟩ := unregister_ok_table s P hok
  refine ⟨k, by rw [he]; rfl, by rw [htab, Function.update_same], fun i hi => ?_,
    fun path j hres hj =>
      ⟨fun hshift => resolve_kept_after_removal s _ k htab hcnt path j hres hj hshift,
        fun hshift => resolve_moves_after_removal s _ k htab hcnt path j hres hshift⟩⟩
  rw [htab, Function.update_noteq hi]

/-- Witness for C12 (amended): with three fallbacks registered before
`/foo/bar` (slot 3) and `/foo` (slot 4), `/foo/bar/file` resolves to slot 3, and
after `xf_vfs_unregister("/foo")` it still reaches the mount at `/foo/bar`. -/
theorem C12_unregister_keeps_other_mounts_witness :
    (xf_vfs_unregister threeFallbacksNested "/foo".toList).1 = xf_err_t.XF_OK ∧
    xf_vfs_get_vfs_for_path_idx threeFallbacksNested "/foo/bar/file".toList = some 3 ∧
    xf_vfs_get_vfs_for_path_idx (xf_vfs_unregister threeFallbacksNested "/foo".toList).2
      "/foo/bar/file".toList = some 3 ∧
    xf_vfs_get_vfs_for_path (xf_vfs_unregister threeFallbacksNested "/foo".toList).2
      "/foo/bar/file".toList = some (dummyMount "/foo/bar" 3) := by
  have hok : (xf_vfs_unregister threeFallbacksNested "/foo".toList).1 = xf_err_t.XF_OK := by
    decide
  obtain ⟨k, _, hk, _, hres⟩ :=
    C12_unregister_keeps_other_mounts threeFallbacksNested "/foo".toList hok
  have hk3 : k ≠ 3 := by
    intro h3
    rw [h3] at hk
    revert hk
    decide
  have hidx : xf_vfs_get_vfs_for_path_idx threeFallbacksNested "/foo/bar/file".toList
      = some 3 := by
    decide
  have hslot : threeFallbacksNested.s_vfs 3 = some (dummyMount "/foo/bar" 3) := rfl
  have hshift : ¬ FallbackShift threeFallbacksNested k 3 := by
    intro ⟨_, _, ⟨ej, hej, hfb⟩, _⟩
    rw [hslot] at hej
    simp only [Option.some.injEq] at hej
    subst hej
    unfold IsFallback at hfb
    revert hfb
    decide
  obtain ⟨h1, h2⟩ := (hres _ 3 hidx (Ne.symm hk3)).1 hshift
  refine ⟨hok, hidx, h1, ?_⟩
  rw [h2]
  decide

/-! ## Theorems: descriptors stay allocated between two opens -/

/-- `xf_vfs_register_fs_common` leaves the descriptor table alone. -/
theorem register_fs_common_fd_table (s : State) (base_path : List Char) (len : Nat)
    (vfs : Option xf_vfs_fs_ops_t) (flags : Int) (ctx : Nat) (heap : List Bool) :
    (xf_vfs_register_fs_common s base_path len vfs flags ctx heap).state.s_fd_table
      = s.s_fd_table := by
  unfold xf_vfs_register_fs_common
  cases vfs with
  | none => rfl
  | some ops =>
    dsimp only
    by_cases h1 : len ≠ XF_VFS_PATH_PREFIX_LEN_IGNORED ∧ (len = 1 ∨ len > XF_VFS_PATH_MAX)
    · rw [if_pos h1]
    rw [if_neg h1]
    by_cases h2 : len ≠ XF_VFS_PATH_PREFIX_LEN_IGNORED ∧ len ≥ 2 ∧
        (base_path.getD 0 NUL ≠ '/' ∨ base_path.getD (len - 1) NUL = '/')
    · rw [if_pos h2]
    rw [if_neg h2]
    cases hfree : xf_get_free_index s with
    | none => rfl
    | some index =>
      dsimp only
      by_cases h3 : (s.s_vfs index).isSome = true
      · rw [if_pos h3]
      rw [if_neg h3]
      by_cases hidx : index = s.s_vfs_count
      · rw [if_pos hidx]
        by_cases hok : (!(xf_malloc heap).1) = true
        · rw [if_pos hok]
        · rw [if_neg hok]
      · rw [if_neg hidx]
        by_cases hok : (!(xf_malloc heap).1) = true
        · rw [if_pos hok]
        · rw [if_neg hok]

/-- `xf_vfs_register_common` leaves the descriptor table alone. -/
theorem register_common_fd_table (s : State) (base_path : List Char) (len : Nat)
    (vfs : Option xf_vfs_t) (ctx : Nat) (heap : List Bool) :
    (xf_vfs_register_common s base_path len vfs ctx heap).state.s_fd_table = s.s_fd_table := by
  unfold xf_vfs_register_common
  cases vfs with
  | none => rfl
  | some v =>
    dsimp only
    split
    · rfl
    · rcases make_fs_ops_cases v heap with ⟨ops, heap1, hm⟩ | ⟨heap1, hm⟩
      · rw [hm]
        exact register_fs_common_fd_table s base_path len (some ops) v.flags ctx heap1
      · rw [hm]

/-- `xf_vfs_register_fs` leaves the descriptor table alone. -/
theorem register_fs_fd_table (s : State) (base_path : List Char)
    (vfs : Option xf_vfs_fs_ops_t) (flags : Int) (ctx : Nat) (heap : List Bool) :
    (xf_vfs_register_fs s base_path vfs flags ctx heap).state.s_fd_table = s.s_fd_table := by
  unfold xf_vfs_register_fs
  cases vfs with
  | none => rfl
  | some ops =>
    dsimp only
    split
    · exact register_fs_common_fd_table s base_path base_path.length (some ops) flags ctx heap
    · split
      · rfl
      · exact register_fs_common_fd_table s base_path base_path.length _ flags ctx _

/-- The claiming loop of `xf_vfs_register_fd_range`, started at `min_fd` or
continued at `i`, leaves every row alone that was in use before the call. -/
theorem register_fd_range_loop_keeps_used (index : Int) (min_fd : Nat)
    (t0 : Nat → fd_table_t) (n : Nat) : ∀ (i : Nat) (tbl : Nat → fd_table_t), min_fd ≤ i →
    (∀ j, (t0 j).vfs_index ≠ -1 → tbl j = t0 j) →
    (∀ j, min_fd ≤ j → j < i → (t0 j).vfs_index = -1) →
    ∀ j, (t0 j).vfs_index ≠ -1 → (register_fd_range_loop index min_fd n i tbl).2 j = t0 j := by
  induction n with
  | zero =>
    intro i tbl _ h _ j hj
    exact h j hj
  | succ n ih =>
    intro i tbl hle h hbelow j hj
    unfold register_fd_range_loop
    split
    · show register_fd_range_rollback tbl index min_fd i j = t0 j
      rw [register_fd_range_rollback_apply tbl index min_fd i j hle]
      split
      · rename_i hcond
        exact absurd (hbelow j hcond.1 hcond.2.1) hj
      · exact h j hj
    · rename_i hfree
      have hfree' : (tbl i).vfs_index = -1 := not_not.mp hfree
      have hi0 : (t0 i).vfs_index = -1 := by
        by_contra hused
        rw [h i hused] at hfree'
        exact hused hfree'
      refine ih (i + 1) _ (by omega) (fun j' hj' => ?_) (fun j' h1 h2 => ?_) j hj
      · have hne : j' ≠ i := fun heq => hj' (heq ▸ hi0)
        rw [Function.update_noteq hne]
        exact h j' hj'
      · by_cases hji : j' = i
        · rw [hji]
          exact hi0
        · exact hbelow j' h1 (by omega)

/-- `xf_vfs_register_fd_range` leaves every row alone that was in use before
the call. -/
theorem register_fd_range_keeps_used (s : State) (vfs : Option xf_vfs_t) (ctx : Nat)
    (min_fd max_fd : Int) (heap : List Bool) (j : Nat)
    (hj : (s.s_fd_table j).vfs_index ≠ -1) :
    (xf_vfs_register_fd_range s vfs ctx min_fd max_fd heap).2.s_fd_table j
      = s.s_fd_table j := by
  unfold xf_vfs_register_fd_range
  split
  · rfl
  · dsimp only
    have htbl := register_common_fd_table s [] XF_VFS_PATH_PREFIX_LEN_IGNORED vfs ctx heap
    have hloop := register_fd_range_loop_keeps_used
      (((xf_vfs_register_common s [] XF_VFS_PATH_PREFIX_LEN_IGNORED vfs ctx
        heap).vfs_index.getD 0 : Nat) : Int) min_fd.toNat s.s_fd_table
      (max_fd.toNat - min_fd.toNat) min_fd.toNat
      (xf_vfs_register_common s [] XF_VFS_PATH_PREFIX_LEN_IGNORED vfs ctx heap).state.s_fd_table
      (le_refl _) (fun j' _ => by rw [htbl]) (fun j' h1 h2 => by omega) j hj
    split
    · split
      · rename_i tbl hl
        rw [hl] at hloop
        exact hloop
      · rename_i tbl hl
        rw [hl] at hloop
        exact hloop
    · rw [htbl]

/-- What `xf_vfs_open` does to the descriptor table: nothing, or it writes the
first unused row. -/
theorem open_table_cases (be : Backend) (s : State) (path : List Char) (flags mode : Int) :
    (xf_vfs_open be s path flags mode).2.s_fd_table = s.s_fd_table ∨
    ∃ i row, first_unused_row s.s_fd_table = some i ∧
      (xf_vfs_open be s path flags mode).2.s_fd_table = Function.update s.s_fd_table i row := by
  unfold xf_vfs_open
  split
  · exact Or.inl rfl
  · dsimp only
    split
    · exact Or.inl rfl
    · split
      · exact Or.inl rfl
      · dsimp only [backend_call]
        split
        · split
          · rename_i i hi
            exact Or.inr ⟨i, _, hi, rfl⟩
          · split <;> exact Or.inl rfl
        · exact Or.inl rfl

/-- What `xf_vfs_register_fd_with_local_fd` does to the descriptor table:
nothing, or it writes the first unused row. -/
theorem register_fd_table_cases (s : State) (vfs_id local_fd : Int)
    (permanent fd_nonnull : Bool) :
    (xf_vfs_register_fd_with_local_fd s vfs_id local_fd permanent fd_nonnull).state.s_fd_table
      = s.s_fd_table ∨
    ∃ i row, first_unused_row s.s_fd_table = some i ∧
      (xf_vfs_register_fd_with_local_fd s vfs_id local_fd permanent
        fd_nonnull).state.s_fd_table = Function.update s.s_fd_table i row := by
  unfold xf_vfs_register_fd_with_local_fd
  split
  · exact Or.inl rfl
  · split
    · rename_i i hi
      exact Or.inr ⟨i, _, hi, rfl⟩
    · exact Or.inl rfl

/-- A call that writes at most the first unused row keeps every used row. -/
theorem rowKept_of_first_unused (tbl tbl' : Nat → fd_table_t) (j : Nat)
    (hj : (tbl j).vfs_index ≠ -1)
    (h : tbl' = tbl ∨ ∃ i row, first_unused_row tbl = some i ∧ tbl' = Function.update tbl i row) :
    RowKept (tbl j) (tbl' j) := by
  rcases h with h | ⟨i, row, hi, h⟩
  · rw [h]
    exact rowKept_refl _
  · obtain ⟨_, hun, _⟩ := first_unused_row_some tbl i hi
    have hne : j ≠ i := fun heq => hj (heq ▸ hun)
    rw [h, Function.update_noteq hne]
    exact rowKept_refl _

/-- `xf_vfs_unregister_fd` keeps every row that is not permanent. -/
theorem unregister_fd_keeps_row (s : State) (vfs_id fd : Int) (j : Nat)
    (hperm : (s.s_fd_table j).permanent = false) :
    (xf_vfs_unregister_fd s vfs_id fd).2.s_fd_table j = s.s_fd_table j := by
  unfold xf_vfs_unregister_fd
  split
  · rfl
  · dsimp only
    split
    · rename_i hguard
      have hne : j ≠ fd.toNat := fun heq => by
        rw [heq, hguard.1] at hperm
        cases hperm
      show Function.update s.s_fd_table fd.toNat FD_TABLE_ENTRY_UNUSED j = _
      rw [Function.update_noteq hne]
    · rfl

/-- `xf_vfs_set_readonly_flag` leaves the descriptor table alone. -/
theorem set_readonly_flag_fd_table (s : State) (base_path : List Char) :
    (xf_vfs_set_readonly_flag s base_path).2.s_fd_table = s.s_fd_table := by
  unfold xf_vfs_set_readonly_flag
  dsimp only
  split <;> rfl

/-- A call other than `xf_vfs_close`, an unregistration of a mount and the
second half of `xf_vfs_select` keeps every row that is in use and not
permanent: it stays in use, for the same mount, with the same local
descriptor. -/
theorem step_keeps_open_row (c : ApiCall) (s t : State) (h : c.step s = some t)
    (hc : ¬ c.FreesDescriptors) (j : Nat) (hused : (s.s_fd_table j).vfs_index ≠ -1)
    (hperm : (s.s_fd_table j).permanent = false) :
    RowKept (s.s_fd_table j) (t.s_fd_table j) := by
  have same : ∀ u : State, SameTables s u → RowKept (s.s_fd_table j) (u.s_fd_table j) :=
    fun u hu => by
      rw [hu.2.2]
      exact rowKept_refl _
  have eq : ∀ u : State, u.s_fd_table = s.s_fd_table →
      RowKept (s.s_fd_table j) (u.s_fd_table j) := fun u hu => by
    rw [hu]
    exact rowKept_refl _
  cases c
  case close be fd => exact absurd trivial hc
  case unregister_with_id vfs_id => exact absurd trivial hc
  case unregister_fs_with_id vfs_id => exact absurd trivial hc
  case unregister base_path => exact absurd trivial hc
  case unregister_fs base_path => exact absurd trivial hc
  case select_end be signalled l nfds timeout heap => exact absurd trivial hc
  case select_begin be nfds readfds writefds errorfds heap =>
    have hmarked : RowKept (s.s_fd_table j)
        (marked_table s.s_fd_table nfds.toNat errorfds j) :=
      marked_table_fields s.s_fd_table nfds.toNat errorfds j
    unfold ApiCall.step at h
    dsimp only at h
    split at h
    · cases h
    · rename_i r hr
      simp only [Option.some.injEq] at h
      obtain ⟨_, _, h3⟩ :=
        select_begin_returned_tables be s nfds readfds writefds errorfds heap r hr
      rw [← h]
      rcases h3 with h3 | h3
      · rw [h3]
        exact rowKept_refl _
      · rw [h3]
        exact hmarked
    · rename_i l s1 heap1 hw
      simp only [Option.some.injEq] at h
      obtain ⟨_, _, _, _, h3⟩ :=
        select_begin_waiting be s nfds readfds writefds errorfds heap l s1 heap1 hw
      rw [← h, h3]
      exact hmarked
  all_goals
    simp only [ApiCall.step, Option.some.injEq] at h
    rw [← h]
  case register base_path vfs ctx heap =>
    exact eq _ (register_common_fd_table s base_path base_path.length vfs ctx heap)
  case register_common base_path len vfs ctx heap =>
    exact eq _ (register_common_fd_table s base_path len vfs ctx heap)
  case register_fs base_path vfs flags ctx heap =>
    exact eq _ (register_fs_fd_table s base_path vfs flags ctx heap)
  case register_fd_range vfs ctx min_fd max_fd heap =>
    rw [register_fd_range_keeps_used s vfs ctx min_fd max_fd heap j hused]
    exact rowKept_refl _
  case register_fs_with_id vfs flags ctx vfs_id_nonnull heap =>
    unfold xf_vfs_register_fs_with_id
    split
    · exact rowKept_refl _
    · exact eq _ (register_fs_common_fd_table s [] XF_VFS_PATH_PREFIX_LEN_IGNORED vfs flags
        ctx heap)
  case register_with_id vfs ctx vfs_id_nonnull heap =>
    unfold xf_vfs_register_with_id
    split
    · exact rowKept_refl _
    · exact eq _ (register_common_fd_table s [] XF_VFS_PATH_PREFIX_LEN_IGNORED vfs ctx heap)
  case register_fd vfs_id fd_nonnull =>
    exact rowKept_of_first_unused _ _ j hused
      (register_fd_table_cases s vfs_id (-1) true fd_nonnull)
  case register_fd_with_local_fd vfs_id local_fd permanent fd_nonnull =>
    exact rowKept_of_first_unused _ _ j hused
      (register_fd_table_cases s vfs_id local_fd permanent fd_nonnull)
  case unregister_fd vfs_id fd =>
    rw [unregister_fd_keeps_row s vfs_id fd j hperm]
    exact rowKept_refl _
  case set_readonly_flag base_path => exact eq _ (set_readonly_flag_fd_table s base_path)
  case open_ be path flags mode =>
    exact rowKept_of_first_unused _ _ j hused (open_table_cases be s path flags mode)
  case write be fd data size => exact same _ ((dispatch_sameTables be s).1 _ _ _)
  case lseek be fd size mode => exact same _ ((dispatch_sameTables be s).2.1 _ _ _)
  case read be fd dst size => exact same _ ((dispatch_sameTables be s).2.2.1 _ _ _)
  case pread be fd dst size offset =>
    exact same _ ((dispatch_sameTables be s).2.2.2.1 _ _ _ _)
  case pwrite be fd src size offset =>
    exact same _ ((dispatch_sameTables be s).2.2.2.2.1 _ _ _ _)
  case fstat be fd st => exact same _ ((dispatch_sameTables be s).2.2.2.2.2.1 _ _)
  case fcntl_r be fd cmd arg => exact same _ ((dispatch_sameTables be s).2.2.2.2.2.2.1 _ _ _)
  case ioctl be fd cmd args => exact same _ ((dispatch_sameTables be s).2.2.2.2.2.2.2.1 _ _ _)
  case fsync be fd => exact same _ ((dispatch_sameTables be s).2.2.2.2.2.2.2.2.1 _)
  case ftruncate be fd length =>
    exact same _ ((dispatch_sameTables be s).2.2.2.2.2.2.2.2.2 _ _)
  case stat be path st => exact same _ ((path_ops_sameTables be s).1 _ _)
  case utime be path times => exact same _ ((path_ops_sameTables be s).2.1 _ _)
  case link be n1 n2 => exact same _ ((path_ops_sameTables be s).2.2.1 _ _)
  case unlink be path => exact same _ ((path_ops_sameTables be s).2.2.2.1 _)
  case rename be src dst => exact same _ ((path_ops_sameTables be s).2.2.2.2.1 _ _)
  case opendir be name => exact same _ ((path_ops_sameTables be s).2.2.2.2.2.1 _)
  case readdir be pdir => exact same _ ((path_ops_sameTables be s).2.2.2.2.2.2.1 _)
  case readdir_r be pdir entry out_dirent =>
    exact same _ ((path_ops_sameTables be s).2.2.2.2.2.2.2.1 _ _ _)
  case telldir be pdir => exact same _ ((path_ops_sameTables be s).2.2.2.2.2.2.2.2.1 _)
  case seekdir be pdir loc =>
    exact same _ ((path_ops_sameTables be s).2.2.2.2.2.2.2.2.2.1 _ _)
  case rewinddir be pdir =>
    exact same _ ((path_ops_sameTables be s).2.2.2.2.2.2.2.2.2.2.1 _)
  case closedir be pdir =>
    exact same _ ((path_ops_sameTables be s).2.2.2.2.2.2.2.2.2.2.2.1 _)
  case mkdir be name mode =>
    exact same _ ((path_ops_sameTables be s).2.2.2.2.2.2.2.2.2.2.2.2.1 _ _)
  case rmdir be name =>
    exact same _ ((path_ops_sameTables be s).2.2.2.2.2.2.2.2.2.2.2.2.2.1 _)
  case access be path amode =>
    exact same _ ((path_ops_sameTables be s).2.2.2.2.2.2.2.2.2.2.2.2.2.2.1 _ _)
  case truncate be path length =>
    exact same _ ((path_ops_sameTables be s).2.2.2.2.2.2.2.2.2.2.2.2.2.2.2 _ _)
  case select_triggered be sem_is_local sem =>
    exact same _ (select_triggered_sameTables be s sem_is_local sem 0).1
  case select_triggered_isr be sem_is_local sem woken =>
    exact same _ (select_triggered_sameTables be s sem_is_local sem woken).2

/-- A sequence of such calls keeps every row that is in use and not
permanent. -/
theorem steps_keep_open_row (cs : List ApiCall) : ∀ (s t : State), steps cs s = some t →
    (∀ c, c ∈ cs → ¬ c.FreesDescriptors) → ∀ j, (s.s_fd_table j).vfs_index ≠ -1 →
    (s.s_fd_table j).permanent = false → RowKept (s.s_fd_table j) (t.s_fd_table j) := by
  induction cs with
  | nil =>
    intro s t h _ j _ _
    simp only [steps, Option.some.injEq] at h
    rw [← h]
    exact rowKept_refl _
  | cons c cs ih =>
    intro s t h hall j hused hperm
    unfold steps at h
    cases hstep : c.step s with
    | none =>
      rw [hstep] at h
      cases h
    | some u =>
      rw [hstep] at h
      obtain ⟨a1, a2, a3⟩ := step_keeps_open_row c s u hstep
        (hall c (List.mem_cons_self _ _)) j hused hperm
      obtain ⟨b1, b2, b3⟩ := ih u t h (fun c' hc' => hall c' (List.mem_cons_of_mem _ hc')) j
        (by rw [a1]; exact hused) (by rw [a3]; exact hperm)
      exact ⟨b1.trans a1, b2.trans a2, b3.trans a3⟩

/-- Claim C8. `xf_vfs_open` only ever returns an fd whose descriptor row was
unused immediately before the call and is used immediately after it; the row
stays in use through every sequence of calls that holds no `xf_vfs_close`, no
unregistration of a mount and no second half of `xf_vfs_select` (the sweep),
so a successful `xf_vfs_open` made after such a sequence returns a different
fd. -/
theorem C8_open_returns_fresh_descriptor (be : Backend) (s : State) (path : List Char)
    (flags mode : Int) (hoff : OffsetOk s)
    (h : 0 ≤ (xf_vfs_open be s path flags mode).1) :
    (xf_vfs_open be s path flags mode).1 < (XF_VFS_FDS_MAX : Int) ∧
    (s.s_fd_table (xf_vfs_open be s path flags mode).1.toNat).vfs_index = -1 ∧
    ((xf_vfs_open be s path flags mode).2.s_fd_table
      (xf_vfs_open be s path flags mode).1.toNat).vfs_index ≠ -1 ∧
    ∀ (cs : List ApiCall) (t : State), (∀ c, c ∈ cs → ¬ c.FreesDescriptors) →
      steps cs (xf_vfs_open be s path flags mode).2 = some t →
      (t.s_fd_table (xf_vfs_open be s path flags mode).1.toNat).vfs_index ≠ -1 ∧
      ∀ (be2 : Backend) (path2 : List Char) (flags2 mode2 : Int),
        0 ≤ (xf_vfs_open be2 t path2 flags2 mode2).1 →
        (xf_vfs_open be2 t path2 flags2 mode2).1 ≠ (xf_vfs_open be s path flags mode).1 := by
  obtain ⟨k, m, i, hres, hi, h1, h2⟩ := open_nonneg be s path flags mode h
  obtain ⟨hlt, hun, _⟩ := first_unused_row_some s.s_fd_table i hi
  obtain ⟨hoff1, hoff2⟩ := hoff k m (ptr_some s path k m hres).2
  have hused : ((xf_vfs_open be s path flags mode).2.s_fd_table i).vfs_index ≠ -1 := by
    rw [h2, Function.update_same]
    simp only
    rw [hoff1, to_vfs_index_t_of_small _ (by omega) (by exact_mod_cast hoff2)]
    omega
  have hperm : ((xf_vfs_open be s path flags mode).2.s_fd_table i).permanent = false := by
    rw [h2, Function.update_same]
  rw [h1]
  simp only [Int.toNat_ofNat]
  refine ⟨by exact_mod_cast hlt, hun, hused, fun cs t hcs hsteps => ?_⟩
  obtain ⟨hk1, _, _⟩ := steps_keep_open_row cs _ t hsteps hcs i hused hperm
  have hused' : (t.s_fd_table i).vfs_index ≠ -1 := by
    rw [hk1]
    exact hused
  refine ⟨hused', fun be2 path2 flags2 mode2 h' => ?_⟩
  obtain ⟨_, _, i2, _, hi2, h1', _⟩ := open_nonneg be2 t path2 flags2 mode2 h'
  obtain ⟨_, hun2, _⟩ := first_unused_row_some _ i2 hi2
  rw [h1']
  intro heq
  have : i2 = i := by exact_mod_cast heq
  subst this
  exact hused' hun2

set_option maxRecDepth 100000 in
/-- Witness for C8: after `xf_vfs_register("/foo")` an open returns descriptor 0;
an `xf_vfs_write`, an `xf_vfs_register("/bar")` and a second open follow, and
the open made after them returns a descriptor other than 0. -/
theorem C8_open_returns_fresh_descriptor_witness :
    OffsetOk fooRegistered ∧
    (xf_vfs_open okBackend fooRegistered "/foo/file".toList XF_VFS_O_RDONLY 0).1 = 0 ∧
    steps callsBetweenOpens
      (xf_vfs_open okBackend fooRegistered "/foo/file".toList XF_VFS_O_RDONLY 0).2
        = some fooBusy ∧
    (fooBusy.s_fd_table 0).vfs_index ≠ -1 ∧
    (xf_vfs_open okBackend fooBusy "/foo/file".toList XF_VFS_O_RDONLY 0).1
      ≠ (xf_vfs_open okBackend fooRegistered "/foo/file".toList XF_VFS_O_RDONLY 0).1 := by
  have hfree : ∀ c, c ∈ callsBetweenOpens → ¬ c.FreesDescriptors := by
    intro c hc
    simp only [callsBetweenOpens, List.mem_cons, List.mem_singleton, List.not_mem_nil,
      or_false] at hc
    rcases hc with hc | hc | hc <;> rw [hc] <;> exact fun h => h
  have hfd : (xf_vfs_open okBackend fooRegistered "/foo/file".toList XF_VFS_O_RDONLY 0).1 = 0 := by
    decide
  obtain ⟨hrow, hnext⟩ :=
    (C8_open_returns_fresh_descriptor okBackend fooRegistered "/foo/file".toList
      XF_VFS_O_RDONLY 0 fooRegistered_offsetOk (by decide)).2.2.2 callsBetweenOpens fooBusy
      hfree rfl
  rw [hfd] at hrow
  exact ⟨fooRegistered_offsetOk, hfd, rfl, hrow,
    hnext okBackend "/foo/file".toList XF_VFS_O_RDONLY 0 (by decide)⟩

end XfVfs
